import Mathlib

/-!
# Technyx: ARC bank and CDFILES readers

A shallow embedding of the archive readers of the Technyx tools
(`arcbank/arc.hpp`, `arcbank/arc_extract.cpp`, `arcbank/arc_anim.cpp`,
`archive/cdfiles_extract.cpp`) together with the properties proved about
them.

Conventions of the embedding:

* machine integers are natural numbers (or integers for the signed
  fields); a conversion to a narrower type is written as an explicit
  remainder;
* `std::string` values that carry names are Lean strings, the raw name
  blob is a list of characters (it contains NUL separators);
* a C++ exception is the `error` side of `Except Error`;
* a read outside a buffer, which C++ leaves undefined, is `none`.
-/

namespace Technyx

/-! ## Errors -/

/-- The exceptions the readers raise. -/
inductive Error where
  /-- Is `es::InvalidHeaderError(id)`. -/
  | InvalidHeaderError (id : Nat)
  /-- Is `es::InvalidVersionError(version)`. -/
  | InvalidVersionError (version : Nat)
  /-- Is `std::out_of_range`, raised by `at` on a container. -/
  | OutOfRange
  /-- Is `std::runtime_error(message)`. -/
  | RuntimeError (message : String)
  /-- The cursor was asked for bytes past the end of its stream. -/
  | EndOfStream
  /-- An `assert` failed in a build that keeps assertions: the process is
  aborted. -/
  | AssertionFailed
  /-- The program left the behaviour C++ defines, such as a read outside a
  buffer. -/
  | Undefined
  /-- Is `es::FileNotFoundError`, raised by `RequestFile`. -/
  | FileNotFoundError (name : String)
  deriving DecidableEq, Repr

deriving instance DecidableEq for Except

/-! ## arc.hpp -/

/-- Modelled from the spec: `CompileFourCC` comes from the spike support
library, which is not part of the sources; the spec calls its results
four-character codes. The four characters are packed first character
lowest, as a little-endian read of the four bytes gives them. -/
def CompileFourCC (a b c d : Char) : Nat :=
  a.toNat ||| (b.toNat <<< 8) ||| (c.toNat <<< 16) ||| (d.toNat <<< 24)

/-- The fixed header of an ARC bank (`struct Header`). -/
structure Header where
  id : Nat := 0
  numEntriesAndVersion : Nat := 0
  numTextures : Nat := 0
  numModels : Nat := 0
  numAttachments : Nat := 0
  numAttachedModels : Nat := 0
  numSkeletons : Nat := 0
  numCameras : Nat := 0
  unk1 : Nat := 0
  numRigNodes : Nat := 0
  numMaterials : Nat := 0
  numMeshes : Nat := 0
  unk2 : Nat := 0
  numReferencedTextures : Nat := 0
  unk22 : List Nat := [0, 0, 0, 0]
  numIndexBuffers : Nat := 0
  numVertexBuffers : Nat := 0
  unk20 : List Nat := [0, 0]
  numSkinnedModels : Nat := 0
  numDeformedMeshes : Nat := 0
  numAnimations : Nat := 0
  unk3 : Nat := 0
  numAnimatedNodes : Nat := 0
  unk4 : Nat := 0
  numLightNodes : Nat := 0
  deriving DecidableEq, Repr

/-- Magic of the PC variant, `"ARCC"`. -/
def Header.ID_PC : Nat := CompileFourCC 'A' 'R' 'C' 'C'
/-- Magic of the PS2 variant, `"ARCP"`. -/
def Header.ID_PS2 : Nat := CompileFourCC 'A' 'R' 'C' 'P'
/-- Magic of the XBOX variant, `"ARCX"`. -/
def Header.ID_XBOX : Nat := CompileFourCC 'A' 'R' 'C' 'X'
/-- Magic of the GC variant, `"ARCN"`. -/
def Header.ID_GC : Nat := CompileFourCC 'A' 'R' 'C' 'N'

/-- The values of `enum class Type : uint8`. An entry keeps the raw byte,
because the table may hold a byte that names no enumerator. -/
structure ArcType where
  raw : Nat
  deriving DecidableEq, Repr

namespace ArcType
def PlainData : ArcType := ⟨0⟩
def Texture : ArcType := ⟨1⟩
def Material : ArcType := ⟨2⟩
def Mesh : ArcType := ⟨9⟩
def IndexBuffer : ArcType := ⟨0xf⟩
def VertexBuffer : ArcType := ⟨0x10⟩
def LightmapTexture : ArcType := ⟨0x11⟩
def SkinnedMesh : ArcType := ⟨0x15⟩
def Attachment : ArcType := ⟨0x1c⟩
def Model : ArcType := ⟨0x1d⟩
def DeformedModel : ArcType := ⟨0x1e⟩
def SkinnedModel : ArcType := ⟨0x1f⟩
def DeformedMesh : ArcType := ⟨0x19⟩
def AnimatedModel : ArcType := ⟨0x20⟩
def Skeleton : ArcType := ⟨0x21⟩
def Camera : ArcType := ⟨0x25⟩
def RigNode : ArcType := ⟨0x27⟩
def InstancedModel : ArcType := ⟨0x28⟩
def Animation : ArcType := ⟨0x29⟩
def AnimatedNode : ArcType := ⟨0x31⟩
def ReferencedTexture : ArcType := ⟨0x34⟩
def UnkNode : ArcType := ⟨0x35⟩
def LightNode : ArcType := ⟨0x36⟩
def EntryNames : ArcType := ⟨0xfd⟩
def Group : ArcType := ⟨0xff⟩
end ArcType

/-- One slot of the entry table (`struct Entry`); `size` holds the three
size bytes. -/
structure Entry where
  index : Nat := 0
  offset : Nat := 0
  nameOffset : Int := -1
  type : ArcType := ArcType.PlainData
  size : Nat × Nat × Nat := (0, 0, 0)
  deriving DecidableEq, Repr

/-- Is `Entry::Size`. -/
def Entry.Size (e : Entry) : Nat :=
  ((e.size.1 <<< 16) ||| (e.size.2.1 <<< 8) ||| e.size.2.2) % 2 ^ 32

/-! ## Entry Table Reader (arc_extract.cpp `AppProcessFile`, arc_anim.cpp `DoArc`) -/

/-- The two header tests both readers open with
(arc_extract.cpp 670-676, arc_anim.cpp 201-207). The version is the
`uint8` made from `numEntriesAndVersion >> 24`. -/
def checkHeader (hdr : Header) : Except Error Unit :=
  if hdr.id ≠ Header.ID_PC then
    throw (Error.InvalidHeaderError hdr.id)
  else
    let version := (hdr.numEntriesAndVersion >>> 24) % 256
    if version ≠ 3 then
      throw (Error.InvalidVersionError version)
    else
      pure ()

/-- Modelled from the spec: the binary cursor (`BinReaderRef`) is outside
the sources; the spec lists `readContainer(T, count)` in its read
contract. `stream` holds the records the stream has from the cursor on,
and the cursor hands out the first `count` of them; asking for more
records than the stream holds ends in `EndOfStream`. -/
def ReadContainer {α : Type} (stream : List α) (count : Nat) : Except Error (List α) :=
  if count ≤ stream.length then pure (stream.take count) else throw Error.EndOfStream

/-- The opening of both readers up to the entry table
(arc_extract.cpp 667-680, arc_anim.cpp 198-211); `table` holds the
16-byte entry records the stream has from offset `0x80` on. -/
def readEntries (hdr : Header) (table : List Entry) : Except Error (List Entry) := do
  checkHeader hdr
  ReadContainer table (hdr.numEntriesAndVersion &&& 0xffffff)

/-! ## Name resolution by direct offset (arc_extract.cpp 714-725 and 1204-1263, arc_anim.cpp 228-239) -/

/-- Is `std::string(entryNames.data() + offset)`: the characters from
`offset` up to the first NUL. The buffer of a string of `n` characters is
followed by one NUL, so the offsets `0..n` lie inside it; a read at any
other offset is outside the buffer. -/
def cstrAt (entryNames : List Char) (offset : Int) : Option String :=
  if 0 ≤ offset ∧ offset ≤ entryNames.length then
    some (String.mk ((entryNames.drop offset.toNat).takeWhile (fun c => c != Char.ofNat 0)))
  else
    none

/-- The naming `if` both passes share: append to `fileName` either the
blob name at `nameOffset` or `std::to_string(curEntry)`. -/
def appendName (fileName : String) (entryNames : List Char) (curEntry : Nat) (e : Entry) :
    Option String :=
  if e.nameOffset > -1 then
    (cstrAt entryNames e.nameOffset).map (fun s => fileName ++ s)
  else
    some (fileName ++ toString curEntry)

/-- State of the record-decoding loop: the counter `curEntry` and, in
order, every entry that reached the `switch` with the `fileName` it was
given. -/
structure DecodeState where
  curEntry : Nat := 0
  records : List (Entry × Option String) := []
  deriving DecidableEq, Repr

/-- One turn of the loop `for (auto &e : entries)` of the decoding pass
(arc_extract.cpp 714-954, arc_anim.cpp 228-261). EntryNames and Group
entries `continue` before the counter is advanced. -/
def decodeStep (entryNames : List Char) (st : DecodeState) (e : Entry) : DecodeState :=
  if e.type = ArcType.EntryNames ∨ e.type = ArcType.Group then
    st
  else
    let fileName := appendName "" entryNames st.curEntry e
    { curEntry := st.curEntry + 1, records := st.records ++ [(e, fileName)] }

/-- The record-decoding pass, as far as names go; `curEntry` starts at 0. -/
def decodePass (entryNames : List Char) (entries : List Entry) : DecodeState :=
  entries.foldl (decodeStep entryNames) {}

/-- The case labels of the loose-file `switch` that only `break`
(arc_extract.cpp 1209-1231). -/
def looseSkipped : List ArcType :=
  [ArcType.EntryNames, ArcType.Texture, ArcType.ReferencedTexture, ArcType.LightmapTexture,
   ArcType.Mesh, ArcType.SkinnedMesh, ArcType.IndexBuffer, ArcType.VertexBuffer,
   ArcType.Model, ArcType.SkinnedModel, ArcType.DeformedModel, ArcType.InstancedModel,
   ArcType.Skeleton, ArcType.RigNode, ArcType.LightNode, ArcType.Camera,
   ArcType.Attachment, ArcType.UnkNode, ArcType.Material, ArcType.AnimatedNode,
   ArcType.Animation, ArcType.DeformedMesh]

/-- State of the loose-file loop: the counter, the group prefix and, in
order, every entry handed to `NewFile` with its file name. -/
structure LooseState where
  curEntry : Nat
  currentGroup : Option String := some ""
  files : List (Entry × Option String) := []
  deriving DecidableEq, Repr

/-- One turn of the loose-file loop (arc_extract.cpp 1207-1263). -/
def looseStep (entryNames : List Char) (st : LooseState) (e : Entry) : LooseState :=
  if e.type ∈ looseSkipped then
    { st with curEntry := st.curEntry + 1 }
  else if e.type = ArcType.Group then
    { st with
      currentGroup := (cstrAt entryNames e.nameOffset).map (fun g => g.push '/')
      curEntry := st.curEntry + 1 }
  else
    let fileName := st.currentGroup.bind (fun g => appendName g entryNames st.curEntry e)
    let fileName :=
      if e.type ≠ ArcType.PlainData then
        fileName.map (fun f => f.push '.' ++ toString e.type.raw)
      else
        fileName
    { st with files := st.files ++ [(e, fileName)], curEntry := st.curEntry + 1 }

/-- The loose-file pass; `curEntry` is the variable the decoding pass
left behind, it is not set back to 0. -/
def loosePass (entryNames : List Char) (curEntry : Nat) (entries : List Entry) : LooseState :=
  entries.foldl (looseStep entryNames) { curEntry := curEntry }

/-- Both passes of arc_extract `AppProcessFile` over one entry table, as
far as names go: the named records of the decoding pass and the named
loose files. -/
def ArcExtract.AppProcessFile (entryNames : List Char) (entries : List Entry) :
    List (Entry × Option String) × List (Entry × Option String) :=
  let decoded := decodePass entryNames entries
  let loose := loosePass entryNames decoded.curEntry entries
  (decoded.records, loose.files)

/-- The naming of arc_anim `DoArc`: its loop is the decoding loop. -/
def ArcAnim.DoArc (entryNames : List Char) (entries : List Entry) : List (Entry × Option String) :=
  (decodePass entryNames entries).records

/-! ## Index buffers (arc_extract.cpp `ReadIndexArray`) -/

/-- Is `struct Indices`. -/
structure Indices where
  acc : Nat
  size : Nat
  deriving DecidableEq, Repr

/-- What one call of the scene sink's `SaveIndices(data, count,
elementSize)` received; the sink itself is outside the sources and its
element size defaults to 2. -/
structure SavedIndices where
  data : List Nat
  count : Nat
  elementSize : Nat
  deriving DecidableEq, Repr

/-- The values `i` of `for (size_t i = 0; i < numIndices; i += 3)`:
`0, 3, 6, ...` below `numIndices`, one for each started group of three. -/
def swapLoopIndices (numIndices : Nat) : List Nat :=
  (List.range ((numIndices + 2) / 3)).map (fun k => 3 * k)

/-- The test `data[i] == 0xFFFF || data[i + 1] == 0xFFFF || data[i + 2] ==
0xFFFF` with its left-to-right short circuit: an element is read only
when the ones before it differ from `0xFFFF`. -/
def resetIndexAt (data : List Nat) (i : Nat) : Option Bool := do
  let x ← data[i]?
  if x == 0xFFFF then
    pure true
  else
    let y ← data[i + 1]?
    if y == 0xFFFF then
      pure true
    else
      let z ← data[i + 2]?
      pure (z == 0xFFFF)

/-- The body of the swap-and-scan loop at index `i`
(arc_extract.cpp 289-291): `std::swap(data[i], data[i + 1])`, then
`hasResetIndex |= ...`; an access past the end of `data` is `none`. -/
def swapScanStep (st : Option (List Nat × Bool)) (i : Nat) : Option (List Nat × Bool) := do
  let (data, hasResetIndex) ← st
  let a ← data[i]?
  let b ← data[i + 1]?
  let data := (data.set i b).set (i + 1) a
  let reset ← resetIndexAt data i
  pure (data, hasResetIndex || reset)

/-- Is `ReadIndexArray`: `data` is the array of 16-bit indices the cursor
delivered (`numIndices` is its length), `accessorIndex` the accessor the
sink answers with. The result is the call the sink received and the
returned `Indices`. -/
def ReadIndexArray (accessorIndex : Nat) (data : List Nat) : Option (SavedIndices × Indices) := do
  let numIndices := data.length
  let (data, hasResetIndex) ← (swapLoopIndices numIndices).foldl swapScanStep (some (data, false))
  let saved : SavedIndices :=
    if hasResetIndex then
      { data := data.map (fun x => x % 2 ^ 32), count := numIndices, elementSize := 4 }
    else
      { data := data, count := numIndices, elementSize := 2 }
  pure (saved, { acc := accessorIndex, size := (2 + (if hasResetIndex then 1 else 0) * 2) % 2 ^ 32 })

/-- Spec side of the index buffer rule, "triangle-wise, swap the first
two indices of every 3": the list with the first two elements of every
complete group of three exchanged. It is compared with the loop of
`ReadIndexArray` below. -/
def swapTriples : List Nat → List Nat
  | a :: b :: c :: rest => b :: a :: c :: swapTriples rest
  | rest => rest

/-! ## Fragment names (cdfiles_extract.cpp `CatName`) -/

/-- Is `names.at(index - 1)` for a 32-bit unsigned `index`. -/
def namesAt (names : List String) (index : Nat) : Except Error String :=
  match names[(index + 2 ^ 32 - 1) % 2 ^ 32]? with
  | some s => pure s
  | none => throw Error.OutOfRange

/-- The `while (true)` loop of `CatName`: the first argument is the bytes
from the cursor on, `name` what has been appended so far. The result is
the name and the bytes left after the cursor. -/
def CatName.loop (names : List String) : List Nat → String → Except Error (String × List Nat)
  | [], _ => throw Error.EndOfStream
  | curChar :: rd, name =>
    if curChar = 0 then
      pure (name, rd)
    else if curChar &&& 0x80 ≠ 0 then
      match rd with
      | [] => throw Error.EndOfStream
      | curChar2 :: rd2 =>
        let index := (((curChar &&& 0x7f) <<< 8) % 2 ^ 32) ||| curChar2
        match namesAt names index with
        | .ok s => CatName.loop names rd2 (name ++ s)
        | .error err => throw err
    else
      let index := 0 ||| curChar
      match namesAt names index with
      | .ok s => CatName.loop names rd (name ++ s)
      | .error err => throw err

/-- Is `CatName(rd, names)`; `rd` is the bytes from the cursor on. -/
def CatName (rd : List Nat) (names : List String) : Except Error (String × List Nat) :=
  CatName.loop names rd ""

/-! ## Skin joint remap (arc_extract.cpp `DoMesh`, 1096-1149) -/

/-- Is `struct PrimitiveCluster`. -/
structure PrimitiveCluster where
  indexStart : Nat := 0
  indexCount : Nat := 0
  vertexStart : Nat := 0
  vertexCount : Nat := 0
  deriving DecidableEq, Repr

/-- Is `using PrimitiveSkin = std::vector<uint32>`. -/
abbrev PrimitiveSkin := List Nat

/-- Is `std::variant<PrimitiveSkin, PrimitiveCluster>`. -/
inductive PrimitiveMod where
  | Skin (skin : PrimitiveSkin)
  | Cluster (cluster : PrimitiveCluster)
  deriving DecidableEq, Repr

/-- Modelled from the spec: the binary cursor is outside the sources; this
is its `seek(pos)` followed by a read of `count` bytes, which ends in
`EndOfStream` when the stream is shorter. -/
def readBytes (str : List Nat) (pos count : Nat) : Except Error (List Nat) :=
  if pos + count ≤ str.length then pure ((str.drop pos).take count) else throw Error.EndOfStream

/-- Modelled from the spec: the binary writer (`BinWritterRef`) is outside
the sources; this is its seek to `pos` followed by a write of `bytes`
over the stream content. -/
def writeBytes (str : List Nat) (pos : Nat) (bytes : List Nat) : List Nat :=
  str.take pos ++ bytes ++ str.drop (pos + bytes.length)

/-- The inner loop `for (uint8 cwt = 0; uint8 &n : joints)`: a slot with
a non-zero weight becomes `curSkin.at(n / 3)`, stored into a `uint8`. -/
def remapJoints (curSkin : PrimitiveSkin) : List Nat → List Nat → Except Error (List Nat)
  | [], _ => pure []
  | n :: joints, wts =>
    match (if wts.headD 0 ≠ 0 then
            (match curSkin[n / 3]? with
             | some v => Except.ok (v % 256)
             | none => Except.error Error.OutOfRange)
          else Except.ok n) with
    | .ok v =>
      match remapJoints curSkin joints wts.tail with
      | .ok rest => pure (v :: rest)
      | .error err => throw err
    | .error err => throw err

/-- Is `rds.ReadContainer(weights, vertexCount)` at `pos`: `vertexCount`
records of four weight bytes. -/
def readWeights (str : List Nat) (pos : Nat) : Nat → Except Error (List (List Nat))
  | 0 => pure []
  | vertexCount + 1 =>
    match readBytes str pos 4 with
    | .ok w =>
      match readWeights str (pos + 4) vertexCount with
      | .ok rest => pure (w :: rest)
      | .error err => throw err
    | .error err => throw err

/-- One turn of `for (uint32 j = 0; j < item.vertexCount; j++)`: read
four joint bytes at the read cursor, remap them, write them at the write
cursor; both cursors stand at `pos + 4 * j`. -/
def remapVertex (curSkin : PrimitiveSkin) (weights : List (List Nat)) (pos : Nat)
    (str : Except Error (List Nat)) (j : Nat) : Except Error (List Nat) :=
  match str with
  | .error err => throw err
  | .ok s =>
    match readBytes s (pos + 4 * j) 4 with
    | .error err => throw err
    | .ok joints =>
      match weights[j]? with
      | none => throw Error.OutOfRange
      | some wts =>
        match remapJoints curSkin joints wts with
        | .error err => throw err
        | .ok joints => pure (writeBytes s (pos + 4 * j) joints)

/-- The statement `if (curSkin.size() > 0) { ... }` of the Cluster branch:
`weightStr`, `weightOffset` are the stream and `byteOffset` of the
`WEIGHTS_0` accessor, `jointStr`, `jointOffset` those of `JOINTS_0`. The
product `4 * item.vertexStart` is a 32-bit one. The result is the joint
stream after the rewrite. -/
def remapCluster (curSkin : PrimitiveSkin) (item : PrimitiveCluster)
    (weightStr : List Nat) (weightOffset : Nat) (jointStr : List Nat) (jointOffset : Nat) :
    Except Error (List Nat) :=
  if curSkin.length > 0 then
    match readWeights weightStr (weightOffset + (4 * item.vertexStart) % 2 ^ 32)
        item.vertexCount with
    | .error err => throw err
    | .ok weights =>
      (List.range item.vertexCount).foldl
        (remapVertex curSkin weights (jointOffset + (4 * item.vertexStart) % 2 ^ 32))
        (pure jointStr)
  else
    pure jointStr

/-- Spec side of the joint remap, "if the corresponding weight is
non-zero, replace the raw joint byte `n` with `skinList[n / 3]`": the
byte a joint slot holds afterwards, for a skin list that has the entry
`n / 3`. It is compared with the loop of `remapCluster` below. -/
def remappedJoint (skinList : List Nat) (weight n : Nat) : Nat :=
  if weight ≠ 0 then skinList.getD (n / 3) 0 % 256 else n

/-! ## Sequential cursor reads -/

/-- Modelled from the spec: the binary cursor is outside the sources; this
is its `read(T)` for an unsigned 32-bit value in the little-endian byte
order of the PC files. `rd` is the bytes from the cursor on, the result
holds the bytes left after the read. -/
def readU32 : List Nat → Except Error (Nat × List Nat)
  | b0 :: b1 :: b2 :: b3 :: rd => pure (b0 + 256 * b1 + 65536 * b2 + 16777216 * b3, rd)
  | _ => throw Error.EndOfStream

/-- The value of a 32-bit word read as `int32` (two's complement). -/
def toInt32 (n : Nat) : Int :=
  if n < 2 ^ 31 then (n : Int) else (n : Int) - 2 ^ 32

/-- Modelled from the spec: the cursor's read of `count` raw bytes. -/
def readRaw (count : Nat) (rd : List Nat) : Except Error (List Nat × List Nat) :=
  if count ≤ rd.length then pure (rd.take count, rd.drop count) else throw Error.EndOfStream

/-- Modelled from the spec: the cursor's `readContainer(T, count)` for
32-bit words. -/
def readU32s : Nat → List Nat → Except Error (List Nat × List Nat)
  | 0, rd => pure ([], rd)
  | count + 1, rd =>
    match readU32 rd with
    | .error err => throw err
    | .ok (w, rd) =>
      match readU32s count rd with
      | .error err => throw err
      | .ok (ws, rd) => pure (w :: ws, rd)

/-- Modelled from the spec: the cursor's `ReadContainer(container)`
without a count, which reads a 32-bit element count and then that many
elements (here 32-bit words). -/
def readU32List (rd : List Nat) : Except Error (List Nat × List Nat) :=
  match readU32 rd with
  | .error err => throw err
  | .ok (count, rd) => readU32s count rd

/-- The four bytes of a 32-bit value as the stream holds them, lowest
byte first; used to write down concrete streams. -/
def le32 (n : Nat) : List Nat :=
  [n % 256, n / 256 % 256, n / 65536 % 256, n / 16777216 % 256]

/-! ## Materials (arc_extract.cpp 441-556) -/

/-- Is `struct MaterialHdr`; the 20 bytes behind `textureBaseIndex` are
kept as they are. -/
structure MaterialHdr where
  textureBaseIndex : Nat := 0
  unk : List Nat := []
  deriving DecidableEq, Repr

/-- Is `struct MaterialParam0`; the default value is the value-initialised
one a fresh `std::variant` holds. -/
structure MaterialParam0 where
  textureIndex : Int := 0
  d : List Int := [0, 0, 0, 0, 0, 0]
  deriving DecidableEq, Repr

/-- Is `MaterialParam0::Read`: `textureIndex`, then `d[6]`. -/
def MaterialParam0.Read (rd : List Nat) : Except Error (MaterialParam0 × List Nat) :=
  match readU32 rd with
  | .error err => throw err
  | .ok (textureIndex, rd) =>
    match readU32s 6 rd with
    | .error err => throw err
    | .ok (d, rd) => pure ({ textureIndex := toInt32 textureIndex, d := d.map toInt32 }, rd)

/-- Is `std::variant<MaterialParam0, MaterialParam1, MaterialParam2,
MaterialParam3, MaterialParam6>`; the vector of `MaterialParam2` is kept
as its 12 bytes. -/
inductive MaterialParam where
  | Param0 (p : MaterialParam0)
  | Param1 (p : MaterialParam0) (d1 : List Nat)
  | Param2 (data : List Nat)
  | Param3 (p : MaterialParam0) (d1 : List Nat)
  | Param6 (p : MaterialParam0) (d1 : List Nat) (d2 : List Nat)
  deriving DecidableEq, Repr

/-- Is `MaterialParam1::Read`. -/
def MaterialParam1.Read (rd : List Nat) : Except Error (MaterialParam × List Nat) :=
  match MaterialParam0.Read rd with
  | .error err => throw err
  | .ok (p, rd) =>
    match readU32List rd with
    | .error err => throw err
    | .ok (d1, rd) => pure (MaterialParam.Param1 p d1, rd)

/-- Is `MaterialParam2::Read`. -/
def MaterialParam2.Read (rd : List Nat) : Except Error (MaterialParam × List Nat) :=
  match readRaw 12 rd with
  | .error err => throw err
  | .ok (data, rd) => pure (MaterialParam.Param2 data, rd)

/-- Is `MaterialParam3::Read`. -/
def MaterialParam3.Read (rd : List Nat) : Except Error (MaterialParam × List Nat) :=
  match MaterialParam0.Read rd with
  | .error err => throw err
  | .ok (p, rd) =>
    match readRaw 4 rd with
    | .error err => throw err
    | .ok (d1, rd) => pure (MaterialParam.Param3 p d1, rd)

/-- Is `MaterialParam6::Read`. -/
def MaterialParam6.Read (rd : List Nat) : Except Error (MaterialParam × List Nat) :=
  match MaterialParam0.Read rd with
  | .error err => throw err
  | .ok (p, rd) =>
    match readU32List rd with
    | .error err => throw err
    | .ok (d1, rd) =>
      match readRaw 4 rd with
      | .error err => throw err
      | .ok (d2, rd) => pure (MaterialParam.Param6 p d1 d2, rd)

/-- The lambda of `Material::Read` (arc_extract.cpp 507-554) for one
param: the discriminant, then the `switch`. `item` starts as the
value-initialised variant. `NDEBUG` says whether the program was built
with `NDEBUG`, which turns `assert(false)` into nothing; without it the
assertion ends the process. -/
def readParam (NDEBUG : Bool) (rd : List Nat) : Except Error (MaterialParam × List Nat) :=
  match readU32 rd with
  | .error err => throw err
  | .ok (type, rd) =>
    if type = 0 ∨ type = 4 then
      match MaterialParam0.Read rd with
      | .error err => throw err
      | .ok (p, rd) => pure (MaterialParam.Param0 p, rd)
    else if type = 1 ∨ type = 5 then
      MaterialParam1.Read rd
    else if type = 2 then
      MaterialParam2.Read rd
    else if type = 3 then
      MaterialParam3.Read rd
    else if type = 6 then
      MaterialParam6.Read rd
    else if type = 7 then
      pure (MaterialParam.Param0 {}, rd)
    else if NDEBUG then
      pure (MaterialParam.Param0 {}, rd)
    else
      throw Error.AssertionFailed

/-- The element loop of `ReadContainerLambda`: `count` params one after
the other. -/
def readParams (NDEBUG : Bool) : Nat → List Nat → Except Error (List MaterialParam × List Nat)
  | 0, rd => pure ([], rd)
  | count + 1, rd =>
    match readParam NDEBUG rd with
    | .error err => throw err
    | .ok (item, rd) =>
      match readParams NDEBUG count rd with
      | .error err => throw err
      | .ok (items, rd) => pure (item :: items, rd)

/-- Is `struct Material`. -/
structure Material where
  hdr : MaterialHdr := {}
  params : List MaterialParam := []
  deriving DecidableEq, Repr

/-- Is `Material::Read`: the header of 24 bytes, then
`ReadContainerLambda`, which reads a 32-bit count and the params. -/
def Material.Read (NDEBUG : Bool) (rd : List Nat) : Except Error (Material × List Nat) :=
  match readU32 rd with
  | .error err => throw err
  | .ok (textureBaseIndex, rd) =>
    match readRaw 20 rd with
    | .error err => throw err
    | .ok (unk, rd) =>
      match readU32 rd with
      | .error err => throw err
      | .ok (count, rd) =>
        match readParams NDEBUG count rd with
        | .error err => throw err
        | .ok (params, rd) =>
          pure ({ hdr := { textureBaseIndex := textureBaseIndex, unk := unk },
                  params := params }, rd)

/-! ## Textures (arc_extract.cpp 432-439, 598-663) -/

/-- Is `struct Texture`, the header of a texture record. -/
structure Texture where
  width : Nat := 0
  height : Nat := 0
  numMips : Nat := 0
  hash : Nat := 0
  type : Nat := 0
  deriving DecidableEq, Repr

/-- Is `Texture::TYPE_PALETTE`. -/
def Texture.TYPE_PALETTE : Nat := 0x29

/-- The input formats of the image codec that `ExtractTexture` names. -/
inductive TexelInputFormatType where
  | RGBA8
  | BC1
  | BC2
  | RGBA4
  | RGB5A1
  deriving DecidableEq, Repr

/-- The two values of `formatOverride` that `ExtractTexture` uses. -/
inductive TexelContextFormat where
  | UPNG
  | Config
  deriving DecidableEq, Repr

/-- The fields of `NewTexelContextCreate` that `ExtractTexture` fills;
`data` is the content of `buffer`, `texelOutput` says whether `tOut` was
given. -/
structure NewTexelContextCreate where
  width : Nat
  height : Nat
  baseFormat : TexelInputFormatType
  numMipmaps : Nat
  data : List Nat
  texelOutput : Bool
  formatOverride : TexelContextFormat
  deriving DecidableEq, Repr

/-- What the image codec received: `NewImage(ctx)` when `tOut` is given,
`NewImage(fileName, ctx)` otherwise. -/
structure NewImageCall where
  fileName : Option String
  ctx : NewTexelContextCreate
  deriving DecidableEq, Repr

/-- The loop `for (auto d : data) dataOut.emplace_back(palette[d])`, byte
for byte: `palette` starts at byte 4 of `buffer`, entry `d` is the four
bytes at `4 + 4 * d`. An entry outside `buffer` is a read outside the
buffer. -/
def paletteLookup (buffer : List Nat) : List Nat → Except Error (List Nat)
  | [] => pure []
  | d :: data =>
    if 4 + 4 * d + 4 ≤ buffer.length then
      match paletteLookup buffer data with
      | .error err => throw err
      | .ok dataOut => pure ((buffer.drop (4 + 4 * d)).take 4 ++ dataOut)
    else
      throw Error.Undefined

/-- The palette branch of `ExtractTexture` (arc_extract.cpp 606-624): the
new content of `buffer`. `numPalettes * 1024` is a 32-bit product. -/
def expandPalette (buffer : List Nat) : Except Error (List Nat) :=
  match readU32 buffer with
  | .error _ => throw Error.Undefined
  | .ok (numPalettes, _) =>
    let dataBegin := (numPalettes * 1024) % 2 ^ 32 + 4
    if dataBegin ≤ buffer.length then
      paletteLookup buffer (buffer.drop dataBegin)
    else
      throw Error.Undefined

/-- The `switch (hdr.type)` that picks the codec input format
(arc_extract.cpp 632-649). -/
def texelFormat (type : Nat) : Except Error TexelInputFormatType :=
  if type = Texture.TYPE_PALETTE ∨ type = 21 then
    pure TexelInputFormatType.RGBA8
  else if type = CompileFourCC 'D' 'X' 'T' '1' then
    pure TexelInputFormatType.BC1
  else if type = CompileFourCC 'D' 'X' 'T' '3' then
    pure TexelInputFormatType.BC2
  else if type = 26 then
    pure TexelInputFormatType.RGBA4
  else if type = 25 then
    pure TexelInputFormatType.RGB5A1
  else
    throw (Error.RuntimeError ("Invalid texture format: " ++ toString type))

/-- The byte count `entrySize - sizeof(hdr)` with `sizeof(hdr) = 20`: a
difference of two `size_t` values, which wraps around when `entrySize` is
below 20. -/
def payloadSize (entrySize : Nat) : Nat :=
  if 20 ≤ entrySize then entrySize - 20 else entrySize + (2 ^ 64 - 20)

/-- Is `ExtractTexture`: `hdr` is the header the cursor delivered,
`payload` the bytes that follow it in the stream. The result is the call
the image codec received. -/
def ExtractTexture (hdr : Texture) (payload : List Nat) (entrySize : Nat) (fileName : String)
    (tOut : Bool) : Except Error NewImageCall :=
  match ReadContainer payload (payloadSize entrySize) with
  | .error err => throw err
  | .ok buffer =>
    match (if hdr.type = Texture.TYPE_PALETTE then expandPalette buffer else pure buffer) with
    | .error err => throw err
    | .ok buffer =>
      match texelFormat hdr.type with
      | .error err => throw err
      | .ok type =>
        pure {
          fileName := if tOut then none else some fileName
          ctx := {
            width := hdr.width % 2 ^ 16
            height := hdr.height % 2 ^ 16
            baseFormat := type
            numMipmaps := hdr.numMips % 2 ^ 8
            data := buffer
            texelOutput := tOut
            formatOverride :=
              if tOut then TexelContextFormat.UPNG else TexelContextFormat.Config } }

/-! ## Scene document (the part of the glTF sink the tools write to) -/

/-- Is `gltf::Attributes`, a map from attribute name to accessor index. -/
abbrev Attributes := List (String × Nat)

/-- Is `attributes.at(key)`. -/
def attributesAt (attrs : Attributes) (key : String) : Except Error Nat :=
  match attrs.lookup key with
  | some v => pure v
  | none => throw Error.OutOfRange

/-- The values of `gltf::Accessor::Type` the tools set. -/
inductive AccessorType where
  | Unset
  | Scalar
  | Vec3
  | Vec4
  | Mat4
  deriving DecidableEq, Repr

/-- The values of `gltf::Accessor::ComponentType` the tools set. -/
inductive ComponentType where
  | Unset
  | Float
  | Short
  deriving DecidableEq, Repr

/-- The fields of `gltf::Accessor` the tools set; `byteOffset` and `count`
are 32-bit fields. The float bounds `min` and `max` are left out. -/
structure GltfAccessor where
  bufferView : Nat := 0
  byteOffset : Nat := 0
  count : Nat := 0
  type : AccessorType := AccessorType.Unset
  componentType : ComponentType := ComponentType.Unset
  normalized : Bool := false
  deriving DecidableEq, Repr

/-- The fields of `gltf::Primitive` that `DoMesh` sets; the mode is always
`Triangles`. `material` is an `int32` field, -1 while unset. -/
structure GltfPrimitive where
  material : Int := -1
  indices : Nat := 0
  attributes : Attributes := []
  targets : List Attributes := []
  deriving DecidableEq, Repr

/-- Is `gltf::Mesh`. -/
structure GltfMesh where
  primitives : List GltfPrimitive := []
  deriving DecidableEq, Repr

/-- The fields of `gltf::Node` the tools set; `mesh` and `skin` are `-1`
while unset, `matrix` holds the 16 raw words of the transform. -/
structure GltfNode where
  name : String := ""
  mesh : Int := -1
  skin : Int := -1
  children : List Nat := []
  matrix : List Nat := []
  deriving DecidableEq, Repr

/-- The fields of `gltf::Skin` the tools set. -/
structure GltfSkin where
  joints : List Nat := []
  inverseBindMatrices : Nat := 0
  deriving DecidableEq, Repr

/-- Is `gltf::Scene`. -/
structure GltfScene where
  nodes : List Nat := []
  deriving DecidableEq, Repr

/-- Is `gltf::Animation::Channel`. -/
structure GltfChannel where
  node : Int := -1
  path : String := ""
  sampler : Nat := 0
  deriving DecidableEq, Repr

/-- Is `gltf::Animation::Sampler`. -/
structure GltfSampler where
  input : Nat := 0
  output : Nat := 0
  deriving DecidableEq, Repr

/-- Is `gltf::Animation`. -/
structure GltfAnimation where
  name : String := ""
  channels : List GltfChannel := []
  samplers : List GltfSampler := []
  deriving DecidableEq, Repr

/-- Is `gltf::Texture`, as far as the tools fill it. -/
structure GltfTexture where
  source : Int := -1
  deriving DecidableEq, Repr

/-- Is `gltf::Image`, as far as the tools fill it. -/
structure GltfImage where
  name : String := ""
  mimeType : String := ""
  bufferView : Int := -1
  deriving DecidableEq, Repr

/-- The values of `gltf::Material::AlphaMode` the tools meet. -/
inductive AlphaMode where
  | Opaque
  | Mask
  deriving DecidableEq, Repr

/-- Is `gltf::Material`, as far as the tools fill it; `baseColorTexture` is
`pbrMetallicRoughness.baseColorTexture.index`. -/
structure GltfMaterial where
  name : String := ""
  doubleSided : Bool := false
  alphaMode : AlphaMode := AlphaMode.Opaque
  baseColorTexture : Int := -1
  deriving DecidableEq, Repr

/-- The scene document both tools build (`GLTFMain`): the lists of the
glTF document, the byte content of every stream by slot, and the warnings
printed so far. `anims` is the member of arc_anim's `GLTFMain`
(arc_anim.cpp 57): the slot of the animations stream, -1 before the first
use. -/
structure GLTFMain where
  nodes : List GltfNode := []
  meshes : List GltfMesh := []
  accessors : List GltfAccessor := []
  skins : List GltfSkin := []
  scenes : List GltfScene := [{}]
  animations : List GltfAnimation := []
  streams : List (List Nat) := []
  warnings : List String := []
  anims : Int := -1
  textures : List GltfTexture := []
  images : List GltfImage := []
  materials : List GltfMaterial := []
  deriving DecidableEq, Repr

/-- Is `main.accessors.at(index)`. -/
def accessorsAt (main : GLTFMain) (index : Nat) : Except Error GltfAccessor :=
  match main.accessors[index]? with
  | some acc => pure acc
  | none => throw Error.OutOfRange

/-- Modelled from the spec: `main.Stream(slot)` of the scene sink, which
is outside the sources; a slot that names no stream is an error. -/
def streamAt (main : GLTFMain) (slot : Nat) : Except Error (List Nat) :=
  match main.streams[slot]? with
  | some str => pure str
  | none => throw Error.OutOfRange

/-- Modelled from the spec: `newAccessor(stream, alignment) ->
(accessorRecord, index)` of the scene sink, which is outside the sources.
The new accessor is appended to the accessor list and its index is the
former length of the list; `acc` holds the fields the caller sets. -/
def NewAccessor (main : GLTFMain) (acc : GltfAccessor) : GLTFMain × Nat :=
  ({ main with accessors := main.accessors ++ [acc] }, main.accessors.length)

/-! ## Meshes and nodes of an ARC bank (arc_extract.cpp 63-139, 306-430) -/

/-- Is `struct Primitive` with its header `PrimitiveHdr`. -/
structure Primitive where
  materialIndex : Nat := 0
  indexBufferIndex : Nat := 0
  vertexBufferIndex : Nat := 0
  vertexBegin : Nat := 0
  numUsedVertices : Nat := 0
  offset0 : Nat := 0
  count0 : Nat := 0
  mods : List PrimitiveMod := []
  deriving DecidableEq, Repr

/-- Is `struct Mesh` with the fields of its header `MeshHdr` that are
used. -/
structure Mesh where
  materialBaseIndex : Nat := 0
  indexBaseIndex : Nat := 0
  vertexBaseIndex : Nat := 0
  deformedMeshIndex : Int := 0
  prims : List Primitive := []
  name : String := ""
  index : Nat := 0
  deriving DecidableEq, Repr

/-- Is `struct Attrs`. -/
structure Attrs where
  base : Attributes := []
  deform : Attributes := []
  deriving DecidableEq, Repr

/-- Is `struct NodeBase`; `tm0` holds the 16 raw words of the matrix, the
other transform and the bounding box are not used after decoding. -/
structure NodeBase where
  glIndex : Nat := 0
  name : String := ""
  entryIndex : Nat := 0
  tm0 : List Nat := []
  parentBone : Int := -1
  numChildren : Int := 0
  startChildIndex : Int := 0
  deriving DecidableEq, Repr

/-- Is `NodeVariant`, with the fields of each node struct that are used
after decoding. -/
inductive NodeVariant where
  | Skeleton (base : NodeBase) (meshIndex : Int)
  | Bone (base : NodeBase) (boneSlotIndex : Int)
  | Model (base : NodeBase) (meshIndex : Int)
  | InstancedModel (base : NodeBase) (meshIndex : Int)
  | LightNode (base : NodeBase)
  | DeformedModel (base : NodeBase) (meshIndex : Int) (meshes : List Int)
  | Camera (base : NodeBase)
  | SkinnedModel (base : NodeBase) (meshIndex : Int)
  | Attachment (base : NodeBase)
  | UnkNode (base : NodeBase)
  | AnimatedModel (base : NodeBase) (meshIndex : Int) (meshes : List Int)
  deriving DecidableEq, Repr

/-- The `NodeBase` of a node, what `std::visit` returns in both node
loops. -/
def NodeVariant.base : NodeVariant → NodeBase
  | .Skeleton b _ => b
  | .Bone b _ => b
  | .Model b _ => b
  | .InstancedModel b _ => b
  | .LightNode b => b
  | .DeformedModel b _ _ => b
  | .Camera b => b
  | .SkinnedModel b _ => b
  | .Attachment b => b
  | .UnkNode b => b
  | .AnimatedModel b _ _ => b

/-- The node with `glIndex` stored in its `NodeBase`. -/
def NodeVariant.setGlIndex (glIndex : Nat) : NodeVariant → NodeVariant
  | .Skeleton b m => .Skeleton { b with glIndex := glIndex } m
  | .Bone b s => .Bone { b with glIndex := glIndex } s
  | .Model b m => .Model { b with glIndex := glIndex } m
  | .InstancedModel b m => .InstancedModel { b with glIndex := glIndex } m
  | .LightNode b => .LightNode { b with glIndex := glIndex }
  | .DeformedModel b m ms => .DeformedModel { b with glIndex := glIndex } m ms
  | .Camera b => .Camera { b with glIndex := glIndex }
  | .SkinnedModel b m => .SkinnedModel { b with glIndex := glIndex } m
  | .Attachment b => .Attachment { b with glIndex := glIndex }
  | .UnkNode b => .UnkNode { b with glIndex := glIndex }
  | .AnimatedModel b m ms => .AnimatedModel { b with glIndex := glIndex } m ms

/-- Is `std::map<int32, std::vector<size_t>> models`. -/
abbrev ModelMap := List (Int × List Nat)

/-- Is `models[key].emplace_back(node)`: the key is created when it is
not there. -/
def ModelMap.push (models : ModelMap) (key : Int) (node : Nat) : ModelMap :=
  match models.lookup key with
  | some _ => models.map (fun kv => if kv.1 = key then (kv.1, kv.2 ++ [node]) else kv)
  | none => models ++ [(key, [node])]

/-! ## Scene assembly (arc_extract.cpp 956-1182) -/

/-- State of the node registration loop: the document, the joint list
`bones`, the map `models`, and the nodes read so far with their `glIndex`
set. The inverse bind matrices `ibms` are float products and are left
out; they have the bounds of `bones`. -/
structure NodeState where
  main : GLTFMain := {}
  bones : List Nat := []
  models : ModelMap := []
  nodes : List NodeVariant := []
  deriving DecidableEq, Repr

/-- The `models[...]` registrations of one node (arc_extract.cpp
972-983): a Model, InstancedModel, SkinnedModel or Skeleton under its
`meshIndex`, a DeformedModel or AnimatedModel also under each entry of
`meshes`. -/
def registerModels (models : ModelMap) (glIndex : Nat) : NodeVariant → ModelMap
  | .Skeleton _ meshIndex => models.push meshIndex glIndex
  | .Model _ meshIndex => models.push meshIndex glIndex
  | .InstancedModel _ meshIndex => models.push meshIndex glIndex
  | .SkinnedModel _ meshIndex => models.push meshIndex glIndex
  | .DeformedModel _ meshIndex meshes =>
    meshes.foldl (fun acc m => acc.push m glIndex) (models.push meshIndex glIndex)
  | .AnimatedModel _ meshIndex meshes =>
    meshes.foldl (fun acc m => acc.push m glIndex) (models.push meshIndex glIndex)
  | _ => models

/-- The `bones.at(slot) = main.nodes.size()` of a Bone with a slot index
above -1 (arc_extract.cpp 967-971). -/
def registerBone (bones : List Nat) (glIndex : Nat) : NodeVariant → Except Error (List Nat)
  | .Bone _ boneSlotIndex =>
    if boneSlotIndex > -1 then
      if boneSlotIndex.toNat < bones.length then
        pure (bones.set boneSlotIndex.toNat glIndex)
      else
        throw Error.OutOfRange
    else
      pure bones
  | _ => pure bones

/-- One turn of the node registration loop (arc_extract.cpp 962-1033);
the branch under `if (false)` never runs. -/
def registerNode (st : NodeState) (n : NodeVariant) : Except Error NodeState :=
  match registerBone st.bones st.main.nodes.length n with
  | .error err => throw err
  | .ok bones =>
    pure {
      main := { st.main with nodes := st.main.nodes ++ [{ name := n.base.name }] }
      bones := bones
      models := registerModels st.models st.main.nodes.length n
      nodes := st.nodes ++ [n.setGlIndex st.main.nodes.length] }

/-- The node registration loop. -/
def registerNodes : List NodeVariant → NodeState → Except Error NodeState
  | [], st => pure st
  | n :: rest, st =>
    match registerNode st n with
    | .error err => throw err
    | .ok st => registerNodes rest st

/-- Is `nodes.at(index)` followed by a change of that node. -/
def modifyNode (nodes : List GltfNode) (index : Nat) (f : GltfNode → GltfNode) :
    Except Error (List GltfNode) :=
  match nodes[index]? with
  | some g => pure (nodes.set index (f g))
  | none => throw Error.OutOfRange

/-- One turn of the parent linking loop (arc_extract.cpp 1035-1046). -/
def linkParent (nodeStartIndex : Nat) (main : GLTFMain) (n : NodeVariant) :
    Except Error GLTFMain :=
  match modifyNode main.nodes n.base.glIndex (fun g => { g with matrix := n.base.tm0 }) with
  | .error err => throw err
  | .ok nodes =>
    if n.base.parentBone > -1 then
      match modifyNode nodes (nodeStartIndex + n.base.parentBone.toNat)
          (fun g => { g with children := g.children ++ [n.base.glIndex] }) with
      | .error err => throw err
      | .ok nodes => pure { main with nodes := nodes }
    else
      match main.scenes with
      | [] => throw Error.Undefined
      | scene :: scenes =>
        pure { main with
          nodes := nodes
          scenes := { scene with nodes := scene.nodes ++ [n.base.glIndex] } :: scenes }

/-- The parent linking loop. -/
def linkParents (nodeStartIndex : Nat) : List NodeVariant → GLTFMain → Except Error GLTFMain
  | [], main => pure main
  | n :: rest, main =>
    match linkParent nodeStartIndex main n with
    | .error err => throw err
    | .ok main => linkParents nodeStartIndex rest main

/-- The skin emission (arc_extract.cpp 1048-1058). The skin stream is
modelled from the spec as a new, empty stream slot (the matrices written
to it are floats). -/
def emitSkin (bones : List Nat) (main : GLTFMain) : GLTFMain :=
  if bones.length > 0 then
    let slot := main.streams.length
    let main := { main with streams := main.streams ++ [[]] }
    let (main, id) := NewAccessor main
      { bufferView := slot, type := AccessorType.Mat4, componentType := ComponentType.Float,
        count := bones.length }
    { main with skins := main.skins ++ [{ joints := bones, inverseBindMatrices := id }] }
  else
    main

/-- State of `DoMesh` while it walks the primitives. -/
structure MeshState where
  main : GLTFMain := {}
  mesh : GltfMesh := {}
  useSkin : Bool := false
  deriving DecidableEq, Repr

/-- The block under `if (curSkin.size() > 0)` (arc_extract.cpp
1096-1149) inside the document: the weights are read from the stream of
the `WEIGHTS_0` accessor, the joints are rewritten in the stream of the
`JOINTS_0` accessor. The result is the stream list after the rewrite. -/
def skinClusterStreams (main : GLTFMain) (prim : GltfPrimitive) (curSkin : PrimitiveSkin)
    (item : PrimitiveCluster) : Except Error (List (List Nat)) :=
  if curSkin.length > 0 then
    match attributesAt prim.attributes "WEIGHTS_0" with
    | .error err => throw err
    | .ok weightIndex =>
    match accessorsAt main weightIndex with
    | .error err => throw err
    | .ok weightAcc =>
    match streamAt main weightAcc.bufferView with
    | .error err => throw err
    | .ok weightStr =>
    match readWeights weightStr (weightAcc.byteOffset + (4 * item.vertexStart) % 2 ^ 32)
        item.vertexCount with
    | .error err => throw err
    | .ok weights =>
    match attributesAt prim.attributes "JOINTS_0" with
    | .error err => throw err
    | .ok jointIndex =>
    match accessorsAt main jointIndex with
    | .error err => throw err
    | .ok jointAcc =>
    match streamAt main jointAcc.bufferView with
    | .error err => throw err
    | .ok jointStr =>
    match (List.range item.vertexCount).foldl
        (remapVertex curSkin weights (jointAcc.byteOffset + (4 * item.vertexStart) % 2 ^ 32))
        (pure jointStr) with
    | .error err => throw err
    | .ok out => pure (main.streams.set jointAcc.bufferView out)
  else
    pure main.streams

/-- The document after the block under `if (curSkin.size() > 0)`: only
stream content changes. -/
def skinCluster (main : GLTFMain) (prim : GltfPrimitive) (curSkin : PrimitiveSkin)
    (item : PrimitiveCluster) : Except Error GLTFMain :=
  match skinClusterStreams main prim curSkin item with
  | .error err => throw err
  | .ok streams => pure { main with streams := streams }

/-- The Cluster branch of the modifier visitor (arc_extract.cpp
1077-1151). The sums and the product are 32-bit ones; the `uint32` sum
`m.materialBaseIndex + p.materialIndex` is stored in the `int32` field
`material`. -/
def doCluster (indexBuffers : List Indices) (m : Mesh) (p : Primitive) (vertexAttrs : Attrs)
    (curSkin : PrimitiveSkin) (item : PrimitiveCluster) (st : MeshState) :
    Except Error MeshState :=
  match indexBuffers[(m.indexBaseIndex + p.indexBufferIndex) % 2 ^ 32]? with
  | none => throw Error.OutOfRange
  | some ids =>
    match accessorsAt st.main ids.acc with
    | .error err => throw err
    | .ok indexAccess =>
      let indexAccess := { indexAccess with
        byteOffset := (indexAccess.byteOffset + (item.indexStart * ids.size) % 2 ^ 32) % 2 ^ 32
        count := item.indexCount }
      let idxAcc := st.main.accessors.length
      let main := { st.main with accessors := st.main.accessors ++ [indexAccess] }
      let prim : GltfPrimitive := {
        material := toInt32 ((m.materialBaseIndex + p.materialIndex) % 2 ^ 32)
        indices := idxAcc
        attributes := vertexAttrs.base
        targets := if vertexAttrs.deform.length ≠ 0 then [vertexAttrs.deform] else [] }
      match skinCluster main prim curSkin item with
      | .error err => throw err
      | .ok main =>
        pure { st with main := main, mesh := { primitives := st.mesh.primitives ++ [prim] } }

/-- The loop over the modifiers of one primitive (arc_extract.cpp
1073-1158); `curSkin` is the skin list in force. -/
def doMods (indexBuffers : List Indices) (m : Mesh) (p : Primitive) (vertexAttrs : Attrs) :
    List PrimitiveMod → PrimitiveSkin → MeshState → Except Error MeshState
  | [], _, st => pure st
  | .Cluster item :: mods, curSkin, st =>
    match doCluster indexBuffers m p vertexAttrs curSkin item st with
    | .error err => throw err
    | .ok st => doMods indexBuffers m p vertexAttrs mods curSkin st
  | .Skin skin :: mods, _, st =>
    doMods indexBuffers m p vertexAttrs mods skin { st with useSkin := true }

/-- The loop over the primitives of a mesh (arc_extract.cpp 1068-1159);
every primitive starts with an empty `curSkin`. -/
def doPrims (vertexBuffers : List Attrs) (indexBuffers : List Indices) (m : Mesh) :
    List Primitive → MeshState → Except Error MeshState
  | [], st => pure st
  | p :: prims, st =>
    match vertexBuffers[(m.vertexBaseIndex + p.vertexBufferIndex) % 2 ^ 32]? with
    | none => throw Error.OutOfRange
    | some vertexAttrs =>
      match doMods indexBuffers m p vertexAttrs p.mods [] st with
      | .error err => throw err
      | .ok st => doPrims vertexBuffers indexBuffers m prims st

/-- The value `main.skins.size() - 1` stored into the 32-bit `skin` field:
with no skin the `size_t` difference wraps and the field becomes -1. -/
def skinIndex (numSkins : Nat) : Int :=
  if numSkins = 0 then -1 else toInt32 ((numSkins - 1) % 2 ^ 32)

/-- The loop inside the `try` block (arc_extract.cpp 1162-1168): the
result is the node list and whether the loop ran to its end; it stops at
the first node index `nodes.at` refuses. -/
def bindNodes (meshIndex : Int) (skin : Option Int) :
    List Nat → List GltfNode → List GltfNode × Bool
  | [], nodes => (nodes, true)
  | n :: rest, nodes =>
    match nodes[n]? with
    | none => (nodes, false)
    | some g =>
      bindNodes meshIndex skin rest
        (nodes.set n { g with mesh := meshIndex, skin := skin.getD g.skin })

/-- Is the lambda `DoMesh` (arc_extract.cpp 1060-1174). The map key
`m.index + indexOffset` is a 32-bit sum read as `int32`; a missing key
and a refused node index end in the `catch` block, which prints the
warning. -/
def DoMesh (vertexBuffers : List Attrs) (indexBuffers : List Indices) (models : ModelMap)
    (main : GLTFMain) (m : Mesh) (indexOffset : Nat) : Except Error GLTFMain :=
  if m.prims.isEmpty then
    pure main
  else
    match doPrims vertexBuffers indexBuffers m m.prims { main := main } with
    | .error err => throw err
    | .ok st =>
      let warning := "Mesh node: " ++ m.name ++ "appears to be unlinked."
      let main :=
        match models.lookup (toInt32 ((m.index + indexOffset) % 2 ^ 32)) with
        | none => { st.main with warnings := st.main.warnings ++ [warning] }
        | some ns =>
          let bound := bindNodes (toInt32 (st.main.meshes.length % 2 ^ 32))
            (if st.useSkin then some (skinIndex st.main.skins.length) else none) ns st.main.nodes
          { st.main with
            nodes := bound.1
            warnings := if bound.2 then st.main.warnings else st.main.warnings ++ [warning] }
      pure { main with meshes := main.meshes ++ [st.mesh] }

/-- The loops `for (auto &m : meshes) DoMesh(m, indexOffset)`. -/
def doMeshes (vertexBuffers : List Attrs) (indexBuffers : List Indices) (models : ModelMap)
    (indexOffset : Nat) : List Mesh → GLTFMain → Except Error GLTFMain
  | [], main => pure main
  | m :: meshes, main =>
    match DoMesh vertexBuffers indexBuffers models main m indexOffset with
    | .error err => throw err
    | .ok main => doMeshes vertexBuffers indexBuffers models indexOffset meshes main

/-- What the decoding pass of arc_extract leaves for the assembly: the
node, mesh and buffer records in entry order. -/
structure Decoded where
  nodes : List NodeVariant := []
  meshes : List Mesh := []
  skinnedMeshes : List Mesh := []
  indexBuffers : List Indices := []
  vertexBuffers : List Attrs := []
  deriving DecidableEq, Repr

/-- The assembly part of arc_extract `AppProcessFile` (arc_extract.cpp
956-1182): `main` is the document after the decoding pass. -/
def ArcExtract.assembleScene (hdr : Header) (decoded : Decoded) (main : GLTFMain) :
    Except Error GLTFMain :=
  match registerNodes decoded.nodes
      { main := main, bones := List.replicate hdr.numRigNodes 0 } with
  | .error err => throw err
  | .ok st =>
    match linkParents main.nodes.length st.nodes st.main with
    | .error err => throw err
    | .ok linked =>
      match doMeshes decoded.vertexBuffers decoded.indexBuffers st.models
          hdr.numSkinnedModels decoded.meshes (emitSkin st.bones linked) with
      | .error err => throw err
      | .ok main =>
        doMeshes decoded.vertexBuffers decoded.indexBuffers st.models 0
          decoded.skinnedMeshes main

/-! ## Animations (arc_anim.cpp 46-195) -/

/-- Modelled from the spec: the cursor's `read(T)` for an unsigned 16-bit
value, lowest byte first. -/
def readU16 : List Nat → Except Error (Nat × List Nat)
  | b0 :: b1 :: rd => pure (b0 + 256 * b1, rd)
  | _ => throw Error.EndOfStream

/-- Modelled from the spec: the cursor's `readContainer(T, count)` for
16-bit values. -/
def readU16s : Nat → List Nat → Except Error (List Nat × List Nat)
  | 0, rd => pure ([], rd)
  | count + 1, rd =>
    match readU16 rd with
    | .error err => throw err
    | .ok (w, rd) =>
      match readU16s count rd with
      | .error err => throw err
      | .ok (ws, rd) => pure (w :: ws, rd)

/-- Modelled from the spec: the cursor's `readContainer(T, count)` for
records of `size` bytes that are kept as raw bytes (the float vectors). -/
def readRaws (size : Nat) : Nat → List Nat → Except Error (List (List Nat) × List Nat)
  | 0, rd => pure ([], rd)
  | count + 1, rd =>
    match readRaw size rd with
    | .error err => throw err
    | .ok (w, rd) =>
      match readRaws size count rd with
      | .error err => throw err
      | .ok (ws, rd) => pure (w :: ws, rd)

/-- Is `struct AnimationNode` (arc_anim.cpp 60-82). A position is the 12
bytes of a `Vector`, a rotation the 16 bytes of a `Vector4A16`. -/
structure AnimationNode where
  numFrames : Nat := 0
  null0 : List Nat := []
  nodeName : String := ""
  posFrames : List Nat := []
  positions : List (List Nat) := []
  rotFrames : List Nat := []
  rotations : List (List Nat) := []
  deriving DecidableEq, Repr

/-- Is `AnimationNode::Read` on a fresh node; `rd` is the bytes from the
cursor on. -/
def AnimationNode.Read (rd : List Nat) : Except Error AnimationNode :=
  match readU16 rd with
  | .error err => throw err
  | .ok (numFrames, rd) =>
    match readU16 rd with
    | .error err => throw err
    | .ok (numPosFrames, rd) =>
      match readU16 rd with
      | .error err => throw err
      | .ok (numRotFrames, rd) =>
        match readU16s 9 rd with
        | .error err => throw err
        | .ok (null0, rd) =>
          match readU16s numPosFrames rd with
          | .error err => throw err
          | .ok (posFrames, rd) =>
            match readRaws 12 numPosFrames rd with
            | .error err => throw err
            | .ok (positions, rd) =>
              match readU16s numRotFrames rd with
              | .error err => throw err
              | .ok (rotFrames, rd) =>
                match readRaws 16 numRotFrames rd with
                | .error err => throw err
                | .ok (rotations, _) =>
                  pure { numFrames := numFrames, null0 := null0, posFrames := posFrames,
                         positions := positions, rotFrames := rotFrames,
                         rotations := rotations }

/-- Is `struct Animation` (arc_anim.cpp 84-98). -/
structure Animation where
  endFrame : Nat := 0
  frameRate : Nat := 0
  numNodes : Nat := 0
  nulls : List Nat := []
  nodes : List AnimationNode := []
  name : String := ""
  deriving DecidableEq, Repr

/-- Is `Animation::Read` on a fresh animation: `nodes` and `name` are not
read. -/
def Animation.Read (rd : List Nat) : Except Error Animation :=
  match readU32 rd with
  | .error err => throw err
  | .ok (endFrame, rd) =>
    match readU32 rd with
    | .error err => throw err
    | .ok (frameRate, rd) =>
      match readU32 rd with
      | .error err => throw err
      | .ok (numNodes, rd) =>
        match readU32s numNodes rd with
        | .error err => throw err
        | .ok (nulls, _) =>
          pure { endFrame := endFrame, frameRate := frameRate, numNodes := numNodes,
                 nulls := nulls }

/-- Is `GLTFMain::AnimStream` (arc_anim.cpp 47-55): the result is the
document and the slot of the animations stream. `NewStream` belongs to the
scene sink, which is outside the sources; the new stream is empty and takes
the next slot. -/
def AnimStream (main : GLTFMain) : GLTFMain × Nat :=
  if main.anims < 0 then
    ({ main with streams := main.streams ++ [[]], anims := main.streams.length },
      main.streams.length)
  else
    (main, main.anims.toNat)

/-- The loop of the lambda that computes `nodeId` (arc_anim.cpp 107-117):
`curId` counts the nodes passed over, and -1 is the answer when no name is
equal. `curId` is an `int32`; a document holds fewer than `2 ^ 31` nodes. -/
def nodeId.loop (nodeName : String) : List GltfNode → Int → Int
  | [], _ => -1
  | m :: nodes, curId =>
    if m.name = nodeName then curId else nodeId.loop nodeName nodes (curId + 1)

/-- The lambda that computes `nodeId`. -/
def nodeId (nodes : List GltfNode) (nodeName : String) : Int :=
  nodeId.loop nodeName nodes 0

/-- State of the loop of `LoadAnimation`: the document and `ganim`, which in
the source is a reference to the last element of `main.animations`. -/
structure LoadState where
  main : GLTFMain := {}
  ganim : GltfAnimation := {}
  deriving DecidableEq, Repr

/-- One turn of `for (auto &n : anim.nodes)` (arc_anim.cpp 106-194); `slot`
is the slot of the animations stream. The values written to the stream are
floats and are left out, and with them the byte offsets and the bounds of
the accessors. -/
def loadNode (slot : Nat) (st : LoadState) (n : AnimationNode) : LoadState :=
  let nodeId := nodeId st.main.nodes n.nodeName
  if nodeId < 0 then
    { st with main := { st.main with
        warnings := st.main.warnings ++ ["Cannot find node: " ++ n.nodeName] } }
  else
    let st :=
      if n.posFrames.length > 0 then
        let chan : GltfChannel :=
          { node := nodeId, path := "translation", sampler := st.ganim.samplers.length }
        let (main, input) := NewAccessor st.main
          { bufferView := slot, count := n.posFrames.length, type := AccessorType.Scalar,
            componentType := ComponentType.Float }
        let (main, output) := NewAccessor main
          { bufferView := slot, count := n.posFrames.length, type := AccessorType.Vec3,
            componentType := ComponentType.Float }
        { main := main
          ganim := { st.ganim with
            channels := st.ganim.channels ++ [chan]
            samplers := st.ganim.samplers ++ [{ input := input, output := output }] } }
      else
        st
    if n.rotFrames.length > 0 then
      let chan : GltfChannel :=
        { node := nodeId, path := "rotation", sampler := st.ganim.samplers.length }
      let (main, input) := NewAccessor st.main
        { bufferView := slot, count := n.rotFrames.length, type := AccessorType.Scalar,
          componentType := ComponentType.Float }
      let (main, output) := NewAccessor main
        { bufferView := slot, count := n.rotFrames.length, type := AccessorType.Vec4,
          componentType := ComponentType.Short, normalized := true }
      { main := main
        ganim := { st.ganim with
          channels := st.ganim.channels ++ [chan]
          samplers := st.ganim.samplers ++ [{ input := input, output := output }] } }
    else
      st

/-- Is `LoadAnimation` (arc_anim.cpp 100-195): the animation is stored in
`main.animations` behind those already there. -/
def LoadAnimation (anim : Animation) (main : GLTFMain) : GLTFMain :=
  let (main, slot) := AnimStream main
  let st := anim.nodes.foldl (loadNode slot) { main := main, ganim := { name := anim.name } }
  { st.main with animations := st.main.animations ++ [st.ganim] }

/-- The channels one animation node stands for when its target is node
`i`: a translation channel when it has position frames, then a rotation
channel when it has rotation frames. -/
def channelKeys (i : Int) (n : AnimationNode) : List (Int × String) :=
  (if n.posFrames.length > 0 then [(i, "translation")] else []) ++
    (if n.rotFrames.length > 0 then [(i, "rotation")] else [])

/-! ## Animation records of arc_anim `DoArc` (arc_anim.cpp 224-265) -/

/-- The `switch` of arc_anim `DoArc` (arc_anim.cpp 241-258) for one entry
that reached it, with the `fileName` it was given; `stream` is the bytes
from the relative origin on and `rd.Seek(e.offset)` moves the cursor there.
A name read outside the name blob and `animations.back()` on an empty
vector are undefined. -/
def ArcAnim.animStep (stream : List Nat) (animations : List Animation)
    (r : Entry × Option String) : Except Error (List Animation) :=
  match r.2 with
  | none => throw Error.Undefined
  | some fileName =>
    if r.1.type = ArcType.Animation then
      match Animation.Read (stream.drop r.1.offset) with
      | .error err => throw err
      | .ok a => pure (animations ++ [{ a with name := fileName }])
    else if r.1.type = ArcType.AnimatedNode then
      match animations.getLast? with
      | none => throw Error.Undefined
      | some a =>
        match AnimationNode.Read (stream.drop r.1.offset) with
        | .error err => throw err
        | .ok n =>
          pure (animations.dropLast ++
            [{ a with nodes := a.nodes ++ [{ n with nodeName := fileName }] }])
    else
      pure animations

/-- The loop `for (auto &e : entries)` of arc_anim `DoArc` over the entries
that reach the `switch`, in table order. -/
def ArcAnim.animLoop (stream : List Nat) :
    List (Entry × Option String) → List Animation → Except Error (List Animation)
  | [], animations => pure animations
  | r :: rs, animations =>
    match ArcAnim.animStep stream animations r with
    | .error err => throw err
    | .ok animations => ArcAnim.animLoop stream rs animations

/-- The vector `animations` of arc_anim `DoArc` when its entry loop ends;
it starts empty. -/
def ArcAnim.DoArc.animations (stream : List Nat) (entryNames : List Char)
    (entries : List Entry) : Except Error (List Animation) :=
  ArcAnim.animLoop stream (ArcAnim.DoArc entryNames entries) []

/-- The close of arc_anim `DoArc` (arc_anim.cpp 263-265): every animation is
loaded into the document, in order. -/
def ArcAnim.DoArc.load (stream : List Nat) (entryNames : List Char) (entries : List Entry)
    (main : GLTFMain) : Except Error GLTFMain :=
  match ArcAnim.DoArc.animations stream entryNames entries with
  | .error err => throw err
  | .ok animations => pure (animations.foldl (fun main a => LoadAnimation a main) main)

/-- Spec side of positional ownership: the AnimatedNode records of `rs`
that lie before the first Animation record of `rs`, or before the end when
there is none. -/
def ownedNodes (rs : List (Entry × Option String)) : List (Entry × Option String) :=
  (rs.takeWhile (fun r => r.1.type ≠ ArcType.Animation)).filter
    (fun r => r.1.type = ArcType.AnimatedNode)

/-- Spec side of positional ownership: every Animation record, in table
order, with the AnimatedNode records lying between it and the next
Animation record (or the table end). -/
def positionalOwnership :
    List (Entry × Option String) → List ((Entry × Option String) × List (Entry × Option String))
  | [] => []
  | r :: rs =>
    if r.1.type = ArcType.Animation then
      (r, ownedNodes rs) :: positionalOwnership rs
    else
      positionalOwnership rs

/-- Spec side: the animation node an AnimatedNode record stands for, which
is its payload named after the record. -/
def ownedNode (stream : List Nat) (r : Entry × Option String) : AnimationNode :=
  { (match AnimationNode.Read (stream.drop r.1.offset) with
     | .ok n => n
     | .error _ => {}) with nodeName := r.2.getD "" }

/-- Spec side: the animation an Animation record and its owned records
stand for. -/
def ownedAnimation (stream : List Nat)
    (o : (Entry × Option String) × List (Entry × Option String)) : Animation :=
  { (match Animation.Read (stream.drop o.1.1.offset) with
     | .ok a => a
     | .error _ => {}) with
    name := o.1.2.getD ""
    nodes := o.2.map (ownedNode stream) }

/-! ## Index files: cursor, context and sink (cdfiles_extract.cpp) -/

/-- Modelled from the spec: the binary cursor (`BinReaderRef_e`) is outside
the sources; the spec lists its contract as `read`, `readContainer`,
`seek`, `skip`, `tell`, `push`/`pop` of position and endianness,
`setRelativeOrigin` and `swapEndian` with its query. `str` is the whole
stream, `pos` the absolute position, `origin` the relative origin and
`stack` what `push` saved. -/
structure BinReader where
  str : List Nat := []
  pos : Nat := 0
  origin : Nat := 0
  swapped : Bool := false
  stack : List (Nat × Bool) := []
  deriving DecidableEq, Repr

/-- Modelled from the spec: `read(T)` of the cursor for one byte. -/
def BinReader.Read8 (rd : BinReader) : Except Error (Nat × BinReader) :=
  match rd.str.drop rd.pos with
  | b0 :: _ => pure (b0, { rd with pos := rd.pos + 1 })
  | _ => throw Error.EndOfStream

/-- Modelled from the spec: `read(T)` of the cursor for a 32-bit value,
lowest byte first, or highest byte first once the cursor swaps. -/
def BinReader.Read32 (rd : BinReader) : Except Error (Nat × BinReader) :=
  match rd.str.drop rd.pos with
  | b0 :: b1 :: b2 :: b3 :: _ =>
    pure (if rd.swapped then b3 + 256 * b2 + 65536 * b1 + 16777216 * b0
          else b0 + 256 * b1 + 65536 * b2 + 16777216 * b3,
      { rd with pos := rd.pos + 4 })
  | _ => throw Error.EndOfStream

/-- Modelled from the spec: `readContainer(T, count)` of the cursor for
32-bit values. -/
def BinReader.Read32s : Nat → BinReader → Except Error (List Nat × BinReader)
  | 0, rd => pure ([], rd)
  | count + 1, rd =>
    match rd.Read32 with
    | .error err => throw err
    | .ok (w, rd) =>
      match BinReader.Read32s count rd with
      | .error err => throw err
      | .ok (ws, rd) => pure (w :: ws, rd)

/-- Modelled from the spec: `readContainer(T, count)` of the cursor for
bytes, which are never swapped. -/
def BinReader.ReadBytes (count : Nat) (rd : BinReader) : Except Error (List Nat × BinReader) :=
  if rd.pos + count ≤ rd.str.length then
    pure ((rd.str.drop rd.pos).take count, { rd with pos := rd.pos + count })
  else
    throw Error.EndOfStream

/-- Modelled from the spec: the cursor's read of a string that ends at a
NUL byte; the cursor stops behind the NUL. -/
def BinReader.ReadString (rd : BinReader) : Except Error (List Nat × BinReader) :=
  let s := (rd.str.drop rd.pos).takeWhile (fun b => b != 0)
  if rd.pos + s.length < rd.str.length then
    pure (s, { rd with pos := rd.pos + s.length + 1 })
  else
    throw Error.EndOfStream

/-- Modelled from the spec: `skip(rel)` of the cursor. -/
def BinReader.Skip (rd : BinReader) (rel : Int) : BinReader :=
  { rd with pos := ((rd.pos : Int) + rel).toNat }

/-- Modelled from the spec: `seek(abs)` of the cursor, which counts from
the relative origin. -/
def BinReader.Seek (rd : BinReader) (abs : Nat) : BinReader :=
  { rd with pos := rd.origin + abs }

/-- Modelled from the spec: `tell()` of the cursor, which counts from the
relative origin. -/
def BinReader.Tell (rd : BinReader) : Nat :=
  rd.pos - rd.origin

/-- Modelled from the spec: `push()` of the cursor. -/
def BinReader.Push (rd : BinReader) : BinReader :=
  { rd with stack := (rd.pos, rd.swapped) :: rd.stack }

/-- Modelled from the spec: `pop()` of the cursor. -/
def BinReader.Pop (rd : BinReader) : BinReader :=
  match rd.stack with
  | [] => rd
  | (pos, swapped) :: stack => { rd with pos := pos, swapped := swapped, stack := stack }

/-- Modelled from the spec: `setRelativeOrigin(offset)` of the cursor; the
cursor stands at the new origin afterwards. -/
def BinReader.SetRelativeOrigin (rd : BinReader) (offset : Nat) : BinReader :=
  { rd with origin := offset, pos := offset }

/-- Modelled from the spec: `swapEndian(bool)` of the cursor. -/
def BinReader.SwapEndian (rd : BinReader) (swap : Bool) : BinReader :=
  { rd with swapped := swap }

/-- Modelled from the spec: `swappedEndian()` of the cursor. -/
def BinReader.SwappedEndian (rd : BinReader) : Bool :=
  rd.swapped

/-- A `std::string` made from raw bytes. -/
def bytesToString (bytes : List Nat) : String :=
  String.mk (bytes.map Char.ofNat)

/-- Is `buffer.data() + offset` read as a C string: the bytes from
`offset` up to the first NUL. The buffer of `n` bytes is followed by one
NUL; an offset behind it is outside the buffer. -/
def cstrBytes (buffer : List Nat) (offset : Nat) : Option String :=
  if offset ≤ buffer.length then
    some (bytesToString ((buffer.drop offset).takeWhile (fun b => b != 0)))
  else
    none

/-- Modelled from the spec: the application context (`AppContext`) is
outside the sources. `stream` is the index file handed to `GetStream`,
`files` the companion files `RequestFile` can open, by name. -/
structure AppContext where
  stream : List Nat := []
  files : List (String × List Nat) := []
  deriving DecidableEq, Repr

/-- Modelled from the spec: `RequestFile(name)` of the context, which
raises `FileNotFoundError` for a companion file that is not there. -/
def AppContext.RequestFile (ctx : AppContext) (name : String) : Except Error (List Nat) :=
  match ctx.files.lookup name with
  | some str => pure str
  | none => throw (Error.FileNotFoundError name)

/-- The calls the extraction sink (`ExtractContext`) receives. -/
inductive SinkCall where
  | NewFile (fileName : String)
  | SendData (buffer : List Nat)
  deriving DecidableEq, Repr

/-- What a run leaves behind: the calls the sink received, in order, and the
exception that ended the run, if one did. -/
structure Extracted where
  calls : List SinkCall := []
  error : Option Error := none
  deriving DecidableEq, Repr

/-- Is `fileName.ends_with(".ARC")`. -/
def endsWithARC (fileName : String) : Bool :=
  ".ARC".data.isSuffixOf fileName.data

/-- Is `buffer.at(pos) = value` on a `std::string`. -/
def bufferSetAt (buffer : List Nat) (pos value : Nat) : Except Error (List Nat) :=
  if pos < buffer.length then pure (buffer.set pos value) else throw Error.OutOfRange

/-- A `std::istream` over a companion file: its content, the read position
and the fail bit. -/
structure IStream where
  data : List Nat := []
  pos : Nat := 0
  fail : Bool := false
  deriving DecidableEq, Repr

/-- Is `str->seekg(pos)`: a stream that has failed does not move. -/
def IStream.seekg (str : IStream) (pos : Nat) : IStream :=
  if str.fail then str else { str with pos := pos }

/-- Is `buffer.resize(size)` on a `std::string`: new bytes are zero. -/
def resizeBuffer (buffer : List Nat) (size : Nat) : List Nat :=
  buffer.take size ++ List.replicate (size - buffer.length) 0

/-- Is `str->read(buffer.data(), buffer.size())`: a stream that has failed
stores nothing; otherwise the bytes the stream still has are stored at the
front of the buffer, and a short read sets the fail bit. -/
def IStream.read (str : IStream) (buffer : List Nat) : List Nat × IStream :=
  if str.fail then
    (buffer, str)
  else
    let got := (str.data.drop str.pos).take buffer.length
    (got ++ buffer.drop got.length,
      { str with pos := str.pos + got.length, fail := decide (got.length < buffer.length) })

/-- State of an extraction loop: the `std::string buffer` the loop reuses,
the companion streams the loop reads with `seekg` and `read`, the calls the
sink received and the exception that ended the loop, if one did. -/
structure LoopState where
  buffer : List Nat := []
  streams : List IStream := []
  calls : List SinkCall := []
  error : Option Error := none
  deriving DecidableEq, Repr

/-- What a loop that ended leaves behind. -/
def LoopState.extracted (st : LoopState) : Extracted :=
  { calls := st.calls, error := st.error }

/-- Is `ectx->NewFile(fileName)`. -/
def LoopState.NewFile (st : LoopState) (fileName : String) : LoopState :=
  { st with calls := st.calls ++ [SinkCall.NewFile fileName] }

/-- The block every extraction loop carries in front of `SendData`,
`if (fileName.ends_with(".ARC")) { if (rd.SwappedEndian()) buffer.at(4) =
V; else buffer.at(7) = V; }`, where `version` is the constant `V` of the
extractor (1, 3, 4, 5 or 6). -/
def patchArc (version : Nat) (swapped : Bool) (fileName : String) (buffer : List Nat) :
    Except Error (List Nat) :=
  if endsWithARC fileName then
    bufferSetAt buffer (if swapped then 4 else 7) version
  else
    pure buffer

/-- The patch block followed by `ectx->SendData(buffer)`. -/
def LoopState.SendPatched (st : LoopState) (version : Nat) (swapped : Bool)
    (fileName : String) : LoopState :=
  match patchArc version swapped fileName st.buffer with
  | .error err => { st with error := some err }
  | .ok buffer => { st with buffer := buffer, calls := st.calls ++ [SinkCall.SendData buffer] }

/-! ## Index files: header (cdfiles_extract.cpp 38-124) -/

/-- Is `Platform::AUTO`. -/
def Platform.AUTO : Nat := CompileFourCC 'f' 'i' 'l' 'e'
/-- Is `Platform::PC`. -/
def Platform.PC : Nat := CompileFourCC 'f' 'i' 'l' 'C'
/-- Is `Platform::PS2`. -/
def Platform.PS2 : Nat := CompileFourCC 'f' 'i' 'l' 'P'
/-- Is `Platform::XBOX`. -/
def Platform.XBOX : Nat := CompileFourCC 'f' 'i' 'l' 'X'
/-- Is `Platform::PS3`. -/
def Platform.PS3 : Nat := CompileFourCC 'f' 'i' 'l' '3'
/-- Is `Platform::X360`. -/
def Platform.X360 : Nat := CompileFourCC 'f' 'i' 'l' 'E'
/-- Is `Platform::WII`. -/
def Platform.WII : Nat := CompileFourCC 'f' 'i' 'l' 'N'

/-- The case labels of the `switch (id)` of `HeaderBase::Read`. -/
def Platform.all : List Nat :=
  [Platform.AUTO, Platform.PC, Platform.PS2, Platform.XBOX, Platform.PS3, Platform.X360,
   Platform.WII]

/-- Is `struct HeaderBase`. -/
structure HeaderBase where
  id : Nat := 0
  version : Nat := 0
  deriving DecidableEq, Repr

/-- Is `HeaderBase::Read` (cdfiles_extract.cpp 52-76): the result is the
header and the cursor as the call leaves it. -/
def HeaderBase.Read (rd : BinReader) : Except Error (HeaderBase × BinReader) :=
  match rd.Read32 with
  | .error err => throw err
  | .ok (id, rd) =>
    if id ∈ Platform.all then
      match rd.Read32 with
      | .error err => throw err
      | .ok (version, rd) =>
        if version > 0x10000 then
          match ((rd.Skip (-4)).SwapEndian true).Read32 with
          | .error err => throw err
          | .ok (version, rd) => pure ({ id := id, version := version }, rd)
        else
          pure ({ id := id, version := version }, rd)
    else
      throw (Error.InvalidHeaderError id)

/-- Is `enum class EntryType`. -/
def EntryType.Stream : Nat := 0
/-- Is `EntryType::HDDFile`. -/
def EntryType.HDDFile : Nat := 2
/-- Is `EntryType::StreamFile`. -/
def EntryType.StreamFile : Nat := 4
/-- Is `EntryType::StreamHdFile`. -/
def EntryType.StreamHdFile : Nat := 5

/-- Is `struct FileId`, a 32-bit word of two bit fields: `id` takes the
low 28 bits and `type` the high 4, as the compilers of the target lay bit
fields out. -/
structure FileId where
  id : Nat := 0
  type : Nat := 0
  deriving DecidableEq, Repr

/-- The bit fields of a 32-bit word. -/
def FileId.ofWord (w : Nat) : FileId :=
  { id := w % 2 ^ 28, type := w / 2 ^ 28 % 16 }

/-- The name table block that `ExtractV3`, `ExtractV4` and `ExtractV5`
share (cdfiles_extract.cpp 226-233, 635-642, 750-757): `count` offsets,
each followed at once by the string it points to. -/
def readNames (namesBegin : Nat) : Nat → BinReader → Except Error (List String × BinReader)
  | 0, rd => pure ([], rd)
  | count + 1, rd =>
    match rd.Read32 with
    | .error err => throw err
    | .ok (offset, rd) =>
      match ((rd.Push).Seek (namesBegin + offset)).ReadString with
      | .error err => throw err
      | .ok (name, rd) =>
        match readNames namesBegin count rd.Pop with
        | .error err => throw err
        | .ok (names, rd) => pure (bytesToString name :: names, rd)

/-- The whole name table block (cdfiles_extract.cpp 217-236): the two
counts, the names and the skip over the string bytes. -/
def readNameTable (rd : BinReader) : Except Error (List String × BinReader) :=
  match rd.Read32 with
  | .error err => throw err
  | .ok (numNames, rd) =>
    match rd.Read32 with
    | .error err => throw err
    | .ok (namesBufferSize, rd) =>
      match readNames (rd.Tell + numNames * 4) numNames rd with
      | .error err => throw err
      | .ok (names, rd) => pure (names, rd.Skip namesBufferSize)

/-! ## Index files: the tree variants V3, V4 and V5 (cdfiles_extract.cpp 79-283, 535-795) -/

/-- Is `operator[]` on a vector or an array: outside it the read is
undefined. -/
def vecAt {α : Type} (xs : List α) (i : Nat) : Except Error α :=
  match xs[i]? with
  | some x => pure x
  | none => throw Error.Undefined

/-- Is `at` on a vector. -/
def vecAtChecked {α : Type} (xs : List α) (i : Nat) : Except Error α :=
  match xs[i]? with
  | some x => pure x
  | none => throw Error.OutOfRange

/-- The local variables the file loops of `ExtractV3`, `ExtractV4` and
`ExtractV5` read. `numEntries` is `hdr.numEntries` in V3 and `hdr.numFiles`
in V4 and V5; `useStreamIds` is `streamParts` in V3 and `platform ==
Platform::X360` in V4 and V5; `srs` holds the content of each data stream,
or nothing for a reader without a stream; `rd` is the index cursor behind
`SetRelativeOrigin`. -/
structure TreeDir where
  alignment : Nat := 0
  numEntries : Nat := 0
  fileOffsets : List Nat := []
  fileSizes : List Nat := []
  treeOffsets : List Nat := []
  fileIds : List FileId := []
  useStreamIds : Bool := false
  streamIds : List Nat := []
  names : List String := []
  srs : List (Option (List Nat)) := []
  rd : BinReader := {}
  deriving DecidableEq, Repr

/-- The block `if (id.type == EntryType::StreamFile) { ... }` that opens a
turn of the file loops (cdfiles_extract.cpp 261-266, 657-662, 772-777): the
bytes `sr.ReadContainer(buffer, fileSizes[id.id])` reads behind
`sr.Seek(fileOffsets[id.id] * hdr.alignment)`, a 32-bit product. -/
def TreeDir.readFile (d : TreeDir) (id : FileId) (f : Nat) : Except Error (List Nat) :=
  match (if d.useStreamIds then vecAt d.streamIds f else pure 0) with
  | .error err => throw err
  | .ok streamId =>
    match vecAt d.srs streamId with
    | .error err => throw err
    | .ok none => throw Error.Undefined
    | .ok (some str) =>
      match vecAt d.fileOffsets id.id with
      | .error err => throw err
      | .ok offset =>
        match vecAt d.fileSizes id.id with
        | .error err => throw err
        | .ok size => readBytes str ((offset * d.alignment) % 2 ^ 32) size

/-- Is `rd.Seek(treeOffsets[f]); std::string fileName = CatName(rd,
names);`. -/
def TreeDir.fileName (d : TreeDir) (f : Nat) : Except Error String :=
  match vecAt d.treeOffsets f with
  | .error err => throw err
  | .ok treeOffset =>
    match CatName (d.rd.str.drop (d.rd.Seek treeOffset).pos) d.names with
    | .error err => throw err
    | .ok (fileName, _) => pure fileName

/-- One turn of the file loop of `ExtractV3` (`version` 3,
cdfiles_extract.cpp 259-282), `ExtractV4` (`version` 4, 770-794) and
`ExtractV5` (`version` 5, 655-679), which differ in the constant only. -/
def TreeDir.step (version : Nat) (d : TreeDir) (st : LoopState) (f : Nat) : LoopState :=
  match vecAt d.fileIds f with
  | .error err => { st with error := some err }
  | .ok id =>
    if id.type = EntryType.StreamFile then
      match d.readFile id f with
      | .error err => { st with error := some err }
      | .ok buffer =>
        match d.fileName f with
        | .error err => { st with buffer := buffer, error := some err }
        | .ok fileName =>
          (({ st with buffer := buffer } : LoopState).NewFile fileName).SendPatched version
            d.rd.SwappedEndian fileName
    else
      match d.fileName f with
      | .error err => { st with error := some err }
      | .ok _ => st

/-- A `for` loop over `items` that an exception ends. -/
def runLoop {α : Type} (step : LoopState → α → LoopState) : List α → LoopState → LoopState
  | [], st => st
  | x :: items, st =>
    match (step st x).error with
    | some _ => step st x
    | none => runLoop step items (step st x)

/-- The file loop `for (size_t f = 0; f < numEntries; f++)` of the tree
variants, from an empty buffer. -/
def TreeDir.loop (version : Nat) (d : TreeDir) : Extracted :=
  (runLoop (TreeDir.step version d) (List.range d.numEntries) {}).extracted

/-- Is `struct HeaderV3`; `codeVersion` is kept as the word read. -/
structure HeaderV3 where
  codeVersion : Nat := 0
  unk0 : List Nat := []
  numSearchPaths : Nat := 0
  searchPathsSize : Nat := 0
  numFiles : Nat := 0
  archivePathLength : Nat := 0
  alignment : Nat := 0
  numEntries : Nat := 0
  unk3 : Nat := 0
  null0 : List Nat := []
  deriving DecidableEq, Repr

/-- Is `rd.Read(hdr)` for a `HeaderV3`: twelve 32-bit words. -/
def HeaderV3.Read (rd : BinReader) : Except Error (HeaderV3 × BinReader) :=
  match rd.Read32s 12 with
  | .ok ([w0, w1, w2, w3, w4, w5, w6, w7, w8, w9, w10, w11], rd) =>
    pure ({ codeVersion := w0, unk0 := [w1, w2], numSearchPaths := w3, searchPathsSize := w4,
            numFiles := w5, archivePathLength := w6, alignment := w7, numEntries := w8,
            unk3 := w9, null0 := [w10, w11] }, rd)
  | .ok _ => throw Error.EndOfStream
  | .error err => throw err

/-- The lambda that opens `streams[0]` in `ExtractV3`
(cdfiles_extract.cpp 179-190): the stream and `streamParts`. -/
def ExtractV3.firstStream (ctx : AppContext) : Except Error (List Nat × Bool) :=
  match ctx.RequestFile "archive.ar" with
  | .ok str => pure (str, false)
  | .error _ =>
    match ctx.RequestFile "ARCHIVE.AR" with
    | .ok str => pure (str, false)
    | .error _ =>
      match ctx.RequestFile "archive0.ar" with
      | .ok str => pure (str, true)
      | .error err => throw err

/-- The loop over `streamIds` under `if (streamParts)`
(cdfiles_extract.cpp 206-211): the array `usedStreams`. -/
def ExtractV3.usedStreams : List Nat → List Bool → Except Error (List Bool)
  | [], used => pure used
  | s :: streamIds, used =>
    if s > 3 then
      throw (Error.RuntimeError "Invalid data")
    else
      ExtractV3.usedStreams streamIds (used.set s true)

/-- One element of `srs` behind the first (cdfiles_extract.cpp 242-255):
with `streamParts` the reader of part `p`, which has a stream only when the
part was requested; without, an empty reader. -/
def ExtractV3.part (ctx : AppContext) (streamParts : Bool) (used : List Bool) (p : Nat) :
    Except Error (Option (List Nat)) :=
  if streamParts ∧ used.getD p false then
    match ctx.RequestFile ("archive" ++ toString p ++ ".ar") with
    | .ok str => pure (some str)
    | .error err => throw err
  else
    pure none

/-- The part of `ExtractV3` in front of its file loop
(cdfiles_extract.cpp 153-257). -/
def ExtractV3.dir (ctx : AppContext) (rd : BinReader) (platform : Nat) :
    Except Error TreeDir := do
  let (hdr, rd) ← HeaderV3.Read rd
  let (_, rd) ← rd.Read32s hdr.numSearchPaths
  let (_, rd) ← rd.ReadBytes hdr.searchPathsSize
  let (_, rd) ← rd.ReadBytes hdr.archivePathLength
  let (fileOffsets, rd) ← rd.Read32s hdr.numFiles
  let (fileSizes, rd) ← rd.Read32s hdr.numFiles
  let (treeOffsets, rd) ← rd.Read32s hdr.numEntries
  let (fileIds, rd) ← rd.Read32s hdr.numEntries
  let (stream0, streamParts) ← ExtractV3.firstStream ctx
  let (_, rd) ←
    (if platform ≠ Platform.AUTO ∨ (platform = Platform.AUTO ∧ rd.SwappedEndian) then
      rd.Read32s hdr.numEntries
    else
      pure ([], rd))
  let (streamIds, rd) ←
    (if (platform = Platform.AUTO ∧ ¬ rd.SwappedEndian) ∨ platform = Platform.XBOX then
      rd.Read32s hdr.numEntries
    else
      pure ([], rd))
  let used ←
    (if streamParts then ExtractV3.usedStreams streamIds [false, false, false, false]
    else pure [false, false, false, false])
  let (names, rd) ← readNameTable rd
  let rd := rd.SetRelativeOrigin rd.Tell
  let part1 ← ExtractV3.part ctx streamParts used 1
  let part2 ← ExtractV3.part ctx streamParts used 2
  let part3 ← ExtractV3.part ctx streamParts used 3
  pure { alignment := hdr.alignment, numEntries := hdr.numEntries, fileOffsets := fileOffsets,
         fileSizes := fileSizes, treeOffsets := treeOffsets,
         fileIds := fileIds.map FileId.ofWord, useStreamIds := streamParts,
         streamIds := streamIds, names := names,
         srs := [some stream0, part1, part2, part3], rd := rd }

/-- Is `ExtractV3(ctx, rd, platform)`. -/
def ExtractV3 (ctx : AppContext) (rd : BinReader) (platform : Nat) : Extracted :=
  match ExtractV3.dir ctx rd platform with
  | .error err => { error := some err }
  | .ok d => d.loop 3

/-- Is `struct HeaderV4`. -/
structure HeaderV4 where
  unk2 : Nat := 0
  unk4 : Nat := 0
  rootPathSize : Nat := 0
  unk3 : Nat := 0
  numSearchPaths : Nat := 0
  workingPathSize : Nat := 0
  numTotalFiles : Nat := 0
  archivePathLength : Nat := 0
  alignment : Nat := 0
  numFiles : Nat := 0
  unkSize : Nat := 0
  deriving DecidableEq, Repr

/-- Is `rd.Read(hdr)` for a `HeaderV4`: eleven 32-bit words. -/
def HeaderV4.Read (rd : BinReader) : Except Error (HeaderV4 × BinReader) :=
  match rd.Read32s 11 with
  | .ok ([w0, w1, w2, w3, w4, w5, w6, w7, w8, w9, w10], rd) =>
    pure ({ unk2 := w0, unk4 := w1, rootPathSize := w2, unk3 := w3, numSearchPaths := w4,
            workingPathSize := w5, numTotalFiles := w6, archivePathLength := w7,
            alignment := w8, numFiles := w9, unkSize := w10 }, rd)
  | .ok _ => throw Error.EndOfStream
  | .error err => throw err

/-- The lambda that opens `streams[0]` in `ExtractV4` and `ExtractV5`
together with the array `srs` (cdfiles_extract.cpp 609-622, 724-737). -/
def openStreams (ctx : AppContext) (platform : Nat) (archivePath : List Nat) :
    Except Error (List (Option (List Nat))) :=
  if platform ≠ Platform.X360 then
    match ctx.RequestFile (bytesToString archivePath) with
    | .ok str => pure [some str, none]
    | .error err => throw err
  else
    match ctx.RequestFile "archive1.ar" with
    | .error err => throw err
    | .ok str1 =>
      match ctx.RequestFile "archive0.ar" with
      | .error err => throw err
      | .ok str0 => pure [some str0, some str1]

/-- The part of `ExtractV4` in front of its file loop
(cdfiles_extract.cpp 683-768). -/
def ExtractV4.dir (ctx : AppContext) (rd : BinReader) (platform : Nat) :
    Except Error TreeDir := do
  let (_, rd) ← rd.Read32
  let (hdr, rd) ← HeaderV4.Read rd
  let (_, rd) ← rd.Read32s hdr.numSearchPaths
  let (_, rd) ← rd.Read32s 2
  let (_, rd) ← rd.ReadBytes hdr.workingPathSize
  let (archivePath, rd) ← rd.ReadBytes hdr.archivePathLength
  let (fileOffsets, rd) ← rd.Read32s hdr.numTotalFiles
  let (fileSizes, rd) ← rd.Read32s hdr.numTotalFiles
  let (treeOffsets, rd) ← rd.Read32s hdr.numFiles
  let (fileIds, rd) ← rd.Read32s hdr.numFiles
  let (_, rd) ← rd.Read32s hdr.numFiles
  let (streamIds, rd) ←
    (if platform = Platform.X360 then
      rd.Read32s hdr.numFiles
    else
      pure ([], rd.Skip ((hdr.numFiles * hdr.unk2 * 4 % 2 ^ 32 : Nat) : Int)))
  let srs ← openStreams ctx platform archivePath
  let (names, rd) ← readNameTable rd
  let (_, rd) ← rd.Read32
  let rd := rd.Skip ((128 * (hdr.unk2 + 1) % 2 ^ 32 : Nat) : Int)
  let rd := rd.SetRelativeOrigin rd.Tell
  pure { alignment := hdr.alignment, numEntries := hdr.numFiles, fileOffsets := fileOffsets,
         fileSizes := fileSizes, treeOffsets := treeOffsets,
         fileIds := fileIds.map FileId.ofWord,
         useStreamIds := decide (platform = Platform.X360),
         streamIds := streamIds, names := names, srs := srs, rd := rd }

/-- Is `ExtractV4(ctx, rd, platform)`. -/
def ExtractV4 (ctx : AppContext) (rd : BinReader) (platform : Nat) : Extracted :=
  match ExtractV4.dir ctx rd platform with
  | .error err => { error := some err }
  | .ok d => d.loop 4

/-- Is `if (archivePath.starts_with("#/")) archivePath.erase(0, 2);`. -/
def stripHashSlash : List Nat → List Nat
  | 35 :: 47 :: archivePath => archivePath
  | archivePath => archivePath

/-- The part of `ExtractV5` in front of its file loop
(cdfiles_extract.cpp 552-653). -/
def ExtractV5.dir (ctx : AppContext) (rd : BinReader) (platform : Nat) :
    Except Error TreeDir := do
  let (unk1, rd) ← rd.Read32
  let (_, rd) ← (if unk1 < 4 then rd.Read32 else pure (0, rd))
  let (hdr, rd) ← HeaderV4.Read rd
  let (_, rd) ←
    (if unk1 > 4 then rd.Read32s hdr.numSearchPaths else rd.ReadBytes hdr.rootPathSize)
  let (_, rd) ← rd.Read32s 2
  let (_, rd) ← rd.ReadBytes hdr.workingPathSize
  let (archivePath, rd) ← rd.ReadBytes hdr.archivePathLength
  let archivePath := stripHashSlash archivePath
  let (fileOffsets, rd) ← rd.Read32s hdr.numTotalFiles
  let (fileSizes, rd) ← rd.Read32s hdr.numTotalFiles
  let (treeOffsets, rd) ← rd.Read32s hdr.numFiles
  let (fileIds, rd) ← rd.Read32s hdr.numFiles
  let (_, rd) ← rd.Read32s hdr.numFiles
  let (streamIds, rd) ←
    (if platform = Platform.X360 then
      match rd.Read32s hdr.numFiles with
      | .error err => throw err
      | .ok (streamIds, rd) =>
        match rd.ReadBytes hdr.numFiles with
        | .error err => throw err
        | .ok (_, rd) => pure (streamIds, rd)
    else if unk1 < 4 then
      pure ([], rd.Skip
        ((hdr.numFiles * ((if unk1 = 3 then 1 else 0) + 1) * 4 % 2 ^ 32 : Nat) : Int))
    else
      pure ([], rd))
  let srs ← openStreams ctx platform archivePath
  let (names, rd) ← readNameTable rd
  let (_, rd) ← rd.Read32
  let rd := rd.Skip 128
  let rd := rd.SetRelativeOrigin rd.Tell
  pure { alignment := hdr.alignment, numEntries := hdr.numFiles, fileOffsets := fileOffsets,
         fileSizes := fileSizes, treeOffsets := treeOffsets,
         fileIds := fileIds.map FileId.ofWord,
         useStreamIds := decide (platform = Platform.X360),
         streamIds := streamIds, names := names, srs := srs, rd := rd }

/-- Is `ExtractV5(ctx, rd, platform)`. -/
def ExtractV5 (ctx : AppContext) (rd : BinReader) (platform : Nat) : Extracted :=
  match ExtractV5.dir ctx rd platform with
  | .error err => { error := some err }
  | .ok d => d.loop 5

/-! ## Index files: variant V6 (cdfiles_extract.cpp 285-384) -/

/-- Is `struct File`. -/
structure File where
  null0 : Nat := 0
  folderNameOffset : Nat := 0
  fileNameOffset : Nat := 0
  dataSize : Nat := 0
  uncompressedSize : Nat := 0
  null1 : Nat := 0
  dataOffset : Nat := 0
  archiveIndex : Nat := 0
  type : Nat := 0
  null2 : Nat := 0
  unk4 : Nat := 0
  deriving DecidableEq, Repr

/-- Is `rd.Read(file)` for a `File`: seven 32-bit words, which the cursor
swaps, and four bytes. -/
def File.Read (rd : BinReader) : Except Error (File × BinReader) :=
  match rd.Read32s 7 with
  | .ok ([w0, w1, w2, w3, w4, w5, w6], rd) =>
    match rd.ReadBytes 4 with
    | .ok ([b0, b1, b2, b3], rd) =>
      pure ({ null0 := w0, folderNameOffset := w1, fileNameOffset := w2, dataSize := w3,
              uncompressedSize := w4, null1 := w5, dataOffset := w6, archiveIndex := b0,
              type := b1, null2 := b2, unk4 := b3 }, rd)
    | .ok _ => throw Error.EndOfStream
    | .error err => throw err
  | .ok _ => throw Error.EndOfStream
  | .error err => throw err

/-- Is `rd.ReadContainer(files, count)`. -/
def File.ReadMany : Nat → BinReader → Except Error (List File × BinReader)
  | 0, rd => pure ([], rd)
  | count + 1, rd =>
    match File.Read rd with
    | .error err => throw err
    | .ok (f, rd) =>
      match File.ReadMany count rd with
      | .error err => throw err
      | .ok (fs, rd) => pure (f :: fs, rd)

/-- The loop `for (auto &a : archives)` of `ExtractV6`: one stream for
each archive, named by the C string at `archiveNameOffset`. -/
def ExtractV6.openArchives (ctx : AppContext) (nameBuffer : List Nat) :
    List Nat → Except Error (List IStream)
  | [] => pure []
  | archiveNameOffset :: archives =>
    match cstrBytes nameBuffer archiveNameOffset with
    | none => throw Error.Undefined
    | some name =>
      match ctx.RequestFile name with
      | .error err => throw err
      | .ok data =>
        match ExtractV6.openArchives ctx nameBuffer archives with
        | .error err => throw err
        | .ok streams => pure ({ data := data } :: streams)

/-- One turn of the file loop of `ExtractV6` (cdfiles_extract.cpp
361-383). -/
def ExtractV6.step (nameBuffer : List Nat) (swapped : Bool) (st : LoopState) (f : File) :
    LoopState :=
  if f.type ≠ EntryType.StreamFile ∧ f.type ≠ EntryType.StreamHdFile then
    st
  else
    match vecAtChecked st.streams f.archiveIndex with
    | .error err => { st with error := some err }
    | .ok str =>
      let read := (str.seekg f.dataOffset).read (resizeBuffer st.buffer f.dataSize)
      let st := { st with buffer := read.1, streams := st.streams.set f.archiveIndex read.2 }
      match cstrBytes nameBuffer f.folderNameOffset, cstrBytes nameBuffer f.fileNameOffset with
      | some folder, some name =>
        (st.NewFile (folder ++ name)).SendPatched 6 swapped (folder ++ name)
      | _, _ => { st with error := some Error.Undefined }

/-- Is `struct HeaderV6`. -/
structure HeaderV6 where
  unk1 : List Nat := []
  numArchives : Nat := 0
  numTotalFiles : Nat := 0
  numTreeNodes : Nat := 0
  stringBufferSize : Nat := 0
  deriving DecidableEq, Repr

/-- Is `rd.Read(hdr)` for a `HeaderV6`: nine 32-bit words. -/
def HeaderV6.Read (rd : BinReader) : Except Error (HeaderV6 × BinReader) :=
  match rd.Read32s 9 with
  | .ok ([w0, w1, w2, w3, w4, w5, w6, w7, w8], rd) =>
    pure ({ unk1 := [w0, w1, w2, w3, w4], numArchives := w5, numTotalFiles := w6,
            numTreeNodes := w7, stringBufferSize := w8 }, rd)
  | .ok _ => throw Error.EndOfStream
  | .error err => throw err

/-- Is `rd.ReadContainer(archives, count)`; an `Archive` is the word
`archiveNameOffset` and the word `unk1`, and the result keeps the first. -/
def readArchives : Nat → BinReader → Except Error (List Nat × BinReader)
  | 0, rd => pure ([], rd)
  | count + 1, rd =>
    match rd.Read32s 2 with
    | .ok ([archiveNameOffset, _], rd) =>
      match readArchives count rd with
      | .error err => throw err
      | .ok (archives, rd) => pure (archiveNameOffset :: archives, rd)
    | .ok _ => throw Error.EndOfStream
    | .error err => throw err

/-- The part of `ExtractV6` in front of its file loop
(cdfiles_extract.cpp 339-359): the files, the name buffer and the streams.
A `TreeNode` is ten words. -/
def ExtractV6.dir (ctx : AppContext) (rd : BinReader) :
    Except Error (List File × List Nat × List IStream) := do
  let (hdr, rd) ← HeaderV6.Read rd
  let (archives, rd) ← readArchives hdr.numArchives rd
  let (files, rd) ← File.ReadMany hdr.numTotalFiles rd
  let (_, rd) ← rd.Read32s (10 * hdr.numTreeNodes)
  let (nameBuffer, _) ← rd.ReadBytes hdr.stringBufferSize
  let streams ← ExtractV6.openArchives ctx nameBuffer archives
  pure (files, nameBuffer, streams)

/-- Is `ExtractV6(ctx, rd)`. -/
def ExtractV6 (ctx : AppContext) (rd : BinReader) : Extracted :=
  match ExtractV6.dir ctx rd with
  | .error err => { error := some err }
  | .ok (files, nameBuffer, streams) =>
    (runLoop (ExtractV6.step nameBuffer rd.SwappedEndian) files
      { streams := streams }).extracted

/-! ## Index files: variant V1 (cdfiles_extract.cpp 386-533) -/

/-- Modelled from the spec: `ReadContainer(container)` of the cursor
without a count, for bytes: a 32-bit count and then that many bytes. -/
def BinReader.ReadByteString (rd : BinReader) : Except Error (List Nat × BinReader) :=
  match rd.Read32 with
  | .error err => throw err
  | .ok (count, rd) => rd.ReadBytes count

/-- Is `rd.ReadContainer(items, count)` for records of two 32-bit words,
such as `DataFile` and `EntryFile`. -/
def readPairs : Nat → BinReader → Except Error (List (Nat × Nat) × BinReader)
  | 0, rd => pure ([], rd)
  | count + 1, rd =>
    match rd.Read32s 2 with
    | .ok ([a, b], rd) =>
      match readPairs count rd with
      | .error err => throw err
      | .ok (items, rd) => pure ((a, b) :: items, rd)
    | .ok _ => throw Error.EndOfStream
    | .error err => throw err

/-- One turn of the loop of `ExtractV1PS2` (cdfiles_extract.cpp 432-447);
`dataFiles` holds `(dataBlockOffset, dataSize)`, an entry is `(nameOffset,
fileId)`, and the loop reads the one stream `str`, kept as the first of
the state. -/
def ExtractV1PS2.step (dataFiles : List (Nat × Nat)) (alignment : Nat) (nameBuffer : List Nat)
    (swapped : Bool) (st : LoopState) (e : Nat × FileId) : LoopState :=
  match cstrBytes nameBuffer e.1 with
  | none => { st with error := some Error.Undefined }
  | some fileName =>
    let st := st.NewFile fileName
    match vecAtChecked dataFiles e.2.id with
    | .error err => { st with error := some err }
    | .ok file =>
      match st.streams with
      | [] => { st with error := some Error.Undefined }
      | str :: streams =>
        let read := (str.seekg (file.1 * alignment % 2 ^ 32)).read
          (resizeBuffer st.buffer file.2)
        ({ st with buffer := read.1, streams := read.2 :: streams } : LoopState).SendPatched 1
          swapped fileName

/-- The part of `ExtractV1PS2` in front of its file loop
(cdfiles_extract.cpp 387-428): the alignment, the data files, the entries,
the name buffer and the content of the archive. -/
def ExtractV1PS2.dir (ctx : AppContext) (rd : BinReader) :
    Except Error (Nat × List (Nat × Nat) × List (Nat × Nat) × List Nat × List Nat) := do
  let (_, rd) ← rd.ReadBytes 8
  let (_, rd) ← rd.Read32
  let (_, rd) ← rd.Read32
  let (_, rd) ← rd.ReadByteString
  let (numTotalFiles, rd) ← rd.Read32
  let (archivePath, rd) ← rd.ReadByteString
  let (alignment, rd) ← rd.Read32
  let (dataFiles, rd) ← readPairs numTotalFiles rd
  let (numEntries, rd) ← rd.Read32
  let (entries, rd) ← readPairs numEntries rd
  let (nameBuffer, _) ← rd.ReadByteString
  let str ← ctx.RequestFile (bytesToString archivePath)
  pure (alignment, dataFiles, entries, nameBuffer, str)

/-- Is `ExtractV1PS2(ctx, rd)`. -/
def ExtractV1PS2 (ctx : AppContext) (rd : BinReader) : Extracted :=
  match ExtractV1PS2.dir ctx rd with
  | .error err => { error := some err }
  | .ok (alignment, dataFiles, entries, nameBuffer, str) =>
    (runLoop (ExtractV1PS2.step dataFiles alignment nameBuffer rd.SwappedEndian)
      (entries.map (fun e => (e.1, FileId.ofWord e.2)))
      { streams := [{ data := str }] }).extracted

/-- Is `struct HeaderV1`. -/
structure HeaderV1 where
  unk10 : Nat := 0
  numSearchPaths : Nat := 0
  searchPathsSize : Nat := 0
  numTotalFiles : Nat := 0
  archivePathLength : Nat := 0
  alignement : Nat := 0
  numFiles : Nat := 0
  nameBufferSize : Nat := 0
  deriving DecidableEq, Repr

/-- Is `rd.Read(hdr)` for a `HeaderV1`: eight 32-bit words. -/
def HeaderV1.Read (rd : BinReader) : Except Error (HeaderV1 × BinReader) :=
  match rd.Read32s 8 with
  | .ok ([w0, w1, w2, w3, w4, w5, w6, w7], rd) =>
    pure ({ unk10 := w0, numSearchPaths := w1, searchPathsSize := w2, numTotalFiles := w3,
            archivePathLength := w4, alignement := w5, numFiles := w6,
            nameBufferSize := w7 }, rd)
  | .ok _ => throw Error.EndOfStream
  | .error err => throw err

/-- The tables the loop of `ExtractV1X` reads. -/
structure DirV1X where
  hdr : HeaderV1 := {}
  fileOffsets : List Nat := []
  fileSizes : List Nat := []
  nameOffsets : List Nat := []
  fileIds : List FileId := []
  nameBuffer : List Nat := []
  deriving DecidableEq, Repr

/-- One turn of the loop of `ExtractV1X` (cdfiles_extract.cpp 499-519). -/
def ExtractV1X.step (d : DirV1X) (swapped : Bool) (st : LoopState) (i : Nat) : LoopState :=
  match vecAtChecked d.fileIds i with
  | .error err => { st with error := some err }
  | .ok fileId =>
    if fileId.type ≠ EntryType.StreamFile then
      st
    else
      match vecAtChecked d.nameOffsets i with
      | .error err => { st with error := some err }
      | .ok nameOffset =>
        match cstrBytes d.nameBuffer nameOffset with
        | none => { st with error := some Error.Undefined }
        | some fileName =>
          let st := st.NewFile fileName
          match vecAtChecked d.fileOffsets fileId.id, vecAtChecked d.fileSizes fileId.id,
              st.streams with
          | .ok offset, .ok size, str :: streams =>
            let read := (str.seekg (offset * d.hdr.alignement % 2 ^ 32)).read
              (resizeBuffer st.buffer size)
            ({ st with buffer := read.1, streams := read.2 :: streams } : LoopState).SendPatched
              1 swapped fileName
          | .ok _, .ok _, [] => { st with error := some Error.Undefined }
          | _, _, _ => { st with error := some Error.OutOfRange }

/-- The part of `ExtractV1X` in front of its file loop
(cdfiles_extract.cpp 463-494): the tables and the content of the
archive. -/
def ExtractV1X.dir (ctx : AppContext) (rd : BinReader) : Except Error (DirV1X × List Nat) := do
  let (hdr, rd) ← HeaderV1.Read rd
  let (_, rd) ← rd.ReadString
  let (_, rd) ← rd.ReadString
  let (_, rd) ← rd.Read32s hdr.numSearchPaths
  let (_, rd) ← rd.ReadBytes hdr.searchPathsSize
  let (archivePath, rd) ← rd.ReadBytes hdr.archivePathLength
  let (fileOffsets, rd) ← rd.Read32s hdr.numTotalFiles
  let (fileSizes, rd) ← rd.Read32s hdr.numTotalFiles
  let (nameOffsets, rd) ← rd.Read32s hdr.numFiles
  let (fileIds, rd) ← rd.Read32s hdr.numFiles
  let (nameBuffer, _) ← rd.ReadBytes hdr.nameBufferSize
  let str ← ctx.RequestFile (bytesToString archivePath)
  pure (({ hdr := hdr, fileOffsets := fileOffsets, fileSizes := fileSizes,
           nameOffsets := nameOffsets, fileIds := fileIds.map FileId.ofWord,
           nameBuffer := nameBuffer } : DirV1X), str)

/-- Is `ExtractV1X(ctx, rd)`. -/
def ExtractV1X (ctx : AppContext) (rd : BinReader) : Extracted :=
  match ExtractV1X.dir ctx rd with
  | .error err => { error := some err }
  | .ok (d, str) =>
    (runLoop (ExtractV1X.step d rd.SwappedEndian) (List.range d.hdr.numFiles)
      { streams := [{ data := str }] }).extracted

/-- Is `ExtractV1(ctx, rd)`. -/
def ExtractV1 (ctx : AppContext) (rd : BinReader) : Extracted :=
  match rd.Read32 with
  | .error err => { error := some err }
  | .ok (_, rd) =>
    match rd.Read32 with
    | .error err => { error := some err }
    | .ok (unk1, rd) =>
      if ¬ rd.SwappedEndian ∧ unk1 = 1 then ExtractV1PS2 ctx rd else ExtractV1X ctx rd

/-! ## Index files: entry point (cdfiles_extract.cpp 797-822) -/

/-- Is `AppProcessFile` of cdfiles_extract. -/
def CdFiles.AppProcessFile (ctx : AppContext) : Extracted :=
  match HeaderBase.Read { str := ctx.stream } with
  | .error err => { error := some err }
  | .ok (hdr, rd) =>
    if hdr.version = 1 then ExtractV1 ctx rd
    else if hdr.version = 3 then ExtractV3 ctx rd hdr.id
    else if hdr.version = 4 then ExtractV4 ctx rd hdr.id
    else if hdr.version = 5 then ExtractV5 ctx rd hdr.id
    else if hdr.version = 6 then ExtractV6 ctx rd
    else { error := some (Error.InvalidVersionError hdr.version) }

/-- Spec side of the provenance patch: the bytes of a file as the sink is
to receive them. A file whose name ends in `.ARC` has one byte overwritten
with `version`, the byte at offset 4 when the index is read swapped and
the byte at offset 7 otherwise; any other file is as it is. -/
def provenance (version : Nat) (swapped : Bool) (fileName : String) (data : List Nat) :
    List Nat :=
  if endsWithARC fileName then data.set (if swapped then 4 else 7) version else data

/-- The index file of the version 3 run below: tag `filE`, version bytes
`0 0 0 3`, one file of 9 bytes named by the fragments `x` and `.ARC`. -/
def exampleIndexV3 : List Nat :=
  [102, 105, 108, 69, 0, 0, 0, 3, 0, 0, 0, 0, 0, 0, 0, 0, 0, 0, 0, 0, 0, 0, 0, 0, 0, 0, 0,
  0, 0, 0, 0, 1, 0, 0, 0, 0, 0, 0, 0, 1, 0, 0, 0, 1, 0, 0, 0, 0, 0, 0, 0, 0, 0, 0, 0, 0, 0,
  0, 0, 0, 0, 0, 0, 9, 0, 0, 0, 0, 64, 0, 0, 0, 0, 0, 0, 0, 0, 0, 0, 2, 0, 0, 0, 7, 0, 0,
  0, 0, 0, 0, 0, 2, 120, 0, 46, 65, 82, 67, 0, 1, 2, 0]

/-! ## Textures and materials of the decoding pass (arc_extract.cpp 696-753, 885-947) -/

/-- Is `struct TexturePtr` of `AppProcessFile`. -/
structure TexturePtr where
  name : String := ""
  offset : Int := 0
  size : Nat := 0
  glIndex : Int := -1
  deriving DecidableEq, Repr

/-- The three texture cases of the decoding `switch` (arc_extract.cpp
730-753): the `TexturePtr` an entry of one of the three texture types is
registered with. -/
def texturePtrOf (e : Entry) (fileName : String) : Option TexturePtr :=
  if e.type = ArcType.Texture then
    some { name := fileName, offset := toInt32 e.offset, size := e.Size }
  else if e.type = ArcType.ReferencedTexture then
    some { name := fileName, offset := -1, size := e.Size }
  else if e.type = ArcType.LightmapTexture then
    some { name := fileName, offset := toInt32 ((e.offset + 4 * 6) % 2 ^ 32), size := e.Size }
  else
    none

/-- State of the decoding pass as far as textures and materials go: the
document, the vector `textures`, and the calls the image codec received. -/
structure TextureState where
  main : GLTFMain := {}
  textures : List TexturePtr := []
  imageCalls : List NewImageCall := []
  deriving DecidableEq, Repr

/-- Is `textures.emplace_back(TexturePtr{...})`. -/
def TextureState.register (st : TextureState) (ptr : TexturePtr) : TextureState :=
  { st with textures := st.textures ++ [ptr] }

/-- The member `textureIndex` of a material param; `MaterialParam2` has
none. -/
def MaterialParam.textureIndex? : MaterialParam → Option Int
  | .Param0 p => some p.textureIndex
  | .Param1 p _ => some p.textureIndex
  | .Param2 _ => none
  | .Param3 p _ => some p.textureIndex
  | .Param6 p _ _ => some p.textureIndex

/-- Is `rd.Push(); rd.Seek(ptr.offset); ExtractTexture(ctx, rd, ptr.size,
ptr.name, &tStr); rd.Pop();` (arc_extract.cpp 928-931): the texture header
of five 32-bit words is read at `ptr.offset` of `stream`, the bytes from
the relative origin on. -/
def extractTextureAt (stream : List Nat) (ptr : TexturePtr) : Except Error NewImageCall :=
  match readU32s 5 (stream.drop ptr.offset.toNat) with
  | .ok ([width, height, numMips, hash, type], payload) =>
    ExtractTexture { width := width, height := height, numMips := numMips, hash := hash,
                     type := type } payload ptr.size ptr.name true
  | .ok _ => throw Error.EndOfStream
  | .error err => throw err

/-- The block under `if (ptr.glIndex < 0)` (arc_extract.cpp 906-932): the
texture gets the next index of `main.textures`, a texture, an image and a
stream are appended, and the texture is decoded into that stream. What the
image codec writes to the stream is outside the sources and left out. -/
def materialise (stream : List Nat) (st : TextureState) (index : Nat) (ptr : TexturePtr) :
    Except Error (TextureState × TexturePtr) :=
  let ptr := { ptr with glIndex := toInt32 (st.main.textures.length % 2 ^ 32) }
  let main := { st.main with
    textures := st.main.textures ++ [{ source := toInt32 (st.main.images.length % 2 ^ 32) }]
    images := st.main.images ++
      [{ mimeType := "image/png", name := ptr.name,
         bufferView := toInt32 (st.main.streams.length % 2 ^ 32) }]
    streams := st.main.streams ++ [[]] }
  match extractTextureAt stream ptr with
  | .error err => throw err
  | .ok call =>
    pure ({ main := main, textures := st.textures.set index ptr,
            imageCalls := st.imageCalls ++ [call] }, ptr)

/-- The lambda `std::visit` runs on one material param (arc_extract.cpp
894-938); `gMat` is the material under construction. The result carries
the value the lambda returns: `true` ends the loop over the params. -/
def visitParam (stream : List Nat) (mat : Material) (st : TextureState) (gMat : GltfMaterial)
    (p : MaterialParam) : Except Error (TextureState × GltfMaterial × Bool) :=
  match p.textureIndex? with
  | none => pure (st, gMat, true)
  | some textureIndex =>
    if textureIndex > -1 then
      let index := (mat.hdr.textureBaseIndex + textureIndex.toNat) % 2 ^ 32
      match st.textures[index]? with
      | none => throw Error.OutOfRange
      | some ptr =>
        if ptr.offset < 0 then
          pure (st, gMat, true)
        else if ptr.glIndex < 0 then
          match materialise stream st index ptr with
          | .error err => throw err
          | .ok (st, ptr) => pure (st, { gMat with baseColorTexture := ptr.glIndex }, false)
        else
          pure (st, { gMat with baseColorTexture := ptr.glIndex }, false)
    else
      pure (st, gMat, true)

/-- The loop `for (auto &p : mat.params)` with its `break`. -/
def visitParams (stream : List Nat) (mat : Material) :
    List MaterialParam → TextureState → GltfMaterial → Except Error (TextureState × GltfMaterial)
  | [], st, gMat => pure (st, gMat)
  | p :: params, st, gMat =>
    match visitParam stream mat st gMat p with
    | .error err => throw err
    | .ok (st, gMat, true) => pure (st, gMat)
    | .ok (st, gMat, false) => visitParams stream mat params st gMat

/-- The case `Type::Material` of the decoding `switch` (arc_extract.cpp
885-947) for a material that has been read; `gMat` is a reference to the
new last element of `main.materials`, held apart here and stored when the
loop ends. -/
def materialCase (stream : List Nat) (mat : Material) (fileName : String)
    (st : TextureState) : Except Error TextureState :=
  match visitParams stream mat mat.params st
      { name := fileName, doubleSided := true, alphaMode := AlphaMode.Mask } with
  | .error err => throw err
  | .ok (st, gMat) =>
    pure { st with main := { st.main with materials := st.main.materials ++ [gMat] } }

/-- The scene indices stored in the vector `textures`, in its order: the
`glIndex` of every texture that has one (`glIndex >= 0`). -/
def storedIndices (textures : List TexturePtr) : List Int :=
  (textures.filter (fun t => decide (0 ≤ t.glIndex))).map (fun t => t.glIndex)

/-- The memoisation invariant of the decoding pass: every stored index
points into `main.textures`, no index is stored twice, and `main.textures`
has as many elements as indices are stored. -/
def TextureInv (st : TextureState) : Prop :=
  (∀ g ∈ storedIndices st.textures, g < st.main.textures.length) ∧
  (storedIndices st.textures).Nodup ∧
  st.main.textures.length = (storedIndices st.textures).length

instance (st : TextureState) : Decidable (TextureInv st) := by
  unfold TextureInv
  infer_instance

/-- The buffer the swap loop of `ReadIndexArray` leaves in `data`
(arc_extract.cpp 288-292), `none` when the loop leaves the buffer. -/
def ReadIndexArray.swap (data : List Nat) : Option (List Nat) :=
  ((swapLoopIndices data.length).foldl swapScanStep (some (data, false))).map (fun r => r.1)

/-! ## Node entries of the decoding pass (arc_extract.cpp 306-426, 785-883) -/

/-- The cursor's `read(T)` for an `int32`. -/
def readI32 (rd : List Nat) : Except Error (Int × List Nat) :=
  match readU32 rd with
  | .error err => throw err
  | .ok (w, rd) => pure (toInt32 w, rd)

/-- Is `NodeBase::Read` on a fresh node: `unk0` (8 bytes), `tm0` (16
words), `tm1` (64 bytes), `bbox` (two `Vector`s, 24 bytes), `unk1`,
`parentBone`, `numChildren`, `startChildIndex`. `name` and `entryIndex`
are not read. -/
def NodeBase.Read (rd : List Nat) : Except Error (NodeBase × List Nat) := do
  let (_, rd) ← readRaw 8 rd
  let (tm0, rd) ← readU32s 16 rd
  let (_, rd) ← readRaw 64 rd
  let (_, rd) ← readRaw 24 rd
  let (_, rd) ← readU32 rd
  let (parentBone, rd) ← readI32 rd
  let (numChildren, rd) ← readI32 rd
  let (startChildIndex, rd) ← readI32 rd
  pure ({ tm0 := tm0, parentBone := parentBone, numChildren := numChildren,
          startChildIndex := startChildIndex }, rd)

/-- Is `Model::Read`: the base, `meshIndex`, then `bbox1[4]` (96 bytes). -/
def Model.Read (rd : List Nat) : Except Error ((NodeBase × Int) × List Nat) := do
  let (base, rd) ← NodeBase.Read rd
  let (meshIndex, rd) ← readI32 rd
  let (_, rd) ← readRaw 96 rd
  pure ((base, meshIndex), rd)

/-- Is `Skeleton::Read`: the base, `meshIndex`, `bbox1[4]`, `numBones`,
`startBoneEntryIndex`, `unk1` and the matrix `ibm` (64 bytes). -/
def Skeleton.Read (rd : List Nat) : Except Error ((NodeBase × Int) × List Nat) := do
  let (base, rd) ← NodeBase.Read rd
  let (meshIndex, rd) ← readI32 rd
  let (_, rd) ← readRaw 96 rd
  let (_, rd) ← readU32 rd
  let (_, rd) ← readU32 rd
  let (_, rd) ← readU32 rd
  let (_, rd) ← readRaw 64 rd
  pure ((base, meshIndex), rd)

/-- Is `Bone::Read`: the base, `boneSlotIndex`, then `tm2` (64 bytes),
`radius` (4), `unk1` (8), `null1` (16), `null2` (2), `position` (12),
`null3` (2) and `rotation` (16). -/
def Bone.Read (rd : List Nat) : Except Error ((NodeBase × Int) × List Nat) := do
  let (base, rd) ← NodeBase.Read rd
  let (boneSlotIndex, rd) ← readI32 rd
  let (_, rd) ← readRaw 64 rd
  let (_, rd) ← readRaw 4 rd
  let (_, rd) ← readRaw 8 rd
  let (_, rd) ← readRaw 16 rd
  let (_, rd) ← readRaw 2 rd
  let (_, rd) ← readRaw 12 rd
  let (_, rd) ← readRaw 2 rd
  let (_, rd) ← readRaw 16 rd
  pure ((base, boneSlotIndex), rd)

/-- Is `DeformedModel::Read`: the model, then `int32 meshes[16]`. -/
def DeformedModel.Read (rd : List Nat) : Except Error ((NodeBase × Int × List Int) × List Nat) := do
  let ((base, meshIndex), rd) ← Model.Read rd
  let (meshes, rd) ← readU32s 16 rd
  pure ((base, meshIndex, meshes.map toInt32), rd)

/-- Is `InstancedModel::Read`: the model, `numInstances`, `unk`, and two
arrays of `numInstances` `CVector4`s (4 bytes each). -/
def InstancedModel.Read (rd : List Nat) : Except Error ((NodeBase × Int) × List Nat) := do
  let (model, rd) ← Model.Read rd
  let (numInstances, rd) ← readU32 rd
  let (_, rd) ← readU32 rd
  let (_, rd) ← readRaws 4 numInstances rd
  let (_, rd) ← readRaws 4 numInstances rd
  pure (model, rd)

/-- The entry types whose `case` puts a node into `nodes`
(arc_extract.cpp 785-883), in the order of the case labels. -/
def nodeTypes : List ArcType :=
  [ArcType.Model, ArcType.SkinnedModel, ArcType.DeformedModel, ArcType.AnimatedModel,
   ArcType.InstancedModel, ArcType.Skeleton, ArcType.RigNode, ArcType.LightNode,
   ArcType.Camera, ArcType.Attachment, ArcType.UnkNode]

/-- The node cases of the decoding `switch` (arc_extract.cpp 785-883):
`nde.name = fileName; nde.entryIndex = e.index; rd.Read(nde)` after
`rd.Seek(e.offset)`. The result is `none` for the other entry types.
SkinnedModel reads as a Model, AnimatedModel as a DeformedModel,
Attachment and UnkNode as a NodeBase. -/
def decodeNode (stream : List Nat) (e : Entry) (fileName : String) :
    Option (Except Error NodeVariant) :=
  let rd := stream.drop e.offset
  let named : NodeBase → NodeBase := fun b => { b with name := fileName, entryIndex := e.index }
  if e.type = ArcType.Model then
    some ((Model.Read rd).map (fun r => NodeVariant.Model (named r.1.1) r.1.2))
  else if e.type = ArcType.SkinnedModel then
    some ((Model.Read rd).map (fun r => NodeVariant.SkinnedModel (named r.1.1) r.1.2))
  else if e.type = ArcType.DeformedModel then
    some ((DeformedModel.Read rd).map
      (fun r => NodeVariant.DeformedModel (named r.1.1) r.1.2.1 r.1.2.2))
  else if e.type = ArcType.AnimatedModel then
    some ((DeformedModel.Read rd).map
      (fun r => NodeVariant.AnimatedModel (named r.1.1) r.1.2.1 r.1.2.2))
  else if e.type = ArcType.InstancedModel then
    some ((InstancedModel.Read rd).map (fun r => NodeVariant.InstancedModel (named r.1.1) r.1.2))
  else if e.type = ArcType.Skeleton then
    some ((Skeleton.Read rd).map (fun r => NodeVariant.Skeleton (named r.1.1) r.1.2))
  else if e.type = ArcType.RigNode then
    some ((Bone.Read rd).map (fun r => NodeVariant.Bone (named r.1.1) r.1.2))
  else if e.type = ArcType.LightNode then
    some ((NodeBase.Read rd).map (fun r => NodeVariant.LightNode (named r.1)))
  else if e.type = ArcType.Camera then
    some ((NodeBase.Read rd).map (fun r => NodeVariant.Camera (named r.1)))
  else if e.type = ArcType.Attachment then
    some ((NodeBase.Read rd).map (fun r => NodeVariant.Attachment (named r.1)))
  else if e.type = ArcType.UnkNode then
    some ((NodeBase.Read rd).map (fun r => NodeVariant.UnkNode (named r.1)))
  else
    none

/-- One turn of the decoding loop as far as the vector `nodes` goes: a
node case appends its node, the other cases leave `nodes` alone. -/
def nodeStep (stream : List Nat) (nodes : List NodeVariant) (r : Entry × Option String) :
    Except Error (List NodeVariant) :=
  match r.2 with
  | none => throw Error.Undefined
  | some fileName =>
    match decodeNode stream r.1 fileName with
    | none => pure nodes
    | some (.error err) => throw err
    | some (.ok n) => pure (nodes ++ [n])

/-- The decoding loop over the entries that reach the `switch`, as far as
`nodes` goes. -/
def nodeLoop (stream : List Nat) :
    List (Entry × Option String) → List NodeVariant → Except Error (List NodeVariant)
  | [], nodes => pure nodes
  | r :: rs, nodes =>
    match nodeStep stream nodes r with
    | .error err => throw err
    | .ok nodes => nodeLoop stream rs nodes

/-- The vector `nodes` of arc_extract `AppProcessFile` when the decoding
loop ends; it starts empty. -/
def ArcExtract.decodeNodes (stream : List Nat) (entryNames : List Char)
    (entries : List Entry) : Except Error (List NodeVariant) :=
  nodeLoop stream (decodePass entryNames entries).records []

/-- The node-typed entries of an entry table in entry-scan order, each
with the file name the decoding pass gave it. -/
def nodeRecords (entryNames : List Char) (entries : List Entry) : List (Entry × Option String) :=
  (decodePass entryNames entries).records.filter (fun r => decide (r.1.type ∈ nodeTypes))

/-- A payload of 176 zero bytes but for `parentBone`, which is -1: a
`NodeBase` without a parent. -/
def exampleNodeStream : List Nat :=
  List.replicate 164 0 ++ [255, 255, 255, 255] ++ List.replicate 8 0

/-- An entry table with a group, a light node, a plain data entry and a
camera; every payload is at offset 0. -/
def exampleNodeEntries : List Entry :=
  [{ type := ArcType.Group }, { type := ArcType.LightNode, index := 7 },
   { type := ArcType.PlainData }, { type := ArcType.Camera, index := 9 }]

/-- The nodes the decoding pass makes of `exampleNodeEntries`. -/
def exampleNodes : List NodeVariant :=
  [.LightNode { name := "0", entryIndex := 7, tm0 := List.replicate 16 0 },
   .Camera { name := "2", entryIndex := 9, tm0 := List.replicate 16 0 }]

/-- The scene the assembly makes of `exampleNodes` after a node "root". -/
def exampleNodeScene : GLTFMain :=
  { nodes := [{ name := "root" }, { name := "0", matrix := List.replicate 16 0 },
      { name := "2", matrix := List.replicate 16 0 }]
    scenes := [{ nodes := [1, 2] }] }

/-! ## The node hierarchy of a document -/

/-- The child list of the node at index `parent`; empty when there is no
such node. -/
def childrenOf (main : GLTFMain) (parent : Nat) : List Nat :=
  ((main.nodes.map (fun g => g.children))[parent]?).getD []

/-- The root list `main.scenes.front().nodes`; empty when there is no
scene. -/
def rootsOf (main : GLTFMain) : List Nat :=
  ((main.scenes.map (fun s => s.nodes)).head?).getD []

/-- Every place a node index is attached at: the root lists of the scenes,
then the child lists of the nodes. -/
def attachments (main : GLTFMain) : List Nat :=
  (main.scenes.map (fun s => s.nodes)).flatten ++ (main.nodes.map (fun g => g.children)).flatten

/-- The parent relation of a document: `child` is in the child list of
the node at index `parent`. -/
def isChild (main : GLTFMain) (parent child : Nat) : Prop :=
  child ∈ childrenOf main parent

instance (main : GLTFMain) (parent child : Nat) : Decidable (isChild main parent child) :=
  inferInstanceAs (Decidable (child ∈ childrenOf main parent))

/-- A node list with a root and two children of it. -/
def exampleTree : List NodeVariant :=
  [.Skeleton { name := "a" } 0, .Bone { name := "b", parentBone := 0 } (-1),
   .LightNode { name := "c", parentBone := 0 }]

/-- The scene the assembly makes of `exampleTree` in an empty document. -/
def exampleTreeScene : GLTFMain :=
  { nodes := [{ name := "a", children := [1, 2] }, { name := "b" }, { name := "c" }]
    scenes := [{ nodes := [0] }] }

/-! ## Mesh entries and the map `models` (arc_extract.cpp 757-773, 959-990) -/

/-- The `Mesh` case of the decoding `switch` (arc_extract.cpp 757-764):
`data.name = fileName; data.index = e.index`; `payload` is the mesh as
`rd.Read(data)` fills it. The mesh joins `meshes`. -/
def meshCase (e : Entry) (fileName : String) (payload : Mesh) : Mesh :=
  { payload with name := fileName, index := e.index }

/-- The `SkinnedMesh` case (arc_extract.cpp 766-773):
`data.index = std::max(int32(e.index), 0)`. The mesh joins
`skinnedMeshes`. -/
def skinnedMeshCase (e : Entry) (fileName : String) (payload : Mesh) : Mesh :=
  { payload with name := fileName, index := (max (toInt32 e.index) 0).toNat }

/-- The node indices `models` holds under `key`; none when the key is not
in the map. -/
def registeredUnder (models : ModelMap) (key : Int) : List Nat :=
  (models.lookup key).getD []

/-- Spec side of the registration: the mesh keys of a node. A Model,
InstancedModel, SkinnedModel or Skeleton has its `meshIndex`; a
DeformedModel or AnimatedModel has its `meshIndex` and its secondary mesh
slots; the other nodes have none. -/
def meshKeys : NodeVariant → List Int
  | .Skeleton _ meshIndex => [meshIndex]
  | .Model _ meshIndex => [meshIndex]
  | .InstancedModel _ meshIndex => [meshIndex]
  | .SkinnedModel _ meshIndex => [meshIndex]
  | .DeformedModel _ meshIndex meshes => meshIndex :: meshes
  | .AnimatedModel _ meshIndex meshes => meshIndex :: meshes
  | _ => []

/-- The key `DoMesh` looks up for a mesh: the 32-bit sum
`m.index + indexOffset` read as `int32`. -/
def meshKey (m : Mesh) (indexOffset : Nat) : Int :=
  toInt32 ((m.index + indexOffset) % 2 ^ 32)

/-! ## Primitive batching: the clusters of a mesh -/

/-- The Cluster modifiers of a modifier list, in encounter order. -/
def clustersOf : List PrimitiveMod → List PrimitiveCluster
  | [] => []
  | .Cluster item :: mods => item :: clustersOf mods
  | .Skin _ :: mods => clustersOf mods

/-- The Cluster modifiers of the primitives of a mesh in encounter order,
each with the primitive that carries it. -/
def clusterList : List Primitive → List (Primitive × PrimitiveCluster)
  | [] => []
  | p :: prims => (clustersOf p.mods).map (fun c => (p, c)) ++ clusterList prims

/-- Spec side: the accessor of a cluster, which is the accessor `base` of
the shared index buffer with the byte offset moved on by
`indexStart * elementSize` (a 32-bit product and sum) and the count
`indexCount`. -/
def clusterAccessor (base : GltfAccessor) (ids : Indices) (item : PrimitiveCluster) :
    GltfAccessor :=
  { base with
    byteOffset := (base.byteOffset + (item.indexStart * ids.size) % 2 ^ 32) % 2 ^ 32
    count := item.indexCount }

/-- Spec side: the output primitive of a cluster of the primitive `p` of
the mesh `m`: material `materialBaseIndex + materialIndex` (the 32-bit
sum read as `int32`), the index
accessor `idxAcc`, the attribute set of the vertex buffer, and the deform
attributes as a morph target when there are any. -/
def clusterPrimitive (m : Mesh) (p : Primitive) (vertexAttrs : Attrs) (idxAcc : Nat) :
    GltfPrimitive :=
  { material := toInt32 ((m.materialBaseIndex + p.materialIndex) % 2 ^ 32)
    indices := idxAcc
    attributes := vertexAttrs.base
    targets := if vertexAttrs.deform.length ≠ 0 then [vertexAttrs.deform] else [] }

/-- A mesh of two primitives with three clusters in all. -/
def exampleBatchMesh : Mesh :=
  { name := "m", materialBaseIndex := 2
    prims := [{ mods := [.Cluster { indexStart := 3, indexCount := 6 },
                         .Cluster { indexStart := 9, indexCount := 3 }] },
              { materialIndex := 1, mods := [.Cluster { indexCount := 3 }] }] }

/-- A document with the accessor of an index buffer (12 indices at byte 8)
and the accessor of a vertex buffer. -/
def exampleBatchMain : GLTFMain :=
  { accessors := [{ count := 12, byteOffset := 8 }, { count := 4 }] }

/-- The document `DoMesh` makes of `exampleBatchMain` and
`exampleBatchMesh` with 16-bit indices; no node refers to the mesh. -/
def exampleBatchOut : GLTFMain :=
  { accessors := [{ count := 12, byteOffset := 8 }, { count := 4 },
      { count := 6, byteOffset := 14 }, { count := 3, byteOffset := 26 },
      { count := 3, byteOffset := 8 }]
    meshes := [{ primitives := [
      { material := 2, indices := 2, attributes := [("POSITION", 1)] },
      { material := 2, indices := 3, attributes := [("POSITION", 1)] },
      { material := 3, indices := 4, attributes := [("POSITION", 1)] }] }]
    warnings := ["Mesh node: mappears to be unlinked."] }

/-! ## The scope of a Skin modifier -/

/-- The value of `curSkin` at every Cluster modifier of a modifier list,
as the visitor meets them (arc_extract.cpp 1073-1158): a Skin modifier
replaces `curSkin`, a Cluster modifier is run with the `curSkin` in
force. -/
def skinTrace : PrimitiveSkin → List PrimitiveMod → List (PrimitiveSkin × PrimitiveCluster)
  | _, [] => []
  | curSkin, .Cluster item :: mods => (curSkin, item) :: skinTrace curSkin mods
  | _, .Skin skin :: mods => skinTrace skin mods

/-- The Skin modifiers of a modifier list, in encounter order. -/
def skinsOf : List PrimitiveMod → List PrimitiveSkin
  | [] => []
  | .Cluster _ :: mods => skinsOf mods
  | .Skin skin :: mods => skin :: skinsOf mods

/-- Spec side: the most recent Skin modifier of the modifiers `pre` that
precede a cluster; the empty list when none precedes it. -/
def lastSkin (pre : List PrimitiveMod) : PrimitiveSkin :=
  ((skinsOf pre).getLast?).getD []

/-- Spec side: the clusters of a primitive run in order, each with the
skin given for it. -/
def runClusters (indexBuffers : List Indices) (m : Mesh) (p : Primitive) (vertexAttrs : Attrs) :
    List (PrimitiveSkin × PrimitiveCluster) → MeshState → Except Error MeshState
  | [], st => pure st
  | (skin, item) :: rest, st =>
    match doCluster indexBuffers m p vertexAttrs skin item st with
    | .error err => throw err
    | .ok st => runClusters indexBuffers m p vertexAttrs rest st

/-- Spec side: the mesh contains at least one Skin modifier. -/
def hasSkinMod (m : Mesh) : Bool :=
  m.prims.any (fun p => !(skinsOf p.mods).isEmpty)

/-- An archive with one rig node slot, a Model and a mesh that carries a
Skin modifier. -/
def exampleSkinned : Decoded :=
  { nodes := [.Model { name := "a" } 0]
    meshes := [{ prims := [{ mods := [.Skin [0]] }] }]
    vertexBuffers := [{}] }

/-- The scene the assembly makes of `exampleSkinned` with
`numRigNodes = 1`. -/
def exampleSkinnedScene : GLTFMain :=
  { nodes := [{ name := "a", mesh := 0, skin := 0 }]
    meshes := [{}]
    accessors := [{ count := 1, type := AccessorType.Mat4, componentType := ComponentType.Float }]
    skins := [{ joints := [0], inverseBindMatrices := 0 }]
    scenes := [{ nodes := [0] }]
    streams := [[]] }

/-! ## Vertex buffers (arc_extract.cpp 141-273) -/

/-- The bit positions of `enum class VBFlags`. -/
structure VBFlags where
  pos : Nat
  deriving DecidableEq, Repr

namespace VBFlags
def Position : VBFlags := ⟨0⟩
def Color : VBFlags := ⟨1⟩
def Normal : VBFlags := ⟨2⟩
def Uv0 : VBFlags := ⟨3⟩
def Uv1 : VBFlags := ⟨4⟩
def Uv2 : VBFlags := ⟨5⟩
def BoneWeight : VBFlags := ⟨6⟩
def DeformCurve : VBFlags := ⟨7⟩
end VBFlags

/-- Modelled from the spec: `es::Flags` is outside the sources; the test
`flags == VBFlags::X` is the test of the bit of `X` in the flag set. -/
def hasFlag (flags : Nat) (flag : VBFlags) : Bool :=
  flags.testBit flag.pos

/-- The values of `uni::DataType` the vertex reader uses. -/
inductive DataType where
  | R32G32B32
  | R8G8B8A8
  | R32G32
  | R32G32B32A32
  deriving DecidableEq, Repr

/-- The values of `uni::FormatType` the vertex reader uses. -/
inductive FormatType where
  | FLOAT
  | UNORM
  | UINT
  deriving DecidableEq, Repr

/-- The values of `AttributeType` the vertex reader uses. -/
inductive AttributeType where
  | Position
  | Normal
  | VertexColor
  | TextureCoordiante
  | BoneWeights
  | BoneIndices
  deriving DecidableEq, Repr

/-- Is `Attribute`, with the three fields the vertex reader sets. -/
structure Attribute where
  type : DataType
  format : FormatType
  usage : AttributeType
  deriving DecidableEq, Repr

/-- The variables `descs` and `curOffset` of `ReadVertexBuffer`. -/
structure LayoutState where
  descs : List Attribute := []
  curOffset : Nat := 0
  deriving DecidableEq, Repr

/-- Is `descs.emplace_back(...)` (once or twice) followed by
`curOffset += width`. -/
def LayoutState.add (st : LayoutState) (descs : List Attribute) (width : Nat) : LayoutState :=
  { descs := st.descs ++ descs, curOffset := st.curOffset + width }

/-- The seven `if (flags == VBFlags::X)` statements of `ReadVertexBuffer`
(arc_extract.cpp 171-238), in source order. -/
def ReadVertexBuffer.layout (flags : Nat) : LayoutState :=
  let st : LayoutState := {}
  let st := if hasFlag flags VBFlags.Position then
    st.add [⟨.R32G32B32, .FLOAT, .Position⟩] 12 else st
  let st := if hasFlag flags VBFlags.Normal then
    st.add [⟨.R32G32B32, .FLOAT, .Normal⟩] 12 else st
  let st := if hasFlag flags VBFlags.Color then
    st.add [⟨.R8G8B8A8, .UNORM, .VertexColor⟩] 4 else st
  let st := if hasFlag flags VBFlags.Uv0 then
    st.add [⟨.R32G32, .FLOAT, .TextureCoordiante⟩] 8 else st
  let st := if hasFlag flags VBFlags.Uv1 then
    st.add [⟨.R32G32, .FLOAT, .TextureCoordiante⟩] 8 else st
  let st := if hasFlag flags VBFlags.Uv2 then
    st.add [⟨.R32G32, .FLOAT, .TextureCoordiante⟩] 8 else st
  let st := if hasFlag flags VBFlags.BoneWeight then
    st.add [⟨.R32G32B32A32, .FLOAT, .BoneWeights⟩, ⟨.R8G8B8A8, .UINT, .BoneIndices⟩] 20 else st
  st

/-- The reads `curve->x`, `curve->y`, `curve->z` of the `DeformCurve`
record at `data.data() + offset`: the floats of the fields at the byte
offsets 4, 16 and 28, kept as their 4 bytes each. A read past the end of
`data` is undefined and gives `none`. -/
def deformRecord (data : List Nat) (offset : Nat) : Option (List Nat) :=
  if offset + 32 ≤ data.length then
    some ((data.drop (offset + 4)).take 4 ++ (data.drop (offset + 16)).take 4 ++
      (data.drop (offset + 28)).take 4)
  else
    none

/-- The loop `for (size_t v = 0; v < numVertices; v++)` from the vertex
`v` on, with `count` turns left: the bytes written to the deform stream. -/
def deformLoop (data : List Nat) (curOffset stride : Nat) : Nat → Nat → Option (List Nat)
  | 0, _ => some []
  | count + 1, v =>
    match deformRecord data (curOffset + stride * v) with
    | none => none
    | some r =>
      match deformLoop data curOffset stride count (v + 1) with
      | none => none
      | some rest => some (r ++ rest)

/-- What `ReadVertexBuffer` computes from the header values and the vertex
data: the descriptors handed to `SaveVertices`, the offset of the deform
record, and the bytes written to the deform stream when the DeformCurve
flag is set. -/
structure VertexRead where
  descs : List Attribute := []
  curOffset : Nat := 0
  deformBytes : Option (List Nat) := none
  deriving DecidableEq, Repr

/-- Is `ReadVertexBuffer` after its four reads: `numVertices`, `stride`,
`flags` and `data` are the values the cursor delivered. The sink calls
(`NewAccessor`, `SaveVertices`) are outside the sources. -/
def ReadVertexBuffer.body (numVertices stride flags : Nat) (data : List Nat) :
    Option VertexRead :=
  let st := ReadVertexBuffer.layout flags
  if hasFlag flags VBFlags.DeformCurve then
    match deformLoop data st.curOffset stride numVertices 0 with
    | none => none
    | some bytes => some { descs := st.descs, curOffset := st.curOffset, deformBytes := some bytes }
  else
    some { descs := st.descs, curOffset := st.curOffset }

/-- Spec side: the channels in the order of the tests, each with its
flag, its descriptors and its width in bytes. -/
def channelTable : List (VBFlags × List Attribute × Nat) :=
  [(VBFlags.Position, [⟨.R32G32B32, .FLOAT, .Position⟩], 12),
   (VBFlags.Normal, [⟨.R32G32B32, .FLOAT, .Normal⟩], 12),
   (VBFlags.Color, [⟨.R8G8B8A8, .UNORM, .VertexColor⟩], 4),
   (VBFlags.Uv0, [⟨.R32G32, .FLOAT, .TextureCoordiante⟩], 8),
   (VBFlags.Uv1, [⟨.R32G32, .FLOAT, .TextureCoordiante⟩], 8),
   (VBFlags.Uv2, [⟨.R32G32, .FLOAT, .TextureCoordiante⟩], 8),
   (VBFlags.BoneWeight,
     [⟨.R32G32B32A32, .FLOAT, .BoneWeights⟩, ⟨.R8G8B8A8, .UINT, .BoneIndices⟩], 20)]

/-- Spec side: the channels of `channelTable` whose flag is set. -/
def channelsPresent (flags : Nat) : List (VBFlags × List Attribute × Nat) :=
  channelTable.filter (fun c => hasFlag flags c.1)

/-- Spec side: the value of the four bytes of a 32-bit word read in the
opposite byte order. -/
def byteReverse32 (w : Nat) : Nat :=
  w / 16777216 % 256 + 256 * (w / 65536 % 256) + 65536 * (w / 256 % 256) +
    16777216 * (w % 256)

/-! ## Material texture selection: the scan over the params -/

/-- Spec side: the slot of the texture table a param refers to,
`textureBaseIndex + textureIndex` as a 32-bit sum; none for a vector
constant (`MaterialParam2`) and for a `textureIndex` below 0. -/
def paramTextureSlot (mat : Material) (p : MaterialParam) : Option Nat :=
  match p.textureIndex? with
  | none => none
  | some textureIndex =>
    if textureIndex > -1 then
      some ((mat.hdr.textureBaseIndex + textureIndex.toNat) % 2 ^ 32)
    else
      none

/-- Spec side: the param stops the scan. It is a vector constant or has a
`textureIndex` below 0, or the texture it refers to is an externally
referenced one (byte offset below 0). -/
def stopsScan (textures : List TexturePtr) (mat : Material) (p : MaterialParam) : Bool :=
  match paramTextureSlot mat p with
  | none => true
  | some slot =>
    match textures[slot]? with
    | some ptr => decide (ptr.offset < 0)
    | none => false

/-- Spec side: the params before the first one that stops the scan. -/
def scannedParams (textures : List TexturePtr) (mat : Material) (params : List MaterialParam) :
    List MaterialParam :=
  params.takeWhile (fun p => !stopsScan textures mat p)

/-- The case labels of the `switch` of the decoding pass
(arc_extract.cpp 729-947), in the order of the source; every other type
falls to `default: break`. -/
def decodedTypes : List ArcType :=
  [ArcType.Texture, ArcType.ReferencedTexture, ArcType.LightmapTexture, ArcType.Mesh,
   ArcType.SkinnedMesh, ArcType.IndexBuffer, ArcType.VertexBuffer, ArcType.Model,
   ArcType.SkinnedModel, ArcType.DeformedModel, ArcType.AnimatedModel, ArcType.InstancedModel,
   ArcType.Skeleton, ArcType.RigNode, ArcType.LightNode, ArcType.Camera, ArcType.Attachment,
   ArcType.UnkNode, ArcType.Material]

/-! ## The header as the readers take it from the file (arc_extract.cpp 666-668, arc.hpp 4-35) -/

/-- The `struct Header` whose two words are `id` and
`numEntriesAndVersion` and whose 16-bit fields, in the order of arc.hpp,
are the values `w`. -/
def Header.ofFields (id numEntriesAndVersion : Nat) (w : List Nat) : Header :=
  { id := id, numEntriesAndVersion := numEntriesAndVersion,
    numTextures := w.getD 0 0, numModels := w.getD 1 0,
    numAttachments := w.getD 2 0, numAttachedModels := w.getD 3 0,
    numSkeletons := w.getD 4 0, numCameras := w.getD 5 0, unk1 := w.getD 6 0,
    numRigNodes := w.getD 7 0, numMaterials := w.getD 8 0,
    numMeshes := w.getD 9 0, unk2 := w.getD 10 0,
    numReferencedTextures := w.getD 11 0, unk22 := (w.drop 12).take 4,
    numIndexBuffers := w.getD 16 0, numVertexBuffers := w.getD 17 0,
    unk20 := (w.drop 18).take 2, numSkinnedModels := w.getD 20 0,
    numDeformedMeshes := w.getD 21 0, numAnimations := w.getD 22 0,
    unk3 := w.getD 23 0, numAnimatedNodes := w.getD 24 0, unk4 := w.getD 25 0,
    numLightNodes := w.getD 26 0 }

/-- Is `rd.Read(hdr)` for `struct Header` at the start of the file, a
read of the `sizeof(Header)` = 64 bytes of the record: the fields in the
order of arc.hpp, the words `id` and `numEntriesAndVersion` first, then
the 27 16-bit fields, then the two bytes that fill the record up to a
multiple of its 4-byte alignment. A file shorter than 64 bytes is
refused. -/
def Header.Read (rd : List Nat) : Except Error (Header × List Nat) :=
  match readU32 rd with
  | .error err => throw err
  | .ok (id, rd) =>
    match readU32 rd with
    | .error err => throw err
    | .ok (numEntriesAndVersion, rd) =>
      match readU16s 27 rd with
      | .error err => throw err
      | .ok (w, rd) =>
        match readRaw 2 rd with
        | .error err => throw err
        | .ok (_, rd) => pure (Header.ofFields id numEntriesAndVersion w, rd)

/-- An `.ARC` file of the PC variant as an index of another version left
it: magic `ARCC`, 2 entries, version byte 9, all counts 0. -/
def exampleArcFile : List Nat :=
  [65, 82, 67, 67, 2, 0, 0, 9] ++ List.replicate 56 0

theorem and_ffffff (n : Nat) : n &&& 0xffffff = n % 2 ^ 24 :=
  Nat.and_pow_two_sub_one_eq_mod n 24

theorem version_of_uint32 (n : Nat) (h32 : n < 2 ^ 32) : (n >>> 24) % 256 = n >>> 24 := by
  rw [Nat.shiftRight_eq_div_pow]
  exact Nat.mod_eq_of_lt (by omega)

theorem readEntries_of_checkHeader_error (hdr : Header) (table : List Entry) (err : Error)
    (h : checkHeader hdr = .error err) : readEntries hdr table = .error err := by
  simp [readEntries, h, bind, Except.bind]

theorem readEntries_of_checkHeader_ok (hdr : Header) (table : List Entry)
    (h : checkHeader hdr = .ok ()) :
    readEntries hdr table = ReadContainer table (hdr.numEntriesAndVersion &&& 0xffffff) := by
  simp [readEntries, h, bind, Except.bind]

/-- C1: header validation of both readers. A header whose id is not the
PC magic fails with the invalid-header error (so do the PS2, XBOX and GC
magics, which differ from the PC one); a header with the PC magic whose
top byte `numEntriesAndVersion >> 24` is not 3 fails with the
invalid-version error carrying that byte; a header with the PC magic and
top byte 3 passes. The id is tested first, so the version plays no part in
the first case. -/
theorem checkHeader_validation (hdr : Header) (h32 : hdr.numEntriesAndVersion < 2 ^ 32) :
    (hdr.id ≠ Header.ID_PC →
      checkHeader hdr = .error (.InvalidHeaderError hdr.id) ∧
      ∀ table, readEntries hdr table = .error (.InvalidHeaderError hdr.id)) ∧
    (hdr.id ∈ [Header.ID_PS2, Header.ID_XBOX, Header.ID_GC] →
      checkHeader hdr = .error (.InvalidHeaderError hdr.id)) ∧
    (hdr.id = Header.ID_PC → hdr.numEntriesAndVersion >>> 24 ≠ 3 →
      checkHeader hdr = .error (.InvalidVersionError (hdr.numEntriesAndVersion >>> 24)) ∧
      ∀ table, readEntries hdr table =
        .error (.InvalidVersionError (hdr.numEntriesAndVersion >>> 24))) ∧
    (hdr.id = Header.ID_PC → hdr.numEntriesAndVersion >>> 24 = 3 →
      checkHeader hdr = .ok ()) := by
  have hv := version_of_uint32 _ h32
  have hbad : hdr.id ≠ Header.ID_PC →
      checkHeader hdr = .error (.InvalidHeaderError hdr.id) := by
    intro hid
    simp [checkHeader, hid, throw, throwThe, MonadExceptOf.throw]
  refine ⟨fun hid => ⟨hbad hid, fun table => ?_⟩, fun hmem => hbad ?_, fun hid hver => ?_,
    fun hid hver => ?_⟩
  · exact readEntries_of_checkHeader_error _ _ _ (hbad hid)
  · intro hpc
    rw [hpc] at hmem
    revert hmem
    decide
  · have hc : checkHeader hdr =
        .error (.InvalidVersionError (hdr.numEntriesAndVersion >>> 24)) := by
      simp [checkHeader, hid, hv, hver, throw, throwThe, MonadExceptOf.throw]
    exact ⟨hc, fun table => readEntries_of_checkHeader_error _ _ _ hc⟩
  · simp [checkHeader, hid, hv, hver, pure, Except.pure]

/-- Witness of C1 at three concrete headers: a PS2 magic with version 4
(wrong in both), a PC magic with version 4 and a PC magic with version 3
and 5 entries. -/
theorem checkHeader_validation_witness :
    checkHeader { id := Header.ID_PS2, numEntriesAndVersion := 0x04000005 } =
        .error (.InvalidHeaderError Header.ID_PS2) ∧
    checkHeader { id := Header.ID_PC, numEntriesAndVersion := 0x04000005 } =
        .error (.InvalidVersionError 4) ∧
    checkHeader { id := Header.ID_PC, numEntriesAndVersion := 0x03000005 } = .ok () :=
  ⟨((checkHeader_validation { id := Header.ID_PS2, numEntriesAndVersion := 0x04000005 }
      (by decide)).1 (by decide)).1,
   ((checkHeader_validation { id := Header.ID_PC, numEntriesAndVersion := 0x04000005 }
      (by decide)).2.2.1 rfl (by decide)).1,
   (checkHeader_validation { id := Header.ID_PC, numEntriesAndVersion := 0x03000005 }
      (by decide)).2.2.2 rfl (by decide)⟩

/-- C2: for a header with the PC magic and version byte 3 the header
tests pass, the reader asks the cursor for exactly
`numEntriesAndVersion & 0xFFFFFF` entries, and it gets that many whenever
the stream holds them; moreover `numEntriesAndVersion` is
`3 * 2^24 + entryCount` and `entryCount < 2^24`. -/
theorem readEntries_entryCount (hdr : Header) (h32 : hdr.numEntriesAndVersion < 2 ^ 32)
    (hid : hdr.id = Header.ID_PC) (hver : hdr.numEntriesAndVersion >>> 24 = 3) :
    checkHeader hdr = .ok () ∧
    (∀ table, readEntries hdr table =
      ReadContainer table (hdr.numEntriesAndVersion &&& 0xffffff)) ∧
    (∀ table, hdr.numEntriesAndVersion &&& 0xffffff ≤ table.length →
      ∃ entries, readEntries hdr table = .ok entries ∧
        entries = table.take (hdr.numEntriesAndVersion &&& 0xffffff) ∧
        entries.length = hdr.numEntriesAndVersion &&& 0xffffff) ∧
    hdr.numEntriesAndVersion = 3 * 2 ^ 24 + (hdr.numEntriesAndVersion &&& 0xffffff) ∧
    hdr.numEntriesAndVersion &&& 0xffffff < 2 ^ 24 := by
  have hv := version_of_uint32 _ h32
  have hok : checkHeader hdr = .ok () := by
    simp [checkHeader, hid, hv, hver, pure, Except.pure]
  have hread := fun table => readEntries_of_checkHeader_ok hdr table hok
  refine ⟨hok, hread, fun table hlen => ?_, ?_, ?_⟩
  · refine ⟨table.take (hdr.numEntriesAndVersion &&& 0xffffff), ?_, rfl, ?_⟩
    · rw [hread, ReadContainer, if_pos hlen]
      rfl
    · rw [List.length_take]
      exact Nat.min_eq_left hlen
  · rw [and_ffffff]
    rw [Nat.shiftRight_eq_div_pow] at hver
    omega
  · rw [and_ffffff]
    exact Nat.mod_lt _ (by decide)

/-- Witness of C2: a PC header with version 3 and two entries, read from
a table of three records. -/
theorem readEntries_entryCount_witness :
    readEntries { id := Header.ID_PC, numEntriesAndVersion := 0x03000002 }
      [{ index := 0 }, { index := 1 }, { index := 2 }] =
      ReadContainer [{ index := 0 }, { index := 1 }, { index := 2 }]
        ((0x03000002 : Nat) &&& 0xffffff) :=
  (readEntries_entryCount { id := Header.ID_PC, numEntriesAndVersion := 0x03000002 }
    (by decide) rfl (by decide)).2.1 _

/-! ## Name resolution -/

theorem cstrAt_spec (entryNames : List Char) (offset : Int) (h0 : 0 ≤ offset)
    (hle : offset ≤ entryNames.length) :
    ∃ name rest, cstrAt entryNames offset = some name ∧
      entryNames = entryNames.take offset.toNat ++ name.data ++ rest ∧
      Char.ofNat 0 ∉ name.data ∧
      (rest = [] ∨ rest.head? = some (Char.ofNat 0)) := by
  refine ⟨_, (entryNames.drop offset.toNat).dropWhile (fun c => c != Char.ofNat 0),
    if_pos ⟨h0, hle⟩, ?_, ?_, ?_⟩
  · rw [List.append_assoc, List.takeWhile_append_dropWhile, List.take_append_drop]
  · intro hmem
    have := List.mem_takeWhile_imp hmem
    simp at this
  · generalize entryNames.drop offset.toNat = l
    induction l with
    | nil => exact Or.inl rfl
    | cons c l ih =>
      by_cases hc : c = Char.ofNat 0
      · right
        simp [List.dropWhile_cons, hc]
      · have hcond : (c != Char.ofNat 0) = true := by simpa using hc
        rw [List.dropWhile_cons, if_pos hcond]
        exact ih

theorem getElem?_append_cons_length {α : Type} (l : List α) (x : α) (tail : List α) :
    (l ++ x :: tail)[l.length]? = some x := by
  rw [List.getElem?_append_right (le_refl _)]
  simp

theorem decode_foldl_append (entryNames : List Char) (l : List Entry) (st : DecodeState) :
    ∃ tail, (l.foldl (decodeStep entryNames) st).records = st.records ++ tail := by
  induction l generalizing st with
  | nil => exact ⟨[], by simp⟩
  | cons e l ih =>
    obtain ⟨tail, ht⟩ := ih (decodeStep entryNames st e)
    rw [List.foldl_cons, ht]
    unfold decodeStep
    split
    · exact ⟨tail, rfl⟩
    · exact ⟨(e, appendName "" entryNames st.curEntry e) :: tail, by simp⟩

/-- Number of entries of a list that reach the `switch` of the decoding
pass, that is, that are neither EntryNames nor Group. -/
theorem decode_foldl_count (entryNames : List Char) (l : List Entry) (st : DecodeState) :
    (l.foldl (decodeStep entryNames) st).curEntry =
        st.curEntry + (l.filter (fun x => x.type ≠ ArcType.EntryNames ∧
          x.type ≠ ArcType.Group)).length ∧
    (l.foldl (decodeStep entryNames) st).records.length =
        st.records.length + (l.filter (fun x => x.type ≠ ArcType.EntryNames ∧
          x.type ≠ ArcType.Group)).length := by
  induction l generalizing st with
  | nil => simp
  | cons e l ih =>
    rw [List.foldl_cons, (ih _).1, (ih _).2]
    by_cases h : e.type = ArcType.EntryNames ∨ e.type = ArcType.Group
    · have hf : ¬ (e.type ≠ ArcType.EntryNames ∧ e.type ≠ ArcType.Group) := by tauto
      simp [decodeStep, h, List.filter_cons, hf]
    · have hf : e.type ≠ ArcType.EntryNames ∧ e.type ≠ ArcType.Group := by tauto
      simp [decodeStep, h, List.filter_cons, hf]
      omega

theorem decodePass_record (entryNames : List Char) (pre post : List Entry) (e : Entry)
    (hty : e.type ≠ ArcType.EntryNames ∧ e.type ≠ ArcType.Group) :
    (decodePass entryNames (pre ++ e :: post)).records[
        (pre.filter (fun x => x.type ≠ ArcType.EntryNames ∧ x.type ≠ ArcType.Group)).length]? =
      some (e, appendName "" entryNames
        (pre.filter (fun x => x.type ≠ ArcType.EntryNames ∧ x.type ≠ ArcType.Group)).length e) := by
  have hcnt := decode_foldl_count entryNames pre {}
  have hst : decodeStep entryNames (pre.foldl (decodeStep entryNames) {}) e =
      { curEntry := (pre.foldl (decodeStep entryNames) {}).curEntry + 1,
        records := (pre.foldl (decodeStep entryNames) {}).records ++
          [(e, appendName "" entryNames (pre.foldl (decodeStep entryNames) {}).curEntry e)] } := by
    have h : ¬ (e.type = ArcType.EntryNames ∨ e.type = ArcType.Group) := by tauto
    simp [decodeStep, h]
  obtain ⟨tail, ht⟩ := decode_foldl_append entryNames post
    (decodeStep entryNames (pre.foldl (decodeStep entryNames) {}) e)
  have hlen : (pre.foldl (decodeStep entryNames) {}).records.length =
      (pre.filter (fun x => x.type ≠ ArcType.EntryNames ∧
        x.type ≠ ArcType.Group)).length := by
    rw [hcnt.2]
    exact Nat.zero_add _
  have hcur : (pre.foldl (decodeStep entryNames) {}).curEntry =
      (pre.filter (fun x => x.type ≠ ArcType.EntryNames ∧ x.type ≠ ArcType.Group)).length := by
    rw [hcnt.1]
    exact Nat.zero_add _
  rw [decodePass, List.foldl_append, List.foldl_cons, ht, hst]
  simp only [List.append_assoc, List.singleton_append]
  rw [hcur, ← hlen]
  exact getElem?_append_cons_length _ _ _

theorem empty_append_string (s : String) : "" ++ s = s := by
  apply String.ext
  simp

/-- C3: direct-offset name resolution. In the decoding pass of both
readers, an entry that is neither EntryNames nor Group and whose
`nameOffset` is at least 0 and below the length of the name blob is given
the characters of the blob that start at `nameOffset` and stop just
before the first NUL at or after it, or at the end of the blob when no
NUL follows. -/
theorem direct_offset_name (entryNames : List Char) (pre post : List Entry) (e : Entry)
    (hty : e.type ≠ ArcType.EntryNames ∧ e.type ≠ ArcType.Group)
    (h0 : 0 ≤ e.nameOffset) (hlt : e.nameOffset < entryNames.length) :
    ∃ name rest,
      (ArcAnim.DoArc entryNames (pre ++ e :: post))[
          (pre.filter (fun x => x.type ≠ ArcType.EntryNames ∧
            x.type ≠ ArcType.Group)).length]? = some (e, some name) ∧
      (ArcExtract.AppProcessFile entryNames (pre ++ e :: post)).1[
          (pre.filter (fun x => x.type ≠ ArcType.EntryNames ∧
            x.type ≠ ArcType.Group)).length]? = some (e, some name) ∧
      entryNames = entryNames.take e.nameOffset.toNat ++ name.data ++ rest ∧
      Char.ofNat 0 ∉ name.data ∧
      (rest = [] ∨ rest.head? = some (Char.ofNat 0)) := by
  obtain ⟨name, rest, hname, hsplit, hnul, hrest⟩ :=
    cstrAt_spec entryNames e.nameOffset h0 (le_of_lt hlt)
  have hrec := decodePass_record entryNames pre post e hty
  have happ : appendName "" entryNames
      (pre.filter (fun x => x.type ≠ ArcType.EntryNames ∧ x.type ≠ ArcType.Group)).length e =
      some name := by
    have hgt : e.nameOffset > -1 := by omega
    simp [appendName, hgt, hname, empty_append_string]
  rw [happ] at hrec
  exact ⟨name, rest, hrec, hrec, hsplit, hnul, hrest⟩

/-- Witness of C3: the blob `a\0bc\0` and a Mesh entry with name offset 2
standing behind a Group entry; the entry is named `bc`. -/
theorem direct_offset_name_witness :
    ∃ name rest,
      (ArcAnim.DoArc ['a', Char.ofNat 0, 'b', 'c', Char.ofNat 0]
        ([{ type := ArcType.Group, nameOffset := 0 }] ++
          { type := ArcType.Mesh, nameOffset := 2 } :: []))[
          (([{ type := ArcType.Group, nameOffset := 0 }] : List Entry).filter
            (fun x => x.type ≠ ArcType.EntryNames ∧ x.type ≠ ArcType.Group)).length]? =
        some ({ type := ArcType.Mesh, nameOffset := 2 }, some name) ∧
      (ArcExtract.AppProcessFile ['a', Char.ofNat 0, 'b', 'c', Char.ofNat 0]
        ([{ type := ArcType.Group, nameOffset := 0 }] ++
          { type := ArcType.Mesh, nameOffset := 2 } :: [])).1[
          (([{ type := ArcType.Group, nameOffset := 0 }] : List Entry).filter
            (fun x => x.type ≠ ArcType.EntryNames ∧ x.type ≠ ArcType.Group)).length]? =
        some ({ type := ArcType.Mesh, nameOffset := 2 }, some name) ∧
      ['a', Char.ofNat 0, 'b', 'c', Char.ofNat 0] =
        (['a', Char.ofNat 0, 'b', 'c', Char.ofNat 0] : List Char).take (2 : Int).toNat ++
          name.data ++ rest ∧
      Char.ofNat 0 ∉ name.data ∧
      (rest = [] ∨ rest.head? = some (Char.ofNat 0)) :=
  direct_offset_name ['a', Char.ofNat 0, 'b', 'c', Char.ofNat 0]
    [{ type := ArcType.Group, nameOffset := 0 }] []
    { type := ArcType.Mesh, nameOffset := 2 } (by decide) (by decide) (by decide)

/-- C4, counterexample: in the table `[EntryNames, PlainData]` the
PlainData entry stands at table index 1 and has `nameOffset = -1`; the
decoding pass names it `0` and the loose-file pass names it `2`, neither
is the decimal string of its table index. -/
theorem fallback_name_counterexample :
    ([{ type := ArcType.EntryNames, nameOffset := 0 },
      { type := ArcType.PlainData, nameOffset := -1 }] : List Entry)[1]? =
        some { type := ArcType.PlainData, nameOffset := -1 } ∧
    ArcExtract.AppProcessFile []
      [{ type := ArcType.EntryNames, nameOffset := 0 },
       { type := ArcType.PlainData, nameOffset := -1 }] =
      ([({ type := ArcType.PlainData, nameOffset := -1 }, some "0")],
       [({ type := ArcType.PlainData, nameOffset := -1 }, some "2")]) ∧
    ArcAnim.DoArc []
      [{ type := ArcType.EntryNames, nameOffset := 0 },
       { type := ArcType.PlainData, nameOffset := -1 }] =
      [({ type := ArcType.PlainData, nameOffset := -1 }, some "0")] ∧
    toString (1 : Nat) ≠ "0" ∧ toString (1 : Nat) ≠ "2" := by
  decide

/-- C4, amended: in the decoding pass of both readers an entry that is
neither EntryNames nor Group and has `nameOffset < 0` is named by the
decimal string of the number of entries before it in the table that are
neither EntryNames nor Group; it is the record of that position. -/
theorem fallback_name_decodePass (entryNames : List Char) (pre post : List Entry) (e : Entry)
    (hty : e.type ≠ ArcType.EntryNames ∧ e.type ≠ ArcType.Group)
    (hneg : e.nameOffset < 0) :
    (ArcAnim.DoArc entryNames (pre ++ e :: post))[
        (pre.filter (fun x => x.type ≠ ArcType.EntryNames ∧
          x.type ≠ ArcType.Group)).length]? =
      some (e, some (toString (pre.filter (fun x => x.type ≠ ArcType.EntryNames ∧
          x.type ≠ ArcType.Group)).length)) ∧
    (ArcExtract.AppProcessFile entryNames (pre ++ e :: post)).1[
        (pre.filter (fun x => x.type ≠ ArcType.EntryNames ∧
          x.type ≠ ArcType.Group)).length]? =
      some (e, some (toString (pre.filter (fun x => x.type ≠ ArcType.EntryNames ∧
          x.type ≠ ArcType.Group)).length)) := by
  have hrec := decodePass_record entryNames pre post e hty
  have happ : appendName "" entryNames
      (pre.filter (fun x => x.type ≠ ArcType.EntryNames ∧ x.type ≠ ArcType.Group)).length e =
      some (toString (pre.filter (fun x => x.type ≠ ArcType.EntryNames ∧
          x.type ≠ ArcType.Group)).length) := by
    have hgt : ¬ e.nameOffset > -1 := by omega
    simp [appendName, hgt, empty_append_string]
  rw [happ] at hrec
  exact ⟨hrec, hrec⟩

/-- Witness of the amended C4: a Mesh entry without a name behind a
Group, an EntryNames and a Texture entry is named `1`. -/
theorem fallback_name_decodePass_witness :
    (ArcAnim.DoArc ['g', Char.ofNat 0]
        ([{ type := ArcType.Group, nameOffset := 0 }, { type := ArcType.EntryNames },
          { type := ArcType.Texture, nameOffset := 0 }] ++
          { type := ArcType.Mesh, nameOffset := -1 } :: []))[
        (([{ type := ArcType.Group, nameOffset := 0 }, { type := ArcType.EntryNames },
          { type := ArcType.Texture, nameOffset := 0 }] : List Entry).filter
            (fun x => x.type ≠ ArcType.EntryNames ∧ x.type ≠ ArcType.Group)).length]? =
      some ({ type := ArcType.Mesh, nameOffset := -1 }, some "1") :=
  (fallback_name_decodePass ['g', Char.ofNat 0]
    [{ type := ArcType.Group, nameOffset := 0 }, { type := ArcType.EntryNames },
      { type := ArcType.Texture, nameOffset := 0 }] []
    { type := ArcType.Mesh, nameOffset := -1 } (by decide) (by decide)).1

theorem appendName_prefix (fileName : String) (entryNames : List Char) (curEntry : Nat)
    (e : Entry) :
    appendName fileName entryNames curEntry e =
      (appendName "" entryNames curEntry e).map (fun own => fileName ++ own) := by
  unfold appendName
  split
  · cases cstrAt entryNames e.nameOffset <;> simp [empty_append_string]
  · simp [empty_append_string]

theorem group_not_looseSkipped : ArcType.Group ∉ looseSkipped := by decide

theorem looseStep_files (entryNames : List Char) (st : LooseState) (e : Entry) :
    ∃ t, (looseStep entryNames st e).files = st.files ++ t := by
  by_cases h1 : e.type ∈ looseSkipped
  · exact ⟨[], by simp [looseStep, h1]⟩
  · by_cases h2 : e.type = ArcType.Group
    · exact ⟨[], by simp [looseStep, h1, h2, group_not_looseSkipped]⟩
    · simp only [looseStep, if_neg h1, if_neg h2]
      exact ⟨_, rfl⟩

theorem loose_foldl_append (entryNames : List Char) (l : List Entry) (st : LooseState) :
    ∃ tail, (l.foldl (looseStep entryNames) st).files = st.files ++ tail := by
  induction l generalizing st with
  | nil => exact ⟨[], by simp⟩
  | cons e l ih =>
    obtain ⟨tail, ht⟩ := ih (looseStep entryNames st e)
    obtain ⟨t, hstep⟩ := looseStep_files entryNames st e
    exact ⟨t ++ tail, by rw [List.foldl_cons, ht, hstep, List.append_assoc]⟩

theorem loose_foldl_group (entryNames : List Char) (l : List Entry) (st : LooseState)
    (hl : ∀ x ∈ l, x.type ≠ ArcType.Group) :
    (l.foldl (looseStep entryNames) st).currentGroup = st.currentGroup := by
  induction l generalizing st with
  | nil => rfl
  | cons e l ih =>
    rw [List.foldl_cons, ih _ (fun x hx => hl x (List.mem_cons_of_mem _ hx))]
    have he : e.type ≠ ArcType.Group := hl e (List.mem_cons_self _ _)
    by_cases h1 : e.type ∈ looseSkipped
    · simp [looseStep, h1]
    · simp only [looseStep, if_neg h1, if_neg he]

theorem loose_foldl_count (entryNames : List Char) (l : List Entry) (st : LooseState) :
    (l.foldl (looseStep entryNames) st).files.length =
      st.files.length + (l.filter (fun x => x.type ∉ looseSkipped ∧
        x.type ≠ ArcType.Group)).length := by
  induction l generalizing st with
  | nil => simp
  | cons e l ih =>
    rw [List.foldl_cons, ih]
    by_cases h1 : e.type ∈ looseSkipped
    · have hf : ¬ (e.type ∉ looseSkipped ∧ e.type ≠ ArcType.Group) := by tauto
      rw [List.filter_cons_of_neg (by simpa using hf)]
      simp [looseStep, h1]
    · by_cases h2 : e.type = ArcType.Group
      · have hf : ¬ (e.type ∉ looseSkipped ∧ e.type ≠ ArcType.Group) := by tauto
        rw [List.filter_cons_of_neg (by simpa using hf)]
        simp [looseStep, h2, group_not_looseSkipped]
      · have hf : e.type ∉ looseSkipped ∧ e.type ≠ ArcType.Group := ⟨h1, h2⟩
        rw [List.filter_cons_of_pos (by simpa using hf)]
        simp only [looseStep, if_neg h1, if_neg h2, List.length_append, List.length_cons,
          List.length_nil]
        omega

theorem looseStep_file (entryNames : List Char) (st : LooseState) (e : Entry)
    (he : e.type ∉ looseSkipped ∧ e.type ≠ ArcType.Group) :
    (looseStep entryNames st e).files = st.files ++
      [(e, (st.currentGroup.bind
        (fun g => (appendName "" entryNames st.curEntry e).map (fun own => g ++ own))).map
          (fun f => if e.type ≠ ArcType.PlainData then f ++ "." ++ toString e.type.raw
            else f))] := by
  have hbind : (st.currentGroup.bind fun g => appendName g entryNames st.curEntry e) =
      st.currentGroup.bind
        (fun g => (appendName "" entryNames st.curEntry e).map (fun own => g ++ own)) := by
    congr 1
    funext g
    exact appendName_prefix g entryNames _ e
  simp only [looseStep, if_neg he.1, if_neg he.2, hbind]
  congr 3
  by_cases hp : e.type = ArcType.PlainData
  · simp [hp]
  · simp only [ne_eq, hp, not_false_eq_true, if_true]
    congr 1

/-- The file name the loose-file pass gives an entry it writes out, when
the pass has read `before` under the starting counter `curEntry`: the
group in force, the entry's own name, and the type number unless the
entry is PlainData. -/
theorem loosePass_file (entryNames : List Char) (curEntry : Nat) (before post : List Entry)
    (e : Entry) (he : e.type ∉ looseSkipped ∧ e.type ≠ ArcType.Group) :
    ∃ c, (loosePass entryNames curEntry (before ++ e :: post)).files[
        (before.filter (fun x => x.type ∉ looseSkipped ∧ x.type ≠ ArcType.Group)).length]? =
      some (e, ((loosePass entryNames curEntry before).currentGroup.bind
        (fun g => (appendName "" entryNames c e).map (fun own => g ++ own))).map
          (fun f => if e.type ≠ ArcType.PlainData then f ++ "." ++ toString e.type.raw else f)) := by
  refine ⟨(loosePass entryNames curEntry before).curEntry, ?_⟩
  obtain ⟨tail, ht⟩ := loose_foldl_append entryNames post
    (looseStep entryNames (loosePass entryNames curEntry before) e)
  have hlen := loose_foldl_count entryNames before { curEntry := curEntry }
  have hfold : (loosePass entryNames curEntry (before ++ e :: post)).files =
      (looseStep entryNames (loosePass entryNames curEntry before) e).files ++ tail := by
    rw [← ht]
    simp [loosePass, List.foldl_append]
  rw [hfold, looseStep_file entryNames _ e he]
  simp only [List.append_assoc, List.singleton_append]
  have hlen2 : (before.filter (fun x => x.type ∉ looseSkipped ∧
      x.type ≠ ArcType.Group)).length = (loosePass entryNames curEntry before).files.length := by
    rw [loosePass, hlen]
    exact (Nat.zero_add _).symm
  rw [hlen2]
  exact getElem?_append_cons_length _ _ _

theorem loosePass_group_after (entryNames : List Char) (curEntry : Nat) (pre mid : List Entry)
    (g : Entry) (G : String) (hg : g.type = ArcType.Group)
    (hG : cstrAt entryNames g.nameOffset = some G) (hmid : ∀ x ∈ mid, x.type ≠ ArcType.Group) :
    (loosePass entryNames curEntry (pre ++ g :: mid)).currentGroup = some (G ++ "/") := by
  rw [loosePass, List.foldl_append, List.foldl_cons, loose_foldl_group entryNames mid _ hmid]
  simp only [looseStep, hg, if_neg group_not_looseSkipped, if_true, hG, Option.map_some']
  rfl

theorem loosePass_group_before (entryNames : List Char) (curEntry : Nat) (pre : List Entry)
    (hpre : ∀ x ∈ pre, x.type ≠ ArcType.Group) :
    (loosePass entryNames curEntry pre).currentGroup = some "" := by
  rw [loosePass, loose_foldl_group entryNames pre _ hpre]

/-- C5, counterexample: behind the Group entry `grp` stand a Texture
entry and an entry of type 3, both named `a`. The decoding pass names
both `a`, without the group; the loose-file pass writes no file for the
Texture entry and names the other one `grp/a.3`. -/
theorem group_prefix_counterexample :
    ArcExtract.AppProcessFile ['g', 'r', 'p', Char.ofNat 0, 'a', Char.ofNat 0]
      [{ type := ArcType.Group, nameOffset := 0 },
       { type := ArcType.Texture, nameOffset := 4 },
       { type := ⟨3⟩, nameOffset := 4 }] =
      ([({ type := ArcType.Texture, nameOffset := 4 }, some "a"),
        ({ type := ⟨3⟩, nameOffset := 4 }, some "a")],
       [({ type := ⟨3⟩, nameOffset := 4 }, some "grp/a.3")]) ∧
    cstrAt ['g', 'r', 'p', Char.ofNat 0, 'a', Char.ofNat 0] 0 = some "grp" ∧
    cstrAt ['g', 'r', 'p', Char.ofNat 0, 'a', Char.ofNat 0] 4 = some "a" ∧
    "a" ≠ "grp" ++ "/" ++ "a" ∧ "grp/a.3" ≠ "grp" ++ "/" ++ "a" := by
  decide

/-- C5, amended: the group prefix belongs to the loose-file pass of
arc_extract only. There, behind a Group entry named `G`, an entry the
pass writes out (its type is none of the skipped ones and is not Group)
that comes before the next Group entry gets the file name `G`, `/`, its
own name, and then `.` and its decimal type number unless it is
PlainData; an entry written out before the first Group entry gets the
same name without any prefix. The decoding pass gives the entry its own
name alone. The own name is the blob name at `nameOffset`, or the decimal
string of the pass counter when `nameOffset < 0`. -/
theorem group_prefix_loose (entryNames : List Char) (pre mid post : List Entry) (g e : Entry)
    (G : String) (hg : g.type = ArcType.Group)
    (hG : cstrAt entryNames g.nameOffset = some G)
    (hmid : ∀ x ∈ mid, x.type ≠ ArcType.Group)
    (he : e.type ∉ looseSkipped ∧ e.type ≠ ArcType.Group) :
    (∃ c, (ArcExtract.AppProcessFile entryNames (pre ++ g :: (mid ++ e :: post))).2[
        ((pre ++ g :: mid).filter (fun x => x.type ∉ looseSkipped ∧
          x.type ≠ ArcType.Group)).length]? =
      some (e, (appendName "" entryNames c e).map (fun own =>
        if e.type ≠ ArcType.PlainData then G ++ "/" ++ own ++ "." ++ toString e.type.raw
        else G ++ "/" ++ own))) ∧
    (ArcExtract.AppProcessFile entryNames (pre ++ g :: (mid ++ e :: post))).1[
        ((pre ++ g :: mid).filter (fun x => x.type ≠ ArcType.EntryNames ∧
          x.type ≠ ArcType.Group)).length]? =
      some (e, appendName "" entryNames ((pre ++ g :: mid).filter
        (fun x => x.type ≠ ArcType.EntryNames ∧ x.type ≠ ArcType.Group)).length e) ∧
    ((∀ x ∈ pre, x.type ≠ ArcType.Group) → ∀ pre1 pre2 e0, pre = pre1 ++ e0 :: pre2 →
      e0.type ∉ looseSkipped →
      ∃ c, (ArcExtract.AppProcessFile entryNames (pre ++ g :: (mid ++ e :: post))).2[
        (pre1.filter (fun x => x.type ∉ looseSkipped ∧ x.type ≠ ArcType.Group)).length]? =
      some (e0, (appendName "" entryNames c e0).map (fun own =>
        if e0.type ≠ ArcType.PlainData then own ++ "." ++ toString e0.type.raw
        else own))) := by
  refine ⟨?_, ?_, ?_⟩
  · obtain ⟨c, hc⟩ := loosePass_file entryNames
      (decodePass entryNames (pre ++ g :: (mid ++ e :: post))).curEntry (pre ++ g :: mid) post e he
    refine ⟨c, ?_⟩
    have happ : pre ++ g :: (mid ++ e :: post) = (pre ++ g :: mid) ++ e :: post := by simp
    rw [loosePass_group_after entryNames _ pre mid g G hg hG hmid, ← happ] at hc
    rw [ArcExtract.AppProcessFile]
    simp only
    rw [hc]
    congr 2
    cases appendName "" entryNames c e with
    | none => rfl
    | some own =>
      by_cases hp : e.type = ArcType.PlainData
      · simp [hp]
      · simp [hp]
  · have hne : e.type ≠ ArcType.EntryNames := by
      intro h
      exact he.1 (by rw [h]; decide)
    have happ : pre ++ g :: (mid ++ e :: post) = (pre ++ g :: mid) ++ e :: post := by simp
    rw [happ]
    exact decodePass_record entryNames (pre ++ g :: mid) post e ⟨hne, he.2⟩
  · intro hpre pre1 pre2 e0 hsplit he0
    have hgrp : e0.type ≠ ArcType.Group := hpre e0 (by rw [hsplit]; simp)
    obtain ⟨c, hc⟩ := loosePass_file entryNames
      (decodePass entryNames (pre ++ g :: (mid ++ e :: post))).curEntry pre1
      (pre2 ++ g :: (mid ++ e :: post)) e0 ⟨he0, hgrp⟩
    refine ⟨c, ?_⟩
    have hpre1 : ∀ x ∈ pre1, x.type ≠ ArcType.Group :=
      fun x hx => hpre x (by rw [hsplit]; simp [hx])
    have happ : pre ++ g :: (mid ++ e :: post) =
        pre1 ++ e0 :: (pre2 ++ g :: (mid ++ e :: post)) := by simp [hsplit]
    rw [loosePass_group_before entryNames _ pre1 hpre1] at hc
    rw [ArcExtract.AppProcessFile]
    simp only
    rw [← happ] at hc
    rw [hc]
    congr 2
    cases appendName "" entryNames c e0 with
    | none => rfl
    | some own =>
      by_cases hp : e0.type = ArcType.PlainData
      · simp [hp, empty_append_string]
      · simp [hp, empty_append_string]

/-- Witness of the amended C5: the blob `grp\0a\0`, a Group entry at
offset 0, a skipped Texture entry, and an entry of type 3 named `a`. -/
theorem group_prefix_loose_witness :
    ∃ c, (ArcExtract.AppProcessFile ['g', 'r', 'p', Char.ofNat 0, 'a', Char.ofNat 0]
        ([] ++ { type := ArcType.Group, nameOffset := 0 } ::
          ([{ type := ArcType.Texture, nameOffset := 4 }] ++
            { type := ⟨3⟩, nameOffset := 4 } :: []))).2[
        (List.filter
            (fun x : Entry => x.type ∉ looseSkipped ∧ x.type ≠ ArcType.Group)
            (([] : List Entry) ++ { type := ArcType.Group, nameOffset := 0 } ::
              [{ type := ArcType.Texture, nameOffset := 4 }])).length]? =
      some ({ type := ⟨3⟩, nameOffset := 4 },
        (appendName "" ['g', 'r', 'p', Char.ofNat 0, 'a', Char.ofNat 0] c
          { type := ⟨3⟩, nameOffset := 4 }).map (fun own =>
            if (⟨3⟩ : ArcType) ≠ ArcType.PlainData then
              "grp" ++ "/" ++ own ++ "." ++ toString (3 : Nat)
            else "grp" ++ "/" ++ own)) :=
  (group_prefix_loose ['g', 'r', 'p', Char.ofNat 0, 'a', Char.ofNat 0] []
    [{ type := ArcType.Texture, nameOffset := 4 }] []
    { type := ArcType.Group, nameOffset := 0 } { type := ⟨3⟩, nameOffset := 4 } "grp"
    rfl (by decide) (by decide) (by decide)).1

/-! ## Index buffers -/

theorem swapScanStep_at (pre rest : List Nat) (a b c : Nat) (h : Bool) :
    swapScanStep (some (pre ++ a :: b :: c :: rest, h)) pre.length =
      some (pre ++ b :: a :: c :: rest, h || (b == 0xFFFF || a == 0xFFFF || c == 0xFFFF)) := by
  have h0 : (pre ++ a :: b :: c :: rest)[pre.length]? = some a := by
    rw [List.getElem?_append_right (le_refl _)]
    simp
  have h1 : (pre ++ a :: b :: c :: rest)[pre.length + 1]? = some b := by
    rw [List.getElem?_append_right (by omega)]
    simp
  have hset : ((pre ++ a :: b :: c :: rest).set pre.length b).set (pre.length + 1) a =
      pre ++ b :: a :: c :: rest := by
    rw [List.set_append_right _ _ (le_refl _), List.set_append_right _ _ (by omega)]
    simp
  have g0 : (pre ++ b :: a :: c :: rest)[pre.length]? = some b := by
    rw [List.getElem?_append_right (le_refl _)]
    simp
  have g1 : (pre ++ b :: a :: c :: rest)[pre.length + 1]? = some a := by
    rw [List.getElem?_append_right (by omega)]
    simp
  have g2 : (pre ++ b :: a :: c :: rest)[pre.length + 2]? = some c := by
    rw [List.getElem?_append_right (by omega)]
    simp
  have hreset : resetIndexAt (pre ++ b :: a :: c :: rest) pre.length =
      some (b == 0xFFFF || a == 0xFFFF || c == 0xFFFF) := by
    simp only [resetIndexAt, Option.bind_eq_bind, Option.some_bind, g0, g1, g2, Option.pure_def]
    cases hb : (b == 0xFFFF) <;> cases ha : (a == 0xFFFF) <;> simp
  simp only [swapScanStep, Option.bind_eq_bind, Option.some_bind, h0, h1, hset, hreset,
    Option.pure_def]

theorem swap_foldl (m : Nat) : ∀ (j : Nat) (pre rest : List Nat) (h : Bool),
    rest.length = 3 * m → pre.length = 3 * j →
    ((List.range' j m).map (fun k => 3 * k)).foldl swapScanStep (some (pre ++ rest, h)) =
      some (pre ++ swapTriples rest, h || rest.any (fun x => x == 0xFFFF)) := by
  induction m with
  | zero =>
    intro j pre rest h hrest _
    have : rest = [] := List.length_eq_zero.mp (by omega)
    subst this
    simp [swapTriples]
  | succ m ih =>
    intro j pre rest h hrest hpre
    match rest, hrest with
    | a :: b :: c :: rest, hrest =>
      have hstep := swapScanStep_at pre rest a b c h
      rw [hpre] at hstep
      rw [List.range'_succ, List.map_cons, List.foldl_cons, hstep]
      have := ih (j + 1) (pre ++ [b, a, c]) rest
        (h || (b == 0xFFFF || a == 0xFFFF || c == 0xFFFF))
        (by simp at hrest; omega) (by simp; omega)
      simp only [List.append_assoc, List.cons_append, List.nil_append] at this
      rw [this, swapTriples]
      simp only [List.any_cons, Option.some.injEq, Prod.mk.injEq, true_and]
      cases h <;> cases (a == 0xFFFF) <;> cases (b == 0xFFFF) <;> cases (c == 0xFFFF) <;> rfl

/-- The loop of `ReadIndexArray` refines the spec-side swap: on a buffer
whose length is a multiple of 3 it leaves `swapTriples data` and has seen
a reset index exactly when the buffer holds `0xFFFF`. -/
theorem swap_loop_refines (data : List Nat) (hlen : data.length % 3 = 0) :
    (swapLoopIndices data.length).foldl swapScanStep (some (data, false)) =
      some (swapTriples data, data.any (fun x => x == 0xFFFF)) := by
  have hm : (data.length + 2) / 3 = data.length / 3 := by omega
  have := swap_foldl (data.length / 3) 0 [] data false (by omega) rfl
  simpa [swapLoopIndices, hm, List.range_eq_range'] using this

theorem swapTriples_length : ∀ (l : List Nat), (swapTriples l).length = l.length
  | [] => rfl
  | [_] => rfl
  | [_, _] => rfl
  | _ :: _ :: _ :: rest => by
    simp [swapTriples, swapTriples_length rest]

theorem swapTriples_get (k : Nat) : ∀ (l : List Nat), 3 * k + 2 < l.length →
    (swapTriples l)[3 * k]? = l[3 * k + 1]? ∧ (swapTriples l)[3 * k + 1]? = l[3 * k]? ∧
    (swapTriples l)[3 * k + 2]? = l[3 * k + 2]? := by
  induction k with
  | zero =>
    intro l hl
    match l, hl with
    | a :: b :: c :: rest, _ => simp [swapTriples]
  | succ k ih =>
    intro l hl
    match l, hl with
    | a :: b :: c :: rest, hl =>
      have := ih rest (by simp at hl; omega)
      have e0 : 3 * (k + 1) = 3 * k + 1 + 1 + 1 := by omega
      simp only [swapTriples, e0, List.getElem?_cons_succ]
      exact this

theorem swapTriples_map (f : Nat → Nat) : ∀ (l : List Nat),
    (swapTriples l).map f = swapTriples (l.map f)
  | [] => rfl
  | [_] => rfl
  | [_, _] => rfl
  | _ :: _ :: _ :: rest => by
    simp [swapTriples, swapTriples_map f rest]

theorem swapTriples_mem (x : Nat) : ∀ (l : List Nat), x ∈ swapTriples l ↔ x ∈ l
  | [] => Iff.rfl
  | [_] => Iff.rfl
  | [_, _] => Iff.rfl
  | a :: b :: c :: rest => by
    simp only [swapTriples, List.mem_cons, swapTriples_mem x rest]
    tauto

theorem map_mod_of_lt (l : List Nat) (h16 : ∀ x ∈ l, x < 2 ^ 16) :
    l.map (fun x => x % 2 ^ 32) = l := by
  induction l with
  | nil => rfl
  | cons a l ih =>
    have ha : a < 2 ^ 16 := h16 a (List.mem_cons_self _ _)
    rw [List.map_cons, ih (fun x hx => h16 x (List.mem_cons_of_mem _ hx)),
      Nat.mod_eq_of_lt (by omega)]

/-- What `ReadIndexArray` hands to the sink and returns, on a buffer of
16-bit indices whose length is a multiple of 3. -/
theorem ReadIndexArray_eq (accessorIndex : Nat) (data : List Nat)
    (hlen : data.length % 3 = 0) (h16 : ∀ x ∈ data, x < 2 ^ 16) :
    ReadIndexArray accessorIndex data =
      some ({ data := swapTriples data, count := data.length,
              elementSize := if data.any (fun x => x == 0xFFFF) then 4 else 2 },
            { acc := accessorIndex,
              size := if data.any (fun x => x == 0xFFFF) then 4 else 2 }) := by
  have hmap : (swapTriples data).map (fun x => x % 2 ^ 32) = swapTriples data := by
    rw [swapTriples_map, map_mod_of_lt data h16]
  simp only [ReadIndexArray, swap_loop_refines data hlen, Option.bind_eq_bind,
    Option.some_bind, Option.pure_def, hmap]
  cases data.any (fun x => x == 0xFFFF) <;> rfl

/-- C6: index-buffer winding swap. For a buffer of 16-bit indices whose
length `n` is a multiple of 3, `ReadIndexArray` saves a buffer of the
same length `n` in which, for every triangle `k < n / 3`, position `3k`
holds the input element `3k+1`, position `3k+1` holds the input element
`3k`, and position `3k+2` holds the input element `3k+2`. -/
theorem ReadIndexArray_winding_swap (accessorIndex : Nat) (data : List Nat)
    (hlen : data.length % 3 = 0) (h16 : ∀ x ∈ data, x < 2 ^ 16) :
    ∃ saved ind, ReadIndexArray accessorIndex data = some (saved, ind) ∧
      saved.data.length = data.length ∧ saved.count = data.length ∧
      ∀ k, k < data.length / 3 →
        saved.data[3 * k]? = data[3 * k + 1]? ∧
        saved.data[3 * k + 1]? = data[3 * k]? ∧
        saved.data[3 * k + 2]? = data[3 * k + 2]? :=
  ⟨_, _, ReadIndexArray_eq accessorIndex data hlen h16, swapTriples_length data, rfl,
    fun k hk => swapTriples_get k data (by omega)⟩

/-- Witness of C6 on the two triangles `1 2 3` and `4 5 6`. -/
theorem ReadIndexArray_winding_swap_witness :
    ∃ saved ind, ReadIndexArray 0 [1, 2, 3, 4, 5, 6] = some (saved, ind) ∧
      saved.data.length = [1, 2, 3, 4, 5, 6].length ∧ saved.count = [1, 2, 3, 4, 5, 6].length ∧
      ∀ k, k < [1, 2, 3, 4, 5, 6].length / 3 →
        saved.data[3 * k]? = [1, 2, 3, 4, 5, 6][3 * k + 1]? ∧
        saved.data[3 * k + 1]? = [1, 2, 3, 4, 5, 6][3 * k]? ∧
        saved.data[3 * k + 2]? = [1, 2, 3, 4, 5, 6][3 * k + 2]? :=
  ReadIndexArray_winding_swap 0 [1, 2, 3, 4, 5, 6] (by decide) (by decide)

/-- C7: index widening. For a buffer of 16-bit indices whose length is a
multiple of 3, the element size `ReadIndexArray` returns is 4 exactly
when some index of the buffer equals `0xFFFF` and is 2 otherwise; it is
the element size the sink is given. The saved count is the index count in
both cases, and in the widened case every saved index has the value of
the corresponding swapped 16-bit index, which is what zero-extension to
32 bits keeps. -/
theorem ReadIndexArray_widening (accessorIndex : Nat) (data : List Nat)
    (hlen : data.length % 3 = 0) (h16 : ∀ x ∈ data, x < 2 ^ 16) :
    ∃ saved ind, ReadIndexArray accessorIndex data = some (saved, ind) ∧
      (ind.size = 4 ↔ 0xFFFF ∈ data) ∧
      (0xFFFF ∉ data → ind.size = 2) ∧
      saved.elementSize = ind.size ∧
      saved.count = data.length ∧ saved.data.length = data.length ∧
      (ind.size = 4 → saved.data = swapTriples data ∧ ∀ x ∈ saved.data, x < 2 ^ 16) := by
  refine ⟨_, _, ReadIndexArray_eq accessorIndex data hlen h16, ?_, ?_, rfl, rfl,
    swapTriples_length data, ?_⟩
  · by_cases hmem : 0xFFFF ∈ data
    · have hany : data.any (fun x => x == 0xFFFF) = true := by
        rw [List.any_eq_true]
        exact ⟨_, hmem, by simp⟩
      simp [hany, hmem]
    · have hany : data.any (fun x => x == 0xFFFF) = false := by
        rw [List.any_eq_false]
        intro x hx
        simp only [beq_iff_eq]
        intro h
        exact hmem (h ▸ hx)
      simp [hany, hmem]
  · intro hmem
    have hany : data.any (fun x => x == 0xFFFF) = false := by
      rw [List.any_eq_false]
      intro x hx
      simp only [beq_iff_eq]
      intro h
      exact hmem (h ▸ hx)
    simp [hany]
  · intro _
    exact ⟨rfl, fun x hx => h16 x ((swapTriples_mem x data).mp hx)⟩

/-- Witness of C7 on a buffer of two triangles that holds `0xFFFF`. -/
theorem ReadIndexArray_widening_witness :
    ∃ saved ind, ReadIndexArray 0 [1, 2, 3, 4, 5, 0xFFFF] = some (saved, ind) ∧
      (ind.size = 4 ↔ 0xFFFF ∈ [1, 2, 3, 4, 5, 0xFFFF]) ∧
      (0xFFFF ∉ [1, 2, 3, 4, 5, 0xFFFF] → ind.size = 2) ∧
      saved.elementSize = ind.size ∧
      saved.count = [1, 2, 3, 4, 5, 0xFFFF].length ∧
      saved.data.length = [1, 2, 3, 4, 5, 0xFFFF].length ∧
      (ind.size = 4 → saved.data = swapTriples [1, 2, 3, 4, 5, 0xFFFF] ∧
        ∀ x ∈ saved.data, x < 2 ^ 16) :=
  ReadIndexArray_widening 0 [1, 2, 3, 4, 5, 0xFFFF] (by decide) (by decide)

/-! ## Fragment names -/

theorem and_80_of_lt_128 : ∀ i < 128, i &&& 0x80 = 0 := by decide

theorem namesAt_one_based (names : List String) (index : Nat) (h1 : 1 ≤ index)
    (h32 : index < 2 ^ 32) :
    namesAt names index =
      match names[index - 1]? with
      | some s => .ok s
      | none => .error Error.OutOfRange := by
  have hidx : (index + 2 ^ 32 - 1) % 2 ^ 32 = index - 1 := by
    have : index + 2 ^ 32 - 1 = (index - 1) + 2 ^ 32 := by omega
    rw [this, Nat.add_mod_right]
    exact Nat.mod_eq_of_lt (by omega)
  rw [namesAt, hidx]
  cases names[index - 1]? <;> rfl

theorem CatName_loop_one_byte (names : List String) (b0 : Nat) (rd : List Nat) (name : String)
    (h0 : b0 ≠ 0) (hbit : b0 &&& 0x80 = 0) :
    CatName.loop names (b0 :: rd) name =
      match namesAt names b0 with
      | .ok s => CatName.loop names rd (name ++ s)
      | .error err => .error err := by
  rw [CatName.loop.eq_def]
  simp only [if_neg h0, hbit, ne_eq, not_true_eq_false, if_false, Nat.zero_or]
  cases namesAt names b0 <;> rfl

theorem CatName_loop_two_bytes (names : List String) (b0 b1 : Nat) (rd : List Nat)
    (name : String) (hbit : b0 &&& 0x80 ≠ 0) :
    ((b0 &&& 0x7f) <<< 8) ||| b1 % 256 < 2 ^ 15 ∧
    (b1 < 256 → ((b0 &&& 0x7f) <<< 8) ||| b1 < 2 ^ 15) ∧
    CatName.loop names (b0 :: b1 :: rd) name =
      match namesAt names (((b0 &&& 0x7f) <<< 8) ||| b1) with
      | .ok s => CatName.loop names rd (name ++ s)
      | .error err => .error err := by
  have hb : b0 &&& 0x7f ≤ 0x7f := Nat.and_le_right
  have hsh : (b0 &&& 0x7f) <<< 8 < 2 ^ 15 := by
    rw [Nat.shiftLeft_eq]
    omega
  have h0 : b0 ≠ 0 := by
    rintro rfl
    simp at hbit
  refine ⟨Nat.or_lt_two_pow hsh (by omega), fun h1 => Nat.or_lt_two_pow hsh (by omega), ?_⟩
  rw [CatName.loop.eq_def]
  simp only [if_neg h0, hbit, ne_eq, not_false_eq_true, if_true, Nat.zero_or]
  rw [Nat.mod_eq_of_lt (by omega : (b0 &&& 0x7f) <<< 8 < 2 ^ 32)]
  cases namesAt names (((b0 &&& 0x7f) <<< 8) ||| b1) <;> rfl

theorem CatName_loop_indices (names : List String) (rest : List Nat) :
    ∀ (indices : List Nat) (name : String),
    (∀ i ∈ indices, 1 ≤ i ∧ i ≤ min 127 names.length) →
    CatName.loop names (indices ++ 0 :: rest) name =
      .ok ((indices.map (fun i => names.getD (i - 1) "")).foldl (fun r s => r ++ s) name,
        rest) := by
  intro indices
  induction indices with
  | nil =>
    intro name _
    rw [List.nil_append, CatName.loop.eq_def]
    simp [pure, Except.pure]
  | cons i indices ih =>
    intro name hi
    have hi1 := hi i (List.mem_cons_self _ _)
    have h127 : i ≤ 127 := le_trans hi1.2 (Nat.min_le_left _ _)
    have hlen : i ≤ names.length := le_trans hi1.2 (Nat.min_le_right _ _)
    have hget : names[i - 1]? = some (names.getD (i - 1) "") := by
      rw [List.getD_eq_getElem?_getD, List.getElem?_eq_getElem (by omega)]
      rfl
    rw [List.cons_append, CatName_loop_one_byte names i _ name (by omega)
      (and_80_of_lt_128 i (by omega)), namesAt_one_based names i hi1.1 (by omega), hget]
    simp only [List.map_cons, List.foldl_cons]
    exact ih _ (fun j hj => hi j (List.mem_cons_of_mem _ hj))

/-- C8: fragment-name decoding. For every name table and every list of
indices `i1..ik` with `1 ≤ ij ≤ min 127 |names|`, `CatName` on the bytes
`i1, ..., ik, 0` returns the concatenation of `names[i1-1], ...,
names[ik-1]` and leaves the cursor behind the zero byte, `k + 1` bytes
further (whatever bytes follow are left unread). -/
theorem CatName_decodes (names : List String) (indices rest : List Nat)
    (hidx : ∀ i ∈ indices, 1 ≤ i ∧ i ≤ min 127 names.length) :
    CatName (indices ++ 0 :: rest) names =
      .ok (String.join (indices.map (fun i => names.getD (i - 1) "")), rest) ∧
    (indices ++ 0 :: rest).length = (indices.length + 1) + rest.length := by
  refine ⟨CatName_loop_indices names rest indices "" hidx, ?_⟩
  simp
  omega

/-- Witness of C8: the fragments `abc`, `def` with the bytes `1, 2, 0`
give `abcdef`, and the single byte `0` gives the empty name. -/
theorem CatName_decodes_witness :
    CatName [1, 2, 0] ["abc", "def"] = .ok ("abcdef", []) ∧
    CatName [0] ["abc", "def"] = .ok ("", []) :=
  ⟨(CatName_decodes ["abc", "def"] [1, 2] [] (by decide)).1,
   (CatName_decodes ["abc", "def"] [] [] (by decide)).1⟩

/-- C9: variable-width index of `CatName`. When the first byte `b0` has
its high bit set, the two bytes `b0, b1` are consumed and the fragment
number is `((b0 & 0x7F) << 8) | b1`, which is below `2^15`; when the high
bit is clear (and `b0` is not 0) one byte is consumed and the fragment
number is `b0`. A fragment number `n ≥ 1` selects `names[n - 1]`. A zero
byte in first-byte position ends the name; a zero second byte is part of
the index and the loop goes on behind it. The two-byte encoding
`0x80, i` and the one-byte encoding `i` of a number `1 ≤ i < 128` behave
alike. -/
theorem CatName_variable_width (names : List String) (rd : List Nat) (name : String) :
    (∀ b0 b1, b0 < 256 → b1 < 256 → b0 &&& 0x80 ≠ 0 →
      ((b0 &&& 0x7f) <<< 8) ||| b1 < 2 ^ 15 ∧
      CatName.loop names (b0 :: b1 :: rd) name =
        match namesAt names (((b0 &&& 0x7f) <<< 8) ||| b1) with
        | .ok s => CatName.loop names rd (name ++ s)
        | .error err => .error err) ∧
    (∀ b0, b0 < 256 → b0 ≠ 0 → b0 &&& 0x80 = 0 →
      CatName.loop names (b0 :: rd) name =
        match namesAt names b0 with
        | .ok s => CatName.loop names rd (name ++ s)
        | .error err => .error err) ∧
    (∀ n, 1 ≤ n → n < 2 ^ 15 →
      namesAt names n =
        match names[n - 1]? with
        | some s => .ok s
        | none => .error Error.OutOfRange) ∧
    CatName.loop names (0 :: rd) name = .ok (name, rd) ∧
    (∀ b0, b0 < 256 → b0 &&& 0x80 ≠ 0 →
      CatName.loop names (b0 :: 0 :: rd) name =
        match namesAt names ((b0 &&& 0x7f) <<< 8) with
        | .ok s => CatName.loop names rd (name ++ s)
        | .error err => .error err) ∧
    (∀ i, 1 ≤ i → i < 128 →
      CatName.loop names (0x80 :: i :: rd) name = CatName.loop names (i :: rd) name) := by
  refine ⟨fun b0 b1 _ h1 hbit => ?_, fun b0 _ h0 hbit => ?_, fun n h1 hn => ?_, ?_,
    fun b0 _ hbit => ?_, fun i h1 hi => ?_⟩
  · have h := CatName_loop_two_bytes names b0 b1 rd name hbit
    exact ⟨h.2.1 h1, h.2.2⟩
  · exact CatName_loop_one_byte names b0 rd name h0 hbit
  · exact namesAt_one_based names n h1 (lt_trans hn (by decide))
  · rw [CatName.loop.eq_def]
    simp [pure, Except.pure]
  · have h := (CatName_loop_two_bytes names b0 0 rd name hbit).2.2
    rw [Nat.or_zero] at h
    exact h
  · have h2 := (CatName_loop_two_bytes names 0x80 i rd name (by decide)).2.2
    have hz : ((0x80 &&& 0x7f) <<< 8) ||| i = i := by
      have : (0x80 &&& 0x7f) <<< 8 = 0 := by decide
      rw [this, Nat.zero_or]
    rw [hz] at h2
    rw [h2, CatName_loop_one_byte names i rd name (by omega) (and_80_of_lt_128 i hi)]

/-- Witness of C9: on the fragments `abc`, `def` the bytes `0x81, 0, 0`
ask for fragment number 256 (the zero second byte does not end the name,
and the lookup fails), and `0x80, 2` selects the same fragment as `2`. -/
theorem CatName_variable_width_witness :
    CatName.loop ["abc", "def"] [0x81, 0, 0] "" =
      (match namesAt ["abc", "def"] ((0x81 &&& 0x7f) <<< 8) with
        | .ok s => CatName.loop ["abc", "def"] [0] ("" ++ s)
        | .error err => .error err) ∧
    CatName.loop ["abc", "def"] [0x80, 2, 0] "" = CatName.loop ["abc", "def"] [2, 0] "" ∧
    (0x81 &&& 0x7f) <<< 8 = 256 ∧
    CatName [0x81, 0, 0] ["abc", "def"] = .error Error.OutOfRange ∧
    CatName [0x80, 2, 0] ["abc", "def"] = .ok ("def", []) :=
  ⟨(CatName_variable_width ["abc", "def"] [0] "").2.2.2.2.1 0x81 (by decide) (by decide),
   (CatName_variable_width ["abc", "def"] [0] "").2.2.2.2.2 2 (by decide) (by decide),
   by decide, by decide, by decide⟩

/-! ## Skin joint remap -/

theorem getElem?_drop_take (l : List Nat) (a n k : Nat) :
    ((l.drop a).take n)[k]? = if k < n then l[a + k]? else none := by
  rw [List.getElem?_take, List.getElem?_drop]

theorem writeBytes_length (str : List Nat) (pos : Nat) (bytes : List Nat)
    (h : pos + bytes.length ≤ str.length) :
    (writeBytes str pos bytes).length = str.length := by
  simp only [writeBytes, List.length_append, List.length_take, List.length_drop]
  omega

theorem writeBytes_getElem? (str : List Nat) (pos : Nat) (bytes : List Nat) (p : Nat)
    (h : pos + bytes.length ≤ str.length) :
    (writeBytes str pos bytes)[p]? =
      if p < pos then str[p]? else if p < pos + bytes.length then bytes[p - pos]?
      else str[p]? := by
  have hlt : (str.take pos).length = pos := by
    rw [List.length_take]
    omega
  unfold writeBytes
  by_cases h1 : p < pos
  · rw [if_pos h1, List.append_assoc, List.getElem?_append_left (by omega),
      List.getElem?_take_of_lt h1]
  · rw [if_neg h1, List.append_assoc, List.getElem?_append_right (by omega), hlt]
    by_cases h2 : p < pos + bytes.length
    · rw [if_pos h2, List.getElem?_append_left (by omega)]
    · rw [if_neg h2, List.getElem?_append_right (by omega), List.getElem?_drop]
      congr 1
      omega

theorem readWeights_ok (str : List Nat) : ∀ (vertexCount pos : Nat),
    pos + 4 * vertexCount ≤ str.length →
    ∃ weights, readWeights str pos vertexCount = .ok weights ∧
      ∀ j, j < vertexCount → weights[j]? = some ((str.drop (pos + 4 * j)).take 4) := by
  intro vertexCount
  induction vertexCount with
  | zero =>
    intro pos _
    exact ⟨[], rfl, fun j hj => absurd hj (Nat.not_lt_zero j)⟩
  | succ n ih =>
    intro pos hlen
    obtain ⟨rest, hrest, hget⟩ := ih (pos + 4) (by omega)
    refine ⟨(str.drop pos).take 4 :: rest, ?_, ?_⟩
    · have hread : readBytes str pos 4 = .ok ((str.drop pos).take 4) := by
        rw [readBytes, if_pos (by omega)]
        rfl
      simp only [readWeights, hread, hrest]
      rfl
    · intro j hj
      cases j with
      | zero => simp
      | succ j =>
        rw [List.getElem?_cons_succ, hget j (by omega)]
        congr 3
        omega

theorem remapJoints_ok (curSkin : PrimitiveSkin) : ∀ (joints wts : List Nat),
    (∀ k, k < joints.length → wts.getD k 0 ≠ 0 → joints.getD k 0 / 3 < curSkin.length) →
    ∃ out, remapJoints curSkin joints wts = .ok out ∧ out.length = joints.length ∧
      ∀ k, k < joints.length →
        out[k]? = some (remappedJoint curSkin (wts.getD k 0) (joints.getD k 0)) := by
  intro joints
  induction joints with
  | nil =>
    intro wts _
    exact ⟨[], rfl, rfl, fun k hk => absurd hk (Nat.not_lt_zero k)⟩
  | cons n joints ih =>
    intro wts hrange
    have htail : ∀ k, wts.tail.getD k 0 = wts.getD (k + 1) 0 := by
      intro k
      cases wts <;> simp
    have hhead : wts.headD 0 = wts.getD 0 0 := by
      cases wts <;> simp
    obtain ⟨rest, hrest, hlen, hget⟩ := ih wts.tail (by
      intro k hk hw
      rw [htail] at hw
      have := hrange (k + 1) (by simp; omega) hw
      simpa using this)
    by_cases hw : wts.headD 0 ≠ 0
    · have hlt : n / 3 < curSkin.length := by
        have := hrange 0 (by simp) (by rwa [← hhead])
        simpa using this
      refine ⟨curSkin.getD (n / 3) 0 % 256 :: rest, ?_, by simp [hlen], ?_⟩
      · have hs : curSkin[n / 3]? = some (curSkin.getD (n / 3) 0) := by
          rw [List.getD_eq_getElem?_getD, List.getElem?_eq_getElem hlt]
          rfl
        simp only [remapJoints, if_pos hw, hs, hrest]
        rfl
      · intro k hk
        cases k with
        | zero =>
          rw [remappedJoint, ← hhead, if_pos hw]
          simp
        | succ k =>
          rw [List.getElem?_cons_succ, hget k (by simp at hk; omega), htail]
          simp
    · refine ⟨n :: rest, ?_, by simp [hlen], ?_⟩
      · simp only [remapJoints, if_neg hw, hrest]
        rfl
      · intro k hk
        cases k with
        | zero =>
          rw [remappedJoint, ← hhead, if_neg hw]
          simp
        | succ k =>
          rw [List.getElem?_cons_succ, hget k (by simp at hk; omega), htail]
          simp

theorem remap_foldl (curSkin : PrimitiveSkin) (weights : List (List Nat))
    (weightStr : List Nat) (wbase : Nat) (jointStr : List Nat) (base vertexCount : Nat)
    (hjl : base + 4 * vertexCount ≤ jointStr.length)
    (hwts : ∀ j, j < vertexCount →
      weights[j]? = some ((weightStr.drop (wbase + 4 * j)).take 4))
    (hrange : ∀ p, base ≤ p → p < base + 4 * vertexCount →
      weightStr.getD (wbase + (p - base)) 0 ≠ 0 → jointStr.getD p 0 / 3 < curSkin.length) :
    ∀ n, n ≤ vertexCount →
    ∃ s, (List.range n).foldl (remapVertex curSkin weights base) (.ok jointStr) = .ok s ∧
      s.length = jointStr.length ∧
      ∀ p, s[p]? = if base ≤ p ∧ p < base + 4 * n then
          some (remappedJoint curSkin (weightStr.getD (wbase + (p - base)) 0)
            (jointStr.getD p 0))
        else jointStr[p]? := by
  intro n
  induction n with
  | zero =>
    intro _
    refine ⟨jointStr, rfl, rfl, fun p => ?_⟩
    rw [if_neg (by omega)]
  | succ n ih =>
    intro hn
    obtain ⟨s, hs, hlen, hget⟩ := ih (by omega)
    have hread : readBytes s (base + 4 * n) 4 = .ok ((s.drop (base + 4 * n)).take 4) := by
      rw [readBytes, if_pos (by omega)]
      rfl
    have hjlen : ((s.drop (base + 4 * n)).take 4).length = 4 := by
      rw [List.length_take, List.length_drop]
      omega
    have hjget : ∀ k, k < 4 →
        ((s.drop (base + 4 * n)).take 4).getD k 0 = jointStr.getD (base + 4 * n + k) 0 := by
      intro k hk
      rw [List.getD_eq_getElem?_getD, List.getD_eq_getElem?_getD, getElem?_drop_take,
        if_pos hk, hget, if_neg (by omega)]
    have hwget : ∀ k, k < 4 →
        ((weightStr.drop (wbase + 4 * n)).take 4).getD k 0 =
          weightStr.getD (wbase + (base + 4 * n + k - base)) 0 := by
      intro k hk
      rw [List.getD_eq_getElem?_getD, List.getD_eq_getElem?_getD, getElem?_drop_take,
        if_pos hk]
      congr 2
      omega
    obtain ⟨out, hout, holen, hoget⟩ := remapJoints_ok curSkin
      ((s.drop (base + 4 * n)).take 4) ((weightStr.drop (wbase + 4 * n)).take 4) (by
        intro k hk hw
        rw [hjlen] at hk
        rw [hwget k hk] at hw
        rw [hjget k hk]
        exact hrange _ (by omega) (by omega) hw)
    rw [hjlen] at holen hoget
    refine ⟨writeBytes s (base + 4 * n) out, ?_, ?_, fun p => ?_⟩
    · rw [List.range_succ, List.foldl_append, hs]
      simp only [List.foldl_cons, List.foldl_nil, remapVertex, hread, hwts n (by omega), hout]
      rfl
    · rw [writeBytes_length _ _ _ (by omega), hlen]
    · rw [writeBytes_getElem? _ _ _ _ (by omega), holen]
      by_cases h1 : p < base + 4 * n
      · rw [if_pos h1, hget]
        by_cases hb : base ≤ p
        · rw [if_pos ⟨hb, h1⟩, if_pos ⟨hb, by omega⟩]
        · rw [if_neg (fun h => hb h.1), if_neg (fun h => hb h.1)]
      · rw [if_neg h1]
        by_cases h2 : p < base + 4 * n + 4
        · rw [if_pos h2, if_pos ⟨by omega, by omega⟩, hoget _ (by omega),
            hwget _ (by omega), hjget _ (by omega)]
          have hp : base + 4 * n + (p - (base + 4 * n)) = p := by omega
          rw [hp]
        · rw [if_neg h2, hget, if_neg (by omega), if_neg (by omega)]

/-- C10: skin joint remap. For a Cluster processed with a non-empty
current skin list `S`, when the weight and joint streams hold the
cluster's vertex range (whose byte offset fits 32 bits) and every entry
`S[n / 3]` that is looked up exists, the rewrite succeeds and, for every vertex `v` of
`[vertexStart, vertexStart + vertexCount)` and every slot `k < 4` with
raw joint byte `n`: the byte written back is `S[n / 3]` reduced to 8 bits
when weight `k` of the vertex is non-zero, and `n` when the weight is
zero. The stream keeps its length and every byte outside the cluster's
vertex range is unchanged. -/
theorem skin_joint_remap (curSkin : PrimitiveSkin) (item : PrimitiveCluster)
    (weightStr : List Nat) (weightOffset : Nat) (jointStr : List Nat) (jointOffset : Nat)
    (hskin : curSkin.length > 0) (hvs : 4 * item.vertexStart < 2 ^ 32)
    (hwl : weightOffset + 4 * (item.vertexStart + item.vertexCount) ≤ weightStr.length)
    (hjl : jointOffset + 4 * (item.vertexStart + item.vertexCount) ≤ jointStr.length)
    (hrange : ∀ v k, item.vertexStart ≤ v → v < item.vertexStart + item.vertexCount → k < 4 →
      weightStr.getD (weightOffset + 4 * v + k) 0 ≠ 0 →
      jointStr.getD (jointOffset + 4 * v + k) 0 / 3 < curSkin.length) :
    ∃ out, remapCluster curSkin item weightStr weightOffset jointStr jointOffset = .ok out ∧
      out.length = jointStr.length ∧
      (∀ v k, item.vertexStart ≤ v → v < item.vertexStart + item.vertexCount → k < 4 →
        (weightStr.getD (weightOffset + 4 * v + k) 0 ≠ 0 →
          ∃ b, curSkin[jointStr.getD (jointOffset + 4 * v + k) 0 / 3]? = some b ∧
            out[jointOffset + 4 * v + k]? = some (b % 256)) ∧
        (weightStr.getD (weightOffset + 4 * v + k) 0 = 0 →
          out[jointOffset + 4 * v + k]? = jointStr[jointOffset + 4 * v + k]?)) ∧
      (∀ p, p < jointOffset + 4 * item.vertexStart ∨
          jointOffset + 4 * (item.vertexStart + item.vertexCount) ≤ p →
        out[p]? = jointStr[p]?) := by
  obtain ⟨weights, hweights, hwts⟩ := readWeights_ok weightStr item.vertexCount
    (weightOffset + 4 * item.vertexStart) (by omega)
  obtain ⟨out, hout, hlen, hget⟩ := remap_foldl curSkin weights weightStr
    (weightOffset + 4 * item.vertexStart) jointStr (jointOffset + 4 * item.vertexStart)
    item.vertexCount (by omega) hwts (by
      intro p hp1 hp2 hw
      have hv := hrange (item.vertexStart + (p - (jointOffset + 4 * item.vertexStart)) / 4)
        ((p - (jointOffset + 4 * item.vertexStart)) % 4) (by omega) (by omega) (by omega)
      have e1 : weightOffset + 4 * (item.vertexStart +
          (p - (jointOffset + 4 * item.vertexStart)) / 4) +
          (p - (jointOffset + 4 * item.vertexStart)) % 4 =
          weightOffset + 4 * item.vertexStart + (p - (jointOffset + 4 * item.vertexStart)) := by
        omega
      have e2 : jointOffset + 4 * (item.vertexStart +
          (p - (jointOffset + 4 * item.vertexStart)) / 4) +
          (p - (jointOffset + 4 * item.vertexStart)) % 4 = p := by
        omega
      rw [e1, e2] at hv
      exact hv hw) item.vertexCount (le_refl _)
  refine ⟨out, ?_, hlen, fun v k hv1 hv2 hk => ?_, fun p hp => ?_⟩
  · simp only [remapCluster, if_pos hskin, Nat.mod_eq_of_lt hvs, hweights]
    exact hout
  · have hw : weightOffset + 4 * item.vertexStart +
        (jointOffset + 4 * v + k - (jointOffset + 4 * item.vertexStart)) =
        weightOffset + 4 * v + k := by omega
    have hp := hget (jointOffset + 4 * v + k)
    rw [if_pos ⟨by omega, by omega⟩, hw] at hp
    refine ⟨fun hne => ?_, fun hz => ?_⟩
    · have hlt := hrange v k hv1 hv2 hk hne
      refine ⟨curSkin.getD (jointStr.getD (jointOffset + 4 * v + k) 0 / 3) 0, ?_, ?_⟩
      · rw [List.getD_eq_getElem?_getD curSkin, List.getElem?_eq_getElem hlt]
        rfl
      · rw [hp, remappedJoint, if_pos hne]
    · rw [hp, remappedJoint, if_neg (by omega), List.getD_eq_getElem?_getD,
        List.getElem?_eq_getElem (by omega)]
      rfl
  · rw [hget p, if_neg (by omega)]

/-- Witness of C10: the skin list `7, 8, 9`, a cluster of one vertex
starting at vertex 1, weights `1, 0, 1, 1` and joint bytes `3, 3, 6, 0`
for that vertex; the joint bytes become `8, 3, 9, 7` and the vertices
around it stay as they are. -/
theorem skin_joint_remap_witness :
    (∃ out, remapCluster [7, 8, 9] { vertexStart := 1, vertexCount := 1 }
        [0, 0, 0, 0, 1, 0, 1, 1] 0 [4, 4, 4, 4, 3, 3, 6, 0, 5, 5, 5, 5] 0 = .ok out ∧
      out.length = [4, 4, 4, 4, 3, 3, 6, 0, 5, 5, 5, 5].length) ∧
    remapCluster [7, 8, 9] { vertexStart := 1, vertexCount := 1 }
        [0, 0, 0, 0, 1, 0, 1, 1] 0 [4, 4, 4, 4, 3, 3, 6, 0, 5, 5, 5, 5] 0 =
      .ok [4, 4, 4, 4, 8, 3, 9, 7, 5, 5, 5, 5] := by
  refine ⟨?_, by decide⟩
  obtain ⟨out, h1, h2, _⟩ := skin_joint_remap [7, 8, 9] { vertexStart := 1, vertexCount := 1 }
    [0, 0, 0, 0, 1, 0, 1, 1] 0 [4, 4, 4, 4, 3, 3, 6, 0, 5, 5, 5, 5] 0
    (by decide) (by decide) (by decide) (by decide) (by
      intro v k hv1 hv2 hk _
      have hv : v = 1 := by
        simp only at hv1 hv2
        omega
      subst hv
      interval_cases k <;> decide)
  exact ⟨out, h1, h2⟩

/-- Byte-level account of `remapCluster` with a non-empty skin list: the
joint stream keeps its length, every byte inside the cluster's range is
the remapped one and every other byte is the old one. -/
theorem remapCluster_bytes (curSkin : PrimitiveSkin) (item : PrimitiveCluster)
    (weightStr : List Nat) (weightOffset : Nat) (jointStr : List Nat) (jointOffset : Nat)
    (hskin : curSkin.length > 0) (hvs : 4 * item.vertexStart < 2 ^ 32)
    (hwl : weightOffset + 4 * (item.vertexStart + item.vertexCount) ≤ weightStr.length)
    (hjl : jointOffset + 4 * (item.vertexStart + item.vertexCount) ≤ jointStr.length)
    (hrange : ∀ p, jointOffset + 4 * item.vertexStart ≤ p →
      p < jointOffset + 4 * item.vertexStart + 4 * item.vertexCount →
      weightStr.getD (weightOffset + 4 * item.vertexStart +
        (p - (jointOffset + 4 * item.vertexStart))) 0 ≠ 0 →
      jointStr.getD p 0 / 3 < curSkin.length) :
    ∃ out, remapCluster curSkin item weightStr weightOffset jointStr jointOffset = .ok out ∧
      out.length = jointStr.length ∧
      ∀ p, out[p]? =
        if jointOffset + 4 * item.vertexStart ≤ p ∧
            p < jointOffset + 4 * item.vertexStart + 4 * item.vertexCount then
          some (remappedJoint curSkin (weightStr.getD (weightOffset + 4 * item.vertexStart +
            (p - (jointOffset + 4 * item.vertexStart))) 0) (jointStr.getD p 0))
        else jointStr[p]? := by
  obtain ⟨weights, hweights, hwts⟩ := readWeights_ok weightStr item.vertexCount
    (weightOffset + 4 * item.vertexStart) (by omega)
  obtain ⟨out, hout, hlen, hget⟩ := remap_foldl curSkin weights weightStr
    (weightOffset + 4 * item.vertexStart) jointStr (jointOffset + 4 * item.vertexStart)
    item.vertexCount (by omega) hwts hrange item.vertexCount (le_refl _)
  refine ⟨out, ?_, hlen, hget⟩
  simp only [remapCluster, if_pos hskin, Nat.mod_eq_of_lt hvs, hweights]
  exact hout

/-- C11, counterexample: the skin list `0, 3, 6, ..., 255` (entry `i` is
`3 * i`), one vertex with the weights `1, 1, 1, 0` and the joint bytes
`4, 7, 3, 5`. The remap writes `3, 6, 3, 5`: the bytes 4 and 7, which are
no multiples of 3, are changed. -/
theorem noop_skin_counterexample :
    (∀ i, i < ((List.range 86).map (fun i => 3 * i)).length →
      ((List.range 86).map (fun i => 3 * i))[i]? = some (3 * i)) ∧
    remapCluster ((List.range 86).map (fun i => 3 * i)) { vertexStart := 0, vertexCount := 1 }
      [1, 1, 1, 0] 0 [4, 7, 3, 5] 0 = .ok [3, 6, 3, 5] ∧
    ([3, 6, 3, 5] : List Nat) ≠ [4, 7, 3, 5] := by
  refine ⟨?_, by decide, by decide⟩
  intro i hi
  rw [List.getElem?_map, List.getElem?_range (by simpa using hi)]
  rfl

/-- C11, amended: under the skin list with `skinList[i] = 3 * i` (long
enough for every byte value, that is, at least 86 entries) the remap of a
vertex range succeeds and turns a joint byte `n` whose weight is non-zero
into `3 * (n / 3)`; so every joint byte that is a multiple of 3, and
every joint byte whose weight is zero, is left unchanged, and so is every
byte outside the range. -/
theorem noop_skin_remap (curSkin : PrimitiveSkin) (item : PrimitiveCluster)
    (weightStr : List Nat) (weightOffset : Nat) (jointStr : List Nat) (jointOffset : Nat)
    (hnoop : ∀ i, i < curSkin.length → curSkin[i]? = some (3 * i))
    (hlong : 86 ≤ curSkin.length) (hbytes : ∀ n ∈ jointStr, n < 256)
    (hvs : 4 * item.vertexStart < 2 ^ 32)
    (hwl : weightOffset + 4 * (item.vertexStart + item.vertexCount) ≤ weightStr.length)
    (hjl : jointOffset + 4 * (item.vertexStart + item.vertexCount) ≤ jointStr.length) :
    ∃ out, remapCluster curSkin item weightStr weightOffset jointStr jointOffset = .ok out ∧
      out.length = jointStr.length ∧
      (∀ v k, item.vertexStart ≤ v → v < item.vertexStart + item.vertexCount → k < 4 →
        (weightStr.getD (weightOffset + 4 * v + k) 0 ≠ 0 →
          out[jointOffset + 4 * v + k]? =
            some (3 * (jointStr.getD (jointOffset + 4 * v + k) 0 / 3))) ∧
        (weightStr.getD (weightOffset + 4 * v + k) 0 = 0 ∨
            jointStr.getD (jointOffset + 4 * v + k) 0 % 3 = 0 →
          out[jointOffset + 4 * v + k]? = jointStr[jointOffset + 4 * v + k]?)) ∧
      (∀ p, p < jointOffset + 4 * item.vertexStart ∨
          jointOffset + 4 * (item.vertexStart + item.vertexCount) ≤ p →
        out[p]? = jointStr[p]?) := by
  have hbyte : ∀ p, jointStr.getD p 0 < 256 := by
    intro p
    rw [List.getD_eq_getElem?_getD]
    by_cases hp : p < jointStr.length
    · rw [List.getElem?_eq_getElem hp]
      exact hbytes _ (List.getElem_mem _)
    · rw [List.getElem?_eq_none (by omega)]
      decide
  obtain ⟨out, hout, hlen, hget⟩ := remapCluster_bytes curSkin item weightStr weightOffset
    jointStr jointOffset (by omega) hvs hwl hjl (by
      intro p _ _ _
      have := hbyte p
      omega)
  have hval : ∀ w n, w ≠ 0 → n < 256 → remappedJoint curSkin w n = 3 * (n / 3) := by
    intro w n hw hn
    rw [remappedJoint, if_pos hw, List.getD_eq_getElem?_getD, hnoop (n / 3) (by omega),
      Option.getD_some]
    exact Nat.mod_eq_of_lt (by omega)
  refine ⟨out, hout, hlen, fun v k hv1 hv2 hk => ?_, fun p hp => ?_⟩
  · have hw : weightOffset + 4 * item.vertexStart +
        (jointOffset + 4 * v + k - (jointOffset + 4 * item.vertexStart)) =
        weightOffset + 4 * v + k := by omega
    have hp := hget (jointOffset + 4 * v + k)
    rw [if_pos ⟨by omega, by omega⟩, hw] at hp
    have hsome : jointStr[jointOffset + 4 * v + k]? =
        some (jointStr.getD (jointOffset + 4 * v + k) 0) := by
      rw [List.getD_eq_getElem?_getD, List.getElem?_eq_getElem (by omega)]
      rfl
    refine ⟨fun hne => ?_, fun hz => ?_⟩
    · rw [hp, hval _ _ hne (hbyte _)]
    · rw [hp, hsome]
      by_cases hne : weightStr.getD (weightOffset + 4 * v + k) 0 = 0
      · rw [remappedJoint, if_neg (by omega)]
      · rcases hz with hz | hz
        · exact absurd hz hne
        · rw [hval _ _ hne (hbyte _)]
          congr 1
          omega
  · rw [hget p, if_neg (by omega)]

/-- Witness of the amended C11: the skin list `0, 3, ..., 255` and one
vertex with the weights `1, 1, 1, 0` and the joint bytes `4, 7, 3, 5`. -/
theorem noop_skin_remap_witness :
    ∃ out, remapCluster ((List.range 86).map (fun i => 3 * i))
        { vertexStart := 0, vertexCount := 1 } [1, 1, 1, 0] 0 [4, 7, 3, 5] 0 = .ok out ∧
      out.length = [4, 7, 3, 5].length := by
  obtain ⟨out, h1, h2, _⟩ := noop_skin_remap ((List.range 86).map (fun i => 3 * i))
    { vertexStart := 0, vertexCount := 1 } [1, 1, 1, 0] 0 [4, 7, 3, 5] 0
    (by
      intro i hi
      rw [List.getElem?_map, List.getElem?_range (by simpa using hi)]
      rfl)
    (by decide) (by decide) (by decide) (by decide) (by decide)
  exact ⟨out, h1, h2⟩

/-! ## Materials -/

theorem drop_append_len {α : Type} (l r : List α) (n : Nat) (h : l.length = n) :
    (l ++ r).drop n = r := by
  subst h
  exact List.drop_left _ _

theorem take_append_len {α : Type} (l r : List α) (n : Nat) (h : l.length = n) :
    (l ++ r).take n = l := by
  subst h
  exact List.take_left _ _

theorem readU32_le32 (n : Nat) (rest : List Nat) (h : n < 2 ^ 32) :
    readU32 (le32 n ++ rest) = .ok (n, rest) := by
  simp only [le32, List.cons_append, List.nil_append, readU32, pure, Except.pure]
  congr 2
  omega

theorem readU32_drop (rd : List Nat) (h : 4 ≤ rd.length) :
    ∃ w, readU32 rd = .ok (w, rd.drop 4) := by
  match rd, h with
  | b0 :: b1 :: b2 :: b3 :: rd, _ => exact ⟨_, rfl⟩

theorem readU32s_drop : ∀ (count : Nat) (rd : List Nat), 4 * count ≤ rd.length →
    ∃ ws, ws.length = count ∧ readU32s count rd = .ok (ws, rd.drop (4 * count))
  | 0, rd, _ => ⟨[], rfl, rfl⟩
  | count + 1, rd, h => by
    obtain ⟨w, hw⟩ := readU32_drop rd (by omega)
    obtain ⟨ws, hlen, hws⟩ := readU32s_drop count (rd.drop 4) (by
      rw [List.length_drop]
      omega)
    refine ⟨w :: ws, by simp [hlen], ?_⟩
    simp only [readU32s, hw, hws, List.drop_drop, pure, Except.pure]
    congr 3
    omega

theorem readRaw_append (payload rest : List Nat) (n : Nat) (h : payload.length = n) :
    readRaw n (payload ++ rest) = .ok (payload, rest) := by
  rw [readRaw, if_pos (by simp; omega), take_append_len _ _ _ h, drop_append_len _ _ _ h]
  rfl

theorem MaterialParam0_Read_append (p28 rest : List Nat) (h : p28.length = 28) :
    ∃ p, MaterialParam0.Read (p28 ++ rest) = .ok (p, rest) := by
  obtain ⟨w, hw⟩ := readU32_drop (p28 ++ rest) (by simp; omega)
  obtain ⟨ws, _, hws⟩ := readU32s_drop 6 ((p28 ++ rest).drop 4) (by
    rw [List.length_drop]
    simp
    omega)
  have hdrop : ((p28 ++ rest).drop 4).drop (4 * 6) = rest := by
    rw [List.drop_drop]
    exact drop_append_len p28 rest _ (by omega)
  rw [hdrop] at hws
  exact ⟨_, by simp only [MaterialParam0.Read, hw, hws]; rfl⟩

theorem readU32List_append (count : Nat) (ws rest : List Nat) (hc : count < 2 ^ 32)
    (h : ws.length = 4 * count) :
    ∃ d1, d1.length = count ∧ readU32List (le32 count ++ (ws ++ rest)) = .ok (d1, rest) := by
  obtain ⟨d1, hlen, hd1⟩ := readU32s_drop count (ws ++ rest) (by simp; omega)
  rw [drop_append_len ws rest _ h] at hd1
  exact ⟨d1, hlen, by simp only [readU32List, readU32_le32 count _ hc, hd1]⟩

theorem readParam_le32 (NDEBUG : Bool) (type : Nat) (rd : List Nat) (h : type < 2 ^ 32) :
    readParam NDEBUG (le32 type ++ rd) =
      if type = 0 ∨ type = 4 then
        match MaterialParam0.Read rd with
        | .error err => .error err
        | .ok (p, rd) => .ok (MaterialParam.Param0 p, rd)
      else if type = 1 ∨ type = 5 then MaterialParam1.Read rd
      else if type = 2 then MaterialParam2.Read rd
      else if type = 3 then MaterialParam3.Read rd
      else if type = 6 then MaterialParam6.Read rd
      else if type = 7 then .ok (MaterialParam.Param0 {}, rd)
      else if NDEBUG then .ok (MaterialParam.Param0 {}, rd)
      else .error Error.AssertionFailed := by
  simp only [readParam, readU32_le32 type rd h]
  rfl

/-- C12: material-param decoding. A param is decoded by its inline
32-bit discriminant. 0 and 4 decode alike: a texture index and 6 words,
28 payload bytes. 1 and 5 decode alike: those 28 bytes and a
count-prefixed list of 32-bit words. 2 is a vector of 12 bytes (the
result has no texture index). 3 is the 28 bytes and 4 bytes. 6 is the 28
bytes, a count-prefixed word list and 4 bytes. 7 is accepted and consumes
no payload byte. In each case the cursor is left behind the payload, and
the loop over the params reads the next discriminant there. -/
theorem Material_param_shapes (NDEBUG : Bool) :
    (∀ rd, readParam NDEBUG (le32 0 ++ rd) = readParam NDEBUG (le32 4 ++ rd)) ∧
    (∀ p28 rest, p28.length = 28 →
      ∃ p, readParam NDEBUG (le32 0 ++ p28 ++ rest) = .ok (MaterialParam.Param0 p, rest)) ∧
    (∀ rd, readParam NDEBUG (le32 1 ++ rd) = readParam NDEBUG (le32 5 ++ rd)) ∧
    (∀ p28 count ws rest, p28.length = 28 → count < 2 ^ 32 → ws.length = 4 * count →
      ∃ p d1, d1.length = count ∧
        readParam NDEBUG (le32 1 ++ p28 ++ le32 count ++ ws ++ rest) =
          .ok (MaterialParam.Param1 p d1, rest)) ∧
    (∀ p12 rest, p12.length = 12 →
      readParam NDEBUG (le32 2 ++ p12 ++ rest) = .ok (MaterialParam.Param2 p12, rest)) ∧
    (∀ p28 b4 rest, p28.length = 28 → b4.length = 4 →
      ∃ p, readParam NDEBUG (le32 3 ++ p28 ++ b4 ++ rest) =
        .ok (MaterialParam.Param3 p b4, rest)) ∧
    (∀ p28 count ws b4 rest, p28.length = 28 → count < 2 ^ 32 → ws.length = 4 * count →
      b4.length = 4 →
      ∃ p d1, d1.length = count ∧
        readParam NDEBUG (le32 6 ++ p28 ++ le32 count ++ ws ++ b4 ++ rest) =
          .ok (MaterialParam.Param6 p d1 b4, rest)) ∧
    (∀ rest, readParam NDEBUG (le32 7 ++ rest) = .ok (MaterialParam.Param0 {}, rest)) ∧
    (∀ count rd item rest, readParam NDEBUG rd = .ok (item, rest) →
      readParams NDEBUG (count + 1) rd =
        match readParams NDEBUG count rest with
        | .error err => .error err
        | .ok (items, rd) => .ok (item :: items, rd)) := by
  refine ⟨fun rd => ?_, fun p28 rest h28 => ?_, fun rd => ?_,
    fun p28 count ws rest h28 hc hws => ?_, fun p12 rest h12 => ?_,
    fun p28 b4 rest h28 h4 => ?_, fun p28 count ws b4 rest h28 hc hws h4 => ?_,
    fun rest => ?_, fun count rd item rest h => ?_⟩
  · rw [readParam_le32 _ 0 _ (by decide), readParam_le32 _ 4 _ (by decide)]
    rfl
  · obtain ⟨p, hp⟩ := MaterialParam0_Read_append p28 rest h28
    refine ⟨p, ?_⟩
    rw [List.append_assoc, readParam_le32 _ 0 _ (by decide)]
    simp only [true_or, if_true, hp]
  · rw [readParam_le32 _ 1 _ (by decide), readParam_le32 _ 5 _ (by decide)]
    rfl
  · obtain ⟨p, hp⟩ := MaterialParam0_Read_append p28 (le32 count ++ (ws ++ rest)) h28
    obtain ⟨d1, hlen, hd1⟩ := readU32List_append count ws rest hc hws
    refine ⟨p, d1, hlen, ?_⟩
    simp only [List.append_assoc]
    rw [readParam_le32 _ 1 _ (by decide)]
    simp only [MaterialParam1.Read, hp, hd1]
    rfl
  · rw [List.append_assoc, readParam_le32 _ 2 _ (by decide)]
    simp only [MaterialParam2.Read, readRaw_append p12 rest 12 h12]
    rfl
  · obtain ⟨p, hp⟩ := MaterialParam0_Read_append p28 (b4 ++ rest) h28
    refine ⟨p, ?_⟩
    simp only [List.append_assoc]
    rw [readParam_le32 _ 3 _ (by decide)]
    simp only [MaterialParam3.Read, hp, readRaw_append b4 rest 4 h4]
    rfl
  · obtain ⟨p, hp⟩ := MaterialParam0_Read_append p28 (le32 count ++ (ws ++ (b4 ++ rest))) h28
    obtain ⟨d1, hlen, hd1⟩ := readU32List_append count ws (b4 ++ rest) hc hws
    refine ⟨p, d1, hlen, ?_⟩
    simp only [List.append_assoc]
    rw [readParam_le32 _ 6 _ (by decide)]
    simp only [MaterialParam6.Read, hp, hd1, readRaw_append b4 rest 4 h4]
    rfl
  · rw [readParam_le32 _ 7 _ (by decide)]
    rfl
  · simp only [readParams, h]
    cases readParams NDEBUG count rest <;> rfl

/-- Witness of C12: a material with the three params 7, 2 (the vector
bytes 1 to 12) and 0 (texture index -1), followed by the byte 77; the
cursor ends on that byte. -/
theorem Material_param_shapes_witness :
    readParam true (le32 2 ++ [1, 2, 3, 4, 5, 6, 7, 8, 9, 10, 11, 12] ++ [77]) =
      .ok (MaterialParam.Param2 [1, 2, 3, 4, 5, 6, 7, 8, 9, 10, 11, 12], [77]) ∧
    Material.Read true (le32 5 ++ List.replicate 20 0 ++ le32 3 ++ le32 7 ++
        (le32 2 ++ [1, 2, 3, 4, 5, 6, 7, 8, 9, 10, 11, 12]) ++
        (le32 0 ++ (le32 0xFFFFFFFF ++ List.replicate 24 0)) ++ [77]) =
      .ok ({ hdr := { textureBaseIndex := 5, unk := List.replicate 20 0 },
             params := [MaterialParam.Param0 {},
               MaterialParam.Param2 [1, 2, 3, 4, 5, 6, 7, 8, 9, 10, 11, 12],
               MaterialParam.Param0 { textureIndex := -1 }] }, [77]) :=
  ⟨(Material_param_shapes true).2.2.2.2.1 [1, 2, 3, 4, 5, 6, 7, 8, 9, 10, 11, 12] [77] rfl,
   by decide⟩

/-- C13, the code at the failing input: a material whose only param has
the discriminant 8. Built with `NDEBUG` the reader returns a material
holding a value-initialised param and goes on behind the discriminant;
built without it the assertion ends the process. -/
theorem Material_Read_unknown_discriminant :
    Material.Read true (le32 0 ++ List.replicate 20 0 ++ le32 1 ++ le32 8 ++ [77]) =
      .ok ({ hdr := { textureBaseIndex := 0, unk := List.replicate 20 0 },
             params := [MaterialParam.Param0 {}] }, [77]) ∧
    Material.Read false (le32 0 ++ List.replicate 20 0 ++ le32 1 ++ le32 8 ++ [77]) =
      .error Error.AssertionFailed := by
  decide

/-! ## Textures -/

theorem texelFormat_error (type : Nat)
    (h : type ∉ [Texture.TYPE_PALETTE, 21, CompileFourCC 'D' 'X' 'T' '1',
      CompileFourCC 'D' 'X' 'T' '3', 26, 25]) :
    texelFormat type = .error (Error.RuntimeError ("Invalid texture format: " ++ toString type)) := by
  simp only [List.mem_cons, List.mem_singleton, List.not_mem_nil, or_false, not_or] at h
  obtain ⟨h1, h2, h3, h4, h5, h6⟩ := h
  simp only [texelFormat, h1, h2, h3, h4, h5, h6, or_self, if_false]
  rfl

theorem ExtractTexture_error_of_format (hdr : Texture) (payload : List Nat) (entrySize : Nat)
    (fileName : String) (tOut : Bool) (err : Error) (hfmt : texelFormat hdr.type = .error err) :
    ∃ err, ExtractTexture hdr payload entrySize fileName tOut = .error err := by
  simp only [ExtractTexture, hfmt]
  split
  · exact ⟨_, rfl⟩
  · split <;> exact ⟨_, rfl⟩

theorem ExtractTexture_ok_of (hdr : Texture) (payload : List Nat) (entrySize : Nat)
    (fileName : String) (tOut : Bool) (buffer data : List Nat) (fmt : TexelInputFormatType)
    (hread : ReadContainer payload (payloadSize entrySize) = .ok buffer)
    (hpal : (if hdr.type = Texture.TYPE_PALETTE then expandPalette buffer else pure buffer) =
      .ok data)
    (hfmt : texelFormat hdr.type = .ok fmt) :
    ExtractTexture hdr payload entrySize fileName tOut =
      .ok { fileName := if tOut then none else some fileName
            ctx := { width := hdr.width % 2 ^ 16, height := hdr.height % 2 ^ 16,
                     baseFormat := fmt, numMipmaps := hdr.numMips % 2 ^ 8, data := data,
                     texelOutput := tOut,
                     formatOverride :=
                       if tOut then TexelContextFormat.UPNG else TexelContextFormat.Config } } := by
  simp only [ExtractTexture, hread, hpal, hfmt]
  rfl

/-- C14: texture pixel-format selection. Type `0x29` (palette) and type
21 select RGBA8, the FourCC `DXT1` selects BC1, `DXT3` selects BC2, type
26 selects RGBA4 and type 25 selects RGB5A1. For every other type value
`ExtractTexture` ends in an error, whatever the rest of its input, so the
image codec receives nothing; for the five types without a palette and a
stream that holds the payload, the codec receives the payload under the
selected format. -/
theorem ExtractTexture_format :
    texelFormat 0x29 = .ok TexelInputFormatType.RGBA8 ∧
    texelFormat 21 = .ok TexelInputFormatType.RGBA8 ∧
    texelFormat (CompileFourCC 'D' 'X' 'T' '1') = .ok TexelInputFormatType.BC1 ∧
    texelFormat (CompileFourCC 'D' 'X' 'T' '3') = .ok TexelInputFormatType.BC2 ∧
    texelFormat 26 = .ok TexelInputFormatType.RGBA4 ∧
    texelFormat 25 = .ok TexelInputFormatType.RGB5A1 ∧
    (∀ (hdr : Texture) payload entrySize fileName tOut,
      hdr.type ∉ [0x29, 21, CompileFourCC 'D' 'X' 'T' '1', CompileFourCC 'D' 'X' 'T' '3',
        26, 25] →
      ∃ err, ExtractTexture hdr payload entrySize fileName tOut = .error err) ∧
    (∀ (hdr : Texture) payload entrySize fileName tOut,
      hdr.type ∈ [21, CompileFourCC 'D' 'X' 'T' '1', CompileFourCC 'D' 'X' 'T' '3', 26, 25] →
      20 ≤ entrySize → entrySize - 20 ≤ payload.length →
      ∃ fmt call, texelFormat hdr.type = .ok fmt ∧
        ExtractTexture hdr payload entrySize fileName tOut = .ok call ∧
        call.ctx.baseFormat = fmt ∧ call.ctx.data = payload.take (entrySize - 20)) := by
  refine ⟨by decide, by decide, by decide, by decide, by decide, by decide, ?_, ?_⟩
  · intro hdr payload entrySize fileName tOut htype
    exact ExtractTexture_error_of_format hdr payload entrySize fileName tOut _
      (texelFormat_error hdr.type htype)
  · intro hdr payload entrySize fileName tOut htype h20 hlen
    have hsize : payloadSize entrySize = entrySize - 20 := if_pos h20
    have hpal : hdr.type ≠ Texture.TYPE_PALETTE := by
      intro h
      rw [h] at htype
      revert htype
      decide
    have hread : ReadContainer payload (payloadSize entrySize) =
        .ok (payload.take (entrySize - 20)) := by
      rw [hsize, ReadContainer, if_pos hlen]
      rfl
    have hfmt : ∃ fmt, texelFormat hdr.type = .ok fmt := by
      simp only [List.mem_cons, List.mem_singleton, List.not_mem_nil, or_false] at htype
      rcases htype with h | h | h | h | h
      · exact ⟨TexelInputFormatType.RGBA8, by rw [h]; decide⟩
      · exact ⟨TexelInputFormatType.BC1, by rw [h]; decide⟩
      · exact ⟨TexelInputFormatType.BC2, by rw [h]; decide⟩
      · exact ⟨TexelInputFormatType.RGBA4, by rw [h]; decide⟩
      · exact ⟨TexelInputFormatType.RGB5A1, by rw [h]; decide⟩
    obtain ⟨fmt, hfmt⟩ := hfmt
    exact ⟨fmt, _, hfmt, ExtractTexture_ok_of hdr payload entrySize fileName tOut _ _ fmt hread
      (if_neg hpal) hfmt, rfl, rfl⟩

/-- Witness of C14: a texture of type 22 is refused, a texture of type 26
with two payload bytes reaches the codec as RGBA4. -/
theorem ExtractTexture_format_witness :
    (∃ err, ExtractTexture { type := 22 } [3, 255, 9] 22 "t" false = .error err) ∧
    (∃ fmt call, texelFormat 26 = .ok fmt ∧
      ExtractTexture { type := 26 } [3, 255, 9] 22 "t" false = .ok call ∧
      call.ctx.baseFormat = fmt ∧ call.ctx.data = [3, 255, 9].take (22 - 20)) ∧
    ExtractTexture { type := 26 } [3, 255, 9] 22 "t" false =
      .ok { fileName := some "t",
            ctx := { width := 0, height := 0, baseFormat := TexelInputFormatType.RGBA4,
                     numMipmaps := 0, data := [3, 255], texelOutput := false,
                     formatOverride := TexelContextFormat.Config } } :=
  ⟨ExtractTexture_format.2.2.2.2.2.2.1 { type := 22 } [3, 255, 9] 22 "t" false (by decide),
   ExtractTexture_format.2.2.2.2.2.2.2 { type := 26 } [3, 255, 9] 22 "t" false (by decide)
     (by decide) (by decide),
   by decide⟩

theorem paletteLookup_ok (buffer : List Nat) : ∀ (data : List Nat),
    (∀ d ∈ data, 4 + 4 * d + 4 ≤ buffer.length) →
    paletteLookup buffer data =
      .ok ((data.map (fun d => (buffer.drop (4 + 4 * d)).take 4)).flatten)
  | [], _ => rfl
  | d :: data, h => by
    have hd := h d (List.mem_cons_self _ _)
    have ih := paletteLookup_ok buffer data (fun x hx => h x (List.mem_cons_of_mem _ hx))
    simp only [paletteLookup, if_pos hd, ih, List.map_cons, List.flatten_cons]
    rfl

theorem flatten_chunks_length {α : Type} (f : Nat → List α) :
    ∀ (data : List Nat), (∀ d ∈ data, (f d).length = 4) →
      ((data.map f).flatten).length = 4 * data.length
  | [], _ => rfl
  | d :: data, hf => by
    simp only [List.map_cons, List.flatten_cons, List.length_append,
      hf d (List.mem_cons_self _ _),
      flatten_chunks_length f data (fun x hx => hf x (List.mem_cons_of_mem _ hx)),
      List.length_cons]
    omega

theorem flatten_chunks_get {α : Type} (f : Nat → List α) :
    ∀ (data : List Nat) (i : Nat) (d : Nat), (∀ d ∈ data, (f d).length = 4) →
      data[i]? = some d → (((data.map f).flatten).drop (4 * i)).take 4 = f d
  | [], i, d, _, h => by simp at h
  | x :: data, 0, d, hf, h => by
    simp only [List.getElem?_cons_zero, Option.some.injEq] at h
    subst h
    simp only [List.map_cons, List.flatten_cons, Nat.mul_zero, List.drop_zero]
    exact take_append_len _ _ 4 (hf x (List.mem_cons_self _ _))
  | x :: data, i + 1, d, hf, h => by
    rw [List.getElem?_cons_succ] at h
    have ih := flatten_chunks_get f data i d (fun y hy => hf y (List.mem_cons_of_mem _ hy)) h
    simp only [List.map_cons, List.flatten_cons]
    have hsplit : 4 * (i + 1) = (f x).length + 4 * i := by
      rw [hf x (List.mem_cons_self _ _)]
      omega
    rw [hsplit, ← List.drop_drop, List.drop_left]
    exact ih

/-- C15: palette expansion. For a texture of type `0x29` whose payload is
a 32-bit palette count `c ≥ 1`, `c` palettes of 256 colours of 4 bytes,
and `m` index bytes, the buffer the image codec receives has exactly
`4 * m` bytes and its `i`-th pixel (the 4 bytes from `4 * i` on) is entry
`d_i` of the first palette (the 4 bytes from `4 * d_i` on), for every
`i < m`; the format is RGBA8. The payload is one an entry can hold, so
`c * 1024` fits 32 bits. -/
theorem ExtractTexture_palette (hdr : Texture) (c : Nat) (palettes indices rest : List Nat)
    (entrySize : Nat) (fileName : String) (tOut : Bool)
    (htype : hdr.type = 0x29) (hc : 1 ≤ c) (hc32 : c * 1024 < 2 ^ 32)
    (hpal : palettes.length = 1024 * c) (hidx : ∀ d ∈ indices, d < 256)
    (hsize : entrySize = 20 + (4 + palettes.length + indices.length)) :
    ∃ call, ExtractTexture hdr (le32 c ++ palettes ++ indices ++ rest) entrySize fileName tOut =
        .ok call ∧
      call.ctx.baseFormat = TexelInputFormatType.RGBA8 ∧
      call.ctx.data.length = 4 * indices.length ∧
      ∀ i d, indices[i]? = some d →
        (call.ctx.data.drop (4 * i)).take 4 = (palettes.drop (4 * d)).take 4 := by
  have hle : (le32 c).length = 4 := rfl
  have hbuflen : (le32 c ++ palettes ++ indices).length = entrySize - 20 := by
    simp only [List.length_append, hle]
    omega
  have hread : ReadContainer (le32 c ++ palettes ++ indices ++ rest) (payloadSize entrySize) =
      .ok (le32 c ++ palettes ++ indices) := by
    rw [payloadSize, if_pos (by omega), ReadContainer, if_pos (by
      rw [List.length_append, hbuflen]
      omega), take_append_len _ _ _ hbuflen]
    rfl
  have hchunk : ∀ d, d < 256 →
      ((le32 c ++ palettes ++ indices).drop (4 + 4 * d)).take 4 =
        (palettes.drop (4 * d)).take 4 := by
    intro d hd
    rw [List.append_assoc, ← List.drop_drop, drop_append_len (le32 c) _ 4 hle,
      List.drop_append_of_le_length (by omega), List.take_append_of_le_length (by
        rw [List.length_drop]
        omega)]
  have hlookup : paletteLookup (le32 c ++ palettes ++ indices) indices =
      .ok ((indices.map (fun d => (palettes.drop (4 * d)).take 4)).flatten) := by
    rw [paletteLookup_ok _ indices (by
      intro d hd
      have := hidx d hd
      simp only [List.length_append, hle]
      omega)]
    congr 2
    exact List.map_congr_left (fun d hd => hchunk d (hidx d hd))
  have hexpand : expandPalette (le32 c ++ palettes ++ indices) =
      .ok ((indices.map (fun d => (palettes.drop (4 * d)).take 4)).flatten) := by
    have hrd : readU32 (le32 c ++ palettes ++ indices) = .ok (c, palettes ++ indices) := by
      rw [List.append_assoc]
      exact readU32_le32 c _ (by omega)
    have hbegin : (c * 1024) % 2 ^ 32 + 4 = (le32 c ++ palettes).length := by
      rw [Nat.mod_eq_of_lt hc32, List.length_append, hle, hpal]
      omega
    simp only [expandPalette, hrd, hbegin]
    rw [if_pos (by simp), drop_append_len _ _ _ rfl]
    exact hlookup
  have hchunklen : ∀ d, d < 256 → ((palettes.drop (4 * d)).take 4).length = 4 := by
    intro d hd
    rw [List.length_take, List.length_drop]
    omega
  refine ⟨_, ExtractTexture_ok_of hdr _ entrySize fileName tOut _ _ TexelInputFormatType.RGBA8
    hread (by rw [if_pos (show hdr.type = Texture.TYPE_PALETTE from htype)]; exact hexpand)
    (by rw [htype]; rfl), rfl, ?_, ?_⟩
  · exact flatten_chunks_length _ indices (fun d hd => hchunklen d (hidx d hd))
  · intro i d hi
    exact flatten_chunks_get _ indices i d (fun d hd => hchunklen d (hidx d hd)) hi

/-- Witness of C15: one palette whose entry `k` is the four bytes `k, k, k,
0` for `k < 2` (the other entries are zero) and the index bytes `1, 0`;
the codec receives the pixels `1, 1, 1, 0` and `0, 0, 0, 0`. -/
theorem ExtractTexture_palette_witness :
    ∃ call, ExtractTexture { type := 0x29 }
        (le32 1 ++ ([0, 0, 0, 0, 1, 1, 1, 0] ++ List.replicate 1016 0) ++ [1, 0] ++ [9])
        (20 + (4 + ([0, 0, 0, 0, 1, 1, 1, 0] ++ List.replicate 1016 0).length +
          ([1, 0] : List Nat).length)) "t" true = .ok call ∧
      call.ctx.baseFormat = TexelInputFormatType.RGBA8 ∧
      call.ctx.data.length = 4 * ([1, 0] : List Nat).length ∧
      ∀ i d, ([1, 0] : List Nat)[i]? = some d →
        (call.ctx.data.drop (4 * i)).take 4 =
          (([0, 0, 0, 0, 1, 1, 1, 0] ++ List.replicate 1016 0).drop (4 * d)).take 4 :=
  ExtractTexture_palette { type := 0x29 } 1 ([0, 0, 0, 0, 1, 1, 1, 0] ++ List.replicate 1016 0)
    [1, 0] [9] _ "t" true rfl (by decide) (by decide)
    (by rw [List.length_append, List.length_replicate]; rfl) (by decide) rfl

/-! ## Scene assembly -/

theorem skinCluster_scene (main out : GLTFMain) (prim : GltfPrimitive) (curSkin : PrimitiveSkin)
    (item : PrimitiveCluster) (h : skinCluster main prim curSkin item = .ok out) :
    out.nodes = main.nodes ∧ out.meshes = main.meshes ∧ out.skins = main.skins ∧
    out.warnings = main.warnings ∧ out.accessors = main.accessors := by
  unfold skinCluster at h
  cases hs : skinClusterStreams main prim curSkin item with
  | error err =>
    rw [hs] at h
    cases h
  | ok streams =>
    rw [hs] at h
    cases h
    exact ⟨rfl, rfl, rfl, rfl, rfl⟩

theorem doCluster_scene (indexBuffers : List Indices) (m : Mesh) (p : Primitive)
    (vertexAttrs : Attrs) (curSkin : PrimitiveSkin) (item : PrimitiveCluster)
    (st out : MeshState) (h : doCluster indexBuffers m p vertexAttrs curSkin item st = .ok out) :
    out.main.nodes = st.main.nodes ∧ out.main.meshes = st.main.meshes ∧
    out.main.skins = st.main.skins ∧ out.main.warnings = st.main.warnings := by
  unfold doCluster at h
  split at h
  · cases h
  · split at h
    · cases h
    · simp only at h
      split at h
      · cases h
      · rename_i main hsk
        cases h
        obtain ⟨h1, h2, h3, h4, _⟩ := skinCluster_scene _ _ _ _ _ hsk
        exact ⟨h1, h2, h3, h4⟩

theorem doMods_scene (indexBuffers : List Indices) (m : Mesh) (p : Primitive)
    (vertexAttrs : Attrs) : ∀ (mods : List PrimitiveMod) (curSkin : PrimitiveSkin)
    (st out : MeshState), doMods indexBuffers m p vertexAttrs mods curSkin st = .ok out →
    out.main.nodes = st.main.nodes ∧ out.main.meshes = st.main.meshes ∧
    out.main.skins = st.main.skins ∧ out.main.warnings = st.main.warnings
  | [], _, st, out, h => by
    cases h
    exact ⟨rfl, rfl, rfl, rfl⟩
  | .Cluster item :: mods, curSkin, st, out, h => by
    rw [doMods] at h
    cases hc : doCluster indexBuffers m p vertexAttrs curSkin item st with
    | error err =>
      rw [hc] at h
      cases h
    | ok st1 =>
      rw [hc] at h
      obtain ⟨a1, a2, a3, a4⟩ := doCluster_scene _ _ _ _ _ _ _ _ hc
      obtain ⟨b1, b2, b3, b4⟩ := doMods_scene indexBuffers m p vertexAttrs mods curSkin st1 out h
      exact ⟨b1.trans a1, b2.trans a2, b3.trans a3, b4.trans a4⟩
  | .Skin skin :: mods, curSkin, st, out, h => by
    rw [doMods] at h
    exact doMods_scene indexBuffers m p vertexAttrs mods skin { st with useSkin := true } out h

theorem doPrims_scene (vertexBuffers : List Attrs) (indexBuffers : List Indices) (m : Mesh) :
    ∀ (prims : List Primitive) (st out : MeshState),
    doPrims vertexBuffers indexBuffers m prims st = .ok out →
    out.main.nodes = st.main.nodes ∧ out.main.meshes = st.main.meshes ∧
    out.main.skins = st.main.skins ∧ out.main.warnings = st.main.warnings
  | [], st, out, h => by
    cases h
    exact ⟨rfl, rfl, rfl, rfl⟩
  | p :: prims, st, out, h => by
    rw [doPrims] at h
    split at h
    · cases h
    · rename_i vertexAttrs _
      cases hm : doMods indexBuffers m p vertexAttrs p.mods [] st with
      | error err =>
        rw [hm] at h
        cases h
      | ok st1 =>
        rw [hm] at h
        obtain ⟨a1, a2, a3, a4⟩ := doMods_scene _ _ _ _ _ _ _ _ hm
        obtain ⟨b1, b2, b3, b4⟩ := doPrims_scene vertexBuffers indexBuffers m prims st1 out h
        exact ⟨b1.trans a1, b2.trans a2, b3.trans a3, b4.trans a4⟩

/-- C16: mesh-lookup miss. For a mesh with at least one primitive whose
key `m.index + indexOffset` has no registered node, the lookup raises no
error: `DoMesh` ends in an error only when decoding the primitives does.
When the primitives decode, `DoMesh` returns a document in which every
node is as before (so no `mesh` or `skin` field changed), the skins are
as before, the mesh is appended to the mesh list, the warning naming the
mesh is recorded, and the meshes that follow are processed from that
document. -/
theorem DoMesh_lookup_miss (vertexBuffers : List Attrs) (indexBuffers : List Indices)
    (models : ModelMap) (main : GLTFMain) (m : Mesh) (indexOffset : Nat)
    (hprims : m.prims ≠ [])
    (hmiss : models.lookup (toInt32 ((m.index + indexOffset) % 2 ^ 32)) = none) :
    (∀ err, DoMesh vertexBuffers indexBuffers models main m indexOffset = .error err →
      doPrims vertexBuffers indexBuffers m m.prims { main := main } = .error err) ∧
    (∀ st, doPrims vertexBuffers indexBuffers m m.prims { main := main } = .ok st →
      ∃ out, DoMesh vertexBuffers indexBuffers models main m indexOffset = .ok out ∧
        out.nodes = main.nodes ∧ out.skins = main.skins ∧
        out.meshes = main.meshes ++ [st.mesh] ∧
        out.warnings = main.warnings ++ ["Mesh node: " ++ m.name ++ "appears to be unlinked."] ∧
        ∀ rest, doMeshes vertexBuffers indexBuffers models indexOffset (m :: rest) main =
          doMeshes vertexBuffers indexBuffers models indexOffset rest out) := by
  have hne : m.prims.isEmpty = false := by
    cases hp : m.prims with
    | nil => exact absurd hp hprims
    | cons _ _ => rfl
  refine ⟨fun err h => ?_, fun st hst => ?_⟩
  · cases hst : doPrims vertexBuffers indexBuffers m m.prims { main := main } with
    | error e =>
      simp only [DoMesh, hne, hst, Bool.false_eq_true, if_false] at h
      cases h
      rfl
    | ok st =>
      simp only [DoMesh, hne, hst, hmiss, Bool.false_eq_true, if_false] at h
      cases h
  · obtain ⟨h1, h2, h3, h4⟩ := doPrims_scene _ _ _ _ _ _ hst
    have hdm : DoMesh vertexBuffers indexBuffers models main m indexOffset =
        .ok { st.main with
          warnings := st.main.warnings ++ ["Mesh node: " ++ m.name ++ "appears to be unlinked."]
          meshes := st.main.meshes ++ [st.mesh] } := by
      simp only [DoMesh, hne, hst, hmiss, Bool.false_eq_true, if_false]
      rfl
    refine ⟨_, hdm, h1, h3, ?_, ?_, fun rest => ?_⟩
    · simp only [h2]
    · simp only [h4]
    · simp only [doMeshes, hdm]

/-- Witness of C16: a mesh `m` with one cluster whose key 0 is not among
the registered keys (only key 5 is), followed by an empty mesh. -/
theorem DoMesh_lookup_miss_witness :
    ∃ out, DoMesh [{}] [{ acc := 0, size := 2 }] [(5, [0])]
        { nodes := [{ name := "n" }], accessors := [{ count := 3 }] }
        { name := "m", prims := [{ mods := [.Cluster { indexCount := 3 }] }] } 0 = .ok out ∧
      out.nodes = [{ name := "n" }] ∧ out.skins = [] ∧
      out.meshes = [] ++ [{ primitives := [{ material := 0, indices := 1 }] }] ∧
      out.warnings = [] ++ ["Mesh node: " ++ "m" ++ "appears to be unlinked."] ∧
      ∀ rest, doMeshes [{}] [{ acc := 0, size := 2 }] [(5, [0])] 0
          ({ name := "m", prims := [{ mods := [.Cluster { indexCount := 3 }] }] } :: rest)
          { nodes := [{ name := "n" }], accessors := [{ count := 3 }] } =
        doMeshes [{}] [{ acc := 0, size := 2 }] [(5, [0])] 0 rest out :=
  (DoMesh_lookup_miss [{}] [{ acc := 0, size := 2 }] [(5, [0])]
    { nodes := [{ name := "n" }], accessors := [{ count := 3 }] }
    { name := "m", prims := [{ mods := [.Cluster { indexCount := 3 }] }] } 0
    (by decide) (by decide)).2
    { main := { nodes := [{ name := "n" }],
                accessors := [{ count := 3 }, { count := 3 }] },
      mesh := { primitives := [{ material := 0, indices := 1 }] } } (by decide)

theorem modifyNode_ok (nodes : List GltfNode) (index : Nat) (f : GltfNode → GltfNode)
    (h : index < nodes.length) :
    modifyNode nodes index f = .ok (nodes.set index (f nodes[index])) := by
  simp only [modifyNode, List.getElem?_eq_getElem h]
  rfl

/-- Changing the matrix or the children of one node keeps the length of
the node list and the name, `mesh` and `skin` of every node. -/
theorem set_keeps_key (nodes : List GltfNode) (index : Nat) (g : GltfNode)
    (h : index < nodes.length)
    (hg : g.name = nodes[index].name ∧ g.mesh = nodes[index].mesh ∧ g.skin = nodes[index].skin) :
    (nodes.set index g).map (fun x => (x.name, x.mesh, x.skin)) =
      nodes.map (fun x => (x.name, x.mesh, x.skin)) := by
  apply List.ext_getElem?
  intro i
  rw [List.getElem?_map, List.getElem?_map, List.getElem?_set]
  by_cases hi : index = i
  · subst hi
    simp only [if_true, h, if_true, List.getElem?_eq_getElem h, Option.map_some', hg.1,
      hg.2.1, hg.2.2]
  · simp only [hi, if_false]

theorem linkParent_ok (nodeStartIndex : Nat) (main : GLTFMain) (n : NodeVariant)
    (hgl : n.base.glIndex < main.nodes.length)
    (hparent : n.base.parentBone > -1 →
      nodeStartIndex + n.base.parentBone.toNat < main.nodes.length)
    (hscene : main.scenes ≠ []) :
    ∃ out, linkParent nodeStartIndex main n = .ok out ∧
      out.nodes.length = main.nodes.length ∧
      out.nodes.map (fun x => (x.name, x.mesh, x.skin)) =
        main.nodes.map (fun x => (x.name, x.mesh, x.skin)) ∧
      out.scenes ≠ [] ∧ out.meshes = main.meshes ∧ out.skins = main.skins ∧
      out.accessors = main.accessors ∧ out.streams = main.streams ∧
      out.warnings = main.warnings := by
  have hkey1 := set_keeps_key main.nodes n.base.glIndex
    ((fun g : GltfNode => { g with matrix := n.base.tm0 }) main.nodes[n.base.glIndex]) hgl
    ⟨rfl, rfl, rfl⟩
  have h1 := modifyNode_ok main.nodes n.base.glIndex
    (fun g => { g with matrix := n.base.tm0 }) hgl
  have hlen1 : (main.nodes.set n.base.glIndex
      ((fun g : GltfNode => { g with matrix := n.base.tm0 }) main.nodes[n.base.glIndex])).length =
      main.nodes.length := List.length_set _ _ _
  generalize main.nodes.set n.base.glIndex
    ((fun g : GltfNode => { g with matrix := n.base.tm0 }) main.nodes[n.base.glIndex]) = nodes1
    at h1 hkey1 hlen1
  by_cases hp : n.base.parentBone > -1
  · have hlt : nodeStartIndex + n.base.parentBone.toNat < nodes1.length := by
      rw [hlen1]
      exact hparent hp
    have h2 := modifyNode_ok nodes1 (nodeStartIndex + n.base.parentBone.toNat)
      (fun g => { g with children := g.children ++ [n.base.glIndex] }) hlt
    have hkey2 := set_keeps_key nodes1 (nodeStartIndex + n.base.parentBone.toNat)
      ((fun g : GltfNode => { g with children := g.children ++ [n.base.glIndex] })
        nodes1[nodeStartIndex + n.base.parentBone.toNat]) hlt ⟨rfl, rfl, rfl⟩
    have hlen2 : (nodes1.set (nodeStartIndex + n.base.parentBone.toNat)
        ((fun g : GltfNode => { g with children := g.children ++ [n.base.glIndex] })
          nodes1[nodeStartIndex + n.base.parentBone.toNat])).length = nodes1.length :=
      List.length_set _ _ _
    generalize nodes1.set (nodeStartIndex + n.base.parentBone.toNat)
      ((fun g : GltfNode => { g with children := g.children ++ [n.base.glIndex] })
        nodes1[nodeStartIndex + n.base.parentBone.toNat]) = nodes2 at h2 hkey2 hlen2
    refine ⟨{ main with nodes := nodes2 }, ?_, hlen2.trans hlen1, hkey2.trans hkey1, hscene,
      rfl, rfl, rfl, rfl, rfl⟩
    simp only [linkParent, h1, if_pos hp, h2]
    rfl
  · cases hs : main.scenes with
    | nil => exact absurd hs hscene
    | cons scene scenes =>
      refine ⟨{ main with
        nodes := nodes1
        scenes := { scene with nodes := scene.nodes ++ [n.base.glIndex] } :: scenes },
        ?_, hlen1, hkey1, by simp, rfl, rfl, rfl, rfl, rfl⟩
      simp only [linkParent, h1, if_neg hp, hs]
      rfl

theorem linkParents_ok (nodeStartIndex : Nat) : ∀ (ns : List NodeVariant) (main : GLTFMain),
    (∀ n ∈ ns, n.base.glIndex < main.nodes.length ∧
      (n.base.parentBone > -1 →
        nodeStartIndex + n.base.parentBone.toNat < main.nodes.length)) →
    main.scenes ≠ [] →
    ∃ out, linkParents nodeStartIndex ns main = .ok out ∧
      out.nodes.length = main.nodes.length ∧
      out.nodes.map (fun x => (x.name, x.mesh, x.skin)) =
        main.nodes.map (fun x => (x.name, x.mesh, x.skin)) ∧
      out.scenes ≠ [] ∧ out.meshes = main.meshes ∧ out.skins = main.skins ∧
      out.accessors = main.accessors ∧ out.streams = main.streams ∧
      out.warnings = main.warnings
  | [], main, _, hscene => ⟨main, rfl, rfl, rfl, hscene, rfl, rfl, rfl, rfl, rfl⟩
  | n :: ns, main, h, hscene => by
    have hn := h n (List.mem_cons_self _ _)
    obtain ⟨mid, hmid, l1, k1, s1, m1, sk1, a1, st1, w1⟩ :=
      linkParent_ok nodeStartIndex main n hn.1 hn.2 hscene
    obtain ⟨out, hout, l2, k2, s2, m2, sk2, a2, st2, w2⟩ :=
      linkParents_ok nodeStartIndex ns mid (by
        intro x hx
        rw [l1]
        exact h x (List.mem_cons_of_mem _ hx)) s1
    refine ⟨out, by simp only [linkParents, hmid, hout], l2.trans l1, k2.trans k1, s2,
      m2.trans m1, sk2.trans sk1, a2.trans a1, st2.trans st1, w2.trans w1⟩

theorem doPrims_one_cluster (vertexBuffers : List Attrs) (indexBuffers : List Indices)
    (m : Mesh) (p : Primitive) (c : PrimitiveCluster) (attrs : Attrs) (ids : Indices)
    (acc : GltfAccessor) (main : GLTFMain)
    (hp : p.mods = [.Cluster c])
    (hvb : vertexBuffers[(m.vertexBaseIndex + p.vertexBufferIndex) % 2 ^ 32]? = some attrs)
    (hib : indexBuffers[(m.indexBaseIndex + p.indexBufferIndex) % 2 ^ 32]? = some ids)
    (hacc : main.accessors[ids.acc]? = some acc) :
    doPrims vertexBuffers indexBuffers m [p] { main := main } =
      .ok { main := { main with accessors := main.accessors ++ [{ acc with
                        byteOffset := (acc.byteOffset + (c.indexStart * ids.size) % 2 ^ 32) % 2 ^ 32
                        count := c.indexCount }] }
            mesh := { primitives := [{
              material := toInt32 ((m.materialBaseIndex + p.materialIndex) % 2 ^ 32)
              indices := main.accessors.length
              attributes := attrs.base
              targets := if attrs.deform.length ≠ 0 then [attrs.deform] else [] }] }
            useSkin := false } := by
  have hsk : ∀ (mn : GLTFMain) (prim : GltfPrimitive), skinCluster mn prim [] c = .ok mn := by
    intro mn prim
    simp only [skinCluster, skinClusterStreams, List.length_nil, gt_iff_lt, Nat.lt_irrefl,
      if_false]
    rfl
  simp only [doPrims, hvb, hp, doMods, doCluster, hib, accessorsAt, hacc, hsk]
  rfl

theorem models_two_nodes (skMesh : Int) :
    (ModelMap.push (ModelMap.push [] skMesh 0) 0 1).lookup 0 =
      some (if skMesh = 0 then [0, 1] else [1]) := by
  by_cases hk : skMesh = 0
  · subst hk
    rfl
  · have hne : ((0 : Int) == skMesh) = false := by
      rw [beq_eq_false_iff_ne]
      exact fun h => hk h.symm
    simp only [ModelMap.push, List.lookup, List.nil_append, hne, List.cons_append, if_neg hk]
    rfl

/-- C17, counterexample: an archive with PC magic and version 3 whose
records are a Skeleton (no bones, `numRigNodes = 0`), a Model referencing
mesh 0 and a Mesh with one primitive carrying one Cluster, together with
the index and vertex buffer the primitive refers to. The assembled scene
has two nodes, the Skeleton's and the Model's, not one. -/
theorem end_to_end_counterexample :
    checkHeader { id := Header.ID_PC, numEntriesAndVersion := 0x03000005,
                  numIndexBuffers := 1, numVertexBuffers := 1 } = .ok () ∧
    ArcExtract.assembleScene
      { id := Header.ID_PC, numEntriesAndVersion := 0x03000005,
        numIndexBuffers := 1, numVertexBuffers := 1 }
      { nodes := [.Skeleton { name := "sk" } (-1), .Model { name := "md" } 0],
        meshes := [{ name := "mesh", index := 0,
                     prims := [{ mods := [.Cluster { indexCount := 3, vertexCount := 3 }] }] }],
        indexBuffers := [{ acc := 0, size := 2 }],
        vertexBuffers := [{ base := [("POSITION", 1)] }] }
      { accessors := [{ count := 3 }, { count := 3 }] } =
    .ok { nodes := [{ name := "sk" }, { name := "md", mesh := 0 }],
          meshes := [{ primitives := [
            { material := 0, indices := 2, attributes := [("POSITION", 1)] }] }],
          accessors := [{ count := 3 }, { count := 3 }, { count := 3 }],
          scenes := [{ nodes := [0, 1] }] } ∧
    ([{ name := "sk" }, { name := "md", mesh := 0 }] : List GltfNode).length ≠ 1 := by
  decide

/-- C17, amended: for an archive whose records are, in this order, one
Skeleton with 0 bones (`numRigNodes = 0`) and one Model referencing mesh
0, and one Mesh (entry index 0, no skinned models) with one primitive
carrying exactly one Cluster modifier and no Skin modifier, whose index
and vertex buffer exist and whose node parents are valid, assembled into a
fresh document: the scene has exactly two output nodes, the Skeleton's
and the Model's, zero skins, and exactly one output mesh with exactly one
primitive; that mesh is bound to the Model's node, and to the Skeleton's
node exactly when the Skeleton's `meshIndex` is 0 too. No warning is
added. -/
theorem end_to_end_scene (hdr : Header) (sk md : NodeBase) (skMesh : Int) (m : Mesh)
    (p : Primitive) (c : PrimitiveCluster) (vertexBuffers : List Attrs)
    (indexBuffers : List Indices) (attrs : Attrs) (ids : Indices) (acc : GltfAccessor)
    (main : GLTFMain)
    (hrig : hdr.numRigNodes = 0) (hskinned : hdr.numSkinnedModels = 0)
    (hnodes : main.nodes = []) (hmeshes : main.meshes = []) (hskins : main.skins = [])
    (hscene : main.scenes ≠ [])
    (hm : m.prims = [p]) (hp : p.mods = [.Cluster c]) (hindex : m.index = 0)
    (hskp : sk.parentBone < 2) (hmdp : md.parentBone < 2)
    (hvb : vertexBuffers[(m.vertexBaseIndex + p.vertexBufferIndex) % 2 ^ 32]? = some attrs)
    (hib : indexBuffers[(m.indexBaseIndex + p.indexBufferIndex) % 2 ^ 32]? = some ids)
    (hacc : main.accessors[ids.acc]? = some acc) :
    ∃ out prim, ArcExtract.assembleScene hdr
        { nodes := [.Skeleton sk skMesh, .Model md 0], meshes := [m],
          indexBuffers := indexBuffers, vertexBuffers := vertexBuffers } main = .ok out ∧
      out.nodes.map (fun x => (x.name, x.mesh, x.skin)) =
        [(sk.name, if skMesh = 0 then 0 else -1, -1), (md.name, 0, -1)] ∧
      out.skins = [] ∧ out.meshes = [{ primitives := [prim] }] ∧
      out.warnings = main.warnings := by
  have h1 : registerNodes [.Skeleton sk skMesh, .Model md 0]
      { main := main, bones := List.replicate hdr.numRigNodes 0 } =
      .ok { main := { main with nodes := [{ name := sk.name }, { name := md.name }] }
            bones := []
            models := ModelMap.push (ModelMap.push [] skMesh 0) 0 1
            nodes := [.Skeleton { sk with glIndex := 0 } skMesh,
                      .Model { md with glIndex := 1 } 0] } := by
    rw [hrig]
    simp only [registerNodes, registerNode, registerBone, registerModels, hnodes,
      NodeVariant.base, NodeVariant.setGlIndex, List.length_nil, List.nil_append,
      List.length_cons, List.cons_append, List.replicate]
    rfl
  obtain ⟨linked, hlinked, hlen, hkey, _, hlm, hls, hla, _, hlw⟩ := linkParents_ok 0
    [.Skeleton { sk with glIndex := 0 } skMesh, .Model { md with glIndex := 1 } 0]
    { main with nodes := [{ name := sk.name }, { name := md.name }] }
    (by
      intro n hn
      simp only [List.mem_cons, List.mem_singleton, List.not_mem_nil, or_false] at hn
      rcases hn with rfl | rfl
      · refine ⟨?_, fun _ => ?_⟩ <;>
          simp only [NodeVariant.base, List.length_cons, List.length_nil] <;> omega
      · refine ⟨?_, fun _ => ?_⟩ <;>
          simp only [NodeVariant.base, List.length_cons, List.length_nil] <;> omega)
    hscene
  have hprims := doPrims_one_cluster vertexBuffers indexBuffers m p c attrs ids acc linked hp
    hvb hib (by rw [hla]; exact hacc)
  have hlookup := models_two_nodes skMesh
  match hln : linked.nodes, hlen with
  | [g0, g1], _ =>
    rw [hln] at hkey
    simp only [List.map_cons, List.map_nil, List.cons.injEq, Prod.mk.injEq, and_true] at hkey
    obtain ⟨⟨hn0, hm0, hs0⟩, hn1, hm1, hs1⟩ := hkey
    have hkey0 : toInt32 ((m.index + hdr.numSkinnedModels) % 2 ^ 32) = 0 := by
      rw [hindex, hskinned]
      rfl
    have hmesh0 : toInt32 (linked.meshes.length % 2 ^ 32) = 0 := by
      rw [hlm, hmeshes]
      rfl
    simp only [ArcExtract.assembleScene, hnodes, List.length_nil, h1, hlinked, emitSkin,
      gt_iff_lt, lt_self_iff_false, if_false, doMeshes, DoMesh, hm, List.isEmpty_cons,
      Bool.false_eq_true, hprims, hkey0, hlookup, hmesh0, hln]
    have hlm2 : linked.meshes = [] := hlm.trans hmeshes
    have hls2 : linked.skins = [] := hls.trans hskins
    have hlw2 : linked.warnings = main.warnings := hlw
    by_cases hk : skMesh = 0
    · simp only [hk, if_true, bindNodes, List.getElem?_cons_zero, List.set_cons_zero,
        List.getElem?_cons_succ, List.set_cons_succ, Option.getD_none, hlm2, hls2, hlw2,
        List.nil_append]
      refine ⟨_, { material := toInt32 ((m.materialBaseIndex + p.materialIndex) % 2 ^ 32)
                   indices := linked.accessors.length, attributes := attrs.base
                   targets := if attrs.deform.length ≠ 0 then [attrs.deform] else [] },
        rfl, ?_, rfl, rfl, rfl⟩
      simp only [List.map_cons, List.map_nil, hn0, hs0, hn1, hs1]
    · simp only [hk, if_false, bindNodes, List.getElem?_cons_zero, List.set_cons_zero,
        List.getElem?_cons_succ, List.set_cons_succ, Option.getD_none, hlm2, hls2, hlw2,
        List.nil_append]
      refine ⟨_, { material := toInt32 ((m.materialBaseIndex + p.materialIndex) % 2 ^ 32)
                   indices := linked.accessors.length, attributes := attrs.base
                   targets := if attrs.deform.length ≠ 0 then [attrs.deform] else [] },
        rfl, ?_, rfl, rfl, rfl⟩
      simp only [List.map_cons, List.map_nil, hn0, hm0, hs0, hn1, hs1]

/-- Witness of C17 (amended): the archive of the counterexample. -/
theorem end_to_end_scene_witness :
    ∃ out prim, ArcExtract.assembleScene
        { id := Header.ID_PC, numEntriesAndVersion := 0x03000005,
          numIndexBuffers := 1, numVertexBuffers := 1 }
        { nodes := [.Skeleton { name := "sk" } (-1), .Model { name := "md" } 0],
          meshes := [{ name := "mesh", index := 0,
                       prims := [{ mods := [.Cluster { indexCount := 3, vertexCount := 3 }] }] }],
          indexBuffers := [{ acc := 0, size := 2 }],
          vertexBuffers := [{ base := [("POSITION", 1)] }] }
        { accessors := [{ count := 3 }, { count := 3 }] } = .ok out ∧
      out.nodes.map (fun x => (x.name, x.mesh, x.skin)) =
        [("sk", if (-1 : Int) = 0 then 0 else -1, -1), ("md", 0, -1)] ∧
      out.skins = [] ∧ out.meshes = [{ primitives := [prim] }] ∧
      out.warnings = [] :=
  end_to_end_scene
    { id := Header.ID_PC, numEntriesAndVersion := 0x03000005,
      numIndexBuffers := 1, numVertexBuffers := 1 }
    { name := "sk" } { name := "md" } (-1)
    { name := "mesh", index := 0,
      prims := [{ mods := [.Cluster { indexCount := 3, vertexCount := 3 }] }] }
    { mods := [.Cluster { indexCount := 3, vertexCount := 3 }] }
    { indexCount := 3, vertexCount := 3 }
    [{ base := [("POSITION", 1)] }] [{ acc := 0, size := 2 }]
    { base := [("POSITION", 1)] } { acc := 0, size := 2 } { count := 3 }
    { accessors := [{ count := 3 }, { count := 3 }] }
    rfl rfl rfl rfl rfl (by decide) rfl rfl rfl (by decide) (by decide) rfl rfl rfl

/-! ## Animation channel binding -/

theorem nodeId_loop_miss (name : String) : ∀ (nodes : List GltfNode) (c : Int),
    (∀ m ∈ nodes, m.name ≠ name) → nodeId.loop name nodes c = -1
  | [], _, _ => rfl
  | m :: nodes, c, h => by
    rw [nodeId.loop, if_neg (h m (List.mem_cons_self _ _))]
    exact nodeId_loop_miss name nodes (c + 1) (fun x hx => h x (List.mem_cons_of_mem _ hx))

theorem nodeId_loop_hit (name : String) :
    ∀ (nodes : List GltfNode) (c : Int) (i : Nat) (m : GltfNode),
    nodes[i]? = some m → m.name = name →
    (∀ j m', j < i → nodes[j]? = some m' → m'.name ≠ name) →
    nodeId.loop name nodes c = c + i
  | [], _, i, m, h, _, _ => by simp at h
  | x :: nodes, c, 0, m, h, hm, _ => by
    simp only [List.getElem?_cons_zero, Option.some.injEq] at h
    subst h
    rw [nodeId.loop, if_pos hm]
    simp
  | x :: nodes, c, i + 1, m, h, hm, hmin => by
    have hx : x.name ≠ name := hmin 0 x (Nat.succ_pos i) (List.getElem?_cons_zero ..)
    rw [nodeId.loop, if_neg hx, nodeId_loop_hit name nodes (c + 1) i m (by simpa using h) hm
      (fun j m' hj hj' => hmin (j + 1) m' (by omega) (by simpa using hj'))]
    push_cast
    ring

theorem sampler_index_snoc (cs : List GltfChannel) (c : GltfChannel)
    (h : ∀ (k : Nat) (x : GltfChannel), cs[k]? = some x → x.sampler = k)
    (hc : c.sampler = cs.length) :
    ∀ (k : Nat) (x : GltfChannel), (cs ++ [c])[k]? = some x → x.sampler = k := by
  intro k x hx
  by_cases hk : k < cs.length
  · rw [List.getElem?_append_left hk] at hx
    exact h k x hx
  · rw [List.getElem?_append_right (by omega)] at hx
    by_cases hk2 : k - cs.length = 0
    · rw [hk2] at hx
      simp only [List.getElem?_cons_zero, Option.some.injEq] at hx
      subst hx
      omega
    · obtain ⟨d, hd⟩ := Nat.exists_eq_succ_of_ne_zero hk2
      rw [hd] at hx
      simp at hx

theorem loadNode_spec (slot : Nat) (st : LoadState) (n : AnimationNode)
    (hinv : st.ganim.samplers.length = st.ganim.channels.length)
    (hidx : ∀ (k : Nat) (c : GltfChannel), st.ganim.channels[k]? = some c → c.sampler = k) :
    (loadNode slot st n).main.nodes = st.main.nodes ∧
    (loadNode slot st n).main.animations = st.main.animations ∧
    (loadNode slot st n).ganim.name = st.ganim.name ∧
    (loadNode slot st n).ganim.samplers.length = (loadNode slot st n).ganim.channels.length ∧
    (∀ (k : Nat) (c : GltfChannel),
      (loadNode slot st n).ganim.channels[k]? = some c → c.sampler = k) ∧
    (loadNode slot st n).ganim.channels.map (fun c => (c.node, c.path)) =
      st.ganim.channels.map (fun c => (c.node, c.path)) ++
        (if nodeId st.main.nodes n.nodeName < 0 then []
         else channelKeys (nodeId st.main.nodes n.nodeName) n) := by
  by_cases hid : nodeId st.main.nodes n.nodeName < 0
  · simp only [loadNode, hid, if_true, List.append_nil]
    exact ⟨trivial, trivial, trivial, hinv, hidx, trivial⟩
  · by_cases hpos : n.posFrames.length > 0 <;> by_cases hrot : n.rotFrames.length > 0
    · simp only [loadNode, hid, if_false, hpos, hrot, if_true, NewAccessor]
      refine ⟨trivial, trivial, trivial, ?_, ?_, ?_⟩
      · simp only [List.length_append, List.length_singleton, hinv]
      · exact sampler_index_snoc _ _ (sampler_index_snoc _ _ hidx hinv)
          (by simp only [List.length_append, List.length_singleton, hinv])
      · simp only [List.map_append, List.map_cons, List.map_nil, channelKeys, if_pos hpos,
          if_pos hrot, List.append_assoc]
    · simp only [loadNode, hid, if_false, hpos, hrot, if_true, NewAccessor]
      refine ⟨trivial, trivial, trivial, ?_, ?_, ?_⟩
      · simp only [List.length_append, List.length_singleton, hinv]
      · exact sampler_index_snoc _ _ hidx hinv
      · simp only [List.map_append, List.map_cons, List.map_nil, channelKeys, if_pos hpos,
          if_neg hrot, List.append_nil]
    · simp only [loadNode, hid, if_false, hpos, hrot, if_true, NewAccessor]
      refine ⟨trivial, trivial, trivial, ?_, ?_, ?_⟩
      · simp only [List.length_append, List.length_singleton, hinv]
      · exact sampler_index_snoc _ _ hidx hinv
      · simp only [List.map_append, List.map_cons, List.map_nil, channelKeys, if_neg hpos,
          if_pos hrot, List.nil_append]
    · simp only [loadNode, hid, if_false, hpos, hrot, channelKeys, List.append_nil]
      exact ⟨trivial, trivial, trivial, hinv, hidx, trivial⟩

theorem loadNodes_spec (slot : Nat) : ∀ (ns : List AnimationNode) (st : LoadState),
    st.ganim.samplers.length = st.ganim.channels.length →
    (∀ (k : Nat) (c : GltfChannel), st.ganim.channels[k]? = some c → c.sampler = k) →
    (ns.foldl (loadNode slot) st).main.nodes = st.main.nodes ∧
    (ns.foldl (loadNode slot) st).main.animations = st.main.animations ∧
    (ns.foldl (loadNode slot) st).ganim.name = st.ganim.name ∧
    (ns.foldl (loadNode slot) st).ganim.samplers.length =
      (ns.foldl (loadNode slot) st).ganim.channels.length ∧
    (∀ (k : Nat) (c : GltfChannel),
      (ns.foldl (loadNode slot) st).ganim.channels[k]? = some c → c.sampler = k) ∧
    (ns.foldl (loadNode slot) st).ganim.channels.map (fun c => (c.node, c.path)) =
      st.ganim.channels.map (fun c => (c.node, c.path)) ++
        (ns.map (fun n => if nodeId st.main.nodes n.nodeName < 0 then []
          else channelKeys (nodeId st.main.nodes n.nodeName) n)).flatten
  | [], st, hinv, hidx => by
    refine ⟨rfl, rfl, rfl, hinv, hidx, ?_⟩
    rw [List.map_nil, List.flatten_nil, List.append_nil, List.foldl_nil]
  | n :: ns, st, hinv, hidx => by
    obtain ⟨a1, a2, a3, a4, a5, a6⟩ := loadNode_spec slot st n hinv hidx
    obtain ⟨b1, b2, b3, b4, b5, b6⟩ := loadNodes_spec slot ns (loadNode slot st n) a4 a5
    rw [List.foldl_cons]
    refine ⟨b1.trans a1, b2.trans a2, b3.trans a3, b4, b5, ?_⟩
    rw [b6, a6, a1, List.map_cons, List.flatten_cons, List.append_assoc]

/-- C18: `LoadAnimation` stores one animation `ganim` behind those of the
document and leaves the nodes alone. The channels of `ganim` are the
concatenation of one block `per[k]` for each node `anim.nodes[k]` of the
animation, in order: the block is empty when no node of the scene has the
name of `anim.nodes[k]`, and otherwise it holds the channels of that node
(`channelKeys`), all targeting the smallest index `i` whose scene node has
that name. A missing name changes nothing in the blocks of the other
nodes. Every channel has its own sampler: the channel at position `k` names
sampler `k`, and there are as many samplers as channels. `LoadAnimation`
has no error exit. -/
theorem LoadAnimation_binding (anim : Animation) (main : GLTFMain) :
    ∃ (ganim : GltfAnimation) (per : List (List (Int × String))),
      (LoadAnimation anim main).animations = main.animations ++ [ganim] ∧
      (LoadAnimation anim main).nodes = main.nodes ∧
      ganim.name = anim.name ∧
      ganim.samplers.length = ganim.channels.length ∧
      (∀ (k : Nat) (c : GltfChannel), ganim.channels[k]? = some c → c.sampler = k) ∧
      ganim.channels.map (fun c => (c.node, c.path)) = per.flatten ∧
      per.length = anim.nodes.length ∧
      ∀ (k : Nat) (n : AnimationNode), anim.nodes[k]? = some n →
        ∃ cs, per[k]? = some cs ∧
          ((∀ m ∈ main.nodes, m.name ≠ n.nodeName) → cs = []) ∧
          (∀ (i : Nat) (m : GltfNode), main.nodes[i]? = some m → m.name = n.nodeName →
            (∀ (j : Nat) (m' : GltfNode), j < i → main.nodes[j]? = some m' →
              m'.name ≠ n.nodeName) →
            cs = channelKeys i n) := by
  have hnodes : (AnimStream main).1.nodes = main.nodes := by
    unfold AnimStream
    split <;> rfl
  have hanims : (AnimStream main).1.animations = main.animations := by
    unfold AnimStream
    split <;> rfl
  obtain ⟨b1, b2, b3, b4, b5, b6⟩ := loadNodes_spec (AnimStream main).2 anim.nodes
    { main := (AnimStream main).1, ganim := { name := anim.name } } rfl
    (fun k c h => by simp at h)
  refine ⟨_, anim.nodes.map (fun n => if nodeId main.nodes n.nodeName < 0 then []
      else channelKeys (nodeId main.nodes n.nodeName) n), ?_, ?_, b3, b4, b5, ?_, ?_, ?_⟩
  · show (List.foldl (loadNode (AnimStream main).2)
      ({ main := (AnimStream main).1, ganim := { name := anim.name } } : LoadState)
      anim.nodes).main.animations ++ _ = _
    rw [b2, hanims]
    rfl
  · exact b1.trans hnodes
  · rw [b6, hnodes]
    rfl
  · exact List.length_map _ _
  · intro k n hk
    refine ⟨_, by rw [List.getElem?_map, hk]; rfl, ?_, ?_⟩
    · intro hmiss
      have h : nodeId main.nodes n.nodeName = -1 := nodeId_loop_miss _ _ _ hmiss
      show (if nodeId main.nodes n.nodeName < 0 then []
        else channelKeys (nodeId main.nodes n.nodeName) n) = []
      rw [h]
      rfl
    · intro i m hi hm hmin
      have h : nodeId main.nodes n.nodeName = i := by
        have := nodeId_loop_hit n.nodeName main.nodes 0 i m hi hm hmin
        rw [zero_add] at this
        exact this
      show (if nodeId main.nodes n.nodeName < 0 then []
        else channelKeys (nodeId main.nodes n.nodeName) n) = channelKeys i n
      rw [h, if_neg (by omega)]

/-- A run of `LoadAnimation`: the scene has two nodes named `"b"`; the
first animation node names `"a"` (no such node), the second names `"b"`
and has position and rotation frames. Both channels target node 1, the
first of the two, and the missing name leaves one warning. -/
theorem LoadAnimation_example :
    LoadAnimation
      { name := "walk", frameRate := 30,
        nodes := [{ nodeName := "a", posFrames := [0], positions := [[]] },
                  { nodeName := "b", posFrames := [0], positions := [[]],
                    rotFrames := [0, 1], rotations := [[], []] }] }
      { nodes := [{ name := "root" }, { name := "b" }, { name := "b" }] } =
    { nodes := [{ name := "root" }, { name := "b" }, { name := "b" }],
      streams := [[]], anims := 0,
      warnings := ["Cannot find node: a"],
      accessors :=
        [{ bufferView := 0, count := 1, type := AccessorType.Scalar,
           componentType := ComponentType.Float },
         { bufferView := 0, count := 1, type := AccessorType.Vec3,
           componentType := ComponentType.Float },
         { bufferView := 0, count := 2, type := AccessorType.Scalar,
           componentType := ComponentType.Float },
         { bufferView := 0, count := 2, type := AccessorType.Vec4,
           componentType := ComponentType.Short, normalized := true }],
      animations :=
        [{ name := "walk",
           channels := [{ node := 1, path := "translation", sampler := 0 },
                        { node := 1, path := "rotation", sampler := 1 }],
           samplers := [{ input := 0, output := 1 }, { input := 2, output := 3 }] }] } := by
  decide

/-! ## Positional animation ownership -/

theorem Animation_Read_fresh (rd : List Nat) (a : Animation)
    (h : Animation.Read rd = .ok a) : a.nodes = [] ∧ a.name = "" := by
  unfold Animation.Read at h
  split at h
  · cases h
  · split at h
    · cases h
    · split at h
      · cases h
      · split at h
        · cases h
        · cases h
          exact ⟨rfl, rfl⟩

theorem decode_foldl_entries (entryNames : List Char) (l : List Entry) (st : DecodeState) :
    (l.foldl (decodeStep entryNames) st).records.map (fun r => r.1) =
      st.records.map (fun r => r.1) ++
        l.filter (fun x => x.type ≠ ArcType.EntryNames ∧ x.type ≠ ArcType.Group) := by
  induction l generalizing st with
  | nil => simp
  | cons e l ih =>
    rw [List.foldl_cons, ih]
    by_cases h : e.type = ArcType.EntryNames ∨ e.type = ArcType.Group
    · have hf : ¬ (e.type ≠ ArcType.EntryNames ∧ e.type ≠ ArcType.Group) := by tauto
      simp [decodeStep, h, List.filter_cons, hf]
    · have hf : e.type ≠ ArcType.EntryNames ∧ e.type ≠ ArcType.Group := by tauto
      simp [decodeStep, h, List.filter_cons, hf]

/-- No AnimatedNode entry stands before the first Animation entry. -/
theorem no_leading_node_of_preceded : ∀ (entries : List Entry),
    (∀ (i : Nat) (e : Entry), entries[i]? = some e → e.type = ArcType.AnimatedNode →
      ∃ (j : Nat) (e' : Entry), j < i ∧ entries[j]? = some e' ∧ e'.type = ArcType.Animation) →
    ∀ e ∈ entries.takeWhile (fun e => e.type ≠ ArcType.Animation),
      e.type ≠ ArcType.AnimatedNode
  | [], _, e, he => by simp at he
  | x :: entries, hpre, e, he => by
    by_cases hx : x.type = ArcType.Animation
    · simp [List.takeWhile_cons, hx] at he
    · have hx' : decide (x.type ≠ ArcType.Animation) = true := by simpa using hx
      rw [List.takeWhile_cons, hx'] at he
      simp only [if_true, List.mem_cons] at he
      rcases he with rfl | he
      · intro hnode
        obtain ⟨j, e', hj, _, _⟩ := hpre 0 e (List.getElem?_cons_zero ..) hnode
        omega
      · refine no_leading_node_of_preceded entries ?_ e he
        intro i y hy hnode
        obtain ⟨j, e', hj, he', hty⟩ := hpre (i + 1) y (by simpa using hy) hnode
        cases j with
        | zero =>
          simp only [List.getElem?_cons_zero, Option.some.injEq] at he'
          subst he'
          exact absurd hty hx
        | succ j => exact ⟨j, e', by omega, by simpa using he', hty⟩

theorem takeWhile_filter_sub (p q : Entry → Bool) (hq : ∀ e, q e = false → p e = true) :
    ∀ (l : List Entry), ∀ e ∈ (l.filter q).takeWhile p, e ∈ l.takeWhile p
  | [], e, he => by simp at he
  | x :: l, e, he => by
    by_cases hqx : q x = true
    · rw [List.filter_cons, if_pos hqx, List.takeWhile_cons] at he
      rw [List.takeWhile_cons]
      by_cases hpx : p x = true
      · rw [if_pos hpx] at he ⊢
        rcases List.mem_cons.1 he with rfl | he
        · exact List.mem_cons_self _ _
        · exact List.mem_cons_of_mem _ (takeWhile_filter_sub p q hq l e he)
      · rw [if_neg hpx] at he
        simp at he
    · rw [List.filter_cons, if_neg hqx] at he
      rw [List.takeWhile_cons, if_pos (hq x (by simpa using hqx))]
      exact List.mem_cons_of_mem _ (takeWhile_filter_sub p q hq l e he)

theorem ownedNodes_cons_animation (r : Entry × Option String) (rs : List (Entry × Option String))
    (h : r.1.type = ArcType.Animation) : ownedNodes (r :: rs) = [] := by
  simp [ownedNodes, List.takeWhile_cons, h]

theorem ownedNodes_cons_node (r : Entry × Option String) (rs : List (Entry × Option String))
    (h : r.1.type = ArcType.AnimatedNode) : ownedNodes (r :: rs) = r :: ownedNodes rs := by
  have hne : ¬ (ArcType.AnimatedNode = ArcType.Animation) := by decide
  simp [ownedNodes, List.takeWhile_cons, hne, List.filter_cons, h]

theorem ownedNodes_cons_other (r : Entry × Option String) (rs : List (Entry × Option String))
    (h1 : r.1.type ≠ ArcType.Animation) (h2 : r.1.type ≠ ArcType.AnimatedNode) :
    ownedNodes (r :: rs) = ownedNodes rs := by
  simp [ownedNodes, List.takeWhile_cons, h1, List.filter_cons, h2]

theorem animStep_animation (stream : List Nat) (animations : List Animation)
    (r : Entry × Option String) (s : String) (a : Animation) (hs : r.2 = some s)
    (hty : r.1.type = ArcType.Animation)
    (ha : Animation.Read (stream.drop r.1.offset) = .ok a) :
    ArcAnim.animStep stream animations r =
      .ok (animations ++ [ownedAnimation stream (r, [])]) := by
  obtain ⟨hn, _⟩ := Animation_Read_fresh _ a ha
  simp only [ArcAnim.animStep, hs, hty, if_true, ha, ownedAnimation, Option.getD_some,
    List.map_nil, pure, Except.pure]
  rw [← hn]

theorem animStep_node (stream : List Nat) (init : List Animation) (a : Animation)
    (r : Entry × Option String) (s : String) (n : AnimationNode) (hs : r.2 = some s)
    (hty : r.1.type = ArcType.AnimatedNode)
    (hn : AnimationNode.Read (stream.drop r.1.offset) = .ok n) :
    ArcAnim.animStep stream (init ++ [a]) r =
      .ok (init ++ [{ a with nodes := a.nodes ++ [ownedNode stream r] }]) := by
  have hne : ¬ (ArcType.AnimatedNode = ArcType.Animation) := by decide
  have hl : (init ++ [a]).getLast? = some a := by simp
  have hd : (init ++ [a]).dropLast = init := by simp
  simp only [ArcAnim.animStep, hs, hne, if_false, hty, if_true, hn, ownedNode,
    Option.getD_some, hl, hd, pure, Except.pure]

theorem animStep_other (stream : List Nat) (animations : List Animation)
    (r : Entry × Option String) (s : String) (hs : r.2 = some s)
    (h1 : r.1.type ≠ ArcType.Animation) (h2 : r.1.type ≠ ArcType.AnimatedNode) :
    ArcAnim.animStep stream animations r = .ok animations := by
  simp only [ArcAnim.animStep, hs, h1, h2, if_false, pure, Except.pure]

theorem animLoop_owned (stream : List Nat) :
    ∀ (rs : List (Entry × Option String)) (init : List Animation) (a : Animation),
    (∀ r ∈ rs, ∃ s, r.2 = some s) →
    (∀ r ∈ rs, r.1.type = ArcType.Animation →
      ∃ x, Animation.Read (stream.drop r.1.offset) = .ok x) →
    (∀ r ∈ rs, r.1.type = ArcType.AnimatedNode →
      ∃ x, AnimationNode.Read (stream.drop r.1.offset) = .ok x) →
    ArcAnim.animLoop stream rs (init ++ [a]) =
      .ok (init ++ [{ a with nodes := a.nodes ++ (ownedNodes rs).map (ownedNode stream) }] ++
        (positionalOwnership rs).map (ownedAnimation stream))
  | [], init, a, _, _, _ => by
    have h : ({ a with nodes := a.nodes ++ [] } : Animation) = a := by
      rw [List.append_nil]
    simp only [ArcAnim.animLoop, ownedNodes, positionalOwnership, List.takeWhile_nil,
      List.filter_nil, List.map_nil, List.append_nil, h, pure, Except.pure]
  | r :: rs, init, a, hn, ha, hd => by
    obtain ⟨s, hs⟩ := hn r (List.mem_cons_self _ _)
    have ih := fun init a => animLoop_owned stream rs init a
      (fun x hx => hn x (List.mem_cons_of_mem _ hx))
      (fun x hx => ha x (List.mem_cons_of_mem _ hx))
      (fun x hx => hd x (List.mem_cons_of_mem _ hx))
    by_cases h1 : r.1.type = ArcType.Animation
    · obtain ⟨x, hx⟩ := ha r (List.mem_cons_self _ _) h1
      have h : ({ a with nodes := a.nodes ++ [] } : Animation) = a := by
        rw [List.append_nil]
      have hstep : ArcAnim.animLoop stream (r :: rs) (init ++ [a]) =
          ArcAnim.animLoop stream rs ((init ++ [a]) ++ [ownedAnimation stream (r, [])]) := by
        simp only [ArcAnim.animLoop, animStep_animation stream _ r s x hs h1 hx]
      rw [hstep, ih (init ++ [a]) (ownedAnimation stream (r, []))]
      simp only [ownedNodes_cons_animation r rs h1, positionalOwnership, h1, if_true,
        List.map_nil, List.map_cons, h, List.append_assoc, List.singleton_append]
      rfl
    · by_cases h2 : r.1.type = ArcType.AnimatedNode
      · obtain ⟨x, hx⟩ := hd r (List.mem_cons_self _ _) h2
        simp only [ArcAnim.animLoop, animStep_node stream init a r s x hs h2 hx, ih,
          ownedNodes_cons_node r rs h2, positionalOwnership, h1, if_false, List.map_cons,
          List.append_assoc, List.singleton_append]
      · simp only [ArcAnim.animLoop, animStep_other stream _ r s hs h1 h2, ih,
          ownedNodes_cons_other r rs h1 h2, positionalOwnership, h1, if_false]

theorem animLoop_start (stream : List Nat) :
    ∀ (rs : List (Entry × Option String)),
    (∀ r ∈ rs, ∃ s, r.2 = some s) →
    (∀ r ∈ rs, r.1.type = ArcType.Animation →
      ∃ x, Animation.Read (stream.drop r.1.offset) = .ok x) →
    (∀ r ∈ rs, r.1.type = ArcType.AnimatedNode →
      ∃ x, AnimationNode.Read (stream.drop r.1.offset) = .ok x) →
    (∀ r ∈ rs.takeWhile (fun r => r.1.type ≠ ArcType.Animation),
      r.1.type ≠ ArcType.AnimatedNode) →
    ArcAnim.animLoop stream rs [] =
      .ok ((positionalOwnership rs).map (ownedAnimation stream))
  | [], _, _, _, _ => rfl
  | r :: rs, hn, ha, hd, hlead => by
    obtain ⟨s, hs⟩ := hn r (List.mem_cons_self _ _)
    by_cases h1 : r.1.type = ArcType.Animation
    · obtain ⟨x, hx⟩ := ha r (List.mem_cons_self _ _) h1
      have ih := animLoop_owned stream rs [] (ownedAnimation stream (r, []))
        (fun x hx => hn x (List.mem_cons_of_mem _ hx))
        (fun x hx => ha x (List.mem_cons_of_mem _ hx))
        (fun x hx => hd x (List.mem_cons_of_mem _ hx))
      have hstep : ArcAnim.animLoop stream (r :: rs) [] =
          ArcAnim.animLoop stream rs ([] ++ [ownedAnimation stream (r, [])]) := by
        simp only [ArcAnim.animLoop, animStep_animation stream _ r s x hs h1 hx]
      rw [hstep, ih]
      simp only [positionalOwnership, h1, if_true, List.map_cons, List.nil_append,
        List.singleton_append]
      rfl
    · have hmem : r ∈ (r :: rs).takeWhile (fun r => r.1.type ≠ ArcType.Animation) := by
        simp [List.takeWhile_cons, h1]
      have h2 := hlead r hmem
      have ih := animLoop_start stream rs
        (fun x hx => hn x (List.mem_cons_of_mem _ hx))
        (fun x hx => ha x (List.mem_cons_of_mem _ hx))
        (fun x hx => hd x (List.mem_cons_of_mem _ hx))
        (fun x hx => hlead x (by
          simp only [List.takeWhile_cons, h1, ne_eq, not_false_eq_true, decide_True, if_true]
          exact List.mem_cons_of_mem _ hx))
      simp only [ArcAnim.animLoop, animStep_other stream _ r s hs h1 h2, ih,
        positionalOwnership, h1, if_false]

theorem exists_of_isOk {α : Type} (x : Except Error α) (h : x.isOk = true) :
    ∃ v, x = .ok v := by
  cases x with
  | error e => cases h
  | ok v => exact ⟨v, rfl⟩

/-- C19: let an entry table be such that every AnimatedNode entry is
preceded by some Animation entry, every name of an entry that reaches the
`switch` is read inside the name blob, and the payload of every Animation
and AnimatedNode entry decodes. The entries that reach the `switch` of
arc_anim `DoArc` are the table entries other than EntryNames and Group, in
table order, and the vector `animations` at the end of the loop is, in
order, one animation for each Animation entry (`positionalOwnership`): the
k-th animation is the payload of the k-th Animation entry, named after it,
and its nodes are exactly the AnimatedNode entries lying between that entry
and the next Animation entry (or the table end), in table order, each the
payload of its entry and named after it. -/
theorem DoArc_positional_ownership (stream : List Nat) (entryNames : List Char)
    (entries : List Entry)
    (hnames : ∀ r ∈ ArcAnim.DoArc entryNames entries, r.2.isSome = true)
    (hanim : ∀ r ∈ ArcAnim.DoArc entryNames entries, r.1.type = ArcType.Animation →
      (Animation.Read (stream.drop r.1.offset)).isOk = true)
    (hnode : ∀ r ∈ ArcAnim.DoArc entryNames entries, r.1.type = ArcType.AnimatedNode →
      (AnimationNode.Read (stream.drop r.1.offset)).isOk = true)
    (hpre : ∀ (i : Nat) (e : Entry), entries[i]? = some e → e.type = ArcType.AnimatedNode →
      ∃ (j : Nat) (e' : Entry), j < i ∧ entries[j]? = some e' ∧
        e'.type = ArcType.Animation) :
    (ArcAnim.DoArc entryNames entries).map (fun r => r.1) =
      entries.filter (fun x => x.type ≠ ArcType.EntryNames ∧ x.type ≠ ArcType.Group) ∧
    ArcAnim.DoArc.animations stream entryNames entries =
      .ok ((positionalOwnership (ArcAnim.DoArc entryNames entries)).map
        (ownedAnimation stream)) := by
  have hrec : (ArcAnim.DoArc entryNames entries).map (fun r => r.1) =
      entries.filter (fun x => x.type ≠ ArcType.EntryNames ∧ x.type ≠ ArcType.Group) := by
    have h := decode_foldl_entries entryNames entries {}
    simpa [ArcAnim.DoArc, decodePass] using h
  refine ⟨hrec, ?_⟩
  refine animLoop_start stream _
    (fun r hr => Option.isSome_iff_exists.1 (hnames r hr))
    (fun r hr hty => exists_of_isOk _ (hanim r hr hty))
    (fun r hr hty => exists_of_isOk _ (hnode r hr hty)) ?_
  intro r hr
  have h1 : r.1 ∈ ((ArcAnim.DoArc entryNames entries).map (fun r => r.1)).takeWhile
      (fun e => e.type ≠ ArcType.Animation) := by
    rw [List.takeWhile_map]
    exact List.mem_map_of_mem _ hr
  rw [hrec] at h1
  have h2 := takeWhile_filter_sub (fun e => e.type ≠ ArcType.Animation)
    (fun x => x.type ≠ ArcType.EntryNames ∧ x.type ≠ ArcType.Group)
    (by
      intro e he
      have hty : e.type = ArcType.EntryNames ∨ e.type = ArcType.Group := by
        by_contra hcon
        push_neg at hcon
        simp [hcon.1, hcon.2] at he
      show decide (e.type ≠ ArcType.Animation) = true
      rcases hty with h | h <;> rw [h] <;> rfl)
    entries r.1 h1
  exact no_leading_node_of_preceded entries hpre r.1 h2

/-- Witness of C19: a table with two Animation entries, the first owning
two AnimatedNode entries and the second one, with an EntryNames, a Group
and a Mesh entry in between. -/
theorem DoArc_positional_ownership_witness :
    (ArcAnim.DoArc ['w', 'a', 'l', 'k', Char.ofNat 0, 'a', 'r', 'm', Char.ofNat 0]
        [{ type := ArcType.EntryNames },
         { type := ArcType.Animation, nameOffset := 0, offset := 0 },
         { type := ArcType.Group, nameOffset := 0 },
         { type := ArcType.AnimatedNode, nameOffset := 5, offset := 12 },
         { type := ArcType.AnimatedNode, nameOffset := -1, offset := 12 },
         { type := ArcType.Animation, nameOffset := -1, offset := 0 },
         { type := ArcType.Mesh },
         { type := ArcType.AnimatedNode, nameOffset := 5, offset := 12 }]).map (fun r => r.1) =
      ([{ type := ArcType.EntryNames },
         { type := ArcType.Animation, nameOffset := 0, offset := 0 },
         { type := ArcType.Group, nameOffset := 0 },
         { type := ArcType.AnimatedNode, nameOffset := 5, offset := 12 },
         { type := ArcType.AnimatedNode, nameOffset := -1, offset := 12 },
         { type := ArcType.Animation, nameOffset := -1, offset := 0 },
         { type := ArcType.Mesh },
         { type := ArcType.AnimatedNode, nameOffset := 5, offset := 12 }] : List Entry).filter
        (fun x => x.type ≠ ArcType.EntryNames ∧ x.type ≠ ArcType.Group) ∧
    ArcAnim.DoArc.animations
        ([10, 0, 0, 0, 30, 0, 0, 0, 0, 0, 0, 0] ++ [5, 0, 0, 0, 0, 0] ++ List.replicate 18 0)
        ['w', 'a', 'l', 'k', Char.ofNat 0, 'a', 'r', 'm', Char.ofNat 0]
        [{ type := ArcType.EntryNames },
         { type := ArcType.Animation, nameOffset := 0, offset := 0 },
         { type := ArcType.Group, nameOffset := 0 },
         { type := ArcType.AnimatedNode, nameOffset := 5, offset := 12 },
         { type := ArcType.AnimatedNode, nameOffset := -1, offset := 12 },
         { type := ArcType.Animation, nameOffset := -1, offset := 0 },
         { type := ArcType.Mesh },
         { type := ArcType.AnimatedNode, nameOffset := 5, offset := 12 }] =
      .ok ((positionalOwnership
        (ArcAnim.DoArc ['w', 'a', 'l', 'k', Char.ofNat 0, 'a', 'r', 'm', Char.ofNat 0]
          [{ type := ArcType.EntryNames },
           { type := ArcType.Animation, nameOffset := 0, offset := 0 },
           { type := ArcType.Group, nameOffset := 0 },
           { type := ArcType.AnimatedNode, nameOffset := 5, offset := 12 },
           { type := ArcType.AnimatedNode, nameOffset := -1, offset := 12 },
           { type := ArcType.Animation, nameOffset := -1, offset := 0 },
           { type := ArcType.Mesh },
           { type := ArcType.AnimatedNode, nameOffset := 5, offset := 12 }])).map
        (ownedAnimation
          ([10, 0, 0, 0, 30, 0, 0, 0, 0, 0, 0, 0] ++ [5, 0, 0, 0, 0, 0] ++
            List.replicate 18 0))) :=
  DoArc_positional_ownership
    ([10, 0, 0, 0, 30, 0, 0, 0, 0, 0, 0, 0] ++ [5, 0, 0, 0, 0, 0] ++ List.replicate 18 0)
    ['w', 'a', 'l', 'k', Char.ofNat 0, 'a', 'r', 'm', Char.ofNat 0]
    [{ type := ArcType.EntryNames },
     { type := ArcType.Animation, nameOffset := 0, offset := 0 },
     { type := ArcType.Group, nameOffset := 0 },
     { type := ArcType.AnimatedNode, nameOffset := 5, offset := 12 },
     { type := ArcType.AnimatedNode, nameOffset := -1, offset := 12 },
     { type := ArcType.Animation, nameOffset := -1, offset := 0 },
     { type := ArcType.Mesh },
     { type := ArcType.AnimatedNode, nameOffset := 5, offset := 12 }]
    (by decide) (by decide) (by decide)
    (by
      intro i e hi hty
      rcases i with _ | _ | i
      · simp only [List.getElem?_cons_zero, Option.some.injEq] at hi
        subst hi
        exact absurd hty (by decide)
      · simp only [List.getElem?_cons_succ, List.getElem?_cons_zero, Option.some.injEq] at hi
        subst hi
        exact absurd hty (by decide)
      · exact ⟨1, _, by omega, rfl, rfl⟩)

/-- The run of the witness table, evaluated: animation `walk` owns the
nodes `arm` and `2`, animation `3` owns the node `arm`. -/
theorem DoArc_animations_example :
    ArcAnim.DoArc.animations
        ([10, 0, 0, 0, 30, 0, 0, 0, 0, 0, 0, 0] ++ [5, 0, 0, 0, 0, 0] ++ List.replicate 18 0)
        ['w', 'a', 'l', 'k', Char.ofNat 0, 'a', 'r', 'm', Char.ofNat 0]
        [{ type := ArcType.EntryNames },
         { type := ArcType.Animation, nameOffset := 0, offset := 0 },
         { type := ArcType.Group, nameOffset := 0 },
         { type := ArcType.AnimatedNode, nameOffset := 5, offset := 12 },
         { type := ArcType.AnimatedNode, nameOffset := -1, offset := 12 },
         { type := ArcType.Animation, nameOffset := -1, offset := 0 },
         { type := ArcType.Mesh },
         { type := ArcType.AnimatedNode, nameOffset := 5, offset := 12 }] =
      .ok [{ endFrame := 10, frameRate := 30, name := "walk",
             nodes := [{ numFrames := 5, null0 := List.replicate 9 0, nodeName := "arm" },
                       { numFrames := 5, null0 := List.replicate 9 0, nodeName := "2" }] },
           { endFrame := 10, frameRate := 30, name := "3",
             nodes := [{ numFrames := 5, null0 := List.replicate 9 0, nodeName := "arm" }] }] := by
  decide

/-! ## Index files: header validation and dispatch -/

theorem HeaderBase_Read_id (b0 b1 b2 b3 : Nat) (rest : List Nat) :
    BinReader.Read32 { str := b0 :: b1 :: b2 :: b3 :: rest } =
      .ok (b0 + 256 * b1 + 65536 * b2 + 16777216 * b3,
        { str := b0 :: b1 :: b2 :: b3 :: rest, pos := 4 }) := by
  simp [BinReader.Read32, pure, Except.pure]

theorem HeaderBase_Read_ok (b0 b1 b2 b3 b4 b5 b6 b7 : Nat) (rest : List Nat)
    (hid : b0 + 256 * b1 + 65536 * b2 + 16777216 * b3 ∈ Platform.all) :
    ∃ hdr rd, HeaderBase.Read { str := b0 :: b1 :: b2 :: b3 :: b4 :: b5 :: b6 :: b7 :: rest } =
        .ok (hdr, rd) ∧
      hdr.id = b0 + 256 * b1 + 65536 * b2 + 16777216 * b3 := by
  by_cases hv : b4 + 256 * b5 + 65536 * b6 + 16777216 * b7 > 0x10000
  · refine ⟨{ id := b0 + 256 * b1 + 65536 * b2 + 16777216 * b3,
              version := b7 + 256 * b6 + 65536 * b5 + 16777216 * b4 },
      { str := b0 :: b1 :: b2 :: b3 :: b4 :: b5 :: b6 :: b7 :: rest, pos := 8,
        swapped := true }, ?_, rfl⟩
    simp [HeaderBase.Read, BinReader.Read32, BinReader.Skip, BinReader.SwapEndian, hid, hv,
      pure, Except.pure]
  · refine ⟨{ id := b0 + 256 * b1 + 65536 * b2 + 16777216 * b3,
              version := b4 + 256 * b5 + 65536 * b6 + 16777216 * b7 },
      { str := b0 :: b1 :: b2 :: b3 :: b4 :: b5 :: b6 :: b7 :: rest, pos := 8 }, ?_, rfl⟩
    simp [HeaderBase.Read, BinReader.Read32, hid, hv, pure, Except.pure]

/-- C21: header validation and dispatch of cdfiles `AppProcessFile`. The
platform tags are the four-character codes `file`, `filC`, `filP`, `filX`,
`fil3`, `filE` and `filN`. (1) An index file whose first four bytes are
none of them ends in `InvalidHeaderError` with nothing sent to the sink,
whatever follows the four bytes, even nothing: the version is not read.
(2) An index file of at least eight bytes with a platform tag has its
header read. (3) Once the header is read, version 1, 3, 4, 5, 6 runs
`ExtractV1`, `ExtractV3`, `ExtractV4`, `ExtractV5`, `ExtractV6` on the
cursor behind the header, and every other version ends in
`InvalidVersionError` with nothing sent to the sink. -/
theorem AppProcessFile_dispatch (ctx : AppContext) :
    Platform.all =
      [CompileFourCC 'f' 'i' 'l' 'e', CompileFourCC 'f' 'i' 'l' 'C',
       CompileFourCC 'f' 'i' 'l' 'P', CompileFourCC 'f' 'i' 'l' 'X',
       CompileFourCC 'f' 'i' 'l' '3', CompileFourCC 'f' 'i' 'l' 'E',
       CompileFourCC 'f' 'i' 'l' 'N'] ∧
    (∀ (b0 b1 b2 b3 : Nat) (rest : List Nat), ctx.stream = b0 :: b1 :: b2 :: b3 :: rest →
      b0 + 256 * b1 + 65536 * b2 + 16777216 * b3 ∉ Platform.all →
      CdFiles.AppProcessFile ctx =
        { calls := [],
          error := some (Error.InvalidHeaderError
            (b0 + 256 * b1 + 65536 * b2 + 16777216 * b3)) }) ∧
    (∀ (b0 b1 b2 b3 b4 b5 b6 b7 : Nat) (rest : List Nat),
      ctx.stream = b0 :: b1 :: b2 :: b3 :: b4 :: b5 :: b6 :: b7 :: rest →
      b0 + 256 * b1 + 65536 * b2 + 16777216 * b3 ∈ Platform.all →
      ∃ hdr rd, HeaderBase.Read { str := ctx.stream } = .ok (hdr, rd) ∧
        hdr.id = b0 + 256 * b1 + 65536 * b2 + 16777216 * b3) ∧
    (∀ (hdr : HeaderBase) (rd : BinReader),
      HeaderBase.Read { str := ctx.stream } = .ok (hdr, rd) →
      (hdr.version = 1 → CdFiles.AppProcessFile ctx = ExtractV1 ctx rd) ∧
      (hdr.version = 3 → CdFiles.AppProcessFile ctx = ExtractV3 ctx rd hdr.id) ∧
      (hdr.version = 4 → CdFiles.AppProcessFile ctx = ExtractV4 ctx rd hdr.id) ∧
      (hdr.version = 5 → CdFiles.AppProcessFile ctx = ExtractV5 ctx rd hdr.id) ∧
      (hdr.version = 6 → CdFiles.AppProcessFile ctx = ExtractV6 ctx rd) ∧
      (hdr.version ∉ [1, 3, 4, 5, 6] →
        CdFiles.AppProcessFile ctx =
          { calls := [], error := some (Error.InvalidVersionError hdr.version) })) := by
  refine ⟨rfl, ?_, ?_, ?_⟩
  · intro b0 b1 b2 b3 rest hstream hid
    simp only [CdFiles.AppProcessFile, HeaderBase.Read, hstream, HeaderBase_Read_id, hid,
      if_false]
  · intro b0 b1 b2 b3 b4 b5 b6 b7 rest hstream hid
    rw [hstream]
    exact HeaderBase_Read_ok b0 b1 b2 b3 b4 b5 b6 b7 rest hid
  · intro hdr rd h
    refine ⟨?_, ?_, ?_, ?_, ?_, ?_⟩
    · intro hv
      simp only [CdFiles.AppProcessFile, h, hv, if_true]
    · intro hv
      simp only [CdFiles.AppProcessFile, h, hv, if_true, OfNat.ofNat_ne_one, if_false]
    · intro hv
      simp [CdFiles.AppProcessFile, h, hv]
    · intro hv
      simp [CdFiles.AppProcessFile, h, hv]
    · intro hv
      simp [CdFiles.AppProcessFile, h, hv]
    · intro hv
      simp only [List.mem_cons, List.mem_singleton, List.not_mem_nil, or_false, not_or] at hv
      simp [CdFiles.AppProcessFile, h, hv.1, hv.2.1, hv.2.2.1, hv.2.2.2.1, hv.2.2.2.2]

/-- Two runs of cdfiles `AppProcessFile`: the tag `filQ` is refused without
a version behind it, and version 2 behind the tag `filC` is refused; the
sink receives nothing. -/
theorem AppProcessFile_refused :
    CdFiles.AppProcessFile { stream := [102, 105, 108, 81] } =
      { calls := [], error := some (Error.InvalidHeaderError 1366059366) } ∧
    CdFiles.AppProcessFile { stream := [102, 105, 108, 67, 2, 0, 0, 0] } =
      { calls := [], error := some (Error.InvalidVersionError 2) } ∧
    CdFiles.AppProcessFile { stream := [102, 105, 108, 69, 0, 0, 0, 2] } =
      { calls := [], error := some (Error.InvalidVersionError 2) } := by
  decide

/-! ## Index files: provenance patch -/

theorem Except_bind_ok {α β : Type} {x : Except Error α} {f : α → Except Error β} {b : β}
    (h : (x >>= f) = .ok b) : ∃ a, x = .ok a ∧ f a = .ok b := by
  cases x with
  | error e => cases h
  | ok a => exact ⟨a, rfl, h⟩

set_option maxRecDepth 100000 in
/-- A run of cdfiles `AppProcessFile` on a version 6 index read as it is
(tag `filC`): the archive `a.ar` holds two files. `d/x.ARC` is sent with its
byte 7 overwritten with 6, `d/y.txt` is sent as it is. -/
theorem ExtractV6_example :
    CdFiles.AppProcessFile
      { stream :=
          [102, 105, 108, 67, 6, 0, 0, 0, 0, 0, 0, 0, 0, 0, 0, 0, 0, 0, 0, 0, 0, 0, 0, 0, 0,
          0, 0, 0, 1, 0, 0, 0, 2, 0, 0, 0, 0, 0, 0, 0, 20, 0, 0, 0, 0, 0, 0, 0, 0, 0, 0, 0,
          0, 0, 0, 0, 5, 0, 0, 0, 8, 0, 0, 0, 8, 0, 0, 0, 8, 0, 0, 0, 0, 0, 0, 0, 0, 0, 0,
          0, 0, 4, 0, 0, 0, 0, 0, 0, 5, 0, 0, 0, 14, 0, 0, 0, 3, 0, 0, 0, 3, 0, 0, 0, 0, 0,
          0, 0, 8, 0, 0, 0, 0, 5, 0, 0, 97, 46, 97, 114, 0, 100, 47, 0, 120, 46, 65, 82,
          67, 0, 121, 46, 116, 120, 116, 0],
        files := [("a.ar", [10, 11, 12, 13, 14, 15, 16, 17, 1, 2, 3])] } =
    { calls := [SinkCall.NewFile "d/x.ARC",
                SinkCall.SendData [10, 11, 12, 13, 14, 15, 16, 6],
                SinkCall.NewFile "d/y.txt", SinkCall.SendData [1, 2, 3]] } := by
  decide

set_option maxRecDepth 100000 in
theorem exampleIndexV3_header :
    HeaderBase.Read { str := exampleIndexV3 } =
      .ok ({ id := Platform.X360, version := 3 },
        { str := exampleIndexV3, pos := 8, swapped := true }) := by
  decide

set_option maxRecDepth 100000 in
theorem exampleIndexV3_dir :
    ExtractV3.dir { stream := exampleIndexV3,
                    files := [("archive.ar", [20, 21, 22, 23, 24, 25, 26, 27, 28])] }
        { str := exampleIndexV3, pos := 8, swapped := true } Platform.X360 =
      .ok { alignment := 1, numEntries := 1, fileOffsets := [0], fileSizes := [9],
            treeOffsets := [0], fileIds := [{ id := 0, type := 4 }],
            names := ["x", ".ARC"],
            srs := [some [20, 21, 22, 23, 24, 25, 26, 27, 28], none, none, none],
            rd := { str := exampleIndexV3, pos := 99, origin := 99, swapped := true } } := by
  decide

/-- A run of cdfiles `AppProcessFile` on a version 3 index read swapped: the
file `x.ARC` is sent with its byte 4 overwritten with 3. -/
theorem ExtractV3_example :
    CdFiles.AppProcessFile
      { stream := exampleIndexV3,
        files := [("archive.ar", [20, 21, 22, 23, 24, 25, 26, 27, 28])] } =
    { calls := [SinkCall.NewFile "x.ARC",
                SinkCall.SendData [20, 21, 22, 23, 3, 25, 26, 27, 28]] } := by
  simp only [CdFiles.AppProcessFile, exampleIndexV3_header, ExtractV3, exampleIndexV3_dir]
  decide

/-! ## Texture memoisation -/

theorem split_at_index {α : Type} (l : List α) (i : Nat) (a : α) (h : l[i]? = some a) :
    ∃ pre post, l = pre ++ a :: post ∧ pre.length = i ∧
      ∀ b, l.set i b = pre ++ b :: post := by
  obtain ⟨hlt, ha⟩ := List.getElem?_eq_some.1 h
  refine ⟨l.take i, l.drop (i + 1), ?_, ?_, ?_⟩
  · conv_lhs => rw [← List.take_append_drop i l]
    rw [List.drop_eq_getElem_cons hlt, ha]
  · rw [List.length_take]
    omega
  · intro b
    exact List.set_eq_take_cons_drop b hlt

theorem toInt32_small (n : Nat) (h : n < 2 ^ 31) : toInt32 (n % 2 ^ 32) = (n : Int) := by
  have h1 : n % 2 ^ 32 = n := Nat.mod_eq_of_lt (by omega)
  rw [h1]
  unfold toInt32
  rw [if_pos h]

theorem storedIndices_append (xs ys : List TexturePtr) :
    storedIndices (xs ++ ys) = storedIndices xs ++ storedIndices ys := by
  simp only [storedIndices, List.filter_append, List.map_append]

theorem storedIndices_cons_neg (t : TexturePtr) (ts : List TexturePtr) (h : t.glIndex < 0) :
    storedIndices (t :: ts) = storedIndices ts := by
  have hd : decide (0 ≤ t.glIndex) = false := by
    rw [decide_eq_false_iff_not]
    omega
  simp only [storedIndices, List.filter_cons, hd, Bool.false_eq_true, if_false]

theorem storedIndices_cons_pos (t : TexturePtr) (ts : List TexturePtr) (h : 0 ≤ t.glIndex) :
    storedIndices (t :: ts) = t.glIndex :: storedIndices ts := by
  have hd : decide (0 ≤ t.glIndex) = true := by
    rw [decide_eq_true_iff]
    exact h
  simp only [storedIndices, List.filter_cons, hd, if_true, List.map_cons]

theorem storedIndices_length_le (ts : List TexturePtr) :
    (storedIndices ts).length ≤ ts.length := by
  simp only [storedIndices, List.length_map]
  exact List.length_filter_le _ _

theorem TextureInv_set (st : TextureState) (index : Nat) (ptr : TexturePtr)
    (tex : GltfTexture) (main : GLTFMain) (calls : List NewImageCall)
    (hinv : TextureInv st) (hlen : st.textures.length < 2 ^ 31)
    (hptr : st.textures[index]? = some ptr) (hneg : ptr.glIndex < 0)
    (hmain : main.textures = st.main.textures ++ [tex]) :
    TextureInv
      { main := main
        textures := st.textures.set index
          { ptr with glIndex := toInt32 (st.main.textures.length % 2 ^ 32) }
        imageCalls := calls } := by
  obtain ⟨hbound, hnodup, hcount⟩ := hinv
  obtain ⟨pre, post, hsplit, -, hset⟩ := split_at_index st.textures index ptr hptr
  have hsmall : st.main.textures.length < 2 ^ 31 := by
    have := storedIndices_length_le st.textures
    omega
  have hold : storedIndices st.textures = storedIndices pre ++ storedIndices post := by
    rw [hsplit, storedIndices_append, storedIndices_cons_neg ptr post hneg]
  have hnew : storedIndices (st.textures.set index
      { ptr with glIndex := toInt32 (st.main.textures.length % 2 ^ 32) }) =
      storedIndices pre ++ (st.main.textures.length : Int) :: storedIndices post := by
    rw [hset, storedIndices_append, toInt32_small _ hsmall, storedIndices_cons_pos _ post
      (show (0 : Int) ≤ (st.main.textures.length : Int) from Int.natCast_nonneg _)]
  have hfresh : (st.main.textures.length : Int) ∉ storedIndices pre ++ storedIndices post := by
    intro hmem
    have := hbound _ (by rw [hold]; exact hmem)
    omega
  unfold TextureInv
  simp only [hnew, hmain, List.length_append, List.length_singleton, List.length_cons]
  refine ⟨?_, ?_, ?_⟩
  · intro g hg
    rcases List.mem_append.1 hg with h | h
    · have := hbound g (by rw [hold]; exact List.mem_append_left _ h)
      push_cast
      omega
    · rcases List.mem_cons.1 h with h | h
      · rw [h]
        push_cast
        omega
      · have := hbound g (by rw [hold]; exact List.mem_append_right _ h)
        push_cast
        omega
  · rw [List.nodup_middle, List.nodup_cons]
    exact ⟨hfresh, by rw [← hold]; exact hnodup⟩
  · rw [hcount, hold, List.length_append, List.length_nil]
    omega

theorem materialise_ok (stream : List Nat) (st : TextureState) (index : Nat)
    (ptr : TexturePtr) (call : NewImageCall)
    (h : extractTextureAt stream
      { ptr with glIndex := toInt32 (st.main.textures.length % 2 ^ 32) } = .ok call) :
    materialise stream st index ptr =
      .ok ({ main := { st.main with
               textures := st.main.textures ++
                 [{ source := toInt32 (st.main.images.length % 2 ^ 32) }]
               images := st.main.images ++
                 [{ mimeType := "image/png", name := ptr.name,
                    bufferView := toInt32 (st.main.streams.length % 2 ^ 32) }]
               streams := st.main.streams ++ [[]] }
             textures := st.textures.set index
               { ptr with glIndex := toInt32 (st.main.textures.length % 2 ^ 32) }
             imageCalls := st.imageCalls ++ [call] },
           { ptr with glIndex := toInt32 (st.main.textures.length % 2 ^ 32) }) := by
  simp only [materialise, h]
  rfl

theorem materialise_inv (stream : List Nat) (st st' : TextureState) (index : Nat)
    (ptr ptr' : TexturePtr) (hinv : TextureInv st) (hlen : st.textures.length < 2 ^ 31)
    (hptr : st.textures[index]? = some ptr) (hneg : ptr.glIndex < 0)
    (h : materialise stream st index ptr = .ok (st', ptr')) :
    TextureInv st' ∧ st'.textures.length = st.textures.length := by
  unfold materialise at h
  simp only at h
  split at h
  · cases h
  · rename_i call hcall
    cases h
    exact ⟨TextureInv_set st index ptr _ _ _ hinv hlen hptr hneg rfl, List.length_set ..⟩

theorem visitParam_inv (stream : List Nat) (mat : Material) (st st' : TextureState)
    (gMat gMat' : GltfMaterial) (p : MaterialParam) (b : Bool)
    (hinv : TextureInv st) (hlen : st.textures.length < 2 ^ 31)
    (h : visitParam stream mat st gMat p = .ok (st', gMat', b)) :
    TextureInv st' ∧ st'.textures.length = st.textures.length := by
  unfold visitParam at h
  split at h
  · cases h
    exact ⟨hinv, rfl⟩
  · split at h
    · simp only at h
      split at h
      · cases h
      · rename_i ptr hptr
        split at h
        · cases h
          exact ⟨hinv, rfl⟩
        · split at h
          · rename_i hneg
            split at h
            · cases h
            · rename_i st1 ptr1 hm
              cases h
              exact materialise_inv stream st _ _ ptr ptr1 hinv hlen hptr hneg hm
          · cases h
            exact ⟨hinv, rfl⟩
    · cases h
      exact ⟨hinv, rfl⟩

theorem visitParams_inv (stream : List Nat) (mat : Material) :
    ∀ (params : List MaterialParam) (st st' : TextureState) (gMat gMat' : GltfMaterial),
    TextureInv st → st.textures.length < 2 ^ 31 →
    visitParams stream mat params st gMat = .ok (st', gMat') →
    TextureInv st' ∧ st'.textures.length = st.textures.length
  | [], st, st', gMat, gMat', hinv, _, h => by
    cases h
    exact ⟨hinv, rfl⟩
  | p :: params, st, st', gMat, gMat', hinv, hlen, h => by
    unfold visitParams at h
    split at h
    · cases h
    · rename_i st1 gMat1 h1
      cases h
      exact visitParam_inv stream mat st _ gMat _ p true hinv hlen h1
    · rename_i st1 gMat1 h1
      obtain ⟨i1, l1⟩ := visitParam_inv stream mat st _ gMat _ p false hinv hlen h1
      obtain ⟨i2, l2⟩ := visitParams_inv stream mat params st1 st' gMat1 gMat' i1
        (by rw [l1]; exact hlen) h
      exact ⟨i2, l2.trans l1⟩

theorem TextureInv_register (st : TextureState) (ptr : TexturePtr) (hinv : TextureInv st)
    (hnew : ptr.glIndex < 0) : TextureInv (st.register ptr) := by
  have h : storedIndices (st.textures ++ [ptr]) = storedIndices st.textures := by
    rw [storedIndices_append, storedIndices_cons_neg ptr [] hnew]
    simp [storedIndices]
  unfold TextureInv TextureState.register
  simp only [h]
  exact hinv

theorem texturePtrOf_fresh (e : Entry) (fileName : String) (ptr : TexturePtr)
    (h : texturePtrOf e fileName = some ptr) : ptr.glIndex = -1 := by
  unfold texturePtrOf at h
  split at h
  · cases h
    rfl
  · split at h
    · cases h
      rfl
    · split at h
      · cases h
        rfl
      · cases h

/-- C23: texture memoisation. Let the decoding pass stand in a state `st`
that satisfies `TextureInv` (every stored index points into
`main.textures`, no index is stored twice, and `main.textures` has as many
elements as indices are stored), and let a material param refer to the
resolvable texture `ptr` (`offset >= 0`). (1) When `ptr` has no index yet
and its texture decodes, the param appends exactly one texture and one
image, stores the index of the new texture in `ptr` and binds the material
to it. (2) When `ptr` has an index, the param leaves the document and the
vector `textures` as they are and binds the material to the stored index.
(3) The invariant holds again behind every param, behind every material
and behind every registration of a texture entry. -/
theorem texture_memoisation (stream : List Nat) (mat : Material) (st : TextureState)
    (gMat : GltfMaterial) (p : MaterialParam) (textureIndex : Int) (ptr : TexturePtr)
    (hinv : TextureInv st) (hlen : st.textures.length < 2 ^ 31)
    (hp : p.textureIndex? = some textureIndex) (hti : textureIndex > -1)
    (hptr : st.textures[(mat.hdr.textureBaseIndex + textureIndex.toNat) % 2 ^ 32]? = some ptr)
    (hoff : 0 ≤ ptr.offset) :
    (ptr.glIndex < 0 → ∀ call, extractTextureAt stream ptr = .ok call →
      ∃ st', visitParam stream mat st gMat p =
          .ok (st', { gMat with baseColorTexture := (st.main.textures.length : Int) }, false) ∧
        st'.main.textures = st.main.textures ++
          [{ source := toInt32 (st.main.images.length % 2 ^ 32) }] ∧
        st'.main.images = st.main.images ++
          [{ mimeType := "image/png", name := ptr.name,
             bufferView := toInt32 (st.main.streams.length % 2 ^ 32) }] ∧
        st'.textures = st.textures.set
          ((mat.hdr.textureBaseIndex + textureIndex.toNat) % 2 ^ 32)
          { ptr with glIndex := (st.main.textures.length : Int) }) ∧
    (0 ≤ ptr.glIndex →
      visitParam stream mat st gMat p =
        .ok (st, { gMat with baseColorTexture := ptr.glIndex }, false)) ∧
    (∀ st' gMat' b, visitParam stream mat st gMat p = .ok (st', gMat', b) →
      TextureInv st' ∧ st'.textures.length = st.textures.length) ∧
    (∀ fileName st', materialCase stream mat fileName st = .ok st' →
      TextureInv st' ∧ st'.textures.length = st.textures.length) ∧
    (∀ (e : Entry) (fileName : String) (new : TexturePtr),
      texturePtrOf e fileName = some new → TextureInv (st.register new)) := by
  have hsmall : st.main.textures.length < 2 ^ 31 := by
    have := storedIndices_length_le st.textures
    have := hinv.2.2
    omega
  have hnotneg : ¬ ptr.offset < 0 := by omega
  refine ⟨?_, ?_, ?_, ?_, ?_⟩
  · intro hneg call hcall
    have hcall' : extractTextureAt stream
        { ptr with glIndex := toInt32 (st.main.textures.length % 2 ^ 32) } = .ok call := hcall
    have hm := materialise_ok stream st
      ((mat.hdr.textureBaseIndex + textureIndex.toNat) % 2 ^ 32) ptr call hcall'
    rw [toInt32_small _ hsmall] at hm
    refine ⟨{ main := { st.main with
                textures := st.main.textures ++
                  [{ source := toInt32 (st.main.images.length % 2 ^ 32) }]
                images := st.main.images ++
                  [{ mimeType := "image/png", name := ptr.name,
                     bufferView := toInt32 (st.main.streams.length % 2 ^ 32) }]
                streams := st.main.streams ++ [[]] }
              textures := st.textures.set
                ((mat.hdr.textureBaseIndex + textureIndex.toNat) % 2 ^ 32)
                { ptr with glIndex := (st.main.textures.length : Int) }
              imageCalls := st.imageCalls ++ [call] }, ?_, rfl, rfl, rfl⟩
    simp only [visitParam, hp, hti, if_true, hptr, hnotneg, if_false, hneg,
      toInt32_small _ hsmall, hm]
    rfl
  · intro hpos
    have hn : ¬ ptr.glIndex < 0 := by omega
    simp only [visitParam, hp, hti, if_true, hptr, hnotneg, if_false, hn]
    rfl
  · intro st' gMat' b h
    exact visitParam_inv stream mat st st' gMat gMat' p b hinv hlen h
  · intro fileName st' h
    unfold materialCase at h
    split at h
    · cases h
    · rename_i st1 gMat1 h1
      cases h
      exact visitParams_inv stream mat mat.params st st1 _ gMat1 hinv hlen h1
  · intro e fileName new hnew
    exact TextureInv_register st new hinv (by rw [texturePtrOf_fresh e fileName new hnew]; decide)

/-- Witness of C23: one registered texture of 1 by 1 texels (format 21), and
a material whose first param refers to it. The texture has no index yet,
so the param appends texture 0 and image 0 and stores index 0. -/
theorem texture_memoisation_witness :
    ∃ st', visitParam
        [1, 0, 0, 0, 1, 0, 0, 0, 1, 0, 0, 0, 0, 0, 0, 0, 21, 0, 0, 0, 1, 2, 3, 4]
        { params := [.Param0 { textureIndex := 0 }] }
        { textures := [{ name := "tex", offset := 0, size := 24 }] } {}
        (.Param0 { textureIndex := 0 }) =
          .ok (st', { baseColorTexture := 0 }, false) ∧
      st'.main.textures = [{ source := 0 }] ∧
      st'.main.images = [{ mimeType := "image/png", name := "tex", bufferView := 0 }] ∧
      st'.textures = [{ name := "tex", offset := 0, size := 24, glIndex := 0 }] :=
  (texture_memoisation
    [1, 0, 0, 0, 1, 0, 0, 0, 1, 0, 0, 0, 0, 0, 0, 0, 21, 0, 0, 0, 1, 2, 3, 4]
    { params := [.Param0 { textureIndex := 0 }] }
    { textures := [{ name := "tex", offset := 0, size := 24 }] } {}
    (.Param0 { textureIndex := 0 }) 0 { name := "tex", offset := 0, size := 24 }
    (by decide) (by decide) rfl (by decide) rfl (by decide)).1 (by decide)
    { fileName := none,
      ctx := { width := 1, height := 1, baseFormat := TexelInputFormatType.RGBA8,
               numMipmaps := 1, data := [1, 2, 3, 4], texelOutput := true,
               formatOverride := TexelContextFormat.UPNG } } (by decide)

/-- Two materials that refer to the same texture, decoded one after the
other: the document holds one texture and one image, and both materials
are bound to index 0. -/
theorem materialCase_example :
    (match materialCase
        [1, 0, 0, 0, 1, 0, 0, 0, 1, 0, 0, 0, 0, 0, 0, 0, 21, 0, 0, 0, 1, 2, 3, 4]
        { params := [.Param0 { textureIndex := 0 }] } "first"
        { textures := [{ name := "tex", offset := 0, size := 24 }] } with
      | Except.error err => Except.error err
      | Except.ok st =>
        materialCase
          [1, 0, 0, 0, 1, 0, 0, 0, 1, 0, 0, 0, 0, 0, 0, 0, 21, 0, 0, 0, 1, 2, 3, 4]
          { params := [.Param0 { textureIndex := 0 }] } "second" st) =
    .ok { main := { textures := [{ source := 0 }],
                    images := [{ mimeType := "image/png", name := "tex", bufferView := 0 }],
                    streams := [[]],
                    materials :=
                      [{ name := "first", doubleSided := true, alphaMode := AlphaMode.Mask,
                         baseColorTexture := 0 },
                       { name := "second", doubleSided := true, alphaMode := AlphaMode.Mask,
                         baseColorTexture := 0 }] },
          textures := [{ name := "tex", offset := 0, size := 24, glIndex := 0 }],
          imageCalls :=
            [{ fileName := none,
               ctx := { width := 1, height := 1, baseFormat := TexelInputFormatType.RGBA8,
                        numMipmaps := 1, data := [1, 2, 3, 4], texelOutput := true,
                        formatOverride := TexelContextFormat.UPNG } }] } := by
  decide

/-! ## Scene assembly: what each stage keeps -/

theorem registerBone_length (bones bones' : List Nat) (glIndex : Nat) (n : NodeVariant)
    (h : registerBone bones glIndex n = .ok bones') : bones'.length = bones.length := by
  unfold registerBone at h
  split at h
  · split at h
    · split at h
      · cases h
        exact List.length_set ..
      · cases h
    · cases h
      rfl
  · cases h
    rfl

theorem registerNode_spec (st st' : NodeState) (n : NodeVariant)
    (h : registerNode st n = .ok st') :
    registerBone st.bones st.main.nodes.length n = .ok st'.bones ∧
    st'.main = { st.main with nodes := st.main.nodes ++ [{ name := n.base.name }] } ∧
    st'.models = registerModels st.models st.main.nodes.length n ∧
    st'.nodes = st.nodes ++ [n.setGlIndex st.main.nodes.length] := by
  unfold registerNode at h
  split at h
  · cases h
  · rename_i bones hb
    cases h
    exact ⟨hb, rfl, rfl, rfl⟩

theorem registerNodes_frame : ∀ (ns : List NodeVariant) (st st' : NodeState),
    registerNodes ns st = .ok st' →
    st'.main = { st.main with
      nodes := st.main.nodes ++ ns.map (fun n => ({ name := n.base.name } : GltfNode)) } ∧
    st'.bones.length = st.bones.length ∧
    st'.nodes.length = st.nodes.length + ns.length
  | [], st, st', h => by
    cases h
    simp
  | n :: ns, st, st', h => by
    unfold registerNodes at h
    split at h
    · cases h
    · rename_i st1 h1
      obtain ⟨hb, hm, _, hn⟩ := registerNode_spec st st1 n h1
      obtain ⟨a1, a2, a3⟩ := registerNodes_frame ns st1 st' h
      refine ⟨?_, ?_, ?_⟩
      · rw [a1, hm]
        simp
      · rw [a2, registerBone_length _ _ _ _ hb]
      · rw [a3, hn, List.length_append, List.length_singleton, List.length_cons]
        omega

theorem modifyNode_frame (nodes out : List GltfNode) (index : Nat) (f : GltfNode → GltfNode)
    (h : modifyNode nodes index f = .ok out)
    (hf : ∀ g, (f g).name = g.name ∧ (f g).mesh = g.mesh ∧ (f g).skin = g.skin) :
    (∃ g, nodes[index]? = some g ∧ out = nodes.set index (f g)) ∧
    out.length = nodes.length ∧
    out.map (fun x => (x.name, x.mesh, x.skin)) =
      nodes.map (fun x => (x.name, x.mesh, x.skin)) := by
  unfold modifyNode at h
  split at h
  · rename_i g hg
    cases h
    obtain ⟨hlt, hget⟩ := List.getElem?_eq_some.1 hg
    refine ⟨⟨g, hg, rfl⟩, List.length_set .., ?_⟩
    exact set_keeps_key nodes index (f g) hlt (by rw [hget]; exact hf g)
  · cases h

theorem linkParent_frame (nodeStartIndex : Nat) (main out : GLTFMain) (n : NodeVariant)
    (h : linkParent nodeStartIndex main n = .ok out) :
    out.nodes.length = main.nodes.length ∧
    out.nodes.map (fun x => (x.name, x.mesh, x.skin)) =
      main.nodes.map (fun x => (x.name, x.mesh, x.skin)) ∧
    out.meshes = main.meshes ∧ out.skins = main.skins ∧
    out.accessors = main.accessors ∧ out.streams = main.streams ∧
    out.warnings = main.warnings ∧ out.scenes.length = main.scenes.length := by
  unfold linkParent at h
  split at h
  · cases h
  · rename_i nodes1 h1
    obtain ⟨_, l1, k1⟩ := modifyNode_frame _ _ _ _ h1 (fun g => ⟨rfl, rfl, rfl⟩)
    split at h
    · split at h
      · cases h
      · rename_i nodes2 h2
        obtain ⟨_, l2, k2⟩ := modifyNode_frame _ _ _ _ h2 (fun g => ⟨rfl, rfl, rfl⟩)
        cases h
        exact ⟨l2.trans l1, k2.trans k1, rfl, rfl, rfl, rfl, rfl, rfl⟩
    · split at h
      · cases h
      · rename_i scene scenes hs
        cases h
        refine ⟨l1, k1, rfl, rfl, rfl, rfl, rfl, ?_⟩
        rw [hs]
        rfl

theorem linkParents_frame (nodeStartIndex : Nat) :
    ∀ (ns : List NodeVariant) (main out : GLTFMain),
    linkParents nodeStartIndex ns main = .ok out →
    out.nodes.length = main.nodes.length ∧
    out.nodes.map (fun x => (x.name, x.mesh, x.skin)) =
      main.nodes.map (fun x => (x.name, x.mesh, x.skin)) ∧
    out.meshes = main.meshes ∧ out.skins = main.skins ∧
    out.accessors = main.accessors ∧ out.streams = main.streams ∧
    out.warnings = main.warnings ∧ out.scenes.length = main.scenes.length
  | [], main, out, h => by
    cases h
    exact ⟨rfl, rfl, rfl, rfl, rfl, rfl, rfl, rfl⟩
  | n :: ns, main, out, h => by
    unfold linkParents at h
    split at h
    · cases h
    · rename_i mid hmid
      obtain ⟨a1, a2, a3, a4, a5, a6, a7, a8⟩ := linkParent_frame nodeStartIndex main mid n hmid
      obtain ⟨b1, b2, b3, b4, b5, b6, b7, b8⟩ := linkParents_frame nodeStartIndex ns mid out h
      exact ⟨b1.trans a1, b2.trans a2, b3.trans a3, b4.trans a4, b5.trans a5, b6.trans a6,
        b7.trans a7, b8.trans a8⟩

theorem bindNodes_frame (meshIndex : Int) (skin : Option Int) :
    ∀ (ns : List Nat) (nodes : List GltfNode),
    (bindNodes meshIndex skin ns nodes).1.length = nodes.length ∧
    (bindNodes meshIndex skin ns nodes).1.map (fun x => x.name) = nodes.map (fun x => x.name)
  | [], nodes => ⟨rfl, rfl⟩
  | n :: ns, nodes => by
    unfold bindNodes
    split
    · exact ⟨rfl, rfl⟩
    · rename_i g hg
      obtain ⟨a1, a2⟩ := bindNodes_frame meshIndex skin ns
        (nodes.set n { g with mesh := meshIndex, skin := skin.getD g.skin })
      refine ⟨a1.trans (List.length_set ..), a2.trans ?_⟩
      obtain ⟨hlt, hget⟩ := List.getElem?_eq_some.1 hg
      apply List.ext_getElem?
      intro i
      rw [List.getElem?_map, List.getElem?_map, List.getElem?_set]
      by_cases hi : n = i
      · subst hi
        simp only [if_true, hlt, hg, Option.map_some']
      · simp only [hi, if_false]

theorem DoMesh_frame (vertexBuffers : List Attrs) (indexBuffers : List Indices)
    (models : ModelMap) (main out : GLTFMain) (m : Mesh) (indexOffset : Nat)
    (h : DoMesh vertexBuffers indexBuffers models main m indexOffset = .ok out) :
    out.skins = main.skins ∧ out.nodes.length = main.nodes.length ∧
    out.nodes.map (fun x => x.name) = main.nodes.map (fun x => x.name) := by
  unfold DoMesh at h
  split at h
  · cases h
    exact ⟨rfl, rfl, rfl⟩
  · split at h
    · cases h
    · rename_i st hst
      obtain ⟨p1, _, p3, _⟩ := doPrims_scene vertexBuffers indexBuffers m m.prims _ st hst
      simp only at h
      split at h
      · cases h
        exact ⟨p3, by rw [← p1], by rw [← p1]⟩
      · rename_i ns _
        cases h
        obtain ⟨b1, b2⟩ := bindNodes_frame (toInt32 (st.main.meshes.length % 2 ^ 32))
          (if st.useSkin then some (skinIndex st.main.skins.length) else none) ns st.main.nodes
        exact ⟨p3, by rw [← p1]; exact b1, by rw [← p1]; exact b2⟩

theorem doMeshes_frame (vertexBuffers : List Attrs) (indexBuffers : List Indices)
    (models : ModelMap) (indexOffset : Nat) :
    ∀ (meshes : List Mesh) (main out : GLTFMain),
    doMeshes vertexBuffers indexBuffers models indexOffset meshes main = .ok out →
    out.skins = main.skins ∧ out.nodes.length = main.nodes.length ∧
    out.nodes.map (fun x => x.name) = main.nodes.map (fun x => x.name)
  | [], main, out, h => by
    cases h
    exact ⟨rfl, rfl, rfl⟩
  | m :: meshes, main, out, h => by
    unfold doMeshes at h
    split at h
    · cases h
    · rename_i mid hmid
      obtain ⟨a1, a2, a3⟩ := DoMesh_frame vertexBuffers indexBuffers models main mid m
        indexOffset hmid
      obtain ⟨b1, b2, b3⟩ := doMeshes_frame vertexBuffers indexBuffers models indexOffset
        meshes mid out h
      exact ⟨b1.trans a1, b2.trans a2, b3.trans a3⟩

theorem emitSkin_spec (bones : List Nat) (main : GLTFMain) :
    (emitSkin bones main).skins =
      main.skins ++ (if bones.length > 0 then
        [{ joints := bones, inverseBindMatrices := main.accessors.length }] else []) ∧
    (emitSkin bones main).nodes = main.nodes ∧ (emitSkin bones main).meshes = main.meshes := by
  unfold emitSkin
  split
  · exact ⟨rfl, rfl, rfl⟩
  · simp

/-! ## Skin emission -/

/-- C24, counterexample: the skin is emitted by the header field
`numRigNodes`, not by the Bone entries. An archive without any node entry
whose header says `numRigNodes = 1` yields a scene with one skin, and an
archive with one Bone entry (slot index -1) whose header says `numRigNodes =
0` yields a scene without a skin. -/
theorem skin_emission_counterexample :
    (ArcExtract.assembleScene { numRigNodes := 1 } {} {}).map (fun out => out.skins.length) =
      .ok 1 ∧
    (ArcExtract.assembleScene { numRigNodes := 0 }
      { nodes := [.Bone { name := "bone" } (-1)] } {}).map (fun out => out.skins.length) =
      .ok 0 := by
  decide

/-- C24, amended: whenever arc_extract assembles a scene, the scene has
exactly one more skin than the document had before when the header field
`numRigNodes` is greater than 0, and the same skins when it is 0; for the
fresh document of `AppProcessFile` that is exactly one skin and no skin. -/
theorem skin_emission (hdr : Header) (decoded : Decoded) (main out : GLTFMain)
    (h : ArcExtract.assembleScene hdr decoded main = .ok out) :
    out.skins.length = main.skins.length + (if 0 < hdr.numRigNodes then 1 else 0) ∧
    (main.skins = [] → 0 < hdr.numRigNodes → out.skins.length = 1) ∧
    (main.skins = [] → hdr.numRigNodes = 0 → out.skins = []) := by
  have hmain : out.skins.length =
      main.skins.length + (if 0 < hdr.numRigNodes then 1 else 0) := by
    unfold ArcExtract.assembleScene at h
    split at h
    · cases h
    · rename_i st hst
      obtain ⟨r1, r2, _⟩ := registerNodes_frame decoded.nodes _ st hst
      split at h
      · cases h
      · rename_i linked hl
        obtain ⟨_, _, _, l4, _⟩ := linkParents_frame _ _ _ linked hl
        split at h
        · cases h
        · rename_i mid hmid
          obtain ⟨m1, _, _⟩ := doMeshes_frame _ _ _ _ _ _ mid hmid
          obtain ⟨m2, _, _⟩ := doMeshes_frame _ _ _ _ _ _ out h
          have hb : st.bones.length = hdr.numRigNodes := by
            rw [r2]
            exact List.length_replicate ..
          have hs : st.main.skins = main.skins := by
            rw [r1]
          rw [m2, m1, (emitSkin_spec st.bones linked).1, List.length_append, l4, hs, hb]
          split <;> rfl
  refine ⟨hmain, ?_, ?_⟩
  · intro hs hn
    rw [hmain, hs, if_pos hn]
    rfl
  · intro hs hn
    have : out.skins.length = 0 := by
      rw [hmain, hs, hn]
      rfl
    exact List.length_eq_zero.1 this

/-- Witness of the amended C24: the archives of the counterexample. -/
theorem skin_emission_witness :
    ([{ joints := [0], inverseBindMatrices := 0 }] : List GltfSkin).length =
      ([] : List GltfSkin).length + (if 0 < 1 then 1 else 0) :=
  (skin_emission { numRigNodes := 1 } {} {}
    { skins := [{ joints := [0], inverseBindMatrices := 0 }],
      accessors := [{ bufferView := 0, type := AccessorType.Mat4,
                      componentType := ComponentType.Float, count := 1 }],
      streams := [[]] } (by decide)).1

/-! ## Joint list -/

theorem registerNodes_append : ∀ (xs ys : List NodeVariant) (st : NodeState),
    registerNodes (xs ++ ys) st =
      match registerNodes xs st with
      | .error err => .error err
      | .ok st1 => registerNodes ys st1
  | [], ys, st => rfl
  | x :: xs, ys, st => by
    simp only [List.cons_append, registerNodes]
    cases registerNode st x with
    | error err => rfl
    | ok st1 => exact registerNodes_append xs ys st1

theorem registerBone_keep_slot (bones bones' : List Nat) (glIndex : Nat) (n : NodeVariant)
    (s : Int) (hs : 0 ≤ s) (hn : ∀ b, n ≠ .Bone b s)
    (h : registerBone bones glIndex n = .ok bones') : bones'[s.toNat]? = bones[s.toNat]? := by
  unfold registerBone at h
  split at h
  · rename_i b slot
    split at h
    · rename_i hslot
      split at h
      · cases h
        have hne : slot.toNat ≠ s.toNat := by
          intro heq
          have : slot = s := by omega
          exact hn b (by rw [this])
        rw [List.getElem?_set_ne hne]
      · cases h
    · cases h
      rfl
  · cases h
    rfl

theorem registerNodes_keep_slot (s : Int) (hs : 0 ≤ s) :
    ∀ (ns : List NodeVariant) (st st' : NodeState),
    (∀ b, NodeVariant.Bone b s ∉ ns) → registerNodes ns st = .ok st' →
    st'.bones[s.toNat]? = st.bones[s.toNat]?
  | [], st, st', _, h => by
    cases h
    rfl
  | n :: ns, st, st', hn, h => by
    unfold registerNodes at h
    split at h
    · cases h
    · rename_i st1 h1
      obtain ⟨hb, _, _, _⟩ := registerNode_spec st st1 n h1
      have a := registerBone_keep_slot st.bones st1.bones _ n s hs
        (fun b heq => hn b (by rw [heq]; exact List.mem_cons_self _ _)) hb
      have b := registerNodes_keep_slot s hs ns st1 st'
        (fun b hmem => hn b (List.mem_cons_of_mem _ hmem)) h
      exact b.trans a

theorem registerNodes_slot (pre post : List NodeVariant) (b : NodeBase) (s : Int)
    (st st' : NodeState) (hs : 0 ≤ s) (hpost : ∀ b', NodeVariant.Bone b' s ∉ post)
    (h : registerNodes (pre ++ .Bone b s :: post) st = .ok st') :
    st'.bones[s.toNat]? = some (st.main.nodes.length + pre.length) := by
  rw [registerNodes_append] at h
  split at h
  · cases h
  · rename_i st1 h1
    obtain ⟨f1, _, _⟩ := registerNodes_frame pre st st1 h1
    unfold registerNodes at h
    split at h
    · cases h
    · rename_i st2 h2
      obtain ⟨hb, _, _, _⟩ := registerNode_spec st1 st2 _ h2
      have hk := registerNodes_keep_slot s hs post st2 st' hpost h
      rw [hk]
      unfold registerBone at hb
      have hpos : s > -1 := by omega
      simp only [hpos, if_true] at hb
      split at hb
      · rename_i hlt
        injection hb with hb
        rw [← hb, List.getElem?_set_self hlt, f1]
        simp
      · cases hb

theorem registerNodes_slot_error (s : Int) :
    ∀ (ns : List NodeVariant) (st : NodeState) (b : NodeBase),
    NodeVariant.Bone b s ∈ ns → (st.bones.length : Int) ≤ s →
    registerNodes ns st = .error Error.OutOfRange
  | [], _, _, hmem, _ => by cases hmem
  | n :: ns, st, b, hmem, hs => by
    unfold registerNodes
    cases h1 : registerNode st n with
    | error err =>
      unfold registerNode at h1
      split at h1
      · rename_i e he
        cases h1
        unfold registerBone at he
        split at he
        · split at he
          · split at he
            · cases he
            · cases he
              rfl
          · cases he
        · cases he
      · cases h1
    | ok st1 =>
      obtain ⟨hb, _, _, _⟩ := registerNode_spec st st1 n h1
      have hlen := registerBone_length _ _ _ _ hb
      rcases List.mem_cons.1 hmem with heq | hrest
      · subst heq
        unfold registerBone at hb
        have hpos : s > -1 := by omega
        have hge : ¬ s.toNat < st.bones.length := by omega
        simp only [hpos, if_true, hge, if_false] at hb
        cases hb
      · exact registerNodes_slot_error s ns st1 b hrest (by rw [hlen]; exact hs)

/-- The four stages of a scene assembly that succeeds: registration,
parent linking, and the two mesh loops around the skin emission. -/
theorem assembleScene_stages (hdr : Header) (decoded : Decoded) (main out : GLTFMain)
    (h : ArcExtract.assembleScene hdr decoded main = .ok out) :
    ∃ st linked mid,
      registerNodes decoded.nodes
        { main := main, bones := List.replicate hdr.numRigNodes 0 } = .ok st ∧
      linkParents main.nodes.length st.nodes st.main = .ok linked ∧
      doMeshes decoded.vertexBuffers decoded.indexBuffers st.models hdr.numSkinnedModels
        decoded.meshes (emitSkin st.bones linked) = .ok mid ∧
      doMeshes decoded.vertexBuffers decoded.indexBuffers st.models 0
        decoded.skinnedMeshes mid = .ok out := by
  unfold ArcExtract.assembleScene at h
  split at h
  · cases h
  · rename_i st hst
    split at h
    · cases h
    · rename_i linked hl
      split at h
      · cases h
      · rename_i mid hmid
        exact ⟨st, linked, mid, hst, hl, hmid, h⟩

/-- The names of the output nodes of a scene assembly: the ones already
in the scene, then one per node entry in entry order. -/
theorem assembleScene_names (hdr : Header) (decoded : Decoded) (main out : GLTFMain)
    (h : ArcExtract.assembleScene hdr decoded main = .ok out) :
    out.nodes.map (fun x => x.name) =
      main.nodes.map (fun x => x.name) ++ decoded.nodes.map (fun n => n.base.name) := by
  obtain ⟨st, linked, mid, hst, hl, hmid, hout⟩ := assembleScene_stages hdr decoded main out h
  obtain ⟨r1, _, _⟩ := registerNodes_frame decoded.nodes _ st hst
  obtain ⟨_, l2, _⟩ := linkParents_frame _ _ _ linked hl
  obtain ⟨_, _, m1⟩ := doMeshes_frame _ _ _ _ _ _ mid hmid
  obtain ⟨_, _, m2⟩ := doMeshes_frame _ _ _ _ _ _ out hout
  have l3 : linked.nodes.map (fun x => x.name) = st.main.nodes.map (fun x => x.name) := by
    have := congrArg (List.map (fun (p : String × Int × Int) => p.1)) l2
    simpa [List.map_map, Function.comp] using this
  rw [m2, m1, (emitSkin_spec st.bones linked).2.1, l3, r1]
  simp [List.map_append, List.map_map, Function.comp]

/-! ## C25 -/

/-- C25: the joint list of the skin. When the assembly succeeds and the
header has `numRigNodes > 0`, one skin is appended whose joint list has
length `numRigNodes`; for a Bone entry at position `i` of the node list
with slot index `s ≥ 0` that no other Bone entry shares, `joints[s]` is
the output node index of that Bone (the start index plus `i`), and the
output node there carries the Bone's name. A Bone with a negative slot
index leaves the joint list as it was, and an archive with a Bone whose
slot index is `numRigNodes` or more is not assembled: the error is the
out-of-range error of `bones.at`. -/
theorem joint_list :
    (∀ (hdr : Header) (decoded : Decoded) (main out : GLTFMain),
      ArcExtract.assembleScene hdr decoded main = .ok out → 0 < hdr.numRigNodes →
      ∃ skin, out.skins = main.skins ++ [skin] ∧ skin.joints.length = hdr.numRigNodes ∧
        ∀ (i : Nat) (b : NodeBase) (s : Int),
          decoded.nodes[i]? = some (.Bone b s) → 0 ≤ s →
          (∀ (j : Nat) (b' : NodeBase), decoded.nodes[j]? = some (.Bone b' s) → j = i) →
          skin.joints[s.toNat]? = some (main.nodes.length + i) ∧
          (out.nodes[main.nodes.length + i]?).map (fun x => x.name) = some b.name) ∧
    (∀ (bones : List Nat) (glIndex : Nat) (b : NodeBase) (s : Int), s < 0 →
      registerBone bones glIndex (.Bone b s) = .ok bones) ∧
    (∀ (hdr : Header) (decoded : Decoded) (main : GLTFMain) (b : NodeBase) (s : Int),
      NodeVariant.Bone b s ∈ decoded.nodes → (hdr.numRigNodes : Int) ≤ s →
      ArcExtract.assembleScene hdr decoded main = .error Error.OutOfRange) := by
  refine ⟨?_, ?_, ?_⟩
  · intro hdr decoded main out h hn
    have hnames := assembleScene_names hdr decoded main out h
    obtain ⟨st, linked, mid, hst, hl, hmid, hout⟩ := assembleScene_stages hdr decoded main out h
    obtain ⟨r1, r2, _⟩ := registerNodes_frame decoded.nodes _ st hst
    obtain ⟨_, _, _, l4, _⟩ := linkParents_frame _ _ _ linked hl
    obtain ⟨m1, _, _⟩ := doMeshes_frame _ _ _ _ _ _ mid hmid
    obtain ⟨m2, _, _⟩ := doMeshes_frame _ _ _ _ _ _ out hout
    have hb : st.bones.length = hdr.numRigNodes := by
      rw [r2]
      exact List.length_replicate ..
    have hs : st.main.skins = main.skins := by
      rw [r1]
    have hpos : st.bones.length > 0 := by omega
    refine ⟨{ joints := st.bones, inverseBindMatrices := linked.accessors.length }, ?_, hb, ?_⟩
    · rw [m2, m1, (emitSkin_spec st.bones linked).1, l4, hs, if_pos hpos]
    · intro i b s hi hs0 huniq
      obtain ⟨pre, post, hsplit, hpre, _⟩ := split_at_index decoded.nodes i _ hi
      have hpost : ∀ b', NodeVariant.Bone b' s ∉ post := by
        intro b' hmem
        obtain ⟨k, hk, hget⟩ := List.getElem_of_mem hmem
        have hj : decoded.nodes[pre.length + 1 + k]? = some (.Bone b' s) := by
          rw [hsplit, List.getElem?_append_right (by omega)]
          have : pre.length + 1 + k - pre.length = k + 1 := by omega
          rw [this, List.getElem?_cons_succ, List.getElem?_eq_getElem hk, hget]
        have := huniq _ b' hj
        omega
      rw [hsplit] at hst
      have hslot := registerNodes_slot pre post b s _ st hs0 hpost hst
      refine ⟨?_, ?_⟩
      · show st.bones[s.toNat]? = _
        rw [hslot, hpre]
      · have hget : (out.nodes.map (fun x => x.name))[main.nodes.length + i]? = some b.name := by
          rw [hnames, List.getElem?_append_right (by simp)]
          simp [hi, NodeVariant.base]
        rw [List.getElem?_map] at hget
        exact hget
  · intro bones glIndex b s hs
    unfold registerBone
    have : ¬ s > -1 := by omega
    simp only [this, if_false]
    rfl
  · intro hdr decoded main b s hmem hs
    unfold ArcExtract.assembleScene
    rw [registerNodes_slot_error s decoded.nodes _ b hmem
      (by simp only [List.length_replicate]; exact hs)]
    rfl

/-- A run of the joint list: two Bone entries with slots 1 and 0 after a
plain node, in a scene that already holds one node, give joints `[3, 2]`. -/
theorem joint_list_example :
    (ArcExtract.assembleScene { numRigNodes := 2 }
      { nodes := [.LightNode { name := "light" }, .Bone { name := "b1" } 1,
          .Bone { name := "b0" } 0] }
      { nodes := [{ name := "root" }] }).map (fun out => out.skins.map (fun x => x.joints)) =
      .ok [[3, 2]] := by
  decide

/-! ## The winding swap applied twice -/

theorem swapTriples_involutive : ∀ (l : List Nat), swapTriples (swapTriples l) = l
  | [] => rfl
  | [_] => rfl
  | [_, _] => rfl
  | a :: b :: c :: rest => by
    simp [swapTriples, swapTriples_involutive rest]

theorem ReadIndexArray_swap_eq (data : List Nat) (hlen : data.length % 3 = 0) :
    ReadIndexArray.swap data = some (swapTriples data) := by
  unfold ReadIndexArray.swap
  rw [swap_loop_refines data hlen]
  rfl

/-- C26: the winding swap is an involution. On an index buffer whose
length is a multiple of 3 the swap loop of `ReadIndexArray` runs to its
end, and run again on the buffer it left it gives back the original
buffer. For 16-bit indices the same holds of `ReadIndexArray` as a whole:
the buffer saved by a second call on the buffer saved by the first is the
original. -/
theorem winding_swap_involution (data : List Nat) (hlen : data.length % 3 = 0) :
    (ReadIndexArray.swap data).bind ReadIndexArray.swap = some data ∧
    ((∀ x ∈ data, x < 2 ^ 16) → ∀ (acc acc' : Nat),
      (ReadIndexArray acc data).bind
        (fun r => (ReadIndexArray acc' r.1.data).map (fun r' => r'.1.data)) = some data) := by
  have hlen' : (swapTriples data).length % 3 = 0 := by
    rw [swapTriples_length]
    exact hlen
  refine ⟨?_, ?_⟩
  · rw [ReadIndexArray_swap_eq data hlen, Option.some_bind,
      ReadIndexArray_swap_eq _ hlen', swapTriples_involutive]
  · intro h16 acc acc'
    have h16' : ∀ x ∈ swapTriples data, x < 2 ^ 16 :=
      fun x hx => h16 x ((swapTriples_mem x data).mp hx)
    rw [ReadIndexArray_eq acc data hlen h16, Option.some_bind,
      ReadIndexArray_eq acc' _ hlen' h16', Option.map_some', swapTriples_involutive]

/-- Witness of C26: two triangles, the second with a reset index. -/
theorem winding_swap_involution_witness :
    [1, 2, 3, 4, 5, 0xFFFF].length % 3 = 0 ∧
    (ReadIndexArray.swap [1, 2, 3, 4, 5, 0xFFFF]).bind ReadIndexArray.swap =
      some [1, 2, 3, 4, 5, 0xFFFF] ∧
    ReadIndexArray.swap [1, 2, 3, 4, 5, 0xFFFF] = some [2, 1, 3, 5, 4, 0xFFFF] :=
  ⟨by decide, (winding_swap_involution [1, 2, 3, 4, 5, 0xFFFF] (by decide)).1, by decide⟩

/-! ## Entry size decoding -/

theorem or_bytes (s0 s1 s2 : Nat) (h1 : s1 < 256) (h2 : s2 < 256) :
    ((s0 <<< 16) ||| (s1 <<< 8) ||| s2) = s0 * 65536 + s1 * 256 + s2 := by
  have a1 : s0 <<< 16 = 2 ^ 16 * s0 := by
    rw [Nat.shiftLeft_eq, Nat.mul_comm]
  have a2 : s1 <<< 8 = 2 ^ 8 * s1 := by
    rw [Nat.shiftLeft_eq, Nat.mul_comm]
  have b1 : 2 ^ 16 * s0 ||| 2 ^ 8 * s1 = 2 ^ 16 * s0 + 2 ^ 8 * s1 :=
    (Nat.mul_add_lt_is_or (by omega : 2 ^ 8 * s1 < 2 ^ 16) s0).symm
  have b2 : 2 ^ 16 * s0 + 2 ^ 8 * s1 = 2 ^ 8 * (2 ^ 8 * s0 + s1) := by omega
  have b3 : 2 ^ 8 * (2 ^ 8 * s0 + s1) ||| s2 = 2 ^ 8 * (2 ^ 8 * s0 + s1) + s2 :=
    (Nat.mul_add_lt_is_or (by omega : s2 < 2 ^ 8) _).symm
  rw [a1, a2, b1, b2, b3]
  omega

theorem Entry_Size_eq (e : Entry)
    (h : e.size.1 < 256 ∧ e.size.2.1 < 256 ∧ e.size.2.2 < 256) :
    e.Size = e.size.1 * 65536 + e.size.2.1 * 256 + e.size.2.2 := by
  unfold Entry.Size
  rw [or_bytes _ _ _ h.2.1 h.2.2]
  omega

/-- C27: entry size decoding. For entries whose three size bytes are
bytes, `Entry::Size()` is `size[0] * 65536 + size[1] * 256 + size[2]`, it
is smaller than `2^24`, and two entries have the same `Size()` exactly
when their three size bytes are equal. -/
theorem Entry_Size_decoding (e e' : Entry)
    (h : e.size.1 < 256 ∧ e.size.2.1 < 256 ∧ e.size.2.2 < 256)
    (h' : e'.size.1 < 256 ∧ e'.size.2.1 < 256 ∧ e'.size.2.2 < 256) :
    e.Size = e.size.1 * 65536 + e.size.2.1 * 256 + e.size.2.2 ∧
    e.Size < 2 ^ 24 ∧
    (e.Size = e'.Size ↔ e.size = e'.size) := by
  have he := Entry_Size_eq e h
  have he' := Entry_Size_eq e' h'
  refine ⟨he, by omega, ?_, ?_⟩
  · intro heq
    rw [he, he'] at heq
    have h0 : e.size.1 = e'.size.1 := by omega
    have h1 : e.size.2.1 = e'.size.2.1 := by omega
    have h2 : e.size.2.2 = e'.size.2.2 := by omega
    exact Prod.ext h0 (Prod.ext h1 h2)
  · intro heq
    rw [he, he', heq]

/-- Witness of C27: the size bytes `01 02 03` and `01 02 04`. -/
theorem Entry_Size_decoding_witness :
    ({ size := (1, 2, 3) } : Entry).Size = 1 * 65536 + 2 * 256 + 3 ∧
    ({ size := (1, 2, 3) } : Entry).Size < 2 ^ 24 ∧
    (({ size := (1, 2, 3) } : Entry).Size = ({ size := (1, 2, 4) } : Entry).Size ↔
      ((1, 2, 3) : Nat × Nat × Nat) = (1, 2, 4)) :=
  Entry_Size_decoding { size := (1, 2, 3) } { size := (1, 2, 4) } (by decide) (by decide)

/-! ## Node registration order -/

theorem setGlIndex_base (n : NodeVariant) (glIndex : Nat) :
    (n.setGlIndex glIndex).base = { n.base with glIndex := glIndex } := by
  cases n <;> rfl

theorem Except_map_ok {α β : Type} {x : Except Error α} {f : α → β} {b : β}
    (h : x.map f = .ok b) : ∃ a, x = .ok a ∧ b = f a := by
  cases x with
  | error e => cases h
  | ok a =>
    cases h
    exact ⟨a, rfl, rfl⟩

theorem decodeNode_spec (stream : List Nat) (e : Entry) (fileName : String) (n : NodeVariant)
    (h : decodeNode stream e fileName = some (.ok n)) :
    n.base.name = fileName ∧ n.base.entryIndex = e.index := by
  unfold decodeNode at h
  dsimp only at h
  by_cases h0 : e.type = ArcType.Model
  · rw [if_pos h0] at h
    obtain ⟨r, _, hn⟩ := Except_map_ok (Option.some.inj h)
    rw [hn]
    exact ⟨rfl, rfl⟩
  rw [if_neg h0] at h
  by_cases h1 : e.type = ArcType.SkinnedModel
  · rw [if_pos h1] at h
    obtain ⟨r, _, hn⟩ := Except_map_ok (Option.some.inj h)
    rw [hn]
    exact ⟨rfl, rfl⟩
  rw [if_neg h1] at h
  by_cases h2 : e.type = ArcType.DeformedModel
  · rw [if_pos h2] at h
    obtain ⟨r, _, hn⟩ := Except_map_ok (Option.some.inj h)
    rw [hn]
    exact ⟨rfl, rfl⟩
  rw [if_neg h2] at h
  by_cases h3 : e.type = ArcType.AnimatedModel
  · rw [if_pos h3] at h
    obtain ⟨r, _, hn⟩ := Except_map_ok (Option.some.inj h)
    rw [hn]
    exact ⟨rfl, rfl⟩
  rw [if_neg h3] at h
  by_cases h4 : e.type = ArcType.InstancedModel
  · rw [if_pos h4] at h
    obtain ⟨r, _, hn⟩ := Except_map_ok (Option.some.inj h)
    rw [hn]
    exact ⟨rfl, rfl⟩
  rw [if_neg h4] at h
  by_cases h5 : e.type = ArcType.Skeleton
  · rw [if_pos h5] at h
    obtain ⟨r, _, hn⟩ := Except_map_ok (Option.some.inj h)
    rw [hn]
    exact ⟨rfl, rfl⟩
  rw [if_neg h5] at h
  by_cases h6 : e.type = ArcType.RigNode
  · rw [if_pos h6] at h
    obtain ⟨r, _, hn⟩ := Except_map_ok (Option.some.inj h)
    rw [hn]
    exact ⟨rfl, rfl⟩
  rw [if_neg h6] at h
  by_cases h7 : e.type = ArcType.LightNode
  · rw [if_pos h7] at h
    obtain ⟨r, _, hn⟩ := Except_map_ok (Option.some.inj h)
    rw [hn]
    exact ⟨rfl, rfl⟩
  rw [if_neg h7] at h
  by_cases h8 : e.type = ArcType.Camera
  · rw [if_pos h8] at h
    obtain ⟨r, _, hn⟩ := Except_map_ok (Option.some.inj h)
    rw [hn]
    exact ⟨rfl, rfl⟩
  rw [if_neg h8] at h
  by_cases h9 : e.type = ArcType.Attachment
  · rw [if_pos h9] at h
    obtain ⟨r, _, hn⟩ := Except_map_ok (Option.some.inj h)
    rw [hn]
    exact ⟨rfl, rfl⟩
  rw [if_neg h9] at h
  by_cases h10 : e.type = ArcType.UnkNode
  · rw [if_pos h10] at h
    obtain ⟨r, _, hn⟩ := Except_map_ok (Option.some.inj h)
    rw [hn]
    exact ⟨rfl, rfl⟩
  rw [if_neg h10] at h
  exact Option.noConfusion h

theorem decodeNode_isSome (stream : List Nat) (e : Entry) (fileName : String) :
    (decodeNode stream e fileName).isSome = decide (e.type ∈ nodeTypes) := by
  unfold decodeNode
  dsimp only
  by_cases h0 : e.type = ArcType.Model
  · rw [if_pos h0, h0]
    rfl
  rw [if_neg h0]
  by_cases h1 : e.type = ArcType.SkinnedModel
  · rw [if_pos h1, h1]
    rfl
  rw [if_neg h1]
  by_cases h2 : e.type = ArcType.DeformedModel
  · rw [if_pos h2, h2]
    rfl
  rw [if_neg h2]
  by_cases h3 : e.type = ArcType.AnimatedModel
  · rw [if_pos h3, h3]
    rfl
  rw [if_neg h3]
  by_cases h4 : e.type = ArcType.InstancedModel
  · rw [if_pos h4, h4]
    rfl
  rw [if_neg h4]
  by_cases h5 : e.type = ArcType.Skeleton
  · rw [if_pos h5, h5]
    rfl
  rw [if_neg h5]
  by_cases h6 : e.type = ArcType.RigNode
  · rw [if_pos h6, h6]
    rfl
  rw [if_neg h6]
  by_cases h7 : e.type = ArcType.LightNode
  · rw [if_pos h7, h7]
    rfl
  rw [if_neg h7]
  by_cases h8 : e.type = ArcType.Camera
  · rw [if_pos h8, h8]
    rfl
  rw [if_neg h8]
  by_cases h9 : e.type = ArcType.Attachment
  · rw [if_pos h9, h9]
    rfl
  rw [if_neg h9]
  by_cases h10 : e.type = ArcType.UnkNode
  · rw [if_pos h10, h10]
    rfl
  rw [if_neg h10]
  have : ¬ e.type ∈ nodeTypes := by
    simp only [nodeTypes, List.mem_cons, List.mem_singleton, List.not_mem_nil,
      h0, h1, h2, h3, h4, h5, h6, h7, h8, h9, h10, or_self, not_false_eq_true]
  rw [decide_eq_false this]
  rfl

theorem nodeLoop_spec (stream : List Nat) :
    ∀ (rs : List (Entry × Option String)) (nodes0 nodes : List NodeVariant),
    nodeLoop stream rs nodes0 = .ok nodes →
    nodes.map (fun n => (some n.base.name, n.base.entryIndex)) =
      nodes0.map (fun n => (some n.base.name, n.base.entryIndex)) ++
        (rs.filter (fun r => r.1.type ∈ nodeTypes)).map (fun r => (r.2, r.1.index))
  | [], nodes0, nodes, h => by
    cases h
    simp
  | r :: rs, nodes0, nodes, h => by
    unfold nodeLoop at h
    split at h
    · cases h
    · rename_i nodes1 h1
      have ih := nodeLoop_spec stream rs nodes1 nodes h
      rw [ih]
      unfold nodeStep at h1
      split at h1
      · cases h1
      · rename_i fileName hf
        have hsome := decodeNode_isSome stream r.1 fileName
        split at h1
        · rename_i hnone
          cases h1
          rw [hnone] at hsome
          have hty : ¬ r.1.type ∈ nodeTypes := by
            intro hmem
            simp [hmem] at hsome
          simp [List.filter_cons, hty]
        · cases h1
        · rename_i n hn
          cases h1
          rw [hn] at hsome
          have hty : r.1.type ∈ nodeTypes := by
            simpa using hsome.symm
          obtain ⟨a, b⟩ := decodeNode_spec stream r.1 fileName n hn
          simp [List.filter_cons, hty, a, b, hf]

theorem registerNodes_glIndex : ∀ (ns : List NodeVariant) (st st' : NodeState),
    registerNodes ns st = .ok st' →
    st'.nodes.map (fun n => n.base.glIndex) =
      st.nodes.map (fun n => n.base.glIndex) ++
        (List.range ns.length).map (fun i => st.main.nodes.length + i)
  | [], st, st', h => by
    cases h
    simp
  | n :: ns, st, st', h => by
    unfold registerNodes at h
    split at h
    · cases h
    · rename_i st1 h1
      obtain ⟨_, hm, _, hn⟩ := registerNode_spec st st1 n h1
      rw [registerNodes_glIndex ns st1 st' h, hn, hm, List.length_cons, List.range_succ_eq_map]
      simp [setGlIndex_base, List.map_map, Function.comp, Nat.add_assoc, Nat.add_comm 1]

theorem nodeRecords_entries (entryNames : List Char) (entries : List Entry) :
    (nodeRecords entryNames entries).map (fun r => r.1) =
      entries.filter (fun e => decide (e.type ∈ nodeTypes)) := by
  have h := decode_foldl_entries entryNames entries {}
  unfold nodeRecords decodePass
  have hm : ∀ (l : List (Entry × Option String)),
      (l.filter (fun r => decide (r.1.type ∈ nodeTypes))).map (fun r => r.1) =
        (l.map (fun r => r.1)).filter (fun e => decide (e.type ∈ nodeTypes)) := by
    intro l
    rw [List.filter_map]
    rfl
  rw [hm, h]
  show List.filter _ ([] ++ _) = _
  rw [List.nil_append, List.filter_filter]
  apply List.filter_congr
  intro e _
  by_cases hty : e.type ∈ nodeTypes
  · have h1 : e.type ≠ ArcType.EntryNames := by
      intro heq
      rw [heq] at hty
      revert hty
      decide
    have h2 : e.type ≠ ArcType.Group := by
      intro heq
      rw [heq] at hty
      revert hty
      decide
    simp [hty, h1, h2]
  · simp [hty]

/-- C28: node registration order. When the decoding pass leaves the
vector `nodes` and the assembly succeeds: the node records are the
node-typed entries in entry-scan order; the assembly adds as many output
nodes as there are node-typed entries; the `i`-th of them is the output
node at index `nodeStartIndex + i` and carries that entry's name; the
`glIndex` recorded for it is `nodeStartIndex + i`, and registering further
nodes leaves every `glIndex` recorded before as it is (the later stages
only read the node vector). -/
theorem node_registration_order (hdr : Header) (stream : List Nat) (entryNames : List Char)
    (entries : List Entry) (decoded : Decoded) (main out : GLTFMain)
    (hd : ArcExtract.decodeNodes stream entryNames entries = .ok decoded.nodes)
    (h : ArcExtract.assembleScene hdr decoded main = .ok out) :
    (nodeRecords entryNames entries).map (fun r => r.1) =
      entries.filter (fun e => decide (e.type ∈ nodeTypes)) ∧
    out.nodes.length = main.nodes.length + (nodeRecords entryNames entries).length ∧
    (∀ (i : Nat) (r : Entry × Option String), (nodeRecords entryNames entries)[i]? = some r →
      (out.nodes[main.nodes.length + i]?).map (fun x => x.name) = r.2) ∧
    (∃ st, registerNodes decoded.nodes
        { main := main, bones := List.replicate hdr.numRigNodes 0 } = .ok st ∧
      st.nodes.map (fun n => n.base.glIndex) =
        (List.range (nodeRecords entryNames entries).length).map
          (fun i => main.nodes.length + i)) ∧
    (∀ (ns : List NodeVariant) (st st' : NodeState), registerNodes ns st = .ok st' →
      st'.nodes.map (fun n => n.base.glIndex) =
        st.nodes.map (fun n => n.base.glIndex) ++
          (List.range ns.length).map (fun i => st.main.nodes.length + i)) := by
  have hspec := nodeLoop_spec stream _ [] decoded.nodes hd
  rw [List.map_nil, List.nil_append] at hspec
  have hlen : decoded.nodes.length = (nodeRecords entryNames entries).length := by
    have := congrArg List.length hspec
    simpa [nodeRecords] using this
  have hnames := assembleScene_names hdr decoded main out h
  obtain ⟨st, linked, mid, hst, hl, hmid, hout⟩ := assembleScene_stages hdr decoded main out h
  refine ⟨nodeRecords_entries entryNames entries, ?_, ?_, ⟨st, hst, ?_⟩,
    registerNodes_glIndex⟩
  · have := congrArg List.length hnames
    simp only [List.length_map, List.length_append] at this
    rw [this, hlen]
  · intro i r hi
    have h1 : (out.nodes.map (fun x => x.name))[main.nodes.length + i]? =
        (decoded.nodes.map (fun n => n.base.name))[i]? := by
      rw [hnames, List.getElem?_append_right (by simp)]
      simp
    have h2 : (decoded.nodes.map (fun n => (some n.base.name, n.base.entryIndex)))[i]? =
        some (r.2, r.1.index) := by
      rw [hspec]
      unfold nodeRecords at hi
      rw [List.getElem?_map, hi]
      rfl
    rw [List.getElem?_map] at h1 h2
    rw [h1]
    cases hn : decoded.nodes[i]? with
    | none =>
      rw [hn] at h2
      cases h2
    | some n =>
      rw [hn] at h2
      simp only [Option.map_some', Option.some.injEq, Prod.mk.injEq] at h2
      rw [List.getElem?_map, hn]
      exact h2.1
  · have := registerNodes_glIndex decoded.nodes _ st hst
    rw [this, hlen]
    rfl

set_option maxRecDepth 100000 in
theorem exampleNodes_decoded :
    ArcExtract.decodeNodes exampleNodeStream [] exampleNodeEntries = .ok exampleNodes := by
  decide

set_option maxRecDepth 100000 in
theorem exampleNodes_assembled :
    ArcExtract.assembleScene {} { nodes := exampleNodes } { nodes := [{ name := "root" }] } =
      .ok exampleNodeScene := by
  decide

/-- Witness of C28: a light node and a camera among other entries become
the output nodes 1 and 2 of a scene that held one node. -/
theorem node_registration_order_witness :
    ArcExtract.decodeNodes exampleNodeStream [] exampleNodeEntries =
      .ok ({ nodes := exampleNodes } : Decoded).nodes ∧
    ArcExtract.assembleScene {} { nodes := exampleNodes } { nodes := [{ name := "root" }] } =
      .ok exampleNodeScene ∧
    exampleNodeScene.nodes.length =
      ({ nodes := [{ name := "root" }] } : GLTFMain).nodes.length +
        (nodeRecords [] exampleNodeEntries).length ∧
    (∀ (i : Nat) (r : Entry × Option String),
      (nodeRecords [] exampleNodeEntries)[i]? = some r →
      (exampleNodeScene.nodes[({ nodes := [{ name := "root" }] } : GLTFMain).nodes.length + i]?).map
        (fun x => x.name) = r.2) :=
  ⟨exampleNodes_decoded, exampleNodes_assembled,
    (node_registration_order {} exampleNodeStream [] exampleNodeEntries
      { nodes := exampleNodes } { nodes := [{ name := "root" }] } exampleNodeScene
      exampleNodes_decoded exampleNodes_assembled).2.1,
    (node_registration_order {} exampleNodeStream [] exampleNodeEntries
      { nodes := exampleNodes } { nodes := [{ name := "root" }] } exampleNodeScene
      exampleNodes_decoded exampleNodes_assembled).2.2.1⟩

/-- The node records of the example: the group is passed over, the plain
data entry takes the counter value 1. -/
theorem nodeRecords_example :
    (nodeRecords [] exampleNodeEntries).map (fun r => (r.1.type, r.2)) =
      [(ArcType.LightNode, some "0"), (ArcType.Camera, some "2")] := by
  decide

/-! ## Node hierarchy -/

theorem skinCluster_scenes (main out : GLTFMain) (prim : GltfPrimitive) (curSkin : PrimitiveSkin)
    (item : PrimitiveCluster) (h : skinCluster main prim curSkin item = .ok out) :
    out.scenes = main.scenes := by
  unfold skinCluster at h
  cases hs : skinClusterStreams main prim curSkin item with
  | error err =>
    rw [hs] at h
    cases h
  | ok streams =>
    rw [hs] at h
    cases h
    rfl

theorem doCluster_scenes (indexBuffers : List Indices) (m : Mesh) (p : Primitive)
    (vertexAttrs : Attrs) (curSkin : PrimitiveSkin) (item : PrimitiveCluster)
    (st out : MeshState) (h : doCluster indexBuffers m p vertexAttrs curSkin item st = .ok out) :
    out.main.scenes = st.main.scenes := by
  unfold doCluster at h
  split at h
  · cases h
  · split at h
    · cases h
    · simp only at h
      split at h
      · cases h
      · rename_i main hsk
        cases h
        have hk := skinCluster_scenes _ _ _ _ _ hsk
        exact hk

theorem doMods_scenes (indexBuffers : List Indices) (m : Mesh) (p : Primitive)
    (vertexAttrs : Attrs) : ∀ (mods : List PrimitiveMod) (curSkin : PrimitiveSkin)
    (st out : MeshState), doMods indexBuffers m p vertexAttrs mods curSkin st = .ok out →
    out.main.scenes = st.main.scenes
  | [], _, st, out, h => by
    cases h
    rfl
  | .Cluster item :: mods, curSkin, st, out, h => by
    rw [doMods] at h
    cases hc : doCluster indexBuffers m p vertexAttrs curSkin item st with
    | error err =>
      rw [hc] at h
      cases h
    | ok st1 =>
      rw [hc] at h
      exact (doMods_scenes indexBuffers m p vertexAttrs mods curSkin st1 out h).trans
        (doCluster_scenes _ _ _ _ _ _ _ _ hc)
  | .Skin skin :: mods, curSkin, st, out, h => by
    rw [doMods] at h
    exact doMods_scenes indexBuffers m p vertexAttrs mods skin { st with useSkin := true } out h

theorem doPrims_scenes (vertexBuffers : List Attrs) (indexBuffers : List Indices) (m : Mesh) :
    ∀ (prims : List Primitive) (st out : MeshState),
    doPrims vertexBuffers indexBuffers m prims st = .ok out →
    out.main.scenes = st.main.scenes
  | [], st, out, h => by
    cases h
    rfl
  | p :: prims, st, out, h => by
    rw [doPrims] at h
    split at h
    · cases h
    · rename_i vertexAttrs _
      cases hm : doMods indexBuffers m p vertexAttrs p.mods [] st with
      | error err =>
        rw [hm] at h
        cases h
      | ok st1 =>
        rw [hm] at h
        exact (doPrims_scenes vertexBuffers indexBuffers m prims st1 out h).trans
          (doMods_scenes _ _ _ _ _ _ _ _ hm)

theorem bindNodes_children (meshIndex : Int) (skin : Option Int) :
    ∀ (ns : List Nat) (nodes : List GltfNode),
    (bindNodes meshIndex skin ns nodes).1.map (fun x => x.children) =
      nodes.map (fun x => x.children)
  | [], nodes => rfl
  | n :: ns, nodes => by
    unfold bindNodes
    split
    · rfl
    · rename_i g hg
      refine (bindNodes_children meshIndex skin ns _).trans ?_
      obtain ⟨hlt, hget⟩ := List.getElem?_eq_some.1 hg
      apply List.ext_getElem?
      intro i
      rw [List.getElem?_map, List.getElem?_map, List.getElem?_set]
      by_cases hi : n = i
      · subst hi
        simp only [if_true, hlt, hg, Option.map_some']
      · simp only [hi, if_false]

theorem DoMesh_graph (vertexBuffers : List Attrs) (indexBuffers : List Indices)
    (models : ModelMap) (main out : GLTFMain) (m : Mesh) (indexOffset : Nat)
    (h : DoMesh vertexBuffers indexBuffers models main m indexOffset = .ok out) :
    out.scenes = main.scenes ∧
    out.nodes.map (fun x => x.children) = main.nodes.map (fun x => x.children) := by
  unfold DoMesh at h
  split at h
  · cases h
    exact ⟨rfl, rfl⟩
  · split at h
    · cases h
    · rename_i st hst
      obtain ⟨p1, _, _, _⟩ := doPrims_scene vertexBuffers indexBuffers m m.prims _ st hst
      have p2 := doPrims_scenes vertexBuffers indexBuffers m m.prims _ st hst
      simp only at h
      split at h
      · cases h
        exact ⟨p2, by rw [← p1]⟩
      · rename_i ns _
        cases h
        have b := bindNodes_children (toInt32 (st.main.meshes.length % 2 ^ 32))
          (if st.useSkin then some (skinIndex st.main.skins.length) else none) ns st.main.nodes
        exact ⟨p2, by rw [← p1]; exact b⟩

theorem doMeshes_graph (vertexBuffers : List Attrs) (indexBuffers : List Indices)
    (models : ModelMap) (indexOffset : Nat) :
    ∀ (meshes : List Mesh) (main out : GLTFMain),
    doMeshes vertexBuffers indexBuffers models indexOffset meshes main = .ok out →
    out.scenes = main.scenes ∧
    out.nodes.map (fun x => x.children) = main.nodes.map (fun x => x.children)
  | [], main, out, h => by
    cases h
    exact ⟨rfl, rfl⟩
  | m :: meshes, main, out, h => by
    unfold doMeshes at h
    split at h
    · cases h
    · rename_i mid hmid
      obtain ⟨a1, a2⟩ := DoMesh_graph vertexBuffers indexBuffers models main mid m
        indexOffset hmid
      obtain ⟨b1, b2⟩ := doMeshes_graph vertexBuffers indexBuffers models indexOffset
        meshes mid out h
      exact ⟨b1.trans a1, b2.trans a2⟩

theorem emitSkin_scenes (bones : List Nat) (main : GLTFMain) :
    (emitSkin bones main).scenes = main.scenes := by
  unfold emitSkin
  split <;> rfl

theorem graph_congr (main out : GLTFMain) (hs : out.scenes = main.scenes)
    (hc : out.nodes.map (fun x => x.children) = main.nodes.map (fun x => x.children)) :
    childrenOf out = childrenOf main ∧ rootsOf out = rootsOf main ∧
    attachments out = attachments main := by
  refine ⟨?_, ?_, ?_⟩
  · funext k
    unfold childrenOf
    rw [hc]
  · unfold rootsOf
    rw [hs]
  · unfold attachments
    rw [hs, hc]

theorem modifyNode_children (nodes out : List GltfNode) (index : Nat) (f : GltfNode → GltfNode)
    (h : modifyNode nodes index f = .ok out) :
    ∃ g, nodes[index]? = some g ∧
      out.map (fun x => x.children) = (nodes.map (fun x => x.children)).set index (f g).children := by
  unfold modifyNode at h
  split at h
  · rename_i g hg
    cases h
    refine ⟨g, hg, ?_⟩
    apply List.ext_getElem?
    intro i
    simp only [List.getElem?_map, List.getElem?_set, List.length_map]
    by_cases hi : index = i
    · simp only [hi, if_true]
      split <;> rfl
    · simp only [hi, if_false]
  · cases h

theorem set_getElem_same (C : List (List Nat)) (j : Nat) (cs : List Nat)
    (h : C[j]? = some cs) : C.set j cs = C := by
  obtain ⟨pre, post, hC, _, hset⟩ := split_at_index C j cs h
  rw [hset, ← hC]

theorem count_flatten_set (C : List (List Nat)) (j : Nat) (cs : List Nat) (x c : Nat)
    (h : C[j]? = some cs) :
    ((C.set j (cs ++ [x])).flatten).count c = C.flatten.count c + (if x = c then 1 else 0) := by
  obtain ⟨pre, post, hC, _, hset⟩ := split_at_index C j cs h
  rw [hset, hC]
  simp only [List.flatten_append, List.flatten_cons, List.count_append, List.count_cons,
    List.count_nil, beq_iff_eq]
  omega

theorem getD_set (C : List (List Nat)) (j k : Nat) (v : List Nat) :
    ((C.set j v)[k]?).getD [] = if j = k ∧ j < C.length then v else (C[k]?).getD [] := by
  rw [List.getElem?_set]
  by_cases hjk : j = k
  · subst hjk
    by_cases hlt : j < C.length
    · simp [hlt]
    · have hnone : C[j]? = none := List.getElem?_eq_none (by omega)
      simp [hlt, hnone]
  · simp [hjk]

/-- What one turn of the parent linking loop does to the hierarchy. -/
theorem linkParent_graph (nodeStartIndex : Nat) (main out : GLTFMain) (n : NodeVariant)
    (h : linkParent nodeStartIndex main n = .ok out) :
    (∀ c, (attachments out).count c =
      (attachments main).count c + (if n.base.glIndex = c then 1 else 0)) ∧
    (∀ k c, c ∈ childrenOf main k → c ∈ childrenOf out k) ∧
    (∀ c, c ∈ rootsOf main → c ∈ rootsOf out) ∧
    (n.base.parentBone > -1 →
      n.base.glIndex ∈ childrenOf out (nodeStartIndex + n.base.parentBone.toNat)) ∧
    (¬ n.base.parentBone > -1 → n.base.glIndex ∈ rootsOf out) ∧
    (∀ k c, c ∈ childrenOf out k → c ∈ childrenOf main k ∨
      (n.base.parentBone > -1 ∧ k = nodeStartIndex + n.base.parentBone.toNat ∧
        c = n.base.glIndex)) := by
  unfold linkParent at h
  split at h
  · cases h
  · rename_i nodes1 h1
    obtain ⟨g1, hg1, hc1⟩ := modifyNode_children _ _ _ _ h1
    have hc1' : nodes1.map (fun x => x.children) = main.nodes.map (fun x => x.children) :=
      hc1.trans (set_getElem_same _ _ _ (by rw [List.getElem?_map, hg1]; rfl))
    split at h
    · rename_i hp
      split at h
      · cases h
      · rename_i nodes2 h2
        obtain ⟨g2, hg2, hc2⟩ := modifyNode_children _ _ _ _ h2
        cases h
        have hcs : (main.nodes.map (fun x => x.children))[nodeStartIndex +
            n.base.parentBone.toNat]? = some g2.children := by
          rw [← hc1', List.getElem?_map, hg2]
          rfl
        have hlt : nodeStartIndex + n.base.parentBone.toNat <
            (main.nodes.map (fun x => x.children)).length :=
          (List.getElem?_eq_some.1 hcs).1
        have hout : nodes2.map (fun x => x.children) =
            (main.nodes.map (fun x => x.children)).set
              (nodeStartIndex + n.base.parentBone.toNat) (g2.children ++ [n.base.glIndex]) := by
          rw [hc2, hc1']
        have hch : ∀ k, childrenOf { main with nodes := nodes2 } k =
            if nodeStartIndex + n.base.parentBone.toNat = k then
              childrenOf main k ++ [n.base.glIndex] else childrenOf main k := by
          intro k
          show ((nodes2.map (fun x => x.children))[k]?).getD [] = _
          rw [hout, getD_set]
          by_cases hk : nodeStartIndex + n.base.parentBone.toNat = k
          · subst hk
            simp only [hlt, and_self, if_true]
            unfold childrenOf
            rw [hcs]
            rfl
          · simp only [hk, false_and, if_false]
            rfl
        refine ⟨?_, ?_, ?_, ?_, ?_, ?_⟩
        · intro c
          show ((main.scenes.map (fun s => s.nodes)).flatten ++
            (nodes2.map (fun x => x.children)).flatten).count c = _
          rw [hout, List.count_append, count_flatten_set _ _ _ _ _ hcs]
          unfold attachments
          rw [List.count_append]
          omega
        · intro k c hc
          rw [hch]
          split
          · exact List.mem_append_left _ hc
          · exact hc
        · intro c hc
          exact hc
        · intro _
          rw [hch, if_pos rfl]
          exact List.mem_append_right _ (List.mem_singleton.2 rfl)
        · intro hn
          exact absurd hp hn
        · intro k c hc
          rw [hch] at hc
          split at hc
          · rename_i hk
            rcases List.mem_append.1 hc with hc | hc
            · exact Or.inl hc
            · exact Or.inr ⟨hp, hk.symm, List.mem_singleton.1 hc⟩
          · exact Or.inl hc
    · rename_i hp
      split at h
      · cases h
      · rename_i scene scenes hs
        cases h
        have hch : ∀ k, childrenOf
            { main with
              nodes := nodes1
              scenes := { scene with nodes := scene.nodes ++ [n.base.glIndex] } :: scenes } k =
            childrenOf main k := by
          intro k
          show ((nodes1.map (fun x => x.children))[k]?).getD [] = _
          rw [hc1']
          rfl
        refine ⟨?_, ?_, ?_, ?_, ?_, ?_⟩
        · intro c
          show (((({ scene with nodes := scene.nodes ++ [n.base.glIndex] } :: scenes).map
            (fun s => s.nodes)).flatten) ++ (nodes1.map (fun x => x.children)).flatten).count c = _
          unfold attachments
          rw [hc1', hs]
          simp only [List.map_cons, List.flatten_cons, List.count_append, List.count_cons,
            List.count_nil, beq_iff_eq]
          omega
        · intro k c hc
          rw [hch]
          exact hc
        · intro c hc
          unfold rootsOf at hc
          rw [hs] at hc
          show c ∈ scene.nodes ++ [n.base.glIndex]
          exact List.mem_append_left _ hc
        · intro hn
          exact absurd hn hp
        · intro _
          show n.base.glIndex ∈ scene.nodes ++ [n.base.glIndex]
          exact List.mem_append_right _ (List.mem_singleton.2 rfl)
        · intro k c hc
          rw [hch] at hc
          exact Or.inl hc

/-- What the parent linking loop does to the hierarchy. -/
theorem linkParents_graph (nodeStartIndex : Nat) :
    ∀ (ns : List NodeVariant) (main out : GLTFMain),
    linkParents nodeStartIndex ns main = .ok out →
    (∀ c, (attachments out).count c =
      (attachments main).count c + (ns.map (fun n => n.base.glIndex)).count c) ∧
    (∀ k c, c ∈ childrenOf main k → c ∈ childrenOf out k) ∧
    (∀ c, c ∈ rootsOf main → c ∈ rootsOf out) ∧
    (∀ n ∈ ns,
      (n.base.parentBone > -1 →
        n.base.glIndex ∈ childrenOf out (nodeStartIndex + n.base.parentBone.toNat)) ∧
      (¬ n.base.parentBone > -1 → n.base.glIndex ∈ rootsOf out)) ∧
    (∀ k c, c ∈ childrenOf out k → c ∈ childrenOf main k ∨
      ∃ n ∈ ns, n.base.parentBone > -1 ∧ k = nodeStartIndex + n.base.parentBone.toNat ∧
        c = n.base.glIndex)
  | [], main, out, h => by
    cases h
    refine ⟨fun c => ?_, fun _ _ hc => hc, fun _ hc => hc, fun n hn => ?_, fun _ _ hc => Or.inl hc⟩
    · simp
    · cases hn
  | n :: ns, main, out, h => by
    unfold linkParents at h
    split at h
    · cases h
    · rename_i mid hmid
      obtain ⟨a1, a2, a3, a4, a5, a6⟩ := linkParent_graph nodeStartIndex main mid n hmid
      obtain ⟨b1, b2, b3, b4, b5⟩ := linkParents_graph nodeStartIndex ns mid out h
      refine ⟨?_, ?_, ?_, ?_, ?_⟩
      · intro c
        rw [b1, a1, List.map_cons, List.count_cons]
        simp only [beq_iff_eq]
        omega
      · intro k c hc
        exact b2 k c (a2 k c hc)
      · intro c hc
        exact b3 c (a3 c hc)
      · intro m hm
        rcases List.mem_cons.1 hm with heq | hm
        · subst heq
          exact ⟨fun hp => b2 _ _ (a4 hp), fun hp => b3 _ (a5 hp)⟩
        · exact b4 m hm
      · intro k c hc
        rcases b5 k c hc with hc | ⟨m, hm, h1, h2, h3⟩
        · rcases a6 k c hc with hc | ⟨h1, h2, h3⟩
          · exact Or.inl hc
          · exact Or.inr ⟨n, List.mem_cons_self _ _, h1, h2, h3⟩
        · exact Or.inr ⟨m, List.mem_cons_of_mem _ hm, h1, h2, h3⟩

/-- The node vector after registration: the nodes of before, then every
new node with its `glIndex` set to its output index. -/
theorem registerNodes_nodes : ∀ (ns : List NodeVariant) (st st' : NodeState),
    registerNodes ns st = .ok st' →
    ∃ rest, st'.nodes = st.nodes ++ rest ∧ rest.length = ns.length ∧
      ∀ (i : Nat) (n : NodeVariant), ns[i]? = some n →
        rest[i]? = some (n.setGlIndex (st.main.nodes.length + i))
  | [], st, st', h => by
    cases h
    refine ⟨[], by simp, rfl, ?_⟩
    intro i n hi
    cases hi
  | x :: ns, st, st', h => by
    unfold registerNodes at h
    split at h
    · cases h
    · rename_i st1 h1
      obtain ⟨_, hm, _, hn⟩ := registerNode_spec st st1 x h1
      obtain ⟨rest, r1, r2, r3⟩ := registerNodes_nodes ns st1 st' h
      refine ⟨x.setGlIndex st.main.nodes.length :: rest, ?_, ?_, ?_⟩
      · rw [r1, hn, List.append_assoc]
        rfl
      · rw [List.length_cons, List.length_cons, r2]
      · intro i n hi
        cases i with
        | zero =>
          rw [List.getElem?_cons_zero] at hi
          cases hi
          rw [List.getElem?_cons_zero, Nat.add_zero]
        | succ i =>
          rw [List.getElem?_cons_succ] at hi
          rw [List.getElem?_cons_succ, r3 i n hi, hm]
          have : (st.main.nodes ++ [({ name := x.base.name } : GltfNode)]).length + i =
              st.main.nodes.length + (i + 1) := by
            rw [List.length_append, List.length_singleton]
            omega
          show some (n.setGlIndex ((st.main.nodes ++ [({ name := x.base.name } : GltfNode)]).length
            + i)) = _
          rw [this]

theorem setGlIndex_parentBone (n : NodeVariant) (glIndex : Nat) :
    (n.setGlIndex glIndex).base.parentBone = n.base.parentBone ∧
    (n.setGlIndex glIndex).base.glIndex = glIndex := by
  rw [setGlIndex_base]
  exact ⟨rfl, rfl⟩

theorem count_range_map (start n c : Nat) :
    ((List.range n).map (fun i => start + i)).count c =
      if start ≤ c ∧ c < start + n then 1 else 0 := by
  split
  · rename_i hc
    apply List.count_eq_one_of_mem
    · exact (List.nodup_range n).map (fun a b hab => by
        have hab' : start + a = start + b := hab
        omega)
    · exact List.mem_map.2 ⟨c - start, List.mem_range.2 (by omega), by omega⟩
  · rename_i hc
    apply List.count_eq_zero_of_not_mem
    intro hmem
    obtain ⟨i, hi, hic⟩ := List.mem_map.1 hmem
    have := List.mem_range.1 hi
    omega

theorem transGen_lt (r : Nat → Nat → Prop) (hlt : ∀ a b, r a b → a < b) (a b : Nat)
    (h : Relation.TransGen r a b) : a < b := by
  induction h with
  | single h => exact hlt _ _ h
  | tail _ h ih => exact Nat.lt_trans ih (hlt _ _ h)

theorem flatten_map_nil {α : Type} : ∀ (l : List α),
    (l.map (fun _ => ([] : List Nat))).flatten = []
  | [] => rfl
  | _ :: l => by
    rw [List.map_cons, List.flatten_cons, flatten_map_nil l]
    rfl

theorem getD_append_nil {α : Type} (C : List (List Nat)) (l : List α) (k : Nat) :
    ((C ++ l.map (fun _ => ([] : List Nat)))[k]?).getD [] = (C[k]?).getD [] := by
  by_cases hk : k < C.length
  · rw [List.getElem?_append_left hk]
  · rw [List.getElem?_append_right (by omega), List.getElem?_eq_none (by omega : C.length ≤ k),
      List.getElem?_map]
    cases l[k - C.length]? <;> rfl

/-- The hierarchy after registration is the one of before: the new
nodes have no children yet. -/
theorem registerNodes_graph (ns : List NodeVariant) (st st' : NodeState)
    (h : registerNodes ns st = .ok st') :
    childrenOf st'.main = childrenOf st.main ∧ rootsOf st'.main = rootsOf st.main ∧
    attachments st'.main = attachments st.main := by
  obtain ⟨r1, _, _⟩ := registerNodes_frame ns st st' h
  have hc : st'.main.nodes.map (fun g => g.children) =
      st.main.nodes.map (fun g => g.children) ++ ns.map (fun _ => ([] : List Nat)) := by
    rw [r1]
    show List.map (fun g => g.children) (st.main.nodes ++ _) = _
    rw [List.map_append, List.map_map]
    rfl
  have hs : st'.main.scenes = st.main.scenes := by
    rw [r1]
  refine ⟨?_, ?_, ?_⟩
  · funext k
    unfold childrenOf
    rw [hc, getD_append_nil]
  · unfold rootsOf
    rw [hs]
  · unfold attachments
    rw [hs, hc, List.flatten_append, flatten_map_nil, List.append_nil]

/-- The hierarchy of an assembled scene is the one the parent linking
loop left. -/
theorem assembleScene_graph (hdr : Header) (decoded : Decoded) (main out : GLTFMain)
    (h : ArcExtract.assembleScene hdr decoded main = .ok out) :
    ∃ st linked,
      registerNodes decoded.nodes
        { main := main, bones := List.replicate hdr.numRigNodes 0 } = .ok st ∧
      linkParents main.nodes.length st.nodes st.main = .ok linked ∧
      childrenOf out = childrenOf linked ∧ rootsOf out = rootsOf linked ∧
      attachments out = attachments linked := by
  obtain ⟨st, linked, mid, hst, hl, hmid, hout⟩ := assembleScene_stages hdr decoded main out h
  obtain ⟨m1, m2⟩ := doMeshes_graph _ _ _ _ _ _ mid hmid
  obtain ⟨o1, o2⟩ := doMeshes_graph _ _ _ _ _ _ out hout
  have e1 := emitSkin_scenes st.bones linked
  have e2 := (emitSkin_spec st.bones linked).2.1
  have hs : out.scenes = linked.scenes := o1.trans (m1.trans e1)
  have hc : out.nodes.map (fun x => x.children) = linked.nodes.map (fun x => x.children) := by
    rw [o2, m2, e2]
  exact ⟨st, linked, hst, hl, graph_congr linked out hs hc⟩

set_option maxRecDepth 100000 in
/-- C29, counterexample: the parent relation can hold a cycle. An archive
whose only entry is a LightNode with an all-zero payload is accepted; its
`parentBone` is 0, its own index, and the assembled node is its own
child. -/
theorem node_hierarchy_counterexample :
    ArcExtract.decodeNodes (List.replicate 176 0) [] [{ type := ArcType.LightNode }] =
      .ok [.LightNode { name := "0", tm0 := List.replicate 16 0, parentBone := 0 }] ∧
    ArcExtract.assembleScene {}
      { nodes := [.LightNode { name := "0", tm0 := List.replicate 16 0, parentBone := 0 }] } {} =
      .ok { nodes := [{ name := "0", children := [0], matrix := List.replicate 16 0 }] } ∧
    Relation.TransGen
      (isChild { nodes := [{ name := "0", children := [0], matrix := List.replicate 16 0 }] })
      0 0 := by
  refine ⟨by decide, by decide, Relation.TransGen.single ?_⟩
  decide

/-- C29, amended: the node hierarchy. When the assembly succeeds, every
node with `parentBone >= 0` is a child of the output node at index
`nodeStartIndex + parentBone`, every node with `parentBone < 0` is in the
root list of the first scene, and the attachments of the document grow by
exactly one for each new node index and by none for any other index. When
in addition the nodes of before have no children and every `parentBone`
is smaller than the node's own position in the node list, the parent
relation contains no cycle. -/
theorem node_hierarchy (hdr : Header) (decoded : Decoded) (main out : GLTFMain)
    (h : ArcExtract.assembleScene hdr decoded main = .ok out) :
    (∀ (i : Nat) (n : NodeVariant), decoded.nodes[i]? = some n → 0 ≤ n.base.parentBone →
      isChild out (main.nodes.length + n.base.parentBone.toNat) (main.nodes.length + i)) ∧
    (∀ (i : Nat) (n : NodeVariant), decoded.nodes[i]? = some n → n.base.parentBone < 0 →
      main.nodes.length + i ∈ rootsOf out) ∧
    (∀ c, (attachments out).count c = (attachments main).count c +
      (if main.nodes.length ≤ c ∧ c < main.nodes.length + decoded.nodes.length
        then 1 else 0)) ∧
    ((∀ g ∈ main.nodes, g.children = []) →
      (∀ (i : Nat) (n : NodeVariant), decoded.nodes[i]? = some n →
        n.base.parentBone < (i : Int)) →
      ∀ c, ¬ Relation.TransGen (isChild out) c c) := by
  obtain ⟨st, linked, hst, hl, g1, g2, g3⟩ := assembleScene_graph hdr decoded main out h
  obtain ⟨s1, s2, s3⟩ := registerNodes_graph decoded.nodes _ st hst
  obtain ⟨rest, r1, r2, r3⟩ := registerNodes_nodes decoded.nodes _ st hst
  have hnodes : st.nodes = rest := r1
  obtain ⟨l1, _, _, l4, l5⟩ := linkParents_graph main.nodes.length st.nodes st.main linked hl
  have hmem : ∀ (i : Nat) (n : NodeVariant), decoded.nodes[i]? = some n →
      n.setGlIndex (main.nodes.length + i) ∈ st.nodes := by
    intro i n hi
    rw [hnodes]
    exact List.getElem?_mem (r3 i n hi)
  have hof : ∀ m ∈ st.nodes, ∃ (i : Nat) (n : NodeVariant), decoded.nodes[i]? = some n ∧
      m = n.setGlIndex (main.nodes.length + i) := by
    intro m hm
    rw [hnodes] at hm
    obtain ⟨i, hi, hget⟩ := List.getElem_of_mem hm
    have hlt : i < decoded.nodes.length := by omega
    refine ⟨i, decoded.nodes[i], List.getElem?_eq_getElem hlt, ?_⟩
    have := r3 i _ (List.getElem?_eq_getElem hlt)
    rw [List.getElem?_eq_getElem hi, hget] at this
    exact Option.some.inj this
  refine ⟨?_, ?_, ?_, ?_⟩
  · intro i n hi hp
    obtain ⟨p1, p2⟩ := setGlIndex_parentBone n (main.nodes.length + i)
    have := (l4 _ (hmem i n hi)).1 (by rw [p1]; omega)
    rw [p1, p2] at this
    show main.nodes.length + i ∈ childrenOf out _
    rw [g1]
    exact this
  · intro i n hi hp
    obtain ⟨p1, p2⟩ := setGlIndex_parentBone n (main.nodes.length + i)
    have := (l4 _ (hmem i n hi)).2 (by rw [p1]; omega)
    rw [p2] at this
    rw [g2]
    exact this
  · intro c
    have hgl := registerNodes_glIndex decoded.nodes _ st hst
    rw [g3, l1, s3, hgl]
    show _ + (([] : List Nat) ++ _).count c = _
    rw [List.nil_append, count_range_map]
  · intro hmain hp c hcyc
    have hempty : ∀ k, childrenOf main k = [] := by
      intro k
      unfold childrenOf
      rw [List.getElem?_map]
      cases hk : main.nodes[k]? with
      | none => rfl
      | some g =>
        show g.children = []
        exact hmain g (List.getElem?_mem hk)
    have hlt : ∀ a b, isChild out a b → a < b := by
      intro a b hab
      unfold isChild at hab
      rw [g1] at hab
      rcases l5 a b hab with hab | ⟨m, hm, h1, h2, h3⟩
      · rw [s1] at hab
        show a < b
        have : b ∈ childrenOf main a := hab
        rw [hempty] at this
        cases this
      · obtain ⟨i, n, hi, hmn⟩ := hof m hm
        obtain ⟨p1, p2⟩ := setGlIndex_parentBone n (main.nodes.length + i)
        rw [hmn, p1] at h1 h2
        rw [hmn, p2] at h3
        have := hp i n hi
        rw [h2, h3]
        omega
    exact Nat.lt_irrefl c (transGen_lt _ hlt c c hcyc)

/-- Witness of the amended C29: a root with two children. -/
theorem node_hierarchy_witness :
    ArcExtract.assembleScene {} { nodes := exampleTree } {} = .ok exampleTreeScene ∧
    (∀ (i : Nat) (n : NodeVariant), ({ nodes := exampleTree } : Decoded).nodes[i]? = some n →
      0 ≤ n.base.parentBone →
      isChild exampleTreeScene (({} : GLTFMain).nodes.length + n.base.parentBone.toNat)
        (({} : GLTFMain).nodes.length + i)) ∧
    (∀ c, ¬ Relation.TransGen (isChild exampleTreeScene) c c) :=
  ⟨by decide,
    (node_hierarchy {} { nodes := exampleTree } {} exampleTreeScene (by decide)).1,
    (node_hierarchy {} { nodes := exampleTree } {} exampleTreeScene (by decide)).2.2.2
      (by decide)
      (fun i n hi => by
        rcases i with _ | _ | _ | i
        · cases hi
          decide
        · cases hi
          decide
        · cases hi
          decide
        · cases hi)⟩

/-! ## Mesh-to-node binding -/

theorem lookup_map_push (key : Int) (node : Nat) (k : Int) : ∀ (models : ModelMap),
    (models.map (fun kv => if kv.1 = key then (kv.1, kv.2 ++ [node]) else kv)).lookup k =
      (models.lookup k).map (fun v => if k = key then v ++ [node] else v)
  | [] => rfl
  | (a, b) :: models => by
    have ih := lookup_map_push key node k models
    have hm : (((a, b) :: models).map
        (fun kv => if kv.1 = key then (kv.1, kv.2 ++ [node]) else kv)) =
        (if a = key then (a, b ++ [node]) else (a, b)) ::
          models.map (fun kv => if kv.1 = key then (kv.1, kv.2 ++ [node]) else kv) := rfl
    rw [hm]
    by_cases ha : a = key
    · rw [if_pos ha, List.lookup_cons, List.lookup_cons, ih]
      by_cases hka : k = a
      · have hkk : k = key := hka.trans ha
        simp [hka, ha]
      · have hne : (k == a) = false := by
          rw [beq_eq_false_iff_ne]
          exact hka
        simp [hne]
    · rw [if_neg ha, List.lookup_cons, List.lookup_cons, ih]
      by_cases hka : k = a
      · have hkk : ¬ k = key := fun h => ha (hka.symm.trans h)
        simp [hka, ha]
      · have hne : (k == a) = false := by
          rw [beq_eq_false_iff_ne]
          exact hka
        simp [hne]

theorem lookup_append_single (key : Int) (node : Nat) (k : Int) : ∀ (models : ModelMap),
    (models ++ [(key, [node])]).lookup k =
      match models.lookup k with
      | some v => some v
      | none => if k = key then some [node] else none
  | [] => by
    rw [List.nil_append, List.lookup_cons]
    by_cases hk : k = key
    · simp [hk]
    · have hne : (k == key) = false := by
        rw [beq_eq_false_iff_ne]
        exact hk
      simp [hk, hne]
  | (a, b) :: models => by
    have ih := lookup_append_single key node k models
    rw [List.cons_append, List.lookup_cons, List.lookup_cons]
    by_cases hka : k = a
    · simp [hka]
    · have hne : (k == a) = false := by
        rw [beq_eq_false_iff_ne]
        exact hka
      simp only [hne]
      exact ih

/-- Is `models[key].emplace_back(node)` seen from a key `k`: the list
under `key` grows by `node`, the other lists stay. -/
theorem push_registered (models : ModelMap) (key : Int) (node : Nat) (k : Int) :
    registeredUnder (models.push key node) k =
      registeredUnder models k ++ (if k = key then [node] else []) := by
  unfold registeredUnder ModelMap.push
  cases hkey : models.lookup key with
  | none =>
    show ((models ++ [(key, [node])]).lookup k).getD [] = _
    rw [lookup_append_single]
    cases hk : models.lookup k with
    | none =>
      by_cases hkk : k = key
      · simp [hkk]
      · simp [hkk]
    | some v =>
      have hkk : k ≠ key := by
        intro heq
        rw [heq, hkey] at hk
        cases hk
      simp [hkk]
  | some w =>
    show ((models.map (fun kv => if kv.1 = key then (kv.1, kv.2 ++ [node]) else kv)).lookup
      k).getD [] = _
    rw [lookup_map_push]
    cases hk : models.lookup k with
    | none =>
      have hkk : k ≠ key := by
        intro heq
        rw [heq, hkey] at hk
        cases hk
      simp [hkk]
    | some v =>
      by_cases hkk : k = key
      · simp [hkk]
      · simp [hkk]

theorem push_registered_count (models : ModelMap) (key : Int) (node : Nat) (k : Int) :
    registeredUnder (models.push key node) k =
      registeredUnder models k ++ List.replicate ([key].count k) node := by
  rw [push_registered]
  by_cases hk : k = key
  · subst hk
    simp
  · have hne : (key == k) = false := by
      rw [beq_eq_false_iff_ne]
      exact fun h => hk h.symm
    simp [hk, List.count_cons, hne]

theorem foldl_push_registered (glIndex : Nat) (k : Int) : ∀ (meshes : List Int) (models : ModelMap),
    registeredUnder (meshes.foldl (fun acc m => acc.push m glIndex) models) k =
      registeredUnder models k ++ List.replicate (meshes.count k) glIndex
  | [], models => by simp
  | m :: meshes, models => by
    rw [List.foldl_cons, foldl_push_registered glIndex k meshes, push_registered_count,
      List.append_assoc, List.append_replicate_replicate]
    congr 2
    simp only [List.count_cons, List.count_nil]
    omega

/-- The registrations of one node: its output index joins the list of
each of its mesh keys, once for every occurrence of the key. -/
theorem registerModels_registered (models : ModelMap) (glIndex : Nat) (n : NodeVariant)
    (k : Int) :
    registeredUnder (registerModels models glIndex n) k =
      registeredUnder models k ++ List.replicate ((meshKeys n).count k) glIndex := by
  cases n with
  | Skeleton b mi => exact push_registered_count models mi glIndex k
  | Model b mi => exact push_registered_count models mi glIndex k
  | InstancedModel b mi => exact push_registered_count models mi glIndex k
  | SkinnedModel b mi => exact push_registered_count models mi glIndex k
  | DeformedModel b mi ms => exact foldl_push_registered glIndex k (mi :: ms) models
  | AnimatedModel b mi ms => exact foldl_push_registered glIndex k (mi :: ms) models
  | Bone b s => simp [registerModels, meshKeys]
  | LightNode b => simp [registerModels, meshKeys]
  | Camera b => simp [registerModels, meshKeys]
  | Attachment b => simp [registerModels, meshKeys]
  | UnkNode b => simp [registerModels, meshKeys]

theorem mem_replicate_count (keys : List Int) (k : Int) (glIndex x : Nat) :
    x ∈ List.replicate (keys.count k) glIndex ↔ k ∈ keys ∧ x = glIndex := by
  rw [List.mem_replicate]
  constructor
  · rintro ⟨hc, hx⟩
    exact ⟨List.count_pos_iff.1 (Nat.pos_of_ne_zero hc), hx⟩
  · rintro ⟨hk, hx⟩
    exact ⟨Nat.pos_iff_ne_zero.1 (List.count_pos_iff.2 hk), hx⟩

/-- The map `models` after the registration loop: a node index is under
a key exactly when it was there before or it is the output index of a new
node that has the key among its mesh keys. -/
theorem registerNodes_registered : ∀ (ns : List NodeVariant) (st st' : NodeState),
    registerNodes ns st = .ok st' → ∀ (k : Int) (x : Nat),
    (x ∈ registeredUnder st'.models k ↔
      x ∈ registeredUnder st.models k ∨
        ∃ (i : Nat) (n : NodeVariant), ns[i]? = some n ∧ k ∈ meshKeys n ∧
          x = st.main.nodes.length + i)
  | [], st, st', h, k, x => by
    cases h
    constructor
    · exact Or.inl
    · rintro (hx | ⟨i, n, hi, _⟩)
      · exact hx
      · cases hi
  | a :: ns, st, st', h, k, x => by
    unfold registerNodes at h
    split at h
    · cases h
    · rename_i st1 h1
      obtain ⟨_, hm, hmod, _⟩ := registerNode_spec st st1 a h1
      have ih := registerNodes_registered ns st1 st' h k x
      have hlen : st1.main.nodes.length = st.main.nodes.length + 1 := by
        rw [hm]
        show (st.main.nodes ++ [_]).length = _
        rw [List.length_append, List.length_singleton]
      rw [ih, hmod, registerModels_registered, List.mem_append, mem_replicate_count, hlen]
      constructor
      · rintro ((hx | ⟨hk, hx⟩) | ⟨i, n, hi, hk, hx⟩)
        · exact Or.inl hx
        · exact Or.inr ⟨0, a, List.getElem?_cons_zero .., hk, by omega⟩
        · exact Or.inr ⟨i + 1, n, by rw [List.getElem?_cons_succ]; exact hi, hk, by omega⟩
      · rintro (hx | ⟨i, n, hi, hk, hx⟩)
        · exact Or.inl (Or.inl hx)
        · cases i with
          | zero =>
            rw [List.getElem?_cons_zero] at hi
            cases hi
            exact Or.inl (Or.inr ⟨hk, by omega⟩)
          | succ i =>
            rw [List.getElem?_cons_succ] at hi
            exact Or.inr ⟨i, n, hi, hk, by omega⟩

/-- The binding loop over node indices that all name a node: it runs to
its end, sets the mesh field of the nodes in the list and leaves every
other node as it was. -/
theorem bindNodes_spec (meshIndex : Int) (skin : Option Int) :
    ∀ (ns : List Nat) (nodes : List GltfNode), (∀ x ∈ ns, x < nodes.length) →
    (bindNodes meshIndex skin ns nodes).2 = true ∧
    (bindNodes meshIndex skin ns nodes).1.length = nodes.length ∧
    ∀ (x : Nat) (g : GltfNode), nodes[x]? = some g →
      ∃ g', (bindNodes meshIndex skin ns nodes).1[x]? = some g' ∧
        (x ∈ ns → g'.mesh = meshIndex) ∧ (x ∉ ns → g' = g)
  | [], nodes, _ => by
    refine ⟨rfl, rfl, ?_⟩
    intro x g hx
    exact ⟨g, hx, ⟨fun h => absurd h (List.not_mem_nil x), fun _ => rfl⟩⟩
  | n :: ns, nodes, hv => by
    have hn : n < nodes.length := hv n (List.mem_cons_self _ _)
    have hget : nodes[n]? = some nodes[n] := List.getElem?_eq_getElem hn
    unfold bindNodes
    rw [hget]
    simp only
    have hv1 : ∀ x ∈ ns, x < (nodes.set n
        { nodes[n] with mesh := meshIndex, skin := skin.getD nodes[n].skin }).length := by
      intro x hx
      rw [List.length_set]
      exact hv x (List.mem_cons_of_mem _ hx)
    obtain ⟨i1, i2, i3⟩ := bindNodes_spec meshIndex skin ns _ hv1
    refine ⟨i1, by rw [i2, List.length_set], ?_⟩
    intro x g hx
    by_cases hxn : n = x
    · subst hxn
      rw [hget] at hx
      cases hx
      obtain ⟨g', h1, h2, h3⟩ := i3 n
        { nodes[n] with mesh := meshIndex, skin := skin.getD nodes[n].skin }
        (by rw [List.getElem?_set_self hn])
      refine ⟨g', h1, ?_, ?_⟩
      · intro _
        by_cases hmem : n ∈ ns
        · exact h2 hmem
        · rw [h3 hmem]
      · intro hnot
        exact absurd (List.mem_cons_self _ _) hnot
    · obtain ⟨g', h1, h2, h3⟩ := i3 x g (by rw [List.getElem?_set_ne hxn]; exact hx)
      refine ⟨g', h1, ?_, ?_⟩
      · intro hmem
        rcases List.mem_cons.1 hmem with heq | hmem
        · exact absurd heq.symm hxn
        · exact h2 hmem
      · intro hnot
        exact h3 (fun hmem => hnot (List.mem_cons_of_mem _ hmem))

/-- What `DoMesh` does to the nodes for a mesh with a primitive, when the
node indices under the mesh key all name a node: the mesh takes the next
index of the mesh list, the nodes under the key get that index as their
mesh, the other nodes are as before. -/
theorem DoMesh_binding (vertexBuffers : List Attrs) (indexBuffers : List Indices)
    (models : ModelMap) (main out : GLTFMain) (m : Mesh) (indexOffset : Nat)
    (hprims : m.prims.isEmpty = false)
    (h : DoMesh vertexBuffers indexBuffers models main m indexOffset = .ok out)
    (hvalid : ∀ x ∈ registeredUnder models (meshKey m indexOffset), x < main.nodes.length)
    (hlen : main.meshes.length < 2 ^ 31) :
    out.meshes.length = main.meshes.length + 1 ∧
    ∀ (x : Nat) (g : GltfNode), main.nodes[x]? = some g →
      ∃ g', out.nodes[x]? = some g' ∧
        (x ∈ registeredUnder models (meshKey m indexOffset) →
          g'.mesh = (main.meshes.length : Int)) ∧
        (x ∉ registeredUnder models (meshKey m indexOffset) → g' = g) := by
  unfold DoMesh at h
  rw [hprims] at h
  simp only [Bool.false_eq_true, if_false] at h
  split at h
  · cases h
  · rename_i st hst
    obtain ⟨p1, p2, _, _⟩ := doPrims_scene vertexBuffers indexBuffers m m.prims _ st hst
    have p1' : st.main.nodes = main.nodes := p1
    have p2' : st.main.meshes = main.meshes := p2
    unfold registeredUnder meshKey at hvalid ⊢
    split at h
    · rename_i hnone
      cases h
      rw [hnone]
      refine ⟨?_, ?_⟩
      · show (st.main.meshes ++ [st.mesh]).length = _
        rw [List.length_append, List.length_singleton, p2']
      · intro x g hx
        refine ⟨g, ?_, ⟨fun hmem => absurd hmem (List.not_mem_nil x), fun _ => rfl⟩⟩
        show st.main.nodes[x]? = some g
        rw [p1']
        exact hx
    · rename_i ns hsome
      cases h
      rw [hsome] at hvalid ⊢
      have hv : ∀ x ∈ ns, x < st.main.nodes.length := by
        rw [p1']
        exact hvalid
      obtain ⟨_, _, b3⟩ := bindNodes_spec (toInt32 (st.main.meshes.length % 2 ^ 32))
        (if st.useSkin then some (skinIndex st.main.skins.length) else none) ns
        st.main.nodes hv
      refine ⟨?_, ?_⟩
      · show (st.main.meshes ++ [st.mesh]).length = _
        rw [List.length_append, List.length_singleton, p2']
      · intro x g hx
        obtain ⟨g', h1, h2, h3⟩ := b3 x g (by rw [p1']; exact hx)
        refine ⟨g', h1, ?_, h3⟩
        intro hmem
        rw [h2 hmem, p2', toInt32_small _ hlen]

theorem readU32s_length : ∀ (count : Nat) (rd rd' : List Nat) (ws : List Nat),
    readU32s count rd = .ok (ws, rd') → ws.length = count
  | 0, rd, rd', ws, h => by
    cases h
    rfl
  | count + 1, rd, rd', ws, h => by
    unfold readU32s at h
    split at h
    · cases h
    · rename_i w rd1 _
      split at h
      · cases h
      · rename_i ws1 rd2 h2
        cases h
        rw [List.length_cons, readU32s_length count _ _ _ h2]

theorem DeformedModel_Read_slots (rd : List Nat) (r : (NodeBase × Int × List Int) × List Nat)
    (h : DeformedModel.Read rd = .ok r) : r.1.2.2.length = 16 := by
  unfold DeformedModel.Read at h
  obtain ⟨⟨⟨base, meshIndex⟩, rd1⟩, _, h⟩ := Except_bind_ok h
  simp only at h
  obtain ⟨⟨meshes, rd2⟩, hm, h⟩ := Except_bind_ok h
  cases h
  show (meshes.map toInt32).length = 16
  rw [List.length_map]
  exact readU32s_length 16 rd1 rd2 meshes hm

theorem meshKey_skinned (e : Entry) (fileName : String) (payload : Mesh)
    (h : e.index < 2 ^ 32) :
    meshKey (skinnedMeshCase e fileName payload) 0 = max (toInt32 e.index) 0 := by
  show toInt32 (((max (toInt32 e.index) 0).toNat + 0) % 2 ^ 32) = _
  by_cases hlt : e.index < 2 ^ 31
  · have h1 : toInt32 e.index = (e.index : Int) := by
      unfold toInt32
      rw [if_pos hlt]
    have h2 : max (e.index : Int) 0 = (e.index : Int) := max_eq_left (Int.natCast_nonneg _)
    rw [h1, h2, Int.toNat_natCast, Nat.add_zero, toInt32_small _ hlt]
  · have h1 : toInt32 e.index = (e.index : Int) - 2 ^ 32 := by
      unfold toInt32
      rw [if_neg hlt]
    have h2 : max ((e.index : Int) - 2 ^ 32) 0 = 0 := max_eq_right (by omega)
    rw [h1, h2]
    rfl

/-- The node indices the registration loop of an assembly puts into
`models` all name an output node. -/
theorem assembleScene_registered_valid (hdr : Header) (decoded : Decoded) (main : GLTFMain)
    (st : NodeState)
    (hst : registerNodes decoded.nodes
      { main := main, bones := List.replicate hdr.numRigNodes 0 } = .ok st) :
    ∀ (k : Int) (x : Nat), x ∈ registeredUnder st.models k → x < st.main.nodes.length := by
  intro k x hx
  obtain ⟨r1, _, _⟩ := registerNodes_frame decoded.nodes _ st hst
  rcases (registerNodes_registered decoded.nodes _ st hst k x).1 hx with hx | ⟨i, n, hi, _, hx⟩
  · cases hx
  · have hlt := (List.getElem?_eq_some.1 hi).1
    rw [r1]
    show x < (main.nodes ++ _).length
    rw [List.length_append, List.length_map, hx]
    show main.nodes.length + i < main.nodes.length + decoded.nodes.length
    omega

/-- C30, counterexample: a SkinnedMesh is not looked up under its entry
index when that index is negative as an `int32`. The entry index
`0xFFFFFFFF` is -1; the mesh gets the index 0, and of two SkinnedModel
nodes, "a" registered under key 0 and "b" registered under key -1, the
mesh field of "a" is set and the one of "b" is not. -/
theorem mesh_node_binding_counterexample :
    toInt32 0xFFFFFFFF = -1 ∧
    (skinnedMeshCase { type := ArcType.SkinnedMesh, index := 0xFFFFFFFF } "m"
      { prims := [{}] }).index = 0 ∧
    ArcExtract.assembleScene {}
      { nodes := [.SkinnedModel { name := "a" } 0, .SkinnedModel { name := "b" } (-1)]
        skinnedMeshes := [skinnedMeshCase { type := ArcType.SkinnedMesh, index := 0xFFFFFFFF }
          "m" { prims := [{}] }]
        vertexBuffers := [{}] } {} =
      .ok { nodes := [{ name := "a", mesh := 0 }, { name := "b", mesh := -1 }]
            meshes := [{}]
            scenes := [{ nodes := [0, 1] }] } := by
  decide

/-- C30, amended: mesh-to-node binding. The registration loop puts a node
index under a key exactly when the node has the key among its mesh keys
(its `meshIndex`, and for a DeformedModel or AnimatedModel also its
secondary mesh slots, of which the payload holds 16). The assembly runs
`DoMesh` over the un-skinned meshes with the offset `numSkinnedModels` and
over the skinned meshes with the offset 0, and the registered indices all
name a node. `DoMesh` on a mesh with a primitive sets the mesh field of
exactly the nodes under the mesh key to the index the mesh receives in
the mesh list. The key of an un-skinned mesh is its entry index plus the
offset; the key of a skinned mesh is its entry index read as `int32`, or
0 when that is negative. -/
theorem mesh_node_binding :
    (∀ (ns : List NodeVariant) (st st' : NodeState), registerNodes ns st = .ok st' →
      ∀ (k : Int) (x : Nat),
        (x ∈ registeredUnder st'.models k ↔
          x ∈ registeredUnder st.models k ∨
            ∃ (i : Nat) (n : NodeVariant), ns[i]? = some n ∧ k ∈ meshKeys n ∧
              x = st.main.nodes.length + i)) ∧
    (∀ (rd : List Nat) (r : (NodeBase × Int × List Int) × List Nat),
      DeformedModel.Read rd = .ok r → r.1.2.2.length = 16) ∧
    (∀ (hdr : Header) (decoded : Decoded) (main out : GLTFMain),
      ArcExtract.assembleScene hdr decoded main = .ok out →
      ∃ st linked mid,
        registerNodes decoded.nodes
          { main := main, bones := List.replicate hdr.numRigNodes 0 } = .ok st ∧
        doMeshes decoded.vertexBuffers decoded.indexBuffers st.models hdr.numSkinnedModels
          decoded.meshes (emitSkin st.bones linked) = .ok mid ∧
        doMeshes decoded.vertexBuffers decoded.indexBuffers st.models 0
          decoded.skinnedMeshes mid = .ok out ∧
        (∀ (k : Int) (x : Nat), x ∈ registeredUnder st.models k →
          x < (emitSkin st.bones linked).nodes.length ∧ x < mid.nodes.length)) ∧
    (∀ (vertexBuffers : List Attrs) (indexBuffers : List Indices) (models : ModelMap)
      (main out : GLTFMain) (m : Mesh) (indexOffset : Nat),
      m.prims.isEmpty = false →
      DoMesh vertexBuffers indexBuffers models main m indexOffset = .ok out →
      (∀ x ∈ registeredUnder models (meshKey m indexOffset), x < main.nodes.length) →
      main.meshes.length < 2 ^ 31 →
      out.meshes.length = main.meshes.length + 1 ∧
      ∀ (x : Nat) (g : GltfNode), main.nodes[x]? = some g →
        ∃ g', out.nodes[x]? = some g' ∧
          (x ∈ registeredUnder models (meshKey m indexOffset) →
            g'.mesh = (main.meshes.length : Int)) ∧
          (x ∉ registeredUnder models (meshKey m indexOffset) → g' = g)) ∧
    (∀ (e : Entry) (fileName : String) (payload : Mesh) (indexOffset : Nat),
      meshKey (meshCase e fileName payload) indexOffset =
        toInt32 ((e.index + indexOffset) % 2 ^ 32)) ∧
    (∀ (e : Entry) (fileName : String) (payload : Mesh), e.index < 2 ^ 32 →
      meshKey (skinnedMeshCase e fileName payload) 0 = max (toInt32 e.index) 0) := by
  refine ⟨registerNodes_registered, DeformedModel_Read_slots, ?_, ?_, fun _ _ _ _ => rfl,
    meshKey_skinned⟩
  · intro hdr decoded main out h
    obtain ⟨st, linked, mid, hst, hl, hmid, hout⟩ := assembleScene_stages hdr decoded main out h
    refine ⟨st, linked, mid, hst, hmid, hout, ?_⟩
    intro k x hx
    have hv := assembleScene_registered_valid hdr decoded main st hst k x hx
    obtain ⟨l1, _⟩ := linkParents_frame _ _ _ linked hl
    obtain ⟨_, m2, _⟩ := doMeshes_frame _ _ _ _ _ _ mid hmid
    have e2 := (emitSkin_spec st.bones linked).2.1
    rw [m2, e2, l1]
    exact ⟨hv, hv⟩
  · intro vertexBuffers indexBuffers models main out m indexOffset hprims h hvalid hlen
    exact DoMesh_binding vertexBuffers indexBuffers models main out m indexOffset hprims h
      hvalid hlen

/-- A run of the binding: with `numSkinnedModels = 2`, the mesh of entry
index 3 is bound to the Model with `meshIndex` 5 and to the DeformedModel
that has 5 among its secondary meshes; the light node stays unbound. -/
theorem mesh_node_binding_example :
    ArcExtract.assembleScene { numSkinnedModels := 2 }
      { nodes := [.Model { name := "a" } 5, .DeformedModel { name := "b" } 1 [5, 7],
          .LightNode { name := "c" }]
        meshes := [meshCase { type := ArcType.Mesh, index := 3 } "m" { prims := [{}] }]
        vertexBuffers := [{}] } {} =
      .ok { nodes := [{ name := "a", mesh := 0 }, { name := "b", mesh := 0 }, { name := "c" }]
            meshes := [{}]
            scenes := [{ nodes := [0, 1, 2] }] } := by
  decide

/-! ## Primitive batching -/

theorem skinCluster_accessors (main out : GLTFMain) (prim : GltfPrimitive)
    (curSkin : PrimitiveSkin) (item : PrimitiveCluster)
    (h : skinCluster main prim curSkin item = .ok out) : out.accessors = main.accessors :=
  (skinCluster_scene main out prim curSkin item h).2.2.2.2

/-- One Cluster modifier: one accessor and one primitive are appended. -/
theorem doCluster_spec (indexBuffers : List Indices) (m : Mesh) (p : Primitive)
    (vertexAttrs : Attrs) (curSkin : PrimitiveSkin) (item : PrimitiveCluster)
    (st out : MeshState) (h : doCluster indexBuffers m p vertexAttrs curSkin item st = .ok out) :
    ∃ ids base,
      indexBuffers[(m.indexBaseIndex + p.indexBufferIndex) % 2 ^ 32]? = some ids ∧
      st.main.accessors[ids.acc]? = some base ∧
      out.main.accessors = st.main.accessors ++ [clusterAccessor base ids item] ∧
      out.mesh.primitives = st.mesh.primitives ++
        [clusterPrimitive m p vertexAttrs st.main.accessors.length] ∧
      out.useSkin = st.useSkin := by
  unfold doCluster at h
  split at h
  · cases h
  · rename_i ids hids
    split at h
    · cases h
    · rename_i base hbase
      simp only at h
      split at h
      · cases h
      · rename_i main hsk
        cases h
        have hacc := skinCluster_accessors _ _ _ _ _ hsk
        refine ⟨ids, base, hids, ?_, hacc, rfl, rfl⟩
        unfold accessorsAt at hbase
        split at hbase
        · rename_i acc hget
          cases hbase
          exact hget
        · cases hbase

/-- The modifiers of one primitive: one accessor and one primitive per
Cluster modifier, in encounter order. -/
theorem doMods_clusters (indexBuffers : List Indices) (m : Mesh) (p : Primitive)
    (vertexAttrs : Attrs) : ∀ (mods : List PrimitiveMod) (curSkin : PrimitiveSkin)
    (st out : MeshState), doMods indexBuffers m p vertexAttrs mods curSkin st = .ok out →
    ∃ accs ps,
      out.main.accessors = st.main.accessors ++ accs ∧
      out.mesh.primitives = st.mesh.primitives ++ ps ∧
      accs.length = (clustersOf mods).length ∧ ps.length = (clustersOf mods).length ∧
      ∀ (k : Nat) (item : PrimitiveCluster), (clustersOf mods)[k]? = some item →
        ∃ ids base,
          indexBuffers[(m.indexBaseIndex + p.indexBufferIndex) % 2 ^ 32]? = some ids ∧
          (st.main.accessors ++ accs)[ids.acc]? = some base ∧
          accs[k]? = some (clusterAccessor base ids item) ∧
          ps[k]? = some (clusterPrimitive m p vertexAttrs (st.main.accessors.length + k))
  | [], _, st, out, h => by
    cases h
    refine ⟨[], [], by simp, by simp, rfl, rfl, ?_⟩
    intro k item hk
    cases hk
  | .Cluster item :: mods, curSkin, st, out, h => by
    rw [doMods] at h
    cases hc : doCluster indexBuffers m p vertexAttrs curSkin item st with
    | error err =>
      rw [hc] at h
      cases h
    | ok st1 =>
      rw [hc] at h
      obtain ⟨ids0, base0, hids0, hbase0, ha0, hp0, _⟩ := doCluster_spec _ _ _ _ _ _ _ _ hc
      obtain ⟨accs1, ps1, a1, p1, la, lp, hk1⟩ :=
        doMods_clusters indexBuffers m p vertexAttrs mods curSkin st1 out h
      refine ⟨clusterAccessor base0 ids0 item :: accs1,
        clusterPrimitive m p vertexAttrs st.main.accessors.length :: ps1, ?_, ?_, ?_, ?_, ?_⟩
      · rw [a1, ha0, List.append_assoc]
        rfl
      · rw [p1, hp0, List.append_assoc]
        rfl
      · simp only [clustersOf, List.length_cons, la]
      · simp only [clustersOf, List.length_cons, lp]
      · intro k it hk
        cases k with
        | zero =>
          simp only [clustersOf, List.getElem?_cons_zero, Option.some.injEq] at hk
          subst hk
          refine ⟨ids0, base0, hids0, ?_, List.getElem?_cons_zero .., ?_⟩
          · rw [List.getElem?_append_left (List.getElem?_eq_some.1 hbase0).1]
            exact hbase0
          · rw [List.getElem?_cons_zero, Nat.add_zero]
        | succ k =>
          simp only [clustersOf, List.getElem?_cons_succ] at hk
          obtain ⟨ids, base, hids, hbase, hacc, hprim⟩ := hk1 k it hk
          refine ⟨ids, base, hids, ?_, ?_, ?_⟩
          · rw [ha0, List.append_assoc] at hbase
            exact hbase
          · rw [List.getElem?_cons_succ]
            exact hacc
          · rw [List.getElem?_cons_succ, hprim, ha0, List.length_append, List.length_singleton,
              Nat.add_assoc, Nat.add_comm 1 k]
  | .Skin skin :: mods, curSkin, st, out, h => by
    rw [doMods] at h
    exact doMods_clusters indexBuffers m p vertexAttrs mods skin { st with useSkin := true } out h

theorem clusterList_getElem (p : Primitive) (prims : List Primitive) (k : Nat)
    (q : Primitive) (item : PrimitiveCluster)
    (h : (clusterList (p :: prims))[k]? = some (q, item)) :
    (k < (clustersOf p.mods).length ∧ q = p ∧ (clustersOf p.mods)[k]? = some item) ∨
    ((clustersOf p.mods).length ≤ k ∧
      (clusterList prims)[k - (clustersOf p.mods).length]? = some (q, item)) := by
  unfold clusterList at h
  by_cases hk : k < (clustersOf p.mods).length
  · left
    rw [List.getElem?_append_left (by rw [List.length_map]; exact hk), List.getElem?_map] at h
    cases hc : (clustersOf p.mods)[k]? with
    | none =>
      rw [hc] at h
      cases h
    | some c =>
      rw [hc] at h
      cases h
      exact ⟨hk, rfl, rfl⟩
  · right
    rw [List.getElem?_append_right (by rw [List.length_map]; omega), List.length_map] at h
    exact ⟨by omega, h⟩

/-- The primitives of a mesh: one accessor and one output primitive per
Cluster modifier, in encounter order. -/
theorem doPrims_clusters (vertexBuffers : List Attrs) (indexBuffers : List Indices) (m : Mesh) :
    ∀ (prims : List Primitive) (st out : MeshState),
    doPrims vertexBuffers indexBuffers m prims st = .ok out →
    ∃ accs ps,
      out.main.accessors = st.main.accessors ++ accs ∧
      out.mesh.primitives = st.mesh.primitives ++ ps ∧
      accs.length = (clusterList prims).length ∧ ps.length = (clusterList prims).length ∧
      ∀ (k : Nat) (p : Primitive) (item : PrimitiveCluster),
        (clusterList prims)[k]? = some (p, item) →
        ∃ vertexAttrs ids base,
          vertexBuffers[(m.vertexBaseIndex + p.vertexBufferIndex) % 2 ^ 32]? =
            some vertexAttrs ∧
          indexBuffers[(m.indexBaseIndex + p.indexBufferIndex) % 2 ^ 32]? = some ids ∧
          (st.main.accessors ++ accs)[ids.acc]? = some base ∧
          accs[k]? = some (clusterAccessor base ids item) ∧
          ps[k]? = some (clusterPrimitive m p vertexAttrs (st.main.accessors.length + k))
  | [], st, out, h => by
    cases h
    refine ⟨[], [], by simp, by simp, rfl, rfl, ?_⟩
    intro k p item hk
    cases hk
  | p :: prims, st, out, h => by
    rw [doPrims] at h
    split at h
    · cases h
    · rename_i vertexAttrs hva
      cases hm : doMods indexBuffers m p vertexAttrs p.mods [] st with
      | error err =>
        rw [hm] at h
        cases h
      | ok st1 =>
        rw [hm] at h
        obtain ⟨accs0, ps0, a0, p0, la0, lp0, hk0⟩ := doMods_clusters _ _ _ _ _ _ _ _ hm
        obtain ⟨accs1, ps1, a1, p1, la1, lp1, hk1⟩ :=
          doPrims_clusters vertexBuffers indexBuffers m prims st1 out h
        refine ⟨accs0 ++ accs1, ps0 ++ ps1, ?_, ?_, ?_, ?_, ?_⟩
        · rw [a1, a0, List.append_assoc]
        · rw [p1, p0, List.append_assoc]
        · simp only [clusterList, List.length_append, List.length_map, la0, la1]
        · simp only [clusterList, List.length_append, List.length_map, lp0, lp1]
        · intro k q item hk
          rcases clusterList_getElem p prims k q item hk with ⟨hlt, hq, hitem⟩ | ⟨hge, hrest⟩
          · subst hq
            obtain ⟨ids, base, hids, hbase, hacc, hprim⟩ := hk0 k item hitem
            refine ⟨vertexAttrs, ids, base, hva, hids, ?_, ?_, ?_⟩
            · rw [← List.append_assoc,
                List.getElem?_append_left (List.getElem?_eq_some.1 hbase).1]
              exact hbase
            · rw [List.getElem?_append_left (by omega)]
              exact hacc
            · rw [List.getElem?_append_left (by omega)]
              exact hprim
          · obtain ⟨va, ids, base, hva1, hids, hbase, hacc, hprim⟩ := hk1 _ q item hrest
            refine ⟨va, ids, base, hva1, hids, ?_, ?_, ?_⟩
            · rw [a0, List.append_assoc] at hbase
              exact hbase
            · rw [List.getElem?_append_right (by omega), la0]
              exact hacc
            · rw [List.getElem?_append_right (by omega), lp0, hprim, a0, List.length_append, la0]
              congr 2
              omega

theorem ReadIndexArray_size (accessorIndex : Nat) (data : List Nat) (saved : SavedIndices)
    (ind : Indices) (h : ReadIndexArray accessorIndex data = some (saved, ind)) :
    ind.acc = accessorIndex ∧ (ind.size = 2 ∨ ind.size = 4) ∧ ind.size = saved.elementSize := by
  unfold ReadIndexArray at h
  simp only at h
  cases hf : (swapLoopIndices data.length).foldl swapScanStep (some (data, false)) with
  | none =>
    rw [hf] at h
    cases h
  | some r =>
    obtain ⟨d, reset⟩ := r
    rw [hf] at h
    cases reset
    · cases h
      exact ⟨rfl, Or.inl rfl, rfl⟩
    · cases h
      exact ⟨rfl, Or.inr rfl, rfl⟩

theorem clusterAccessor_fields (base : GltfAccessor) (ids : Indices) (item : PrimitiveCluster) :
    (clusterAccessor base ids item).count = item.indexCount ∧
    (clusterAccessor base ids item).bufferView = base.bufferView ∧
    (clusterAccessor base ids item).type = base.type ∧
    (clusterAccessor base ids item).componentType = base.componentType ∧
    (clusterAccessor base ids item).normalized = base.normalized ∧
    (base.byteOffset + item.indexStart * ids.size < 2 ^ 32 →
      (clusterAccessor base ids item).byteOffset =
        base.byteOffset + item.indexStart * ids.size) := by
  refine ⟨rfl, rfl, rfl, rfl, rfl, ?_⟩
  intro hlt
  show (base.byteOffset + (item.indexStart * ids.size) % 2 ^ 32) % 2 ^ 32 = _
  have h1 : item.indexStart * ids.size < 2 ^ 32 := Nat.lt_of_le_of_lt (Nat.le_add_left _ _) hlt
  rw [Nat.mod_eq_of_lt h1, Nat.mod_eq_of_lt hlt]

theorem clusterPrimitive_fields (m : Mesh) (p : Primitive) (vertexAttrs : Attrs)
    (idxAcc : Nat) :
    (clusterPrimitive m p vertexAttrs idxAcc).material =
      toInt32 ((m.materialBaseIndex + p.materialIndex) % 2 ^ 32) ∧
    (clusterPrimitive m p vertexAttrs idxAcc).indices = idxAcc ∧
    (clusterPrimitive m p vertexAttrs idxAcc).attributes = vertexAttrs.base ∧
    (m.materialBaseIndex + p.materialIndex < 2 ^ 31 →
      (clusterPrimitive m p vertexAttrs idxAcc).material =
        ((m.materialBaseIndex + p.materialIndex : Nat) : Int)) ∧
    (2 ^ 31 ≤ m.materialBaseIndex + p.materialIndex →
      m.materialBaseIndex + p.materialIndex < 2 ^ 32 →
      (clusterPrimitive m p vertexAttrs idxAcc).material =
        ((m.materialBaseIndex + p.materialIndex : Nat) : Int) - 2 ^ 32) := by
  refine ⟨rfl, rfl, rfl, fun h => toInt32_small _ h, fun h1 h2 => ?_⟩
  show toInt32 ((m.materialBaseIndex + p.materialIndex) % 2 ^ 32) = _
  rw [Nat.mod_eq_of_lt h2]
  unfold toInt32
  rw [if_neg (by omega)]

/-- C31: primitive batching. `DoMesh` leaves the document alone for a mesh
without primitives. Otherwise it appends one mesh and, in encounter order,
one accessor and one output primitive for every Cluster modifier of the
primitives: the accessors of before are as they were; the accessor of a
cluster is the accessor of the shared index buffer with the count
`indexCount` and the byte offset moved on by `indexStart * elementSize`;
the primitive has the material `materialBaseIndex + materialIndex`, the
new accessor as its indices and the attribute set of the vertex buffer of
its primitive. The material is the 32-bit sum stored in an `int32` field:
it is the plain sum while that is below `2 ^ 31` and the sum less `2 ^ 32`
from there on. The element size `ReadIndexArray` records is 2 or 4, the
size of the elements it saved. -/
theorem primitive_batching (vertexBuffers : List Attrs) (indexBuffers : List Indices)
    (models : ModelMap) (main out : GLTFMain) (m : Mesh) (indexOffset : Nat)
    (h : DoMesh vertexBuffers indexBuffers models main m indexOffset = .ok out) :
    (m.prims.isEmpty = true → out = main) ∧
    (m.prims.isEmpty = false →
      ∃ mesh accs,
        out.meshes = main.meshes ++ [mesh] ∧ out.accessors = main.accessors ++ accs ∧
        mesh.primitives.length = (clusterList m.prims).length ∧
        accs.length = (clusterList m.prims).length ∧
        ∀ (k : Nat) (p : Primitive) (item : PrimitiveCluster),
          (clusterList m.prims)[k]? = some (p, item) →
          ∃ vertexAttrs ids base,
            vertexBuffers[(m.vertexBaseIndex + p.vertexBufferIndex) % 2 ^ 32]? =
              some vertexAttrs ∧
            indexBuffers[(m.indexBaseIndex + p.indexBufferIndex) % 2 ^ 32]? = some ids ∧
            out.accessors[ids.acc]? = some base ∧
            out.accessors[main.accessors.length + k]? = some (clusterAccessor base ids item) ∧
            mesh.primitives[k]? =
              some (clusterPrimitive m p vertexAttrs (main.accessors.length + k))) ∧
    (∀ (base : GltfAccessor) (ids : Indices) (item : PrimitiveCluster),
      (clusterAccessor base ids item).count = item.indexCount ∧
      (clusterAccessor base ids item).bufferView = base.bufferView ∧
      (clusterAccessor base ids item).type = base.type ∧
      (clusterAccessor base ids item).componentType = base.componentType ∧
      (clusterAccessor base ids item).normalized = base.normalized ∧
      (base.byteOffset + item.indexStart * ids.size < 2 ^ 32 →
        (clusterAccessor base ids item).byteOffset =
          base.byteOffset + item.indexStart * ids.size)) ∧
    (∀ (p : Primitive) (vertexAttrs : Attrs) (idxAcc : Nat),
      (clusterPrimitive m p vertexAttrs idxAcc).material =
        toInt32 ((m.materialBaseIndex + p.materialIndex) % 2 ^ 32) ∧
      (clusterPrimitive m p vertexAttrs idxAcc).indices = idxAcc ∧
      (clusterPrimitive m p vertexAttrs idxAcc).attributes = vertexAttrs.base ∧
      (m.materialBaseIndex + p.materialIndex < 2 ^ 31 →
        (clusterPrimitive m p vertexAttrs idxAcc).material =
          ((m.materialBaseIndex + p.materialIndex : Nat) : Int)) ∧
      (2 ^ 31 ≤ m.materialBaseIndex + p.materialIndex →
        m.materialBaseIndex + p.materialIndex < 2 ^ 32 →
        (clusterPrimitive m p vertexAttrs idxAcc).material =
          ((m.materialBaseIndex + p.materialIndex : Nat) : Int) - 2 ^ 32)) ∧
    (∀ (accessorIndex : Nat) (data : List Nat) (saved : SavedIndices) (ind : Indices),
      ReadIndexArray accessorIndex data = some (saved, ind) →
      ind.acc = accessorIndex ∧ (ind.size = 2 ∨ ind.size = 4) ∧
        ind.size = saved.elementSize) := by
  refine ⟨?_, ?_, clusterAccessor_fields, clusterPrimitive_fields m, ReadIndexArray_size⟩
  · intro hprims
    unfold DoMesh at h
    rw [hprims] at h
    cases h
    rfl
  · intro hprims
    unfold DoMesh at h
    rw [hprims] at h
    simp only [Bool.false_eq_true, if_false] at h
    split at h
    · cases h
    · rename_i st hst
      obtain ⟨_, pm, _, _⟩ := doPrims_scene vertexBuffers indexBuffers m m.prims _ st hst
      obtain ⟨accs, ps, a1, p1, la, lp, hk⟩ :=
        doPrims_clusters vertexBuffers indexBuffers m m.prims _ st hst
      have a1' : st.main.accessors = main.accessors ++ accs := a1
      have p1' : st.mesh.primitives = ps := p1
      have pm' : st.main.meshes = main.meshes := pm
      have hacc : out.accessors = st.main.accessors := by
        split at h <;> cases h <;> rfl
      have hmesh : out.meshes = st.main.meshes ++ [st.mesh] := by
        split at h <;> cases h <;> rfl
      refine ⟨st.mesh, accs, by rw [hmesh, pm'], by rw [hacc, a1'], by rw [p1', lp], la, ?_⟩
      intro k p item hitem
      obtain ⟨va, ids, base, hva, hids, hbase, hak, hpk⟩ := hk k p item hitem
      have hlt : k < accs.length := (List.getElem?_eq_some.1 hak).1
      refine ⟨va, ids, base, hva, hids, ?_, ?_, ?_⟩
      · rw [hacc, a1']
        exact hbase
      · rw [hacc, a1', List.getElem?_append_right (by omega)]
        have : main.accessors.length + k - main.accessors.length = k := by omega
        rw [this]
        exact hak
      · rw [p1']
        exact hpk

theorem exampleBatch_run :
    DoMesh [{ base := [("POSITION", 1)] }] [{ acc := 0, size := 2 }] [] exampleBatchMain
      exampleBatchMesh 0 = .ok exampleBatchOut := by
  decide

/-- The material of a primitive is an `int32`: the sum `0xFFFFFFFF + 0` is
stored as -1, and the sum `0xFFFFFFFF + 3` wraps to 2. -/
theorem primitive_batching_material_wrap :
    (DoMesh [{}] [{ acc := 0, size := 2 }] [] { accessors := [{ count := 3 }] }
      { name := "m", materialBaseIndex := 0xFFFFFFFF,
        prims := [{ mods := [.Cluster { indexCount := 3 }] },
                  { materialIndex := 3, mods := [.Cluster { indexCount := 3 }] }] } 0).map
        (fun out => out.meshes) =
      .ok [{ primitives := [{ material := -1, indices := 1 }, { material := 2, indices := 2 }] }] := by
  decide

/-- Witness of C31: three clusters in two primitives give three accessors
and three primitives. -/
theorem primitive_batching_witness :
    DoMesh [{ base := [("POSITION", 1)] }] [{ acc := 0, size := 2 }] [] exampleBatchMain
      exampleBatchMesh 0 = .ok exampleBatchOut ∧
    exampleBatchOut.accessors.length =
      exampleBatchMain.accessors.length + (clusterList exampleBatchMesh.prims).length ∧
    (clusterList exampleBatchMesh.prims).length = 3 :=
  ⟨exampleBatch_run,
    (by
      obtain ⟨_, accs, _, ha, _, hl, _⟩ :=
        (primitive_batching [{ base := [("POSITION", 1)] }] [{ acc := 0, size := 2 }] []
          exampleBatchMain exampleBatchOut exampleBatchMesh 0 exampleBatch_run).2.1 (by decide)
      rw [ha, List.length_append, hl]),
    by decide⟩

/-! ## Skin-modifier scope -/

theorem doCluster_useSkin (indexBuffers : List Indices) (m : Mesh) (p : Primitive)
    (vertexAttrs : Attrs) (curSkin : PrimitiveSkin) (item : PrimitiveCluster)
    (st : MeshState) (b : Bool) :
    doCluster indexBuffers m p vertexAttrs curSkin item { st with useSkin := b } =
      (doCluster indexBuffers m p vertexAttrs curSkin item st).map
        (fun out => { out with useSkin := b }) := by
  unfold doCluster
  cases indexBuffers[(m.indexBaseIndex + p.indexBufferIndex) % 2 ^ 32]? with
  | none => rfl
  | some ids =>
    simp only
    cases accessorsAt st.main ids.acc with
    | error err => rfl
    | ok indexAccess =>
      simp only
      cases skinCluster _ _ curSkin item with
      | error err => rfl
      | ok main => rfl

theorem runClusters_useSkin (indexBuffers : List Indices) (m : Mesh) (p : Primitive)
    (vertexAttrs : Attrs) (b : Bool) :
    ∀ (trace : List (PrimitiveSkin × PrimitiveCluster)) (st : MeshState),
    runClusters indexBuffers m p vertexAttrs trace { st with useSkin := b } =
      (runClusters indexBuffers m p vertexAttrs trace st).map
        (fun out => { out with useSkin := b })
  | [], st => rfl
  | (skin, item) :: rest, st => by
    unfold runClusters
    rw [doCluster_useSkin]
    cases doCluster indexBuffers m p vertexAttrs skin item st with
    | error err => rfl
    | ok st1 => exact runClusters_useSkin indexBuffers m p vertexAttrs b rest st1

theorem runClusters_keeps_useSkin (indexBuffers : List Indices) (m : Mesh) (p : Primitive)
    (vertexAttrs : Attrs) :
    ∀ (trace : List (PrimitiveSkin × PrimitiveCluster)) (st out : MeshState),
    runClusters indexBuffers m p vertexAttrs trace st = .ok out → out.useSkin = st.useSkin
  | [], st, out, h => by
    cases h
    rfl
  | (skin, item) :: rest, st, out, h => by
    unfold runClusters at h
    split at h
    · cases h
    · rename_i st1 h1
      obtain ⟨_, _, _, _, _, _, hu⟩ := doCluster_spec _ _ _ _ _ _ _ _ h1
      exact (runClusters_keeps_useSkin indexBuffers m p vertexAttrs rest st1 out h).trans hu

/-- The modifier loop of one primitive is the run of its clusters, each
with the `curSkin` in force when the visitor meets it; `useSkin` is set
when the list holds a Skin modifier. -/
theorem doMods_trace (indexBuffers : List Indices) (m : Mesh) (p : Primitive)
    (vertexAttrs : Attrs) : ∀ (mods : List PrimitiveMod) (curSkin : PrimitiveSkin)
    (st : MeshState),
    doMods indexBuffers m p vertexAttrs mods curSkin st =
      (runClusters indexBuffers m p vertexAttrs (skinTrace curSkin mods) st).map
        (fun out => { out with useSkin := st.useSkin || !(skinsOf mods).isEmpty })
  | [], _, st => by
    cases st
    simp [doMods, skinTrace, runClusters, skinsOf, Except.map, pure, Except.pure]
  | .Cluster item :: mods, curSkin, st => by
    rw [doMods]
    simp only [skinTrace, runClusters, skinsOf]
    cases hc : doCluster indexBuffers m p vertexAttrs curSkin item st with
    | error err => rfl
    | ok st1 =>
      obtain ⟨_, _, _, _, _, _, hu⟩ := doCluster_spec _ _ _ _ _ _ _ _ hc
      simp only
      rw [doMods_trace indexBuffers m p vertexAttrs mods curSkin st1, hu]
  | .Skin skin :: mods, curSkin, st => by
    rw [doMods, doMods_trace indexBuffers m p vertexAttrs mods skin { st with useSkin := true },
      runClusters_useSkin]
    simp only [skinTrace, skinsOf]
    cases runClusters indexBuffers m p vertexAttrs (skinTrace skin mods) st with
    | error err => rfl
    | ok out => simp [Except.map]

/-- The `curSkin` in force at a cluster is the most recent Skin modifier
before it in the list, or the `curSkin` the list was entered with. -/
theorem skinTrace_scope (item : PrimitiveCluster) (post : List PrimitiveMod) :
    ∀ (pre : List PrimitiveMod) (curSkin : PrimitiveSkin),
    (skinTrace curSkin (pre ++ .Cluster item :: post))[(clustersOf pre).length]? =
      some (((skinsOf pre).getLast?).getD curSkin, item)
  | [], curSkin => by
    simp [skinTrace, clustersOf, skinsOf]
  | .Cluster c :: pre, curSkin => by
    have ih := skinTrace_scope item post pre curSkin
    simp only [List.cons_append, skinTrace, clustersOf, skinsOf, List.length_cons,
      List.getElem?_cons_succ]
    exact ih
  | .Skin s :: pre, curSkin => by
    have ih := skinTrace_scope item post pre s
    rw [List.cons_append, skinTrace]
    show (skinTrace s (pre ++ .Cluster item :: post))[(clustersOf pre).length]? = _
    rw [ih]
    show some (((skinsOf pre).getLast?).getD s, item) =
      some (((s :: skinsOf pre).getLast?).getD curSkin, item)
    cases hs : skinsOf pre with
    | nil => rfl
    | cons b l =>
      rw [List.getLast?_cons_cons]
      have hl : (b :: l).getLast? = some ((b :: l).getLast (List.cons_ne_nil b l)) :=
        List.getLast?_eq_getLast _ _
      rw [hl]
      rfl

theorem skinCluster_empty (main : GLTFMain) (prim : GltfPrimitive) (curSkin : PrimitiveSkin)
    (item : PrimitiveCluster) (h : curSkin.length = 0) :
    skinCluster main prim curSkin item = .ok main := by
  have hn : ¬ curSkin.length > 0 := by omega
  simp only [skinCluster, skinClusterStreams, hn, if_false]
  rfl

/-- The skin block of a Cluster with a non-empty `curSkin` is the joint
remap of the cluster with that skin, on the streams of the `WEIGHTS_0`
and `JOINTS_0` accessors of the primitive. -/
theorem skinClusterStreams_remap (main : GLTFMain) (prim : GltfPrimitive)
    (curSkin : PrimitiveSkin) (item : PrimitiveCluster) (weightIndex jointIndex : Nat)
    (weightAcc jointAcc : GltfAccessor) (weightStr jointStr : List Nat)
    (hskin : curSkin.length > 0)
    (h1 : attributesAt prim.attributes "WEIGHTS_0" = .ok weightIndex)
    (h2 : accessorsAt main weightIndex = .ok weightAcc)
    (h3 : streamAt main weightAcc.bufferView = .ok weightStr)
    (h4 : attributesAt prim.attributes "JOINTS_0" = .ok jointIndex)
    (h5 : accessorsAt main jointIndex = .ok jointAcc)
    (h6 : streamAt main jointAcc.bufferView = .ok jointStr) :
    skinClusterStreams main prim curSkin item =
      (remapCluster curSkin item weightStr weightAcc.byteOffset jointStr
        jointAcc.byteOffset).map (fun out => main.streams.set jointAcc.bufferView out) := by
  simp only [skinClusterStreams, remapCluster, hskin, if_true, h1, h2, h3, h4, h5, h6]
  cases readWeights weightStr (weightAcc.byteOffset + (4 * item.vertexStart) % 2 ^ 32)
      item.vertexCount with
  | error err => rfl
  | ok weights =>
    simp only
    cases (List.range item.vertexCount).foldl
        (remapVertex curSkin weights (jointAcc.byteOffset + (4 * item.vertexStart) % 2 ^ 32))
        (pure jointStr) with
    | error err => rfl
    | ok out => rfl

theorem skinsOf_append : ∀ (pre post : List PrimitiveMod),
    skinsOf (pre ++ post) = skinsOf pre ++ skinsOf post
  | [], _ => rfl
  | .Cluster _ :: pre, post => by
    rw [List.cons_append]
    simp only [skinsOf]
    exact skinsOf_append pre post
  | .Skin s :: pre, post => by
    rw [List.cons_append]
    simp only [skinsOf, List.cons_append]
    rw [skinsOf_append pre post]

theorem skinCluster_eq (main : GLTFMain) (prim : GltfPrimitive) (curSkin : PrimitiveSkin)
    (item : PrimitiveCluster) :
    skinCluster main prim curSkin item =
      (skinClusterStreams main prim curSkin item).map
        (fun streams => { main with streams := streams }) := by
  unfold skinCluster
  cases skinClusterStreams main prim curSkin item with
  | error err => rfl
  | ok streams => rfl

/-- The Cluster branch in terms of the skin block: the document gets the
accessor of the cluster, the stream list is the one the skin block leaves
for the new primitive, and the primitive is appended to the mesh. -/
theorem doCluster_streams (indexBuffers : List Indices) (m : Mesh) (p : Primitive)
    (vertexAttrs : Attrs) (curSkin : PrimitiveSkin) (item : PrimitiveCluster) (st : MeshState)
    (ids : Indices) (base : GltfAccessor)
    (hids : indexBuffers[(m.indexBaseIndex + p.indexBufferIndex) % 2 ^ 32]? = some ids)
    (hbase : st.main.accessors[ids.acc]? = some base) :
    doCluster indexBuffers m p vertexAttrs curSkin item st =
      (skinClusterStreams
        { st.main with accessors := st.main.accessors ++ [clusterAccessor base ids item] }
        (clusterPrimitive m p vertexAttrs st.main.accessors.length) curSkin item).map
        (fun streams =>
          { st with
            main := { st.main with
              accessors := st.main.accessors ++ [clusterAccessor base ids item]
              streams := streams }
            mesh := { primitives := st.mesh.primitives ++
              [clusterPrimitive m p vertexAttrs st.main.accessors.length] } }) := by
  have hacc : accessorsAt st.main ids.acc = .ok base := by
    unfold accessorsAt
    rw [hbase]
    rfl
  unfold doCluster
  rw [hids]
  simp only [hacc]
  rw [skinCluster_eq]
  show (match (skinClusterStreams
      { st.main with accessors := st.main.accessors ++ [clusterAccessor base ids item] }
      (clusterPrimitive m p vertexAttrs st.main.accessors.length) curSkin item).map
      (fun streams => ({ st.main with
        accessors := st.main.accessors ++ [clusterAccessor base ids item]
        streams := streams } : GLTFMain)) with
    | .error err => throw err
    | .ok main => pure { st with main := main, mesh := { primitives := st.mesh.primitives ++
        [clusterPrimitive m p vertexAttrs st.main.accessors.length] } }) = _
  cases skinClusterStreams
      { st.main with accessors := st.main.accessors ++ [clusterAccessor base ids item] }
      (clusterPrimitive m p vertexAttrs st.main.accessors.length) curSkin item with
  | error err => rfl
  | ok streams => rfl

set_option maxRecDepth 100000 in
/-- A run of two primitives over three vertices with the joint bytes
`3, 3, 6, 0`: only the vertex of the cluster after the Skin modifier is
remapped; the cluster before it and the cluster of the next primitive
are not. -/
theorem exampleSkinScope_run :
    (doPrims [{ base := [("WEIGHTS_0", 1), ("JOINTS_0", 2)] }] [{ acc := 0, size := 2 }] {}
      [{ mods := [.Cluster { vertexCount := 1 }, .Skin [7, 8, 9],
                  .Cluster { vertexStart := 1, vertexCount := 1 }] },
       { mods := [.Cluster { vertexStart := 2, vertexCount := 1 }] }]
      { main := { accessors := [{ bufferView := 0 }, { bufferView := 1 }, { bufferView := 2 }]
                  streams := [[], [1, 1, 1, 1, 1, 0, 1, 1, 1, 1, 1, 1],
                    [3, 3, 6, 0, 3, 3, 6, 0, 3, 3, 6, 0]] } }).map
        (fun st => (st.main.streams, st.useSkin)) =
      .ok ([[], [1, 1, 1, 1, 1, 0, 1, 1, 1, 1, 1, 1], [3, 3, 6, 0, 8, 3, 9, 7, 3, 3, 6, 0]],
        true) := by
  decide

/-- C32: the scope of a Skin modifier. The modifier loop of a primitive
runs its clusters in order, each with the `curSkin` in force; for a
cluster that stands after the modifiers `pre`, that is the most recent
Skin modifier of `pre`, and the empty list when `pre` holds no Skin
modifier. A cluster whose skin in force is empty is not remapped: the
document is as it was. A cluster with a non-empty skin in force has its
joints remapped with that skin: the stream list the Cluster branch leaves
in the document is the one of the skin block, which is the joint remap of
the cluster written into the stream of the `JOINTS_0` accessor. Every
primitive of a mesh is entered with an empty `curSkin`, so the skin in
force at a cluster comes from the modifier list of its own primitive. In
the run at the end only the vertex of the cluster after the Skin modifier
is remapped. -/
theorem skin_modifier_scope :
    (∀ (indexBuffers : List Indices) (m : Mesh) (p : Primitive) (vertexAttrs : Attrs)
      (mods : List PrimitiveMod) (st : MeshState),
      doMods indexBuffers m p vertexAttrs mods [] st =
        (runClusters indexBuffers m p vertexAttrs (skinTrace [] mods) st).map
          (fun out => { out with useSkin := st.useSkin || !(skinsOf mods).isEmpty })) ∧
    (∀ (pre : List PrimitiveMod) (item : PrimitiveCluster) (post : List PrimitiveMod),
      (skinTrace [] (pre ++ .Cluster item :: post))[(clustersOf pre).length]? =
        some (lastSkin pre, item)) ∧
    (∀ (pre : List PrimitiveMod), skinsOf pre = [] → lastSkin pre = []) ∧
    (∀ (pre : List PrimitiveMod) (s : PrimitiveSkin) (mid : List PrimitiveMod),
      skinsOf mid = [] → lastSkin (pre ++ .Skin s :: mid) = s) ∧
    (∀ (main : GLTFMain) (prim : GltfPrimitive) (curSkin : PrimitiveSkin)
      (item : PrimitiveCluster), curSkin.length = 0 →
      skinCluster main prim curSkin item = .ok main) ∧
    (∀ (main : GLTFMain) (prim : GltfPrimitive) (curSkin : PrimitiveSkin)
      (item : PrimitiveCluster) (weightIndex jointIndex : Nat)
      (weightAcc jointAcc : GltfAccessor) (weightStr jointStr : List Nat),
      curSkin.length > 0 →
      attributesAt prim.attributes "WEIGHTS_0" = .ok weightIndex →
      accessorsAt main weightIndex = .ok weightAcc →
      streamAt main weightAcc.bufferView = .ok weightStr →
      attributesAt prim.attributes "JOINTS_0" = .ok jointIndex →
      accessorsAt main jointIndex = .ok jointAcc →
      streamAt main jointAcc.bufferView = .ok jointStr →
      skinClusterStreams main prim curSkin item =
        (remapCluster curSkin item weightStr weightAcc.byteOffset jointStr
          jointAcc.byteOffset).map (fun out => main.streams.set jointAcc.bufferView out)) ∧
    (∀ (main : GLTFMain) (prim : GltfPrimitive) (curSkin : PrimitiveSkin)
      (item : PrimitiveCluster),
      skinCluster main prim curSkin item =
        (skinClusterStreams main prim curSkin item).map
          (fun streams => { main with streams := streams })) ∧
    (∀ (indexBuffers : List Indices) (m : Mesh) (p : Primitive) (vertexAttrs : Attrs)
      (curSkin : PrimitiveSkin) (item : PrimitiveCluster) (st : MeshState) (ids : Indices)
      (base : GltfAccessor),
      indexBuffers[(m.indexBaseIndex + p.indexBufferIndex) % 2 ^ 32]? = some ids →
      st.main.accessors[ids.acc]? = some base →
      doCluster indexBuffers m p vertexAttrs curSkin item st =
        (skinClusterStreams
          { st.main with accessors := st.main.accessors ++ [clusterAccessor base ids item] }
          (clusterPrimitive m p vertexAttrs st.main.accessors.length) curSkin item).map
          (fun streams =>
            { st with
              main := { st.main with
                accessors := st.main.accessors ++ [clusterAccessor base ids item]
                streams := streams }
              mesh := { primitives := st.mesh.primitives ++
                [clusterPrimitive m p vertexAttrs st.main.accessors.length] } })) ∧
    (doPrims [{ base := [("WEIGHTS_0", 1), ("JOINTS_0", 2)] }] [{ acc := 0, size := 2 }] {}
      [{ mods := [.Cluster { vertexCount := 1 }, .Skin [7, 8, 9],
                  .Cluster { vertexStart := 1, vertexCount := 1 }] },
       { mods := [.Cluster { vertexStart := 2, vertexCount := 1 }] }]
      { main := { accessors := [{ bufferView := 0 }, { bufferView := 1 }, { bufferView := 2 }]
                  streams := [[], [1, 1, 1, 1, 1, 0, 1, 1, 1, 1, 1, 1],
                    [3, 3, 6, 0, 3, 3, 6, 0, 3, 3, 6, 0]] } }).map
        (fun st => (st.main.streams, st.useSkin)) =
      .ok ([[], [1, 1, 1, 1, 1, 0, 1, 1, 1, 1, 1, 1], [3, 3, 6, 0, 8, 3, 9, 7, 3, 3, 6, 0]],
        true) ∧
    (∀ (vertexBuffers : List Attrs) (indexBuffers : List Indices) (m : Mesh) (p : Primitive)
      (prims : List Primitive) (st : MeshState),
      doPrims vertexBuffers indexBuffers m (p :: prims) st =
        match vertexBuffers[(m.vertexBaseIndex + p.vertexBufferIndex) % 2 ^ 32]? with
        | none => .error Error.OutOfRange
        | some vertexAttrs =>
          match (runClusters indexBuffers m p vertexAttrs (skinTrace [] p.mods) st).map
              (fun out => { out with useSkin := st.useSkin || !(skinsOf p.mods).isEmpty }) with
          | .error err => .error err
          | .ok st1 => doPrims vertexBuffers indexBuffers m prims st1) := by
  refine ⟨fun ib m p va mods st => doMods_trace ib m p va mods [] st,
    fun pre item post => skinTrace_scope item post pre [], ?_, ?_, skinCluster_empty,
    skinClusterStreams_remap, skinCluster_eq, doCluster_streams, exampleSkinScope_run, ?_⟩
  · intro pre h
    unfold lastSkin
    rw [h]
    rfl
  · intro pre s mid h
    unfold lastSkin
    rw [skinsOf_append]
    simp only [skinsOf, h]
    rw [List.getLast?_append]
    rfl
  · intro vb ib m p prims st
    rw [doPrims]
    cases vb[(m.vertexBaseIndex + p.vertexBufferIndex) % 2 ^ 32]? with
    | none => rfl
    | some va =>
      simp only
      rw [doMods_trace]
      rfl

/-- A run of the skin scope: of the modifiers Cluster, Skin, Cluster, the
first cluster has no skin in force and the second has the Skin before it;
a second primitive starts without a skin. -/
theorem skin_modifier_scope_example :
    skinTrace [] [.Cluster { vertexCount := 1 }, .Skin [7, 8, 9],
        .Cluster { vertexStart := 1, vertexCount := 1 }] =
      [([], { vertexCount := 1 }), ([7, 8, 9], { vertexStart := 1, vertexCount := 1 })] ∧
    lastSkin [.Cluster { vertexCount := 1 }, .Skin [7, 8, 9]] = [7, 8, 9] ∧
    skinTrace [] [.Cluster { vertexCount := 2 }] = [([], { vertexCount := 2 })] := by
  decide

/-! ## Node skin assignment -/

theorem doMods_useSkin (indexBuffers : List Indices) (m : Mesh) (p : Primitive)
    (vertexAttrs : Attrs) (mods : List PrimitiveMod) (curSkin : PrimitiveSkin)
    (st out : MeshState) (h : doMods indexBuffers m p vertexAttrs mods curSkin st = .ok out) :
    out.useSkin = (st.useSkin || !(skinsOf mods).isEmpty) := by
  rw [doMods_trace] at h
  obtain ⟨o, _, ho⟩ := Except_map_ok h
  rw [ho]

/-- The flag `useSkin` after the primitives of a mesh: it is set when it
was set before or a primitive carries a Skin modifier. -/
theorem doPrims_useSkin (vertexBuffers : List Attrs) (indexBuffers : List Indices) (m : Mesh) :
    ∀ (prims : List Primitive) (st out : MeshState),
    doPrims vertexBuffers indexBuffers m prims st = .ok out →
    out.useSkin = (st.useSkin || prims.any (fun p => !(skinsOf p.mods).isEmpty))
  | [], st, out, h => by
    cases h
    simp
  | p :: prims, st, out, h => by
    rw [doPrims] at h
    split at h
    · cases h
    · rename_i vertexAttrs _
      cases hm : doMods indexBuffers m p vertexAttrs p.mods [] st with
      | error err =>
        rw [hm] at h
        cases h
      | ok st1 =>
        rw [hm] at h
        rw [doPrims_useSkin vertexBuffers indexBuffers m prims st1 out h,
          doMods_useSkin _ _ _ _ _ _ _ _ hm, List.any_cons, Bool.or_assoc]

theorem bindNodes_none_skin (meshIndex : Int) :
    ∀ (ns : List Nat) (nodes : List GltfNode),
    (bindNodes meshIndex none ns nodes).1.map (fun x => x.skin) = nodes.map (fun x => x.skin)
  | [], nodes => rfl
  | n :: ns, nodes => by
    unfold bindNodes
    split
    · rfl
    · rename_i g hg
      refine (bindNodes_none_skin meshIndex ns _).trans ?_
      obtain ⟨hlt, hget⟩ := List.getElem?_eq_some.1 hg
      apply List.ext_getElem?
      intro i
      rw [List.getElem?_map, List.getElem?_map, List.getElem?_set]
      by_cases hi : n = i
      · subst hi
        simp only [if_true, hlt, hg, Option.map_some', Option.getD_none]
      · simp only [hi, if_false]

theorem bindNodes_some_skin (meshIndex : Int) (skin : Int) :
    ∀ (ns : List Nat) (nodes : List GltfNode), (∀ x ∈ ns, x < nodes.length) →
    ∀ (x : Nat), x ∈ ns →
      ∃ g', (bindNodes meshIndex (some skin) ns nodes).1[x]? = some g' ∧ g'.skin = skin
  | [], _, _, x, hx => absurd hx (List.not_mem_nil x)
  | n :: ns, nodes, hv, x, hx => by
    have hn : n < nodes.length := hv n (List.mem_cons_self _ _)
    have hget : nodes[n]? = some nodes[n] := List.getElem?_eq_getElem hn
    unfold bindNodes
    rw [hget]
    simp only
    have hv1 : ∀ y ∈ ns, y < (nodes.set n
        { nodes[n] with mesh := meshIndex, skin := (some skin).getD nodes[n].skin }).length := by
      intro y hy
      rw [List.length_set]
      exact hv y (List.mem_cons_of_mem _ hy)
    by_cases hmem : x ∈ ns
    · exact bindNodes_some_skin meshIndex skin ns _ hv1 x hmem
    · have hxn : x = n := by
        rcases List.mem_cons.1 hx with heq | hm
        · exact heq
        · exact absurd hm hmem
      subst hxn
      obtain ⟨_, _, b3⟩ := bindNodes_spec meshIndex (some skin) ns _ hv1
      obtain ⟨g', h1, _, h3⟩ := b3 x
        { nodes[x] with mesh := meshIndex, skin := (some skin).getD nodes[x].skin }
        (by rw [List.getElem?_set_self hn])
      exact ⟨g', h1, by rw [h3 hmem]; rfl⟩

/-- C33: node skin assignment. For a mesh without any Skin modifier
`DoMesh` leaves the skin field of every node as it was, so a node whose
skin field changed was bound to a mesh with a Skin modifier. For a mesh
with a Skin modifier the nodes registered under the mesh key get the
index of the last skin, `main.skins.size() - 1`. -/
theorem node_skin_assignment (vertexBuffers : List Attrs) (indexBuffers : List Indices)
    (models : ModelMap) (main out : GLTFMain) (m : Mesh) (indexOffset : Nat)
    (h : DoMesh vertexBuffers indexBuffers models main m indexOffset = .ok out) :
    (hasSkinMod m = false →
      out.nodes.map (fun x => x.skin) = main.nodes.map (fun x => x.skin)) ∧
    (∀ (x : Nat) (g g' : GltfNode), main.nodes[x]? = some g → out.nodes[x]? = some g' →
      g'.skin ≠ g.skin → hasSkinMod m = true) ∧
    (hasSkinMod m = true →
      (∀ x ∈ registeredUnder models (meshKey m indexOffset), x < main.nodes.length) →
      ∀ x ∈ registeredUnder models (meshKey m indexOffset),
        ∃ g', out.nodes[x]? = some g' ∧ g'.skin = skinIndex main.skins.length) := by
  have h1 : hasSkinMod m = false →
      out.nodes.map (fun x => x.skin) = main.nodes.map (fun x => x.skin) := by
    intro hno
    unfold DoMesh at h
    split at h
    · cases h
      rfl
    · split at h
      · cases h
      · rename_i st hst
        obtain ⟨p1, _, _, _⟩ := doPrims_scene vertexBuffers indexBuffers m m.prims _ st hst
        have p1' : st.main.nodes = main.nodes := p1
        have hu : st.useSkin = false := by
          rw [doPrims_useSkin vertexBuffers indexBuffers m m.prims _ st hst]
          exact hno
        simp only at h
        split at h
        · cases h
          show st.main.nodes.map _ = _
          rw [p1']
        · rename_i ns _
          cases h
          show (bindNodes _ _ ns st.main.nodes).1.map _ = _
          rw [hu]
          simp only [Bool.false_eq_true, if_false]
          rw [bindNodes_none_skin, p1']
  refine ⟨h1, ?_, ?_⟩
  · intro x g g' hx hx' hne
    cases hs : hasSkinMod m with
    | true => rfl
    | false =>
      have heq := h1 hs
      have hm : (out.nodes.map (fun x => x.skin))[x]? = (main.nodes.map (fun x => x.skin))[x]? := by
        rw [heq]
      rw [List.getElem?_map, List.getElem?_map, hx, hx'] at hm
      exact absurd (Option.some.inj hm) hne
  · intro hyes hvalid x hx
    unfold DoMesh at h
    split at h
    · rename_i hempty
      have : m.prims = [] := List.isEmpty_iff.1 hempty
      unfold hasSkinMod at hyes
      rw [this] at hyes
      cases hyes
    · split at h
      · cases h
      · rename_i st hst
        obtain ⟨p1, _, p3, _⟩ := doPrims_scene vertexBuffers indexBuffers m m.prims _ st hst
        have p1' : st.main.nodes = main.nodes := p1
        have p3' : st.main.skins = main.skins := p3
        have hu : st.useSkin = true := by
          rw [doPrims_useSkin vertexBuffers indexBuffers m m.prims _ st hst]
          exact hyes
        unfold registeredUnder meshKey at hvalid hx
        simp only at h
        split at h
        · rename_i hnone
          rw [hnone] at hx
          exact absurd hx (List.not_mem_nil x)
        · rename_i ns hsome
          cases h
          rw [hsome] at hvalid hx
          show ∃ g', (bindNodes _ _ ns st.main.nodes).1[x]? = some g' ∧ _
          rw [hu]
          simp only [if_true]
          have hv : ∀ y ∈ ns, y < st.main.nodes.length := by
            rw [p1']
            exact hvalid
          obtain ⟨g', hg, hsk⟩ := bindNodes_some_skin
            (toInt32 (st.main.meshes.length % 2 ^ 32)) (skinIndex st.main.skins.length) ns
            st.main.nodes hv x hx
          exact ⟨g', hg, by rw [hsk, p3']⟩

/-- Witness of C33: a mesh without a Skin modifier is bound to a node
whose skin field is 5; the mesh field is set, the skin field stays. -/
theorem node_skin_assignment_witness :
    DoMesh [{}] [] [(0, [0])] { nodes := [{ name := "n", skin := 5 }] }
      { prims := [{ mods := [] }] } 0 =
      .ok { nodes := [{ name := "n", mesh := 0, skin := 5 }], meshes := [{}] } ∧
    hasSkinMod { prims := [{ mods := [] }] } = false ∧
    ({ nodes := [{ name := "n", mesh := 0, skin := 5 }], meshes := [{}] } : GLTFMain).nodes.map
        (fun x => x.skin) =
      ({ nodes := [{ name := "n", skin := 5 }] } : GLTFMain).nodes.map (fun x => x.skin) :=
  ⟨by decide, by decide,
    (node_skin_assignment [{}] [] [(0, [0])] { nodes := [{ name := "n", skin := 5 }] }
      { nodes := [{ name := "n", mesh := 0, skin := 5 }], meshes := [{}] }
      { prims := [{ mods := [] }] } 0 (by decide)).1 (by decide)⟩

/-- A run with a Skin modifier: the bound node gets the index of the last
of the two skins. -/
theorem node_skin_assignment_example :
    DoMesh [{}] [] [(0, [0])] { nodes := [{ name := "n", skin := 5 }], skins := [{}, {}] }
      { prims := [{ mods := [.Skin [1]] }] } 0 =
      .ok { nodes := [{ name := "n", mesh := 0, skin := 1 }], skins := [{}, {}],
            meshes := [{}] } := by
  decide

/-! ## Skin index validity -/

theorem bindNodes_skin_cases (meshIndex : Int) (skin : Option Int) :
    ∀ (ns : List Nat) (nodes : List GltfNode) (x : Nat) (g : GltfNode), nodes[x]? = some g →
    ∃ g', (bindNodes meshIndex skin ns nodes).1[x]? = some g' ∧
      (g'.skin = g.skin ∨ some g'.skin = skin)
  | [], nodes, x, g, hx => ⟨g, hx, Or.inl rfl⟩
  | n :: ns, nodes, x, g, hx => by
    unfold bindNodes
    split
    · exact ⟨g, hx, Or.inl rfl⟩
    · rename_i g0 hg0
      by_cases hxn : n = x
      · subst hxn
        have hgg : g0 = g := Option.some.inj (hg0.symm.trans hx)
        have hlt := (List.getElem?_eq_some.1 hg0).1
        obtain ⟨g', h1, h2⟩ := bindNodes_skin_cases meshIndex skin ns
          (nodes.set n { g0 with mesh := meshIndex, skin := skin.getD g0.skin }) n
          { g0 with mesh := meshIndex, skin := skin.getD g0.skin }
          (by rw [List.getElem?_set_self hlt])
        refine ⟨g', h1, ?_⟩
        rcases h2 with h2 | h2
        · cases skin with
          | none =>
            left
            rw [h2, ← hgg]
            rfl
          | some s => exact Or.inr (by rw [h2]; rfl)
        · exact Or.inr h2
      · exact bindNodes_skin_cases meshIndex skin ns _ x g
          (by rw [List.getElem?_set_ne hxn]; exact hx)

/-- The skin field of a node after `DoMesh`: the value of before or the
value `main.skins.size() - 1` stored as `int32`. The skin list is as
before. -/
theorem DoMesh_skin_cases (vertexBuffers : List Attrs) (indexBuffers : List Indices)
    (models : ModelMap) (main out : GLTFMain) (m : Mesh) (indexOffset : Nat)
    (h : DoMesh vertexBuffers indexBuffers models main m indexOffset = .ok out) :
    out.skins = main.skins ∧
    ∀ (x : Nat) (g : GltfNode), main.nodes[x]? = some g →
      ∃ g', out.nodes[x]? = some g' ∧
        (g'.skin = g.skin ∨ g'.skin = skinIndex main.skins.length) := by
  obtain ⟨hs, _, _⟩ := DoMesh_frame vertexBuffers indexBuffers models main out m indexOffset h
  refine ⟨hs, ?_⟩
  intro x g hx
  unfold DoMesh at h
  split at h
  · cases h
    exact ⟨g, hx, Or.inl rfl⟩
  · split at h
    · cases h
    · rename_i st hst
      obtain ⟨p1, _, p3, _⟩ := doPrims_scene vertexBuffers indexBuffers m m.prims _ st hst
      have p1' : st.main.nodes = main.nodes := p1
      have p3' : st.main.skins = main.skins := p3
      simp only at h
      split at h
      · cases h
        refine ⟨g, ?_, Or.inl rfl⟩
        show st.main.nodes[x]? = some g
        rw [p1']
        exact hx
      · rename_i ns _
        cases h
        obtain ⟨g', h1, h2⟩ := bindNodes_skin_cases (toInt32 (st.main.meshes.length % 2 ^ 32))
          (if st.useSkin then some (skinIndex st.main.skins.length) else none) ns
          st.main.nodes x g (by rw [p1']; exact hx)
        refine ⟨g', h1, ?_⟩
        rcases h2 with h2 | h2
        · exact Or.inl h2
        · right
          split at h2
          · rw [p3'] at h2
            exact Option.some.inj h2
          · cases h2

theorem doMeshes_skin_cases (vertexBuffers : List Attrs) (indexBuffers : List Indices)
    (models : ModelMap) (indexOffset : Nat) :
    ∀ (meshes : List Mesh) (main out : GLTFMain),
    doMeshes vertexBuffers indexBuffers models indexOffset meshes main = .ok out →
    out.skins = main.skins ∧
    ∀ (x : Nat) (g : GltfNode), main.nodes[x]? = some g →
      ∃ g', out.nodes[x]? = some g' ∧
        (g'.skin = g.skin ∨ g'.skin = skinIndex main.skins.length)
  | [], main, out, h => by
    cases h
    exact ⟨rfl, fun x g hx => ⟨g, hx, Or.inl rfl⟩⟩
  | m :: meshes, main, out, h => by
    unfold doMeshes at h
    split at h
    · cases h
    · rename_i mid hmid
      obtain ⟨a1, a2⟩ := DoMesh_skin_cases vertexBuffers indexBuffers models main mid m
        indexOffset hmid
      obtain ⟨b1, b2⟩ := doMeshes_skin_cases vertexBuffers indexBuffers models indexOffset
        meshes mid out h
      refine ⟨b1.trans a1, ?_⟩
      intro x g hx
      obtain ⟨g1, hg1, hs1⟩ := a2 x g hx
      obtain ⟨g2, hg2, hs2⟩ := b2 x g1 hg1
      refine ⟨g2, hg2, ?_⟩
      rw [a1] at hs2
      rcases hs2 with hs2 | hs2
      · rcases hs1 with hs1 | hs1
        · exact Or.inl (hs2.trans hs1)
        · exact Or.inr (hs2.trans hs1)
      · exact Or.inr hs2

theorem skinIndex_valid (n : Nat) (h0 : 0 < n) (h : n < 2 ^ 31) :
    0 ≤ skinIndex n ∧ skinIndex n < (n : Int) ∧ skinIndex n = (n : Int) - 1 := by
  have hne : ¬ n = 0 := by omega
  have hv : skinIndex n = ((n - 1 : Nat) : Int) := by
    unfold skinIndex
    rw [if_neg hne]
    exact toInt32_small (n - 1) (by omega)
  rw [hv]
  omega

/-- The number of skins of an assembled scene: one more than before when
the header has rig nodes. -/
theorem assembleScene_skins_length (hdr : Header) (decoded : Decoded) (main out : GLTFMain)
    (h : ArcExtract.assembleScene hdr decoded main = .ok out) :
    out.skins.length = main.skins.length + (if 0 < hdr.numRigNodes then 1 else 0) := by
  obtain ⟨st, linked, mid, hst, hl, hmid, hout⟩ := assembleScene_stages hdr decoded main out h
  obtain ⟨r1, r2, _⟩ := registerNodes_frame decoded.nodes _ st hst
  obtain ⟨_, _, _, l4, _⟩ := linkParents_frame _ _ _ linked hl
  obtain ⟨m1, _, _⟩ := doMeshes_frame _ _ _ _ _ _ mid hmid
  obtain ⟨m2, _, _⟩ := doMeshes_frame _ _ _ _ _ _ out hout
  have hb : st.bones.length = hdr.numRigNodes := by
    rw [r2]
    exact List.length_replicate ..
  have hs : st.main.skins = main.skins := by
    rw [r1]
  rw [m2, m1, (emitSkin_spec st.bones linked).1, List.length_append, l4, hs, hb]
  split <;> rfl

/-- C37, counterexample: the value `DoMesh` stores need not be an index
into the skin list. With `numRigNodes = 0` no skin is emitted; a mesh
with a Skin modifier bound to a node stores `main.skins.size() - 1`, which
is -1 as an `int32`. In the assembled scene the node is bound to the mesh
and its skin field is -1 with an empty skin list; on a node whose skin
field was 5 the store is visible as the change from 5 to -1. -/
theorem skin_index_counterexample :
    ArcExtract.assembleScene { numRigNodes := 0 }
      { nodes := [.Model { name := "a" } 0]
        meshes := [{ prims := [{ mods := [.Skin [0]] }] }]
        vertexBuffers := [{}] } {} =
      .ok { nodes := [{ name := "a", mesh := 0, skin := -1 }], meshes := [{}], skins := [],
            scenes := [{ nodes := [0] }] } ∧
    hasSkinMod { prims := [{ mods := [.Skin [0]] }] } = true ∧
    skinIndex 0 = -1 ∧
    DoMesh [{}] [] [(0, [0])] { nodes := [{ name := "n", skin := 5 }] }
      { prims := [{ mods := [.Skin [0]] }] } 0 =
      .ok { nodes := [{ name := "n", mesh := 0, skin := -1 }], meshes := [{}] } := by
  decide

/-- C37, amended: skin index validity. For an archive whose header has
`numRigNodes > 0` (and a skin list below 2^31 entries) one skin is
emitted before the mesh loops, every document the two mesh loops work on
has the skin list of the output, and the value `DoMesh` stores in a skin
field, `main.skins.size() - 1`, is non-negative and smaller than the
number of skins of the output. In the output every new node has the skin
field -1 (never set) or such an index. -/
theorem skin_index_validity (hdr : Header) (decoded : Decoded) (main out : GLTFMain)
    (h : ArcExtract.assembleScene hdr decoded main = .ok out)
    (hrig : 0 < hdr.numRigNodes) (hlen : main.skins.length + 1 < 2 ^ 31) :
    out.skins.length = main.skins.length + 1 ∧
    (0 ≤ skinIndex out.skins.length ∧ skinIndex out.skins.length < (out.skins.length : Int)) ∧
    (∀ (vertexBuffers : List Attrs) (indexBuffers : List Indices) (models : ModelMap)
      (doc doc' : GLTFMain) (m : Mesh) (indexOffset : Nat), doc.skins = out.skins →
      DoMesh vertexBuffers indexBuffers models doc m indexOffset = .ok doc' →
      doc'.skins = out.skins ∧
      ∀ (x : Nat) (g : GltfNode), doc.nodes[x]? = some g →
        ∃ g', doc'.nodes[x]? = some g' ∧
          (g'.skin = g.skin ∨ (0 ≤ g'.skin ∧ g'.skin < (out.skins.length : Int)))) ∧
    (∃ (st : NodeState) (linked mid : GLTFMain),
      doMeshes decoded.vertexBuffers decoded.indexBuffers st.models hdr.numSkinnedModels
        decoded.meshes (emitSkin st.bones linked) = .ok mid ∧
      doMeshes decoded.vertexBuffers decoded.indexBuffers st.models 0
        decoded.skinnedMeshes mid = .ok out ∧
      (emitSkin st.bones linked).skins = out.skins ∧ mid.skins = out.skins) ∧
    (∀ (x : Nat) (g' : GltfNode), out.nodes[x]? = some g' → main.nodes.length ≤ x →
      g'.skin = -1 ∨ (0 ≤ g'.skin ∧ g'.skin < (out.skins.length : Int))) := by
  have hsk := assembleScene_skins_length hdr decoded main out h
  have hsk' : out.skins.length = main.skins.length + 1 := by
    rw [hsk, if_pos hrig]
  obtain ⟨v0, v1, _⟩ := skinIndex_valid out.skins.length (by omega) (by omega)
  obtain ⟨st, linked, mid, hst, hl, hmid, hout⟩ := assembleScene_stages hdr decoded main out h
  obtain ⟨m1, m2⟩ := doMeshes_skin_cases _ _ _ _ _ _ mid hmid
  obtain ⟨o1, o2⟩ := doMeshes_skin_cases _ _ _ _ _ _ out hout
  have hes : (emitSkin st.bones linked).skins = out.skins := (o1.trans m1).symm
  refine ⟨hsk', ⟨v0, v1⟩, ?_, ⟨st, linked, mid, hmid, hout, hes, o1.symm⟩, ?_⟩
  · intro vb ib models doc doc' m off hdoc hd
    obtain ⟨d1, d2⟩ := DoMesh_skin_cases vb ib models doc doc' m off hd
    refine ⟨d1.trans hdoc, ?_⟩
    intro x g hx
    obtain ⟨g', hg', hs⟩ := d2 x g hx
    refine ⟨g', hg', ?_⟩
    rcases hs with hs | hs
    · exact Or.inl hs
    · right
      rw [hs, hdoc]
      exact ⟨v0, v1⟩
  · intro x g' hx hge
    obtain ⟨r1, _, _⟩ := registerNodes_frame decoded.nodes _ st hst
    obtain ⟨_, l2, _⟩ := linkParents_frame _ _ _ linked hl
    have e2 := (emitSkin_spec st.bones linked).2.1
    have hlt : x < out.nodes.length := (List.getElem?_eq_some.1 hx).1
    obtain ⟨_, mlen, _⟩ := doMeshes_frame _ _ _ _ _ _ mid hmid
    obtain ⟨_, olen, _⟩ := doMeshes_frame _ _ _ _ _ _ out hout
    have hx0 : x < (emitSkin st.bones linked).nodes.length := by
      rw [← mlen, ← olen]
      exact hlt
    have hg0 : (emitSkin st.bones linked).nodes[x]? =
        some ((emitSkin st.bones linked).nodes[x]) := List.getElem?_eq_getElem hx0
    have hskin0 : ((emitSkin st.bones linked).nodes[x]).skin = -1 := by
      have hmap : ((emitSkin st.bones linked).nodes.map (fun y => (y.name, y.mesh, y.skin)))[x]? =
          (st.main.nodes.map (fun y => (y.name, y.mesh, y.skin)))[x]? := by
        rw [e2, l2]
      rw [List.getElem?_map, hg0, r1] at hmap
      have hnew : (main.nodes ++ decoded.nodes.map
          (fun n => ({ name := n.base.name } : GltfNode)))[x]? =
          (decoded.nodes.map (fun n => ({ name := n.base.name } : GltfNode)))[x -
            main.nodes.length]? := List.getElem?_append_right hge
      rw [List.getElem?_map] at hmap
      change _ = Option.map _ ((main.nodes ++ decoded.nodes.map
          (fun n => ({ name := n.base.name } : GltfNode)))[x]?) at hmap
      rw [hnew, List.getElem?_map] at hmap
      cases hd : decoded.nodes[x - main.nodes.length]? with
      | none =>
        rw [hd] at hmap
        cases hmap
      | some n =>
        rw [hd] at hmap
        simp only [Option.map_some', Option.some.injEq, Prod.mk.injEq] at hmap
        exact hmap.2.2
    obtain ⟨g1, hg1, hs1⟩ := m2 x _ hg0
    obtain ⟨g2, hg2, hs2⟩ := o2 x g1 hg1
    rw [hx] at hg2
    cases hg2
    rw [m1, hes] at hs2
    rw [hes] at hs1
    rcases hs2 with hs2 | hs2
    · rcases hs1 with hs1 | hs1
      · exact Or.inl (hs2.trans (hs1.trans hskin0))
      · right
        rw [hs2, hs1]
        exact ⟨v0, v1⟩
    · right
      rw [hs2]
      exact ⟨v0, v1⟩

/-- Witness of the amended C37: with one rig node slot, the node bound to
a mesh with a Skin modifier gets the skin index 0 of the one skin. -/
theorem skin_index_validity_witness :
    ArcExtract.assembleScene { numRigNodes := 1 } exampleSkinned {} = .ok exampleSkinnedScene ∧
    exampleSkinnedScene.skins.length = ({} : GLTFMain).skins.length + 1 ∧
    (0 ≤ skinIndex exampleSkinnedScene.skins.length ∧
      skinIndex exampleSkinnedScene.skins.length < (exampleSkinnedScene.skins.length : Int)) :=
  ⟨by decide,
    (skin_index_validity { numRigNodes := 1 } exampleSkinned {} exampleSkinnedScene
      (by decide) (by decide) (by decide)).1,
    (skin_index_validity { numRigNodes := 1 } exampleSkinned {} exampleSkinnedScene
      (by decide) (by decide) (by decide)).2.1⟩

/-! ## Vertex-buffer channel layout -/

theorem layout_table (flags : Nat) :
    (ReadVertexBuffer.layout flags).descs =
      ((channelsPresent flags).map (fun c => c.2.1)).flatten ∧
    (ReadVertexBuffer.layout flags).curOffset =
      ((channelsPresent flags).map (fun c => c.2.2)).sum ∧
    (ReadVertexBuffer.layout flags).curOffset ≤ 72 := by
  unfold ReadVertexBuffer.layout channelsPresent channelTable
  simp only [List.filter_cons, List.filter_nil]
  generalize hasFlag flags VBFlags.Position = b0
  generalize hasFlag flags VBFlags.Normal = b1
  generalize hasFlag flags VBFlags.Color = b2
  generalize hasFlag flags VBFlags.Uv0 = b3
  generalize hasFlag flags VBFlags.Uv1 = b4
  generalize hasFlag flags VBFlags.Uv2 = b5
  generalize hasFlag flags VBFlags.BoneWeight = b6
  cases b0 <;> cases b1 <;> cases b2 <;> cases b3 <;> cases b4 <;> cases b5 <;> cases b6 <;>
    exact ⟨rfl, rfl, by decide⟩

theorem deformRecord_spec (data : List Nat) (offset : Nat) (r : List Nat)
    (h : deformRecord data offset = some r) :
    offset + 32 ≤ data.length ∧ r.length = 12 ∧
    r = (data.drop (offset + 4)).take 4 ++ (data.drop (offset + 16)).take 4 ++
      (data.drop (offset + 28)).take 4 := by
  unfold deformRecord at h
  split at h
  · rename_i hle
    cases h
    refine ⟨hle, ?_, rfl⟩
    simp only [List.length_append, List.length_take, List.length_drop]
    omega
  · cases h

/-- The deform loop writes 12 bytes per vertex: the three 4-byte values
at the offsets 4, 16 and 28 of the record of the vertex. -/
theorem deformLoop_spec (data : List Nat) (curOffset stride : Nat) :
    ∀ (count v : Nat) (out : List Nat), deformLoop data curOffset stride count v = some out →
    out.length = 12 * count ∧
    ∀ k, k < count →
      curOffset + stride * (v + k) + 32 ≤ data.length ∧
      (out.drop (12 * k)).take 12 =
        (data.drop (curOffset + stride * (v + k) + 4)).take 4 ++
        (data.drop (curOffset + stride * (v + k) + 16)).take 4 ++
        (data.drop (curOffset + stride * (v + k) + 28)).take 4
  | 0, v, out, h => by
    cases h
    exact ⟨rfl, fun k hk => absurd hk (Nat.not_lt_zero k)⟩
  | count + 1, v, out, h => by
    unfold deformLoop at h
    split at h
    · cases h
    · rename_i r hr
      split at h
      · cases h
      · rename_i rest hrest
        cases h
        obtain ⟨hle, hlen, hrec⟩ := deformRecord_spec data _ r hr
        obtain ⟨ilen, ih⟩ := deformLoop_spec data curOffset stride count (v + 1) rest hrest
        refine ⟨by rw [List.length_append, hlen, ilen]; omega, ?_⟩
        intro k hk
        cases k with
        | zero =>
          rw [Nat.add_zero, Nat.mul_zero, List.drop_zero,
            List.take_append_of_le_length (by omega), List.take_of_length_le (by omega)]
          exact ⟨hle, hrec⟩
        | succ k =>
          obtain ⟨h1, h2⟩ := ih k (by omega)
          have hv : v + (k + 1) = v + 1 + k := by omega
          rw [hv]
          refine ⟨h1, ?_⟩
          have hd : 12 * (k + 1) = r.length + 12 * k := by omega
          rw [hd, ← List.drop_drop, List.drop_left]
          exact h2

/-- The deform loop returns when the record of every vertex lies inside
the vertex data. -/
theorem deformLoop_total (data : List Nat) (curOffset stride : Nat) :
    ∀ (count v : Nat), (∀ k, k < count → curOffset + stride * (v + k) + 32 ≤ data.length) →
    ∃ out, deformLoop data curOffset stride count v = some out
  | 0, _, _ => ⟨[], rfl⟩
  | count + 1, v, h => by
    have h0 : curOffset + stride * v + 32 ≤ data.length := h 0 (by omega)
    obtain ⟨rest, hrest⟩ := deformLoop_total data curOffset stride count (v + 1)
      (fun k hk => by
        have hk1 := h (k + 1) (by omega)
        have hv : v + 1 + k = v + (k + 1) := by omega
        rw [hv]
        exact hk1)
    refine ⟨(data.drop (curOffset + stride * v + 4)).take 4 ++
      (data.drop (curOffset + stride * v + 16)).take 4 ++
      (data.drop (curOffset + stride * v + 28)).take 4 ++ rest, ?_⟩
    unfold deformLoop
    simp only [deformRecord, if_pos h0, hrest]

/-- The body of `ReadVertexBuffer` returns exactly when the reads of the
deform loop stay inside the vertex data. -/
theorem ReadVertexBuffer_body_isSome (numVertices stride flags : Nat) (data : List Nat) :
    (ReadVertexBuffer.body numVertices stride flags data).isSome = true ↔
      (hasFlag flags VBFlags.DeformCurve = true → ∀ v, v < numVertices →
        (ReadVertexBuffer.layout flags).curOffset + stride * v + 32 ≤ data.length) := by
  unfold ReadVertexBuffer.body
  simp only
  by_cases hd : hasFlag flags VBFlags.DeformCurve = true
  · rw [if_pos hd]
    constructor
    · intro hsome _ v hv
      cases hl : deformLoop data (ReadVertexBuffer.layout flags).curOffset stride numVertices 0 with
      | none =>
        rw [hl] at hsome
        cases hsome
      | some bytes =>
        have hk := ((deformLoop_spec data _ stride numVertices 0 bytes hl).2 v hv).1
        rw [Nat.zero_add] at hk
        exact hk
    · intro hfit
      obtain ⟨out, hout⟩ := deformLoop_total data (ReadVertexBuffer.layout flags).curOffset stride
        numVertices 0 (fun k hk => by rw [Nat.zero_add]; exact hfit hd k hk)
      rw [hout]
      rfl
  · rw [if_neg hd]
    exact ⟨fun _ h => absurd h hd, fun _ => rfl⟩

/-- C34: vertex-buffer channel layout. The descriptors and the offset of
the deform record are those of the channels whose flag is set, taken from
the table in the order Position, Normal, Color, Uv0, Uv1, Uv2, bone
weights and indices: one descriptor per channel and two for the bone
channel, the offset being the sum of the widths 12, 12, 4, 8, 8, 8 and
20 of the channels present, hence at most 72. When the deform record of
every vertex lies inside the vertex data, the body of `ReadVertexBuffer`
returns: with the DeformCurve flag the deform stream receives, for every
vertex `v`, the three 4-byte values at the offsets 4, 16 and 28 of the
record at byte `offset + stride * v` of the vertex data; without it
nothing is written. -/
theorem vertex_channel_layout (numVertices stride flags : Nat) (data : List Nat)
    (hfit : hasFlag flags VBFlags.DeformCurve = true → ∀ v, v < numVertices →
      (ReadVertexBuffer.layout flags).curOffset + stride * v + 32 ≤ data.length) :
    (ReadVertexBuffer.layout flags).descs =
      ((channelsPresent flags).map (fun c => c.2.1)).flatten ∧
    (ReadVertexBuffer.layout flags).curOffset =
      ((channelsPresent flags).map (fun c => c.2.2)).sum ∧
    (ReadVertexBuffer.layout flags).curOffset ≤ 72 ∧
    (∀ (flag : VBFlags), (∃ c ∈ channelsPresent flags, c.1 = flag) ↔
      (hasFlag flags flag = true ∧ ∃ c ∈ channelTable, c.1 = flag)) ∧
    (∃ r : VertexRead, ReadVertexBuffer.body numVertices stride flags data = some r ∧
      r.descs = (ReadVertexBuffer.layout flags).descs ∧
      r.curOffset = (ReadVertexBuffer.layout flags).curOffset ∧
      (hasFlag flags VBFlags.DeformCurve = false → r.deformBytes = none) ∧
      (hasFlag flags VBFlags.DeformCurve = true →
        ∃ bytes, r.deformBytes = some bytes ∧ bytes.length = 12 * numVertices ∧
          ∀ v, v < numVertices →
            r.curOffset + stride * v + 32 ≤ data.length ∧
            (bytes.drop (12 * v)).take 12 =
              (data.drop (r.curOffset + stride * v + 4)).take 4 ++
              (data.drop (r.curOffset + stride * v + 16)).take 4 ++
              (data.drop (r.curOffset + stride * v + 28)).take 4)) := by
  obtain ⟨l1, l2, l3⟩ := layout_table flags
  refine ⟨l1, l2, l3, ?_, ?_⟩
  · intro flag
    unfold channelsPresent
    constructor
    · rintro ⟨c, hc, hf⟩
      obtain ⟨hmem, hset⟩ := List.mem_filter.1 hc
      exact ⟨by rw [← hf]; exact hset, c, hmem, hf⟩
    · rintro ⟨hset, c, hmem, hf⟩
      exact ⟨c, List.mem_filter.2 ⟨hmem, by rw [hf]; exact hset⟩, hf⟩
  · have hsome := (ReadVertexBuffer_body_isSome numVertices stride flags data).2 hfit
    obtain ⟨r, h⟩ := Option.isSome_iff_exists.1 hsome
    refine ⟨r, h, ?_⟩
    unfold ReadVertexBuffer.body at h
    simp only at h
    split at h
    · rename_i hd
      split at h
      · cases h
      · rename_i bytes hb
        cases h
        obtain ⟨blen, bspec⟩ := deformLoop_spec data _ stride numVertices 0 bytes hb
        refine ⟨rfl, rfl, ?_, ?_⟩
        · intro hno
          rw [hd] at hno
          cases hno
        · intro _
          refine ⟨bytes, rfl, blen, ?_⟩
          intro v hv
          have := bspec v hv
          rw [Nat.zero_add] at this
          exact this
    · rename_i hd
      cases h
      refine ⟨rfl, rfl, fun _ => rfl, ?_⟩
      intro hyes
      exact absurd hyes hd

/-- Witness of C34: flags Position and DeformCurve, two vertices of 48
bytes; the deform record of a vertex starts 12 bytes into it and the
deform stream receives 24 bytes. -/
theorem vertex_channel_layout_witness :
    ∃ r : VertexRead, ReadVertexBuffer.body 2 48 129 (List.range 96) = some r ∧
      r.descs = [⟨.R32G32B32, .FLOAT, .Position⟩] ∧ r.curOffset = 12 ∧
      ∃ bytes, r.deformBytes = some bytes ∧ bytes.length = 24 ∧
        (bytes.drop 12).take 12 =
          ((List.range 96).drop (r.curOffset + 48 * 1 + 4)).take 4 ++
          ((List.range 96).drop (r.curOffset + 48 * 1 + 16)).take 4 ++
          ((List.range 96).drop (r.curOffset + 48 * 1 + 28)).take 4 := by
  obtain ⟨_, _, _, _, r, hr, hd, ho, _, hb⟩ :=
    vertex_channel_layout 2 48 129 (List.range 96) (fun _ => by decide)
  obtain ⟨bytes, h1, h2, h3⟩ := hb (by decide)
  exact ⟨r, hr, hd.trans (by decide), ho.trans (by decide), bytes, h1, h2, (h3 1 (by decide)).2⟩

/-- A run of the vertex reader: flags Position and DeformCurve, one vertex
of 48 bytes whose byte `i` is `i`; the deform record starts at byte 12 and
the bytes written are those at 16, 28 and 40. -/
theorem vertex_channel_layout_example :
    ReadVertexBuffer.body 1 48 129 (List.range 48) =
      some { descs := [⟨.R32G32B32, .FLOAT, .Position⟩], curOffset := 12,
             deformBytes := some [16, 17, 18, 19, 28, 29, 30, 31, 40, 41, 42, 43] } ∧
    ReadVertexBuffer.body 1 40 129 (List.range 40) = none ∧
    (ReadVertexBuffer.layout 127).curOffset = 72 ∧
    (ReadVertexBuffer.layout 127).descs.map (fun d => d.usage) =
      [.Position, .Normal, .VertexColor, .TextureCoordiante, .TextureCoordiante,
       .TextureCoordiante, .BoneWeights, .BoneIndices] ∧
    (ReadVertexBuffer.layout 6).descs.map (fun d => d.usage) = [.Normal, .VertexColor] := by
  decide

/-! ## Endianness auto-detection -/

theorem drop_add_of {α : Type} (l xs : List α) (p k : Nat) (h : l.drop p = xs) :
    l.drop (p + k) = xs.drop k := by
  rw [← h, List.drop_drop, Nat.add_comm]

theorem Read32_at (rd : BinReader) (b0 b1 b2 b3 : Nat) (rest : List Nat)
    (h : rd.str.drop rd.pos = b0 :: b1 :: b2 :: b3 :: rest) :
    rd.Read32 =
      .ok (if rd.swapped then b3 + 256 * b2 + 65536 * b1 + 16777216 * b0
           else b0 + 256 * b1 + 65536 * b2 + 16777216 * b3,
        { rd with pos := rd.pos + 4 }) := by
  unfold BinReader.Read32
  rw [h]
  rfl

/-- C35: endianness auto-detection of `HeaderBase::Read`. On a cursor that
does not swap and stands before a platform tag and four more bytes, the
header is read and the cursor is 8 bytes further; stream, origin and stack
are as before. When the version read lowest byte first is greater than
`0x10000`, the cursor swaps afterwards and the version of the header is
the same four bytes read highest byte first, the byte-reversed value;
otherwise the cursor does not swap and the version is the value read. -/
theorem endianness_detection (rd : BinReader) (b0 b1 b2 b3 b4 b5 b6 b7 : Nat)
    (rest : List Nat) (hs : rd.swapped = false)
    (hd : rd.str.drop rd.pos = b0 :: b1 :: b2 :: b3 :: b4 :: b5 :: b6 :: b7 :: rest)
    (hid : b0 + 256 * b1 + 65536 * b2 + 16777216 * b3 ∈ Platform.all)
    (hbytes : b4 < 256 ∧ b5 < 256 ∧ b6 < 256 ∧ b7 < 256) :
    ∃ hdr rd', HeaderBase.Read rd = .ok (hdr, rd') ∧
      rd'.pos = rd.pos + 8 ∧ rd'.str = rd.str ∧ rd'.origin = rd.origin ∧
      rd'.stack = rd.stack ∧
      hdr.id = b0 + 256 * b1 + 65536 * b2 + 16777216 * b3 ∧
      (b4 + 256 * b5 + 65536 * b6 + 16777216 * b7 > 0x10000 →
        rd'.swapped = true ∧
        hdr.version = b7 + 256 * b6 + 65536 * b5 + 16777216 * b4 ∧
        hdr.version = byteReverse32 (b4 + 256 * b5 + 65536 * b6 + 16777216 * b7)) ∧
      (¬ b4 + 256 * b5 + 65536 * b6 + 16777216 * b7 > 0x10000 →
        rd'.swapped = false ∧
        hdr.version = b4 + 256 * b5 + 65536 * b6 + 16777216 * b7) := by
  obtain ⟨str, pos, origin, swapped, stack⟩ := rd
  simp only at hs hd
  subst hs
  have h1 := Read32_at
    { str := str, pos := pos, origin := origin, swapped := false, stack := stack }
    b0 b1 b2 b3 _ hd
  simp only [Bool.false_eq_true, if_false] at h1
  have hd2 : str.drop (pos + 4) = b4 :: b5 :: b6 :: b7 :: rest := drop_add_of str _ pos 4 hd
  have h2 := Read32_at
    { str := str, pos := pos + 4, origin := origin, swapped := false, stack := stack }
    b4 b5 b6 b7 rest hd2
  simp only [Bool.false_eq_true, if_false] at h2
  have hskip : (BinReader.Skip
      { str := str, pos := pos + 4 + 4, origin := origin, swapped := false, stack := stack }
      (-4)).SwapEndian true =
      { str := str, pos := pos + 4, origin := origin, swapped := true, stack := stack } := by
    unfold BinReader.Skip BinReader.SwapEndian
    have : (((pos + 4 + 4 : Nat) : Int) + -4).toNat = pos + 4 := by omega
    simp only [this]
  have h3 := Read32_at
    { str := str, pos := pos + 4, origin := origin, swapped := true, stack := stack }
    b4 b5 b6 b7 rest hd2
  simp only [if_true] at h3
  by_cases hv : b4 + 256 * b5 + 65536 * b6 + 16777216 * b7 > 0x10000
  · refine ⟨{ id := b0 + 256 * b1 + 65536 * b2 + 16777216 * b3,
              version := b7 + 256 * b6 + 65536 * b5 + 16777216 * b4 },
      { str := str, pos := pos + 4 + 4, origin := origin, swapped := true, stack := stack },
      ?_, rfl, rfl, rfl, rfl, rfl, ?_, ?_⟩
    · unfold HeaderBase.Read
      rw [h1]
      simp only [hid, if_true]
      rw [h2]
      simp only [hv, if_true]
      rw [hskip, h3]
      rfl
    · intro _
      refine ⟨rfl, rfl, ?_⟩
      show b7 + 256 * b6 + 65536 * b5 + 16777216 * b4 = _
      unfold byteReverse32
      omega
    · intro hn
      exact absurd hv hn
  · refine ⟨{ id := b0 + 256 * b1 + 65536 * b2 + 16777216 * b3,
              version := b4 + 256 * b5 + 65536 * b6 + 16777216 * b7 },
      { str := str, pos := pos + 4 + 4, origin := origin, swapped := false, stack := stack },
      ?_, rfl, rfl, rfl, rfl, rfl, ?_, ?_⟩
    · unfold HeaderBase.Read
      rw [h1]
      simp only [hid, if_true]
      rw [h2]
      simp only [hv, if_false]
      rfl
    · intro hy
      exact absurd hy hv
    · intro _
      exact ⟨rfl, rfl⟩

/-- Witness of C35: the tag `filC` followed by the bytes `00 00 00 03`.
Read lowest byte first the version is `0x03000000`; the cursor swaps and
the version is 3. -/
theorem endianness_detection_witness :
    HeaderBase.Read { str := [102, 105, 108, 67, 0, 0, 0, 3, 9] } =
      .ok ({ id := 102 + 256 * 105 + 65536 * 108 + 16777216 * 67, version := 3 },
        { str := [102, 105, 108, 67, 0, 0, 0, 3, 9], pos := 8, swapped := true }) ∧
    ∃ hdr rd', HeaderBase.Read { str := [102, 105, 108, 67, 0, 0, 0, 3, 9] } = .ok (hdr, rd') ∧
      rd'.pos = 0 + 8 :=
  ⟨by decide,
    match endianness_detection { str := [102, 105, 108, 67, 0, 0, 0, 3, 9] }
      102 105 108 67 0 0 0 3 [9] rfl rfl (by decide) (by decide) with
    | ⟨hdr, rd', h, hp, _⟩ => ⟨hdr, rd', h, hp⟩⟩

/-! ## Material texture selection -/

theorem set_glIndex_offsets (textures : List TexturePtr) (index : Nat) (ptr : TexturePtr)
    (glIndex : Int) (h : textures[index]? = some ptr) :
    (textures.set index { ptr with glIndex := glIndex }).map (fun t => t.offset) =
      textures.map (fun t => t.offset) := by
  obtain ⟨pre, post, hsplit, _, hset⟩ := split_at_index textures index ptr h
  rw [hset, hsplit]
  simp

theorem stopsScan_congr (textures textures' : List TexturePtr) (mat : Material)
    (p : MaterialParam)
    (h : textures'.map (fun t => t.offset) = textures.map (fun t => t.offset)) :
    stopsScan textures' mat p = stopsScan textures mat p := by
  unfold stopsScan
  cases paramTextureSlot mat p with
  | none => rfl
  | some slot =>
    simp only
    have hs : (textures'.map (fun t => t.offset))[slot]? =
        (textures.map (fun t => t.offset))[slot]? := by rw [h]
    rw [List.getElem?_map, List.getElem?_map] at hs
    cases h1 : textures'[slot]? with
    | none =>
      rw [h1] at hs
      cases h2 : textures[slot]? with
      | none => rfl
      | some ptr =>
        rw [h2] at hs
        cases hs
    | some ptr' =>
      rw [h1] at hs
      cases h2 : textures[slot]? with
      | none =>
        rw [h2] at hs
        cases hs
      | some ptr =>
        rw [h2] at hs
        have : ptr'.offset = ptr.offset := Option.some.inj hs
        simp only [this]

/-- One param of the scan: the lambda returns `true` exactly for a param
that stops the scan and changes nothing then; otherwise the material is
bound to the texture in the slot of the param. The byte offsets of the
texture table never change. -/
theorem visitParam_spec (stream : List Nat) (mat : Material) (st st1 : TextureState)
    (gMat gMat1 : GltfMaterial) (p : MaterialParam) (b : Bool)
    (h : visitParam stream mat st gMat p = .ok (st1, gMat1, b)) :
    b = stopsScan st.textures mat p ∧
    st1.textures.map (fun t => t.offset) = st.textures.map (fun t => t.offset) ∧
    (b = true → st1 = st ∧ gMat1 = gMat) ∧
    (b = false → ∃ slot ptr, paramTextureSlot mat p = some slot ∧
      st1.textures[slot]? = some ptr ∧ gMat1.baseColorTexture = ptr.glIndex) := by
  unfold visitParam at h
  unfold stopsScan paramTextureSlot
  cases hti : p.textureIndex? with
  | none =>
    rw [hti] at h
    cases h
    exact ⟨rfl, rfl, fun _ => ⟨rfl, rfl⟩, fun hb => Bool.noConfusion hb⟩
  | some textureIndex =>
    rw [hti] at h
    simp only at h ⊢
    by_cases hgt : textureIndex > -1
    · rw [if_pos hgt] at h ⊢
      simp only at h ⊢
      cases hp : st.textures[(mat.hdr.textureBaseIndex + textureIndex.toNat) % 2 ^ 32]? with
      | none =>
        rw [hp] at h
        cases h
      | some ptr =>
        rw [hp] at h
        simp only at h ⊢
        by_cases hoff : ptr.offset < 0
        · rw [if_pos hoff] at h
          cases h
          exact ⟨by simp [hoff], rfl, fun _ => ⟨rfl, rfl⟩, fun hb => Bool.noConfusion hb⟩
        · rw [if_neg hoff] at h
          by_cases hgl : ptr.glIndex < 0
          · rw [if_pos hgl] at h
            unfold materialise at h
            simp only at h
            split at h
            · cases h
            · rename_i r hr
              split at hr
              · cases hr
              · rename_i call _
                cases hr
                cases h
                have hlt := (List.getElem?_eq_some.1 hp).1
                refine ⟨by simp [hoff], set_glIndex_offsets _ _ _ _ hp,
                  fun hb => Bool.noConfusion hb, fun _ =>
                    ⟨_, { ptr with glIndex := toInt32 (st.main.textures.length % 2 ^ 32) },
                      rfl, ?_, rfl⟩⟩
                show (st.textures.set _ _)[_]? = _
                rw [List.getElem?_set_self hlt]
          · rw [if_neg hgl] at h
            cases h
            exact ⟨by simp [hoff], rfl, fun hb => Bool.noConfusion hb, fun _ => ⟨_, ptr, rfl, hp, rfl⟩⟩
    · rw [if_neg hgt] at h ⊢
      cases h
      exact ⟨rfl, rfl, fun _ => ⟨rfl, rfl⟩, fun hb => Bool.noConfusion hb⟩

theorem visitParam_error_stop (stream : List Nat) (mat : Material) (st : TextureState)
    (gMat : GltfMaterial) (p : MaterialParam) (err : Error)
    (h : visitParam stream mat st gMat p = .error err) :
    stopsScan st.textures mat p = false := by
  unfold visitParam at h
  unfold stopsScan paramTextureSlot
  cases hti : p.textureIndex? with
  | none =>
    rw [hti] at h
    cases h
  | some textureIndex =>
    rw [hti] at h
    simp only at h ⊢
    by_cases hgt : textureIndex > -1
    · rw [if_pos hgt] at h ⊢
      simp only at h ⊢
      cases hp : st.textures[(mat.hdr.textureBaseIndex + textureIndex.toNat) % 2 ^ 32]? with
      | none => rfl
      | some ptr =>
        rw [hp] at h
        simp only at h ⊢
        by_cases hoff : ptr.offset < 0
        · rw [if_pos hoff] at h
          cases h
        · simp [hoff]
    · rw [if_neg hgt] at h
      cases h

theorem scannedParams_congr (textures textures' : List TexturePtr) (mat : Material)
    (params : List MaterialParam)
    (h : textures'.map (fun t => t.offset) = textures.map (fun t => t.offset)) :
    scannedParams textures' mat params = scannedParams textures mat params := by
  unfold scannedParams
  congr 1
  funext p
  rw [stopsScan_congr textures textures' mat p h]

/-- The scan over the params is the scan over the params before the first
one that stops it: what follows the stop has no effect. -/
theorem visitParams_scanned (stream : List Nat) (mat : Material) :
    ∀ (params : List MaterialParam) (st : TextureState) (gMat : GltfMaterial),
    visitParams stream mat params st gMat =
      visitParams stream mat (scannedParams st.textures mat params) st gMat
  | [], st, gMat => rfl
  | p :: params, st, gMat => by
    cases hv : visitParam stream mat st gMat p with
    | error err =>
      have hs := visitParam_error_stop stream mat st gMat p err hv
      have hsc : scannedParams st.textures mat (p :: params) =
          p :: scannedParams st.textures mat params := by
        unfold scannedParams
        rw [List.takeWhile_cons, hs]
        rfl
      rw [hsc]
      unfold visitParams
      rw [hv]
    | ok r =>
      obtain ⟨st1, gMat1, b⟩ := r
      obtain ⟨hb, hoff, htrue, _⟩ := visitParam_spec stream mat st st1 gMat gMat1 p b hv
      cases b with
      | true =>
        obtain ⟨e1, e2⟩ := htrue rfl
        have hsc : scannedParams st.textures mat (p :: params) = [] := by
          unfold scannedParams
          rw [List.takeWhile_cons, ← hb]
          rfl
        rw [hsc]
        unfold visitParams
        rw [hv, e1, e2]
      | false =>
        have hsc : scannedParams st.textures mat (p :: params) =
            p :: scannedParams st.textures mat params := by
          unfold scannedParams
          rw [List.takeWhile_cons, ← hb]
          rfl
        rw [hsc]
        unfold visitParams
        rw [hv]
        simp only
        rw [visitParams_scanned stream mat params st1 gMat1,
          scannedParams_congr st.textures st1.textures mat params hoff]

/-- After a scan over params none of which stops it, the material is
bound to the texture in the slot of the last param. -/
theorem visitParams_bound (stream : List Nat) (mat : Material) :
    ∀ (ps : List MaterialParam) (st st' : TextureState) (gMat gMat' : GltfMaterial),
    (∀ p ∈ ps, stopsScan st.textures mat p = false) →
    visitParams stream mat ps st gMat = .ok (st', gMat') →
    ∀ p, ps.getLast? = some p →
      ∃ slot ptr, paramTextureSlot mat p = some slot ∧ st'.textures[slot]? = some ptr ∧
        gMat'.baseColorTexture = ptr.glIndex
  | [], _, _, _, _, _, _, p, hp => by cases hp
  | q :: ps, st, st', gMat, gMat', hns, h, p, hp => by
    unfold visitParams at h
    cases hv : visitParam stream mat st gMat q with
    | error err =>
      rw [hv] at h
      cases h
    | ok r =>
      obtain ⟨st1, gMat1, b⟩ := r
      rw [hv] at h
      obtain ⟨hb, hoff, _, hfalse⟩ := visitParam_spec stream mat st st1 gMat gMat1 q b hv
      have hbf : b = false := by
        rw [hb]
        exact hns q (List.mem_cons_self _ _)
      subst hbf
      simp only at h
      cases ps with
      | nil =>
        unfold visitParams at h
        cases h
        rw [List.getLast?_singleton] at hp
        cases hp
        exact hfalse rfl
      | cons q2 ps2 =>
        rw [List.getLast?_cons_cons] at hp
        exact visitParams_bound stream mat (q2 :: ps2) st1 st' gMat1 gMat'
          (fun x hx => by
            rw [stopsScan_congr st.textures st1.textures mat x hoff]
            exact hns x (List.mem_cons_of_mem _ hx)) h p hp

theorem textureIndex_none_iff (p : MaterialParam) :
    p.textureIndex? = none ↔ ∃ data, p = .Param2 data := by
  cases p with
  | Param2 data => exact ⟨fun _ => ⟨data, rfl⟩, fun _ => rfl⟩
  | Param0 q =>
    exact ⟨fun h => Option.noConfusion h, fun ⟨_, h⟩ => MaterialParam.noConfusion h⟩
  | Param1 q d1 =>
    exact ⟨fun h => Option.noConfusion h, fun ⟨_, h⟩ => MaterialParam.noConfusion h⟩
  | Param3 q d1 =>
    exact ⟨fun h => Option.noConfusion h, fun ⟨_, h⟩ => MaterialParam.noConfusion h⟩
  | Param6 q d1 d2 =>
    exact ⟨fun h => Option.noConfusion h, fun ⟨_, h⟩ => MaterialParam.noConfusion h⟩

theorem stopsScan_iff (textures : List TexturePtr) (mat : Material) (p : MaterialParam) :
    stopsScan textures mat p = true ↔
      ((∃ data, p = .Param2 data) ∨
       (∃ textureIndex, p.textureIndex? = some textureIndex ∧ textureIndex < 0) ∨
       (∃ textureIndex ptr, p.textureIndex? = some textureIndex ∧ 0 ≤ textureIndex ∧
          textures[(mat.hdr.textureBaseIndex + textureIndex.toNat) % 2 ^ 32]? = some ptr ∧
          ptr.offset < 0)) := by
  rw [← textureIndex_none_iff]
  unfold stopsScan paramTextureSlot
  cases hti : p.textureIndex? with
  | none => exact ⟨fun _ => Or.inl rfl, fun _ => rfl⟩
  | some ti =>
    simp only
    by_cases hgt : ti > -1
    · rw [if_pos hgt]
      simp only
      cases hp : textures[(mat.hdr.textureBaseIndex + ti.toNat) % 2 ^ 32]? with
      | none =>
        constructor
        · intro h
          exact Bool.noConfusion h
        · rintro (h | ⟨ti', h, hneg⟩ | ⟨ti', ptr, h, _, hq, _⟩)
          · exact Option.noConfusion h
          · have : ti = ti' := Option.some.inj h
            omega
          · have : ti = ti' := Option.some.inj h
            rw [← this, hp] at hq
            exact Option.noConfusion hq
      | some ptr =>
        constructor
        · intro h
          exact Or.inr (Or.inr ⟨ti, ptr, rfl, by omega, hp, of_decide_eq_true h⟩)
        · rintro (h | ⟨ti', h, hneg⟩ | ⟨ti', ptr', h, _, hq, hoff⟩)
          · exact Option.noConfusion h
          · have : ti = ti' := Option.some.inj h
            omega
          · have : ti = ti' := Option.some.inj h
            rw [← this, hp] at hq
            have hpp : ptr = ptr' := Option.some.inj hq
            rw [hpp]
            exact decide_eq_true hoff
    · rw [if_neg hgt]
      exact ⟨fun _ => Or.inr (Or.inl ⟨ti, rfl, by omega⟩), fun _ => rfl⟩

/-- C36: material texture selection. The lambda of the scan returns `true`
exactly for a param that stops it: a vector constant, a param with
`textureIndex` below 0, or a param whose texture (slot
`textureBaseIndex + textureIndex` of the texture table) has a byte offset
below 0. The scan over all params is the scan over the params before the
first stop, so a param after the stop is neither bound nor materialised.
When the first param stops the scan nothing changes and no texture is
bound; otherwise the material is bound to the texture in the slot of the
last param before the stop. The material the case appends is the one the
scan leaves. -/
theorem material_texture_selection :
    (∀ (textures : List TexturePtr) (mat : Material) (p : MaterialParam),
      stopsScan textures mat p = true ↔
        ((∃ data, p = .Param2 data) ∨
         (∃ textureIndex, p.textureIndex? = some textureIndex ∧ textureIndex < 0) ∨
         (∃ textureIndex ptr, p.textureIndex? = some textureIndex ∧ 0 ≤ textureIndex ∧
            textures[(mat.hdr.textureBaseIndex + textureIndex.toNat) % 2 ^ 32]? = some ptr ∧
            ptr.offset < 0))) ∧
    (∀ (stream : List Nat) (mat : Material) (st st1 : TextureState) (gMat gMat1 : GltfMaterial)
      (p : MaterialParam) (b : Bool),
      visitParam stream mat st gMat p = .ok (st1, gMat1, b) →
      b = stopsScan st.textures mat p) ∧
    (∀ (stream : List Nat) (mat : Material) (params : List MaterialParam) (st : TextureState)
      (gMat : GltfMaterial),
      visitParams stream mat params st gMat =
        visitParams stream mat (scannedParams st.textures mat params) st gMat) ∧
    (∀ (stream : List Nat) (mat : Material) (params : List MaterialParam) (st : TextureState)
      (gMat : GltfMaterial), scannedParams st.textures mat params = [] →
      visitParams stream mat params st gMat = .ok (st, gMat)) ∧
    (∀ (stream : List Nat) (mat : Material) (params : List MaterialParam)
      (st st' : TextureState) (gMat gMat' : GltfMaterial),
      visitParams stream mat params st gMat = .ok (st', gMat') →
      ∀ p, (scannedParams st.textures mat params).getLast? = some p →
        ∃ slot ptr, paramTextureSlot mat p = some slot ∧ st'.textures[slot]? = some ptr ∧
          gMat'.baseColorTexture = ptr.glIndex) ∧
    (∀ (stream : List Nat) (mat : Material) (fileName : String) (st st' : TextureState),
      materialCase stream mat fileName st = .ok st' →
      ∃ stx gMat',
        visitParams stream mat mat.params st
          { name := fileName, doubleSided := true, alphaMode := AlphaMode.Mask } =
          .ok (stx, gMat') ∧
        st'.main.materials = stx.main.materials ++ [gMat'] ∧ st'.textures = stx.textures ∧
        st'.imageCalls = stx.imageCalls ∧ st'.main.textures = stx.main.textures) := by
  refine ⟨stopsScan_iff, ?_, visitParams_scanned, ?_, ?_, ?_⟩
  · intro stream mat st st1 gMat gMat1 p b h
    exact (visitParam_spec stream mat st st1 gMat gMat1 p b h).1
  · intro stream mat params st gMat hnil
    rw [visitParams_scanned, hnil]
    rfl
  · intro stream mat params st st' gMat gMat' h p hp
    rw [visitParams_scanned] at h
    refine visitParams_bound stream mat _ st st' gMat gMat' ?_ h p hp
    intro x hx
    have := List.mem_takeWhile_imp hx
    simpa using this
  · intro stream mat fileName st st' h
    unfold materialCase at h
    split at h
    · cases h
    · rename_i stx gMat' hv
      cases h
      exact ⟨stx, gMat', hv, rfl, rfl, rfl, rfl⟩

/-- A run of the scan over four params with the textures already in the
document: the third refers to an externally referenced texture and stops
the scan, the material is bound to the texture of the second, and the
texture of the fourth is not materialised. A material whose first param
is a vector constant is bound to no texture. -/
theorem material_texture_selection_example :
    materialCase []
      { params := [.Param0 { textureIndex := 0 }, .Param0 { textureIndex := 1 },
                   .Param0 { textureIndex := 2 }, .Param0 { textureIndex := 3 }] } "m"
      { main := { textures := [{ source := 0 }, { source := 1 }] }
        textures := [{ name := "a", glIndex := 0 }, { name := "b", glIndex := 1 },
                     { name := "ext", offset := -1 }, { name := "c", offset := 100 }] } =
      .ok { main := { textures := [{ source := 0 }, { source := 1 }]
                      materials := [{ name := "m", doubleSided := true,
                                      alphaMode := AlphaMode.Mask, baseColorTexture := 1 }] }
            textures := [{ name := "a", glIndex := 0 }, { name := "b", glIndex := 1 },
                         { name := "ext", offset := -1 }, { name := "c", offset := 100 }] } ∧
    materialCase []
      { params := [.Param2 [0, 0, 0, 0, 0, 0, 0, 0, 0, 0, 0, 0], .Param0 { textureIndex := 0 }] }
      "n" { textures := [{ name := "a", glIndex := 0 }] } =
      .ok { main := { materials := [{ name := "n", doubleSided := true,
                                      alphaMode := AlphaMode.Mask, baseColorTexture := -1 }] }
            textures := [{ name := "a", glIndex := 0 }] } := by
  decide
/-! ## C38: the swap-and-scan loop and the end of the index array -/

theorem swap_foldl_suffix (tail : List Nat) (m : Nat) : ∀ (j : Nat) (pre rest : List Nat) (h : Bool),
    rest.length = 3 * m → pre.length = 3 * j →
    ((List.range' j m).map (fun k => 3 * k)).foldl swapScanStep (some (pre ++ (rest ++ tail), h)) =
      some (pre ++ (swapTriples rest ++ tail), h || rest.any (fun x => x == 0xFFFF)) := by
  induction m with
  | zero =>
    intro j pre rest h hrest _
    have : rest = [] := List.length_eq_zero.mp (by omega)
    subst this
    simp [swapTriples]
  | succ m ih =>
    intro j pre rest h hrest hpre
    match rest, hrest with
    | a :: b :: c :: rest, hrest =>
      have hstep := swapScanStep_at pre (rest ++ tail) a b c h
      rw [hpre] at hstep
      rw [List.range'_succ, List.map_cons, List.foldl_cons]
      simp only [List.cons_append]
      rw [hstep]
      have := ih (j + 1) (pre ++ [b, a, c]) rest
        (h || (b == 0xFFFF || a == 0xFFFF || c == 0xFFFF))
        (by simp at hrest; omega) (by simp; omega)
      simp only [List.append_assoc, List.cons_append, List.nil_append] at this
      rw [this, swapTriples]
      simp only [List.any_cons, List.cons_append, Option.some.injEq, Prod.mk.injEq, true_and]
      cases h <;> cases (a == 0xFFFF) <;> cases (b == 0xFFFF) <;> cases (c == 0xFFFF) <;> rfl

/-- On a buffer of `3 * m + 1` elements the loop reaches `i = 3 * m` and
`std::swap(data[i], data[i + 1])` is past the end. -/
theorem swap_loop_one_left (data : List Nat) (hlen : data.length % 3 = 1) :
    (swapLoopIndices data.length).foldl swapScanStep (some (data, false)) = none := by
  have hm : (data.length + 2) / 3 = data.length / 3 + 1 := by omega
  have hsplit : data = data.take (3 * (data.length / 3)) ++ data.drop (3 * (data.length / 3)) :=
    (List.take_append_drop _ _).symm
  have htake : (data.take (3 * (data.length / 3))).length = 3 * (data.length / 3) := by
    rw [List.length_take]
    omega
  have hdrop : (data.drop (3 * (data.length / 3))).length = 1 := by
    rw [List.length_drop]
    omega
  obtain ⟨x, hx⟩ := List.length_eq_one.mp hdrop
  have hfold := swap_foldl_suffix [x] (data.length / 3) 0 [] (data.take (3 * (data.length / 3)))
    false htake rfl
  rw [List.nil_append, ← hx, ← hsplit, List.nil_append, hx] at hfold
  rw [swapLoopIndices, hm, List.range_eq_range', List.range'_concat, List.map_append,
    List.foldl_append, hfold]
  have h0 : (swapTriples (data.take (3 * (data.length / 3))) ++ [x])[3 * (data.length / 3)]? =
      some x := by
    rw [List.getElem?_append_right (by rw [swapTriples_length, htake])]
    rw [swapTriples_length, htake, Nat.sub_self]
    rfl
  have h1 : (swapTriples (data.take (3 * (data.length / 3))) ++ [x])[3 * (data.length / 3) + 1]? =
      none := by
    apply List.getElem?_eq_none
    rw [List.length_append, swapTriples_length, htake]
    exact Nat.le_refl _
  simp only [Nat.zero_add, Nat.one_mul, List.map_cons, List.map_nil, List.foldl_cons,
    List.foldl_nil, swapScanStep, Option.bind_eq_bind, Option.some_bind, h0, h1, Option.none_bind]

/-- C38: index-buffer bounds. The swap-and-scan loop of `ReadIndexArray`
runs `i = 0, 3, 6, ...` below `n` and touches `data[i + 1]` and
`data[i + 2]`: on a buffer of one element it swaps `data[0]` with
`data[1]`, and on every buffer whose length leaves the remainder 1 it
leaves the array; with two elements left it reads `data[i + 2]` unless
one of the two is `0xFFFF`. On a buffer whose length is a multiple of 3
the loop stays inside the array. -/
theorem index_buffer_bounds_failure :
    ReadIndexArray.swap [7] = none ∧ ReadIndexArray 0 [7] = none ∧
    ReadIndexArray.swap [1, 2, 3, 4] = none ∧
    ReadIndexArray.swap [1, 2] = none ∧ ReadIndexArray.swap [0xFFFF, 2] = some [2, 0xFFFF] ∧
    (∀ data : List Nat, data.length % 3 = 1 →
      ReadIndexArray.swap data = none ∧ ∀ accessorIndex, ReadIndexArray accessorIndex data = none) ∧
    (∀ data : List Nat, data.length % 3 = 0 → ReadIndexArray.swap data = some (swapTriples data)) := by
  refine ⟨by decide, by decide, by decide, by decide, by decide, ?_, ?_⟩
  · intro data hlen
    constructor
    · rw [ReadIndexArray.swap, swap_loop_one_left data hlen]
      rfl
    · intro accessorIndex
      simp only [ReadIndexArray, swap_loop_one_left data hlen, Option.bind_eq_bind,
        Option.none_bind]
  · intro data hlen
    rw [ReadIndexArray.swap, swap_loop_refines data hlen]
    rfl
/-! ## C39: decoded entries and the loose-file pass -/

theorem looseStep_skipped (entryNames : List Char) (st : LooseState) (e : Entry)
    (h : e.type ∈ looseSkipped) : (looseStep entryNames st e).files = st.files := by
  simp only [looseStep, if_pos h]

theorem looseStep_mem (entryNames : List Char) (st : LooseState) (e : Entry)
    (x : Entry × Option String) (hx : x ∈ (looseStep entryNames st e).files) :
    x ∈ st.files ∨ (x.1 = e ∧ e.type ∉ looseSkipped) := by
  by_cases h1 : e.type ∈ looseSkipped
  · rw [looseStep_skipped entryNames st e h1] at hx
    exact Or.inl hx
  · by_cases h2 : e.type = ArcType.Group
    · have hf : (looseStep entryNames st e).files = st.files := by
        simp only [looseStep, if_neg h1, if_pos h2]
      rw [hf] at hx
      exact Or.inl hx
    · rw [looseStep_file entryNames st e ⟨h1, h2⟩, List.mem_append, List.mem_singleton] at hx
      rcases hx with hx | hx
      · exact Or.inl hx
      · exact Or.inr ⟨by rw [hx], h1⟩

theorem loose_foldl_mem (entryNames : List Char) (l : List Entry) :
    ∀ (st : LooseState) (x : Entry × Option String),
      x ∈ (l.foldl (looseStep entryNames) st).files →
      x ∈ st.files ∨ x.1.type ∉ looseSkipped := by
  induction l with
  | nil => exact fun st x hx => Or.inl hx
  | cons e l ih =>
    intro st x hx
    rw [List.foldl_cons] at hx
    rcases ih _ x hx with h | h
    · rcases looseStep_mem entryNames st e x h with h | ⟨h, hn⟩
      · exact Or.inl h
      · exact Or.inr (by rw [h]; exact hn)
    · exact Or.inr h

theorem decodedTypes_skipped (t : ArcType) (ht : t ∈ decodedTypes)
    (hne : t ≠ ArcType.AnimatedModel) : t ∈ looseSkipped := by
  simp only [decodedTypes, List.mem_cons, List.mem_singleton, List.not_mem_nil, or_false] at ht
  rcases ht with h | h | h | h | h | h | h | h | h | h | h | h | h | h | h | h | h | h | h
  all_goals first
    | exact absurd h hne
    | (subst h; decide)

/-- C39: decoded versus loose entries. AnimatedModel is a case label of
the decoding pass and a node type, and it is not among the case labels
the loose-file pass skips, while every other case label of the decoding
pass is. An archive with one AnimatedModel entry has that entry among the
decoded records (under the name `0`) and among the loose files (under the
name `1.32`). -/
theorem decoded_loose_overlap :
    ArcType.AnimatedModel ∈ decodedTypes ∧ ArcType.AnimatedModel ∈ nodeTypes ∧
    ArcType.AnimatedModel ∉ looseSkipped ∧
    (∀ t ∈ decodedTypes, t ≠ ArcType.AnimatedModel → t ∈ looseSkipped) ∧
    ArcExtract.AppProcessFile [] [{ type := ArcType.AnimatedModel, nameOffset := -1 }] =
      ([({ type := ArcType.AnimatedModel, nameOffset := -1 }, some "0")],
       [({ type := ArcType.AnimatedModel, nameOffset := -1 }, some "1.32")]) := by
  refine ⟨by decide, by decide, by decide, decodedTypes_skipped, by decide⟩

/-- An entry whose type is a case label of the decoding pass other than
AnimatedModel is skipped by the loose-file pass: its type is
among the labels that only `break`, its turn of the loose-file loop
writes no file, and it is not among the files of the run, so it is not
both decoded and written out as a raw file. -/
theorem decoded_not_loose (entryNames : List Char) (entries : List Entry) (e : Entry)
    (ht : e.type ∈ decodedTypes) (hne : e.type ≠ ArcType.AnimatedModel) :
    e.type ∈ looseSkipped ∧
    (∀ st : LooseState, (looseStep entryNames st e).files = st.files) ∧
    ∀ name, (e, name) ∉ (ArcExtract.AppProcessFile entryNames entries).2 := by
  have hs := decodedTypes_skipped e.type ht hne
  refine ⟨hs, fun st => looseStep_skipped entryNames st e hs, ?_⟩
  intro name hmem
  rcases loose_foldl_mem entryNames entries _ (e, name) hmem with h | h
  · exact absurd h (List.not_mem_nil _)
  · exact h hs

theorem decoded_not_loose_witness :
    ({ type := ArcType.Model, nameOffset := -1 } : Entry).type ∈ looseSkipped ∧
    (∀ st : LooseState,
      (looseStep [] st { type := ArcType.Model, nameOffset := -1 }).files = st.files) ∧
    ∀ name, (({ type := ArcType.Model, nameOffset := -1 } : Entry), name) ∉
      (ArcExtract.AppProcessFile []
        [{ type := ArcType.Model, nameOffset := -1 },
         { type := ArcType.PlainData, nameOffset := -1 }]).2 :=
  decoded_not_loose [] [{ type := ArcType.Model, nameOffset := -1 },
    { type := ArcType.PlainData, nameOffset := -1 }] { type := ArcType.Model, nameOffset := -1 }
    (by decide) (by decide)

/-- Every node type the decoding pass turns into a node record is one of
its case labels, and every one except AnimatedModel is skipped by the
loose-file pass. -/
theorem nodeTypes_decoded :
    (∀ t ∈ nodeTypes, t ∈ decodedTypes) ∧
    (∀ t ∈ nodeTypes, t ≠ ArcType.AnimatedModel → t ∈ looseSkipped) ∧
    (∀ t ∈ decodedTypes, t ∈ looseSkipped ∨ t = ArcType.AnimatedModel) := by
  decide
/-! ## C40: the provenance byte and the version the readers decode -/

theorem version_of_word (b4 b5 b6 V : Nat) (h4 : b4 < 256) (h5 : b5 < 256) (h6 : b6 < 256)
    (hV : V < 256) :
    ((b4 + 256 * b5 + 65536 * b6 + 16777216 * V) >>> 24) % 256 = V := by
  rw [Nat.shiftRight_eq_div_pow]
  omega

theorem count_of_word (b4 b5 b6 b7 : Nat) (h4 : b4 < 256) (h5 : b5 < 256) (h6 : b6 < 256) :
    (b4 + 256 * b5 + 65536 * b6 + 16777216 * b7) &&& 0xffffff =
      b4 + 256 * b5 + 65536 * b6 := by
  have h : (0xffffff : Nat) = 2 ^ 24 - 1 := by norm_num
  rw [h, Nat.and_pow_two_sub_one_eq_mod]
  omega

theorem Header_Read_eq (b0 b1 b2 b3 b4 b5 b6 b7 : Nat) (rest : List Nat) :
    Header.Read (b0 :: b1 :: b2 :: b3 :: b4 :: b5 :: b6 :: b7 :: rest) =
      match readU16s 27 rest with
      | .error err => .error err
      | .ok (w, rd) =>
        match readRaw 2 rd with
        | .error err => .error err
        | .ok (_, rd) =>
          .ok (Header.ofFields (b0 + 256 * b1 + 65536 * b2 + 16777216 * b3)
            (b4 + 256 * b5 + 65536 * b6 + 16777216 * b7) w, rd) := rfl

theorem Header_Read_cons (b0 b1 b2 b3 b4 b5 b6 b7 : Nat) (rest : List Nat) (hdr : Header)
    (rd : List Nat)
    (h : Header.Read (b0 :: b1 :: b2 :: b3 :: b4 :: b5 :: b6 :: b7 :: rest) = .ok (hdr, rd)) :
    hdr.id = b0 + 256 * b1 + 65536 * b2 + 16777216 * b3 ∧
    hdr.numEntriesAndVersion = b4 + 256 * b5 + 65536 * b6 + 16777216 * b7 ∧
    ∀ V, Header.Read (b0 :: b1 :: b2 :: b3 :: b4 :: b5 :: b6 :: V :: rest) =
      .ok ({ hdr with numEntriesAndVersion := b4 + 256 * b5 + 65536 * b6 + 16777216 * V }, rd) := by
  rw [Header_Read_eq] at h
  cases hw : readU16s 27 rest with
  | error err =>
    rw [hw] at h
    cases h
  | ok r =>
    obtain ⟨w, rd1⟩ := r
    rw [hw] at h
    simp only at h
    cases hp : readRaw 2 rd1 with
    | error err =>
      rw [hp] at h
      cases h
    | ok r2 =>
      obtain ⟨pad, rd2⟩ := r2
      rw [hp] at h
      have hq := Except.ok.inj h
      have h1 : hdr = Header.ofFields (b0 + 256 * b1 + 65536 * b2 + 16777216 * b3)
          (b4 + 256 * b5 + 65536 * b6 + 16777216 * b7) w := (congrArg Prod.fst hq).symm
      have h2 : rd = rd2 := (congrArg Prod.snd hq).symm
      subst h1 h2
      refine ⟨rfl, rfl, fun V => ?_⟩
      rw [Header_Read_eq, hw]
      simp only [hp]
      rfl

theorem checkHeader_ok_iff (hdr : Header) :
    checkHeader hdr = .ok () ↔
      hdr.id = Header.ID_PC ∧ (hdr.numEntriesAndVersion >>> 24) % 256 = 3 := by
  unfold checkHeader
  by_cases h1 : hdr.id = Header.ID_PC
  · rw [if_neg (not_not.mpr h1)]
    by_cases h2 : (hdr.numEntriesAndVersion >>> 24) % 256 = 3
    · simp only [h2, ne_eq, not_true_eq_false, if_false, h1, and_self, iff_true]
      rfl
    · simp only [ne_eq, h2, not_false_eq_true, if_true, h1, true_and, and_false, iff_false]
      intro h
      cases h
  · rw [if_pos h1]
    constructor
    · intro h
      cases h
    · intro h
      exact absurd h.1 h1

/-- C40: provenance byte and re-ingestion. For an index read without
endian swap and a file whose name ends in `.ARC`, the extractor
overwrites the byte at offset 7 with `V`. That byte is the top byte of the
little-endian word at offset 4: the header read from the patched file has
`numEntriesAndVersion >> 24` equal to `V` and the same
`numEntriesAndVersion & 0xFFFFFF` (and the same other fields) as the
header of the file before the patch, whatever the byte at offset 7 was.
The header check of the readers accepts the patched header exactly when
the magic is the PC magic and `V = 3`; with the PC magic and another `V`
it ends in `InvalidVersionError V`. -/
theorem provenance_reingestion (V b0 b1 b2 b3 b4 b5 b6 b7 : Nat) (rest : List Nat)
    (fileName : String) (hdr : Header) (rd : List Nat)
    (hname : endsWithARC fileName = true) (h4 : b4 < 256) (h5 : b5 < 256) (h6 : b6 < 256)
    (hV : V < 256)
    (hread : Header.Read (b0 :: b1 :: b2 :: b3 :: b4 :: b5 :: b6 :: b7 :: rest) =
      .ok (hdr, rd)) :
    patchArc V false fileName (b0 :: b1 :: b2 :: b3 :: b4 :: b5 :: b6 :: b7 :: rest) =
      .ok (b0 :: b1 :: b2 :: b3 :: b4 :: b5 :: b6 :: V :: rest) ∧
    provenance V false fileName (b0 :: b1 :: b2 :: b3 :: b4 :: b5 :: b6 :: b7 :: rest) =
      b0 :: b1 :: b2 :: b3 :: b4 :: b5 :: b6 :: V :: rest ∧
    ∃ hdr', Header.Read (b0 :: b1 :: b2 :: b3 :: b4 :: b5 :: b6 :: V :: rest) = .ok (hdr', rd) ∧
      (hdr'.numEntriesAndVersion >>> 24) % 256 = V ∧
      hdr'.numEntriesAndVersion &&& 0xffffff = hdr.numEntriesAndVersion &&& 0xffffff ∧
      hdr' = { hdr with numEntriesAndVersion := hdr'.numEntriesAndVersion } ∧
      (checkHeader hdr' = .ok () ↔ hdr.id = Header.ID_PC ∧ V = 3) ∧
      (hdr.id = Header.ID_PC → V ≠ 3 →
        checkHeader hdr' = .error (Error.InvalidVersionError V)) ∧
      (hdr.id = Header.ID_PC → V = 3 → ∀ table,
        readEntries hdr' table = ReadContainer table (hdr.numEntriesAndVersion &&& 0xffffff)) := by
  obtain ⟨hid, hnev, hpatched⟩ := Header_Read_cons b0 b1 b2 b3 b4 b5 b6 b7 rest hdr rd hread
  have hver := version_of_word b4 b5 b6 V h4 h5 h6 hV
  have hcnt : (b4 + 256 * b5 + 65536 * b6 + 16777216 * V) &&& 0xffffff =
      hdr.numEntriesAndVersion &&& 0xffffff := by
    rw [hnev, count_of_word b4 b5 b6 V h4 h5 h6, count_of_word b4 b5 b6 b7 h4 h5 h6]
  have hlen : (if false = true then 4 else 7) <
      (b0 :: b1 :: b2 :: b3 :: b4 :: b5 :: b6 :: b7 :: rest).length := by
    simp only [List.length_cons, Bool.false_eq_true, if_false]
    omega
  refine ⟨?_, ?_, _, hpatched V, hver, hcnt, rfl, ?_, ?_, ?_⟩
  · simp only [patchArc, hname, if_true, bufferSetAt, if_pos hlen]
    rfl
  · simp only [provenance, hname, if_true]
    rfl
  · rw [checkHeader_ok_iff]
    show hdr.id = Header.ID_PC ∧ (b4 + 256 * b5 + 65536 * b6 + 16777216 * V) >>> 24 % 256 = 3 ↔ _
    rw [hver]
  · intro hpc hne
    have hv : ((b4 + 256 * b5 + 65536 * b6 + 16777216 * V) >>> 24) % 256 ≠ 3 := by
      rw [hver]
      exact hne
    simp only [checkHeader, hpc, ne_eq, not_true_eq_false, if_false, hv, not_false_eq_true,
      if_true, hver]
    rw [if_pos hne]
    rfl
  · intro hpc h3 table
    have hok : checkHeader
        { hdr with numEntriesAndVersion := b4 + 256 * b5 + 65536 * b6 + 16777216 * V } =
        .ok () := by
      rw [checkHeader_ok_iff]
      exact ⟨hpc, by rw [← h3]; exact hver⟩
    simp only [readEntries, hok]
    show ReadContainer table ((b4 + 256 * b5 + 65536 * b6 + 16777216 * V) &&& 0xffffff) = _
    rw [hcnt]

set_option maxRecDepth 100000 in
theorem provenance_reingestion_witness :
    patchArc 3 false "x.ARC" ([65, 82, 67, 67, 2, 0, 0, 9] ++ List.replicate 56 0) =
      .ok ([65, 82, 67, 67, 2, 0, 0, 3] ++ List.replicate 56 0) ∧
    provenance 3 false "x.ARC" ([65, 82, 67, 67, 2, 0, 0, 9] ++ List.replicate 56 0) =
      [65, 82, 67, 67, 2, 0, 0, 3] ++ List.replicate 56 0 ∧
    ∃ hdr', Header.Read ([65, 82, 67, 67, 2, 0, 0, 3] ++ List.replicate 56 0) =
        .ok (hdr', []) ∧
      (hdr'.numEntriesAndVersion >>> 24) % 256 = 3 ∧
      hdr'.numEntriesAndVersion &&& 0xffffff =
        ({ id := Header.ID_PC, numEntriesAndVersion := 0x9000002 } : Header).numEntriesAndVersion
          &&& 0xffffff ∧
      hdr' = { ({ id := Header.ID_PC, numEntriesAndVersion := 0x9000002 } : Header) with
        numEntriesAndVersion := hdr'.numEntriesAndVersion } ∧
      (checkHeader hdr' = .ok () ↔
        ({ id := Header.ID_PC, numEntriesAndVersion := 0x9000002 } : Header).id = Header.ID_PC ∧
          3 = 3) ∧
      (({ id := Header.ID_PC, numEntriesAndVersion := 0x9000002 } : Header).id = Header.ID_PC →
        3 ≠ 3 → checkHeader hdr' = .error (Error.InvalidVersionError 3)) ∧
      (({ id := Header.ID_PC, numEntriesAndVersion := 0x9000002 } : Header).id = Header.ID_PC →
        3 = 3 → ∀ table,
        readEntries hdr' table = ReadContainer table
          (({ id := Header.ID_PC, numEntriesAndVersion := 0x9000002 } : Header).numEntriesAndVersion
            &&& 0xffffff)) :=
  provenance_reingestion 3 65 82 67 67 2 0 0 9 (List.replicate 56 0) "x.ARC"
    { id := Header.ID_PC, numEntriesAndVersion := 0x9000002 } []
    (by decide) (by decide) (by decide) (by decide) (by decide) (by decide)

/-- A file of 63 bytes is too short for the header. The 64 bytes of
`exampleArcFile` are read to the end; they carry the version byte 9 and
the header is rejected;
patched by the version 3 extractor it is accepted with its 2 entries, and
patched by the version 4 extractor it is rejected with
`InvalidVersionError 4`. -/
theorem provenance_reingestion_example :
    Header.Read (exampleArcFile.take 63) = .error Error.EndOfStream ∧
    (Header.Read exampleArcFile).map (fun r => (checkHeader r.1, r.2)) =
      .ok (.error (Error.InvalidVersionError 9), []) ∧
    ((patchArc 3 false "x.ARC" exampleArcFile).bind Header.Read).map
      (fun r => (checkHeader r.1, r.1.numEntriesAndVersion &&& 0xffffff)) =
      .ok (.ok (), 2) ∧
    ((patchArc 4 false "x.ARC" exampleArcFile).bind Header.Read).map
      (fun r => (checkHeader r.1, r.1.numEntriesAndVersion &&& 0xffffff)) =
      .ok (.error (Error.InvalidVersionError 4), 2) := by
  decide

end Technyx
